import Mathlib

/-! AVC slice-header parsing, NAL splitting and SEI messages (mp4ff, packages
avc and sei).

A shallow embedding of `avc/slice.go` and `avc/nalus.go`, and of the SEI
extraction and decoding that `sei/sei_test.go` exercises.

* Bytes are `Fin 256`; Go `uint`/`int` values that come out of the bit reader are
  `Nat`/`Int` (the reader is unbounded here, see below); the `uint32` arithmetic
  of `GetNalusFromSample` is kept with explicit `% 2^32`.
* A Go `(value, error)` result of a reader operation is a `Res`: either a value
  with the reader afterwards, or an error with the reader afterwards (the
  caller still asks a failed reader for `NrBytesRead`).
* A nil pointer is `none`.
* A run-time panic is a result of its own: `NalusOutcome.panic` for
  `GetNalusFromSample`, the mark `Error.DivideByZero` for the division of
  line 359 of `slice.go`.
-/

namespace Avc

/-- One byte. -/
abbrev Byte := Fin 256

/-- The errors of `avc/slice.go` (lines 12-18), then the bit reader's end-of-data
error (`TooFewBits` in the specification), then two marks that are not Go
errors: `LoopBudget` marks a loop of this embedding that ran out of its
iteration budget, and `DivideByZero` marks the run-time panic "integer divide by
zero" of the division of line 359, with which the call ends without returning
anything. -/
inductive Error where
  | ErrNoSliceHeader
  | ErrInvalidSliceType
  | ErrTooFewBytesToParse
  | ErrParserNotImplemented
  | ErrTooFewBits
  | LoopBudget
  | DivideByZero
deriving DecidableEq, Repr

/-! ## The bit reader (package `bits`, not part of the sources at hand) -/

/-- Modelled from the spec: the `bits.EBSPReader` state; the package `bits` is
imported by `avc/slice.go` but its source is absent. Section 4.1 describes a
sequential, forward-only reader over the NAL bytes with emulation-prevention
removal below the interface and a byte position query.
`rd` are the bytes not fetched yet, `n` the number of buffered bits, `v` their
value, `pos` the number of bytes fetched so far (what `NrBytesRead` reports) and
`zeroCount` the run of zero bytes that decides whether a `03` is an escape. -/
structure EBSPReader where
  rd : List Byte
  n : Nat
  v : Nat
  pos : Nat
  zeroCount : Nat
deriving DecidableEq, Repr

/-- Result of one reader operation: value and reader, or error and reader. -/
inductive Res (α : Type) where
  | ok : α → EBSPReader → Res α
  | fail : Error → EBSPReader → Res α
deriving DecidableEq, Repr

/-- A computation that advances the reader. -/
def Rd (α : Type) : Type := EBSPReader → Res α

/-- Return a value, reader untouched. -/
def Rd.pure {α : Type} (a : α) : Rd α := fun r => Res.ok a r

/-- Sequencing: Go's `x, err := ...; if err != nil { return ..., err }`. -/
def Rd.bind {α β : Type} (x : Rd α) (f : α → Rd β) : Rd β := fun r =>
  match x r with
  | Res.ok a r1 => f a r1
  | Res.fail e r1 => Res.fail e r1

/-- Return an error, reader untouched. -/
def Rd.throw {α : Type} (e : Error) : Rd α := fun r => Res.fail e r

instance : Monad Rd where
  pure := Rd.pure
  bind := Rd.bind

/-- Modelled from the spec: `bits.NewEBSPReader` (source absent): a fresh reader
at the start of the byte range, nothing fetched. -/
def NewEBSPReader (data : List Byte) : EBSPReader :=
  { rd := data, n := 0, v := 0, pos := 0, zeroCount := 0 }

/-- Modelled from the spec: `EBSPReader.NrBytesRead` (source absent), the
`bytes_consumed()` of section 4.1: the number of input bytes fetched so far, a
byte of which only some bits were used counting as one (section 4.2). -/
def EBSPReader.NrBytesRead (r : EBSPReader) : Nat := r.pos

/-- Modelled from the spec: the byte-fetch loop of `EBSPReader.Read` (source
absent): fetch whole bytes until `want` bits are buffered. After two zero bytes
a byte `03` is an emulation-prevention byte: it is skipped and the byte after it
is taken instead (section 4.1: escape-byte removal happens below the
interface). Running out of bytes is the end-of-data failure. -/
def fetch (want : Nat) : List Byte → Nat → Nat → Nat → Nat → Except EBSPReader EBSPReader
  | rd, n, v, pos, zc =>
    if want ≤ n then Except.ok { rd := rd, n := n, v := v, pos := pos, zeroCount := zc }
    else
      match rd with
      | [] => Except.error { rd := [], n := n, v := v * 256, pos := pos, zeroCount := zc }
      | b1 :: rest =>
        if zc = 2 then
          if b1.val = 3 then
            match rest with
            | [] => Except.error { rd := [], n := n, v := v * 256, pos := pos + 1, zeroCount := zc }
            | b2 :: rest2 =>
              fetch want rest2 (n + 8) (v * 256 + b2.val) (pos + 2) (if b2.val = 0 then 1 else 0)
          else
            fetch want rest (n + 8) (v * 256 + b1.val) (pos + 1) (if b1.val = 0 then 1 else 0)
        else
          fetch want rest (n + 8) (v * 256 + b1.val) (pos + 1) (if b1.val = 0 then zc + 1 else 0)

/-- Modelled from the spec: `EBSPReader.Read(n)` (source absent), the
`read_bits(n)` of section 4.1: the next `n` bits, most significant first, as an
unsigned number; fails with the end-of-data error if fewer than `n` bits
remain. -/
def Read (n : Nat) : Rd Nat := fun r =>
  match fetch n r.rd r.n r.v r.pos r.zeroCount with
  | Except.error r1 => Res.fail Error.ErrTooFewBits r1
  | Except.ok r1 =>
    Res.ok (r1.v / 2 ^ (r1.n - n)) { r1 with n := r1.n - n, v := r1.v % 2 ^ (r1.n - n) }

/-- Modelled from the spec: `EBSPReader.ReadFlag` (source absent), the
`read_flag()` of section 4.1: one bit, true when it is 1. -/
def ReadFlag : Rd Bool := do
  let bit ← Read 1
  pure (bit == 1)

/-- Number of bits that can still be delivered at most: every byte not yet
fetched gives at most eight. Used as the iteration budget of the loops that read
at least one bit per round. -/
def EBSPReader.bitsLeft (r : EBSPReader) : Nat := 8 * r.rd.length + r.n

/-- Modelled from the spec: the leading-zero loop of `ReadExpGolomb` (source
absent): read single bits up to and including the first 1 and count the zeros
before it. -/
def countLeadingZeros : Nat → Nat → Rd Nat
  | 0, _ => Rd.throw Error.LoopBudget
  | fuel + 1, leadingZeroBits => do
    let b ← Read 1
    if b = 1 then pure leadingZeroBits
    else countLeadingZeros fuel (leadingZeroBits + 1)

/-- Modelled from the spec: `EBSPReader.ReadExpGolomb` (source absent), the
`read_unsigned_exp_golomb()` of section 4.1: `k` zero bits, a one, then `k` more
bits `x` code the number `2^k - 1 + x`. -/
def ReadExpGolomb : Rd Nat := fun r =>
  (do
    let leadingZeroBits ← countLeadingZeros (r.bitsLeft + 1) 0
    let endBits ← Read leadingZeroBits
    pure (2 ^ leadingZeroBits - 1 + endBits) : Rd Nat) r

/-- Modelled from the spec: `EBSPReader.ReadSignedGolomb` (source absent), the
`read_signed_exp_golomb()` of section 4.1: code `k` is `(-1)^(k+1) * ceil(k/2)`,
so odd codes are positive and even codes negative or zero. -/
def ReadSignedGolomb : Rd Int := do
  let unsignedGolomb ← ReadExpGolomb
  if unsignedGolomb % 2 = 1 then pure (Int.ofNat ((unsignedGolomb + 1) / 2))
  else pure (-(Int.ofNat (unsignedGolomb / 2)))

/-! ## Data model (`avc/slice.go`, lines 20-128) -/

/-- Go `type SliceType uint`. -/
abbrev SliceType := Nat

/-- Slice type P (line 42). -/
def SLICE_P : SliceType := 0
/-- Slice type B (line 43). -/
def SLICE_B : SliceType := 1
/-- Slice type I (line 44). -/
def SLICE_I : SliceType := 2
/-- Slice type SP (line 45). -/
def SLICE_SP : SliceType := 3
/-- Slice type SI (line 46). -/
def SLICE_SI : SliceType := 4

/-- Go `NaluType`. -/
abbrev NaluType := Nat

/-- Modelled from the spec: the constant `NALU_IDR` (its declaration is absent);
the IDR slice is NAL unit type 5. -/
def NALU_IDR : NaluType := 5

/-- Modelled from the spec: `GetNaluType` (source absent): the NAL unit type is
the low five bits of the NAL header byte. -/
def GetNaluType (nalHeader : Byte) : NaluType := nalHeader.val % 32

/-- Modelled from the spec: `GetNalRefIDC` (source absent): the NAL
reference-idc, bits 6-5 of the NAL header byte (section 4.2). -/
def GetNalRefIDC (nalHeader : Byte) : Nat := (nalHeader.val / 32) % 4

/-- Modelled from the spec: the fields of the parsed sequence parameter set that
the slice header consults (the declaration of `SPS` is absent). -/
structure SPS where
  SeparateColourPlaneFlag : Bool := false
  ChromaFormatIDC : Nat := 0
  Log2MaxFrameNumMinus4 : Nat := 0
  PicOrderCntType : Nat := 0
  Log2MaxPicOrderCntLsbMinus4 : Nat := 0
  DeltaPicOrderAlwaysZeroFlag : Bool := false
  FrameMbsOnlyFlag : Bool := false
deriving DecidableEq, Repr

/-- Modelled from the spec: the fields of the parsed picture parameter set that
the slice header consults (the declaration of `PPS` is absent). -/
structure PPS where
  EntropyCodingModeFlag : Bool := false
  BottomFieldPicOrderInFramePresentFlag : Bool := false
  NumSliceGroupsMinus1 : Nat := 0
  SliceGroupMapType : Nat := 0
  SliceGroupChangeRateMinus1 : Nat := 0
  PicSizeInMapUnitsMinus1 : Nat := 0
  NumRefIdxI0DefaultActiveMinus1 : Nat := 0
  NumRefIdxI1DefaultActiveMinus1 : Nat := 0
  WeightedPredFlag : Bool := false
  WeightedBipredIDC : Nat := 0
  DeblockingFilterControlPresentFlag : Bool := false
  RedundantPicCntPresentFlag : Bool := false
deriving DecidableEq, Repr

/-- Go `PerEntryRefPicListModParams` (lines 88-93). -/
structure PerEntryRefPicListModParams where
  ModificationOfPicNumsIDC : Nat := 0
  AbsDiffPicNumMinus1 : Nat := 0
  LongTermPicNum : Nat := 0
deriving DecidableEq, Repr

/-- Go `RefPicListModification` (lines 81-86). -/
structure RefPicListModification where
  RefPicListModificationFlagL0 : Bool := false
  RefPicListModificationFlagL1 : Bool := false
  PerEntryParams : List PerEntryRefPicListModParams := []
deriving DecidableEq, Repr

/-- Go `PredWeightTable` (lines 95-111). -/
structure PredWeightTable where
  LumaLog2WeightDenom : Nat := 0
  ChromaLog2WeightDenom : Nat := 0
  LumaWeightL0Flag : Bool := false
  LumaWeightL0 : List Int := []
  LumaOffsetL0 : List Int := []
  ChromaWeightL0Flag : Bool := false
  ChromaWeightL0 : List (List Int) := []
  ChromaOffsetL0 : List (List Int) := []
  LumaWeightL1Flag : Bool := false
  LumaWeightL1 : List Int := []
  LumaOffsetL1 : List Int := []
  ChromaWeightL1Flag : Bool := false
  ChromaWeightL1 : List (List Int) := []
  ChromaOffsetL1 : List (List Int) := []
deriving DecidableEq, Repr

/-- Go `AdaptiveMemCtrlDecRefPicMarkingParams` (lines 121-128). -/
structure AdaptiveMemCtrlDecRefPicMarkingParams where
  MemoryManagementControlOperation : Nat := 0
  DifferenceOfPicNumsMinus1 : Nat := 0
  LongTermPicNum : Nat := 0
  LongTermFrameIdx : Nat := 0
  MaxLongTermFrameIdxPlus1 : Nat := 0
deriving DecidableEq, Repr

/-- Go `DecRefPicMarking` (lines 113-119). -/
structure DecRefPicMarking where
  NoOutputOfPriorPicsFlag : Bool := false
  LongTermReferenceFlag : Bool := false
  AdaptiveRefPicMarkingModeFlag : Bool := false
  AdaptiveRefPicMarkingParams : List AdaptiveMemCtrlDecRefPicMarkingParams := []
deriving DecidableEq, Repr

/-- Go `SliceHeader` (lines 49-79); `DeltaPicOrderCnt [2]int` is the two fields
`DeltaPicOrderCnt0`, `DeltaPicOrderCnt1`. Defaults are Go zero values. -/
structure SliceHeader where
  FirstMbInSlice : Nat := 0
  SliceType : SliceType := 0
  PicParameterSetID : Nat := 0
  ColourPlaneID : Nat := 0
  FrameNum : Nat := 0
  FieldPicFlag : Bool := false
  BottomFieldFlag : Bool := false
  IDRPicID : Nat := 0
  PicOrderCntLSB : Nat := 0
  DeltaPicOrderCntBottom : Int := 0
  DeltaPicOrderCnt0 : Int := 0
  DeltaPicOrderCnt1 : Int := 0
  RedundantPicCnt : Nat := 0
  DirectSpatialMVPredFlag : Bool := false
  NumRefIdxActiveOverrideFlag : Bool := false
  NumRefIdxL0ActiveMinus1 : Nat := 0
  NumRefIdxL1ActiveMinus1 : Nat := 0
  RefPicListModification : Option RefPicListModification := none
  PredWeightTable : Option PredWeightTable := none
  DecRefPicMarking : Option DecRefPicMarking := none
  CabacInitIDC : Nat := 0
  SliceQPDelta : Int := 0
  SPForSwitchFlag : Bool := false
  SliceQSDelta : Int := 0
  DisableDeblockingFilterIDC : Nat := 0
  SliceAlphaC0OffsetDev2 : Int := 0
  SliceBetaOffsetDev2 : Int := 0
  SliceGroupChangeCycle : Nat := 0
deriving DecidableEq, Repr

/-! ## Helpers of `avc/slice.go` -/

/-- Go `getIDRPicFlag` (lines 606-613). -/
def getIDRPicFlag (naluType : NaluType) : Bool :=
  if naluType = NALU_IDR then true else false

/-- Go `getChromaArrayType` (lines 615-622). -/
def getChromaArrayType (sps : SPS) : Nat :=
  if sps.SeparateColourPlaneFlag then 0 else sps.ChromaFormatIDC

/-- Go `sliceHeaderExpected` (lines 624-630). The text of the function breaks
off after its `case 1, 2, 5, 19:` (what follows belongs to another function);
its result is the one its doc comment states: a slice header is expected for the
NAL types 1, 2, 5 and 19 and for no other. -/
def sliceHeaderExpected (naluType : NaluType) : Bool :=
  if naluType = 1 ∨ naluType = 2 ∨ naluType = 5 ∨ naluType = 19 then true else false

/-- Modelled from the spec: `setSliceType` (called at line 199, source absent).
Section 4.2: the raw code may be 0-9 and values of 5 and more are folded to 0-4
by subtracting 5 before being stored; section 7: a code outside 0-9 is
`InvalidSliceType`. -/
def setSliceType (sliceType : Nat) : Rd SliceType :=
  if sliceType > 9 then Rd.throw Error.ErrInvalidSliceType
  else if sliceType ≥ 5 then pure (sliceType - 5)
  else pure sliceType

/-! ## `ParseRefPicListModification` (lines 369-433) -/

/-- The loop `for mopni := 0; mopni != 3; { ... }` of lines 381-399 and 410-428.
One round reads an operation code, then `AbsDiffPicNumMinus1` for the codes 0
and 1 or `LongTermPicNum` for the code 2, and appends the entry to
`PerEntryParams`. The body never assigns `mopni`, so the guard is evaluated on
the same value in every round. A round reads at least one bit, so the budget
`bitsLeft + 1` the callers pass is never used up. -/
def rplmLoop : Nat → Nat → List PerEntryRefPicListModParams →
    Rd (List PerEntryRefPicListModParams)
  | 0, _, _ => Rd.throw Error.LoopBudget
  | fuel + 1, mopni, params =>
    if mopni = 3 then pure params
    else do
      let idc ← ReadExpGolomb
      let rplmEntry : PerEntryRefPicListModParams ←
        (if idc = 0 ∨ idc = 1 then do
          let x ← ReadExpGolomb
          pure { ModificationOfPicNumsIDC := idc, AbsDiffPicNumMinus1 := x }
        else if idc = 2 then do
          let x ← ReadExpGolomb
          pure { ModificationOfPicNumsIDC := idc, LongTermPicNum := x }
        else pure { ModificationOfPicNumsIDC := idc })
      rplmLoop fuel mopni (params ++ [rplmEntry])

/-- Go `ParseRefPicListModification` (lines 369-433). Only `avcsh.SliceType` is
consulted. Note line 409: the list-1 loop is guarded by
`RefPicListModificationFlagL0`. -/
def ParseRefPicListModification (avcsh : SliceHeader) : Rd RefPicListModification := do
  let rplm : RefPicListModification := {}
  let rplm ←
    (if avcsh.SliceType % 5 ≠ 2 ∧ avcsh.SliceType % 5 ≠ 4 then do
      let flagL0 ← ReadFlag
      let rplm := { rplm with RefPicListModificationFlagL0 := flagL0 }
      if flagL0 then do
        let params ← (fun r => rplmLoop (r.bitsLeft + 1) 0 rplm.PerEntryParams r : Rd _)
        pure { rplm with PerEntryParams := params }
      else pure rplm
    else pure rplm)
  if avcsh.SliceType % 5 = 1 then do
    let flagL1 ← ReadFlag
    let rplm := { rplm with RefPicListModificationFlagL1 := flagL1 }
    if rplm.RefPicListModificationFlagL0 then do
      let params ← (fun r => rplmLoop (r.bitsLeft + 1) 0 rplm.PerEntryParams r : Rd _)
      pure { rplm with PerEntryParams := params }
    else pure rplm
  else pure rplm

/-! ## `ParsePredWeightTable` (lines 435-541) -/

/-- The loop `for j := 0; j < 2; j++` of lines 477-488 and 521-532, `count`
rounds: a signed weight and a signed offset per chroma component. -/
def chromaLoop : Nat → List Int → List Int → Rd (List Int × List Int)
  | 0, chromaWeight, chromaOffset => pure (chromaWeight, chromaOffset)
  | count + 1, chromaWeight, chromaOffset => do
    let w ← ReadSignedGolomb
    let o ← ReadSignedGolomb
    chromaLoop count (chromaWeight ++ [w]) (chromaOffset ++ [o])

/-- The loop over the list-0 reference indices, lines 452-493, `count` rounds.
Line 467 is `pwt.LumaOffsetL0 = append(pwt.LumaWeightL0, lumaOffsetL0)` and line
490 is `pwt.ChromaOffsetL0 = append(pwt.ChromaWeightL0, chromaOffsetL0)`: the
offset list is assigned the weight list with the offset appended. -/
def pwtLoopL0 (sps : SPS) : Nat → PredWeightTable → Rd PredWeightTable
  | 0, pwt => pure pwt
  | count + 1, pwt => do
    let lumaFlag ← ReadFlag
    let pwt := { pwt with LumaWeightL0Flag := lumaFlag }
    let pwt ←
      (if lumaFlag then do
        let lumaWeightL0 ← ReadSignedGolomb
        let lumaOffsetL0 ← ReadSignedGolomb
        let pwt := { pwt with LumaWeightL0 := pwt.LumaWeightL0 ++ [lumaWeightL0] }
        pure { pwt with LumaOffsetL0 := pwt.LumaWeightL0 ++ [lumaOffsetL0] }
      else pure pwt)
    let pwt ←
      (if getChromaArrayType sps ≠ 0 then do
        let chromaFlag ← ReadFlag
        let pwt := { pwt with ChromaWeightL0Flag := chromaFlag }
        if chromaFlag then do
          let (chromaWeightL0, chromaOffsetL0) ← chromaLoop 2 [] []
          let pwt := { pwt with ChromaWeightL0 := pwt.ChromaWeightL0 ++ [chromaWeightL0] }
          pure { pwt with ChromaOffsetL0 := pwt.ChromaWeightL0 ++ [chromaOffsetL0] }
        else pure pwt
      else pure pwt)
    pwtLoopL0 sps count pwt

/-- The loop over the list-1 reference indices, lines 496-537, `count` rounds;
lines 511 and 534 assign the offset lists from the weight lists as in list 0. -/
def pwtLoopL1 (sps : SPS) : Nat → PredWeightTable → Rd PredWeightTable
  | 0, pwt => pure pwt
  | count + 1, pwt => do
    let lumaFlag ← ReadFlag
    let pwt := { pwt with LumaWeightL1Flag := lumaFlag }
    let pwt ←
      (if lumaFlag then do
        let lumaWeightL1 ← ReadSignedGolomb
        let lumaOffsetL1 ← ReadSignedGolomb
        let pwt := { pwt with LumaWeightL1 := pwt.LumaWeightL1 ++ [lumaWeightL1] }
        pure { pwt with LumaOffsetL1 := pwt.LumaWeightL1 ++ [lumaOffsetL1] }
      else pure pwt)
    let pwt ←
      (if getChromaArrayType sps ≠ 0 then do
        let chromaFlag ← ReadFlag
        let pwt := { pwt with ChromaWeightL1Flag := chromaFlag }
        if chromaFlag then do
          let (chromaWeightL1, chromaOffsetL1) ← chromaLoop 2 [] []
          let pwt := { pwt with ChromaWeightL1 := pwt.ChromaWeightL1 ++ [chromaWeightL1] }
          pure { pwt with ChromaOffsetL1 := pwt.ChromaWeightL1 ++ [chromaOffsetL1] }
        else pure pwt
      else pure pwt)
    pwtLoopL1 sps count pwt

/-- Go `ParsePredWeightTable` (lines 435-541). The loops
`for i := uint(0); i <= NumRefIdxLxActiveMinus1; i++` make
`NumRefIdxLxActiveMinus1 + 1` rounds. -/
def ParsePredWeightTable (sps : SPS) (avcsh : SliceHeader) : Rd PredWeightTable := do
  let pwt : PredWeightTable := {}
  let lumaDenom ← ReadExpGolomb
  let pwt := { pwt with LumaLog2WeightDenom := lumaDenom }
  let pwt ←
    (if getChromaArrayType sps ≠ 0 then do
      let chromaDenom ← ReadExpGolomb
      pure { pwt with ChromaLog2WeightDenom := chromaDenom }
    else pure pwt)
  let pwt ← pwtLoopL0 sps (avcsh.NumRefIdxL0ActiveMinus1 + 1) pwt
  if avcsh.SliceType % 5 = 1 then
    pwtLoopL1 sps (avcsh.NumRefIdxL1ActiveMinus1 + 1) pwt
  else pure pwt

/-! ## `ParseDecRefPicMarking` (lines 543-604) -/

/-- The loop `for mmco := 1; mmco != 0; { ... }` of lines 564-598. Line 570,
`mmco := arpmParams.MemoryManagementControlOperation`, declares a new variable
inside the body; the `mmco` of the guard is never assigned. One round reads an
operation code and the fields it selects and appends the record. A round reads
at least one bit, so the budget `bitsLeft + 1` the caller passes is never used
up. -/
def mmcoLoop : Nat → Nat → List AdaptiveMemCtrlDecRefPicMarkingParams →
    Rd (List AdaptiveMemCtrlDecRefPicMarkingParams)
  | 0, _, _ => Rd.throw Error.LoopBudget
  | fuel + 1, mmcoGuard, params =>
    if mmcoGuard = 0 then pure params
    else do
      let mmco ← ReadExpGolomb
      let arpmParams : AdaptiveMemCtrlDecRefPicMarkingParams :=
        { MemoryManagementControlOperation := mmco }
      let arpmParams ←
        (if mmco = 1 ∨ mmco = 3 then do
          let x ← ReadExpGolomb
          pure { arpmParams with DifferenceOfPicNumsMinus1 := x }
        else pure arpmParams)
      let arpmParams ←
        (if mmco = 2 then do
          let x ← ReadExpGolomb
          pure { arpmParams with LongTermPicNum := x }
        else pure arpmParams)
      let arpmParams ←
        (if mmco = 3 ∨ mmco = 6 then do
          let x ← ReadExpGolomb
          pure { arpmParams with LongTermFrameIdx := x }
        else pure arpmParams)
      let arpmParams ←
        (if mmco = 4 then do
          let x ← ReadExpGolomb
          pure { arpmParams with MaxLongTermFrameIdxPlus1 := x }
        else pure arpmParams)
      mmcoLoop fuel mmcoGuard (params ++ [arpmParams])

/-- Go `ParseDecRefPicMarking` (lines 543-604). -/
def ParseDecRefPicMarking (naluType : NaluType) : Rd DecRefPicMarking := do
  let rpm : DecRefPicMarking := {}
  if getIDRPicFlag naluType then do
    let noOutput ← ReadFlag
    let longTerm ← ReadFlag
    pure { rpm with NoOutputOfPriorPicsFlag := noOutput, LongTermReferenceFlag := longTerm }
  else do
    let adaptive ← ReadFlag
    let rpm := { rpm with AdaptiveRefPicMarkingModeFlag := adaptive }
    if adaptive then do
      let params ← (fun r => mmcoLoop (r.bitsLeft + 1) 1 rpm.AdaptiveRefPicMarkingParams r : Rd _)
      pure { rpm with AdaptiveRefPicMarkingParams := params }
    else pure rpm

/-! ## The width of `SliceGroupChangeCycle` (line 359) -/

/-- The number of binary digits of `x`, for `x < 2^fuel`. -/
def bitLen : Nat → Nat → Nat
  | 0, _ => 0
  | fuel + 1, x => if x = 0 then 0 else bitLen fuel (x / 2) + 1

/-- Go `float64(x)` for a `uint` `x` (64 bits), as the number the result
denotes. A `float64` has 53 significant binary digits: below `2^53` the
conversion is exact; from there on `x` is rounded to the nearest number with 53
significant digits, a tie to the one whose last digit is even. -/
def float64OfUint (x : Nat) : Nat :=
  if x < 2 ^ 53 then x
  else
    let e := bitLen 64 x - 53
    let q := x / 2 ^ e
    let rem := x % 2 ^ e
    if 2 * rem > 2 ^ e ∨ (2 * rem = 2 ^ e ∧ q % 2 = 1) then (q + 1) * 2 ^ e
    else q * 2 ^ e

/-- Go `int(math.Ceil(math.Log2(float64(x))))` of line 359. `math.Log2` takes
`Frexp` of its argument `f` and returns `float64(exp-1)` when the fraction is
0.5, so that its result is exact, a whole number, when `f` is a power of two;
`math.Ceil` and `int` leave it as it is. For every other `f` the result is
`Log(frac)*(1/Ln2) + float64(exp)` rounded in floating point (for `f = 0` the
conversion of `-Inf`), which is not modelled: there the parameter `ceilLog2`
stands for the number of bits asked for. -/
def sgccNumBits (ceilLog2 : Nat → Nat) (x : Nat) : Nat :=
  if float64OfUint x ≠ 0 ∧ float64OfUint x = 2 ^ (bitLen 65 (float64OfUint x) - 1) then
    bitLen 65 (float64OfUint x) - 1
  else ceilLog2 (float64OfUint x)

/-! ## `ParseSliceHeader` (lines 173-367) -/

/-- Lines 191-366 of Go `ParseSliceHeader`: the header fields after the NAL
header byte `nalHdr` (of NAL type `nalType`) has passed the check of line 187,
in bitstream order. A field the Go code leaves unassigned keeps its zero value.
In line 359 the fields of the PPS are `uint` (64 bits): the sums and the
quotient are taken modulo `2^64`, a divisor that wraps to 0 is the run-time
panic `Error.DivideByZero`, and the width is `sgccNumBits`, with the parameter
`ceilLog2` for the part of Go's floating-point logarithm that is not
modelled. -/
def parseSliceHeaderFields (ceilLog2 : Nat → Nat) (sps : SPS) (pps : PPS)
    (nalHdr : Nat) (nalType : NaluType) : Rd SliceHeader := do
  let firstMbInSlice ← ReadExpGolomb
  let sliceTypeCode ← ReadExpGolomb
  let sliceType ← setSliceType sliceTypeCode
  let picParameterSetID ← ReadExpGolomb
  let colourPlaneID ← (if sps.SeparateColourPlaneFlag then Read 2 else pure 0)
  let frameNum ← Read (sps.Log2MaxFrameNumMinus4 + 4)
  let (fieldPicFlag, bottomFieldFlag) ←
    (if sps.FrameMbsOnlyFlag = false then do
      let fieldPic ← ReadFlag
      if fieldPic then do
        let bottom ← ReadFlag
        pure (fieldPic, bottom)
      else pure (fieldPic, false)
    else pure (false, false) : Rd (Bool × Bool))
  let idrPicID ← (if getIDRPicFlag nalType then ReadExpGolomb else pure 0)
  let (picOrderCntLSB, deltaPicOrderCntBottom) ←
    (if sps.PicOrderCntType = 0 then do
      let lsb ← Read (sps.Log2MaxPicOrderCntLsbMinus4 + 4)
      if pps.BottomFieldPicOrderInFramePresentFlag ∧ fieldPicFlag = false then do
        let bottom ← ReadSignedGolomb
        pure (lsb, bottom)
      else pure (lsb, 0)
    else pure (0, 0) : Rd (Nat × Int))
  let (deltaPicOrderCnt0, deltaPicOrderCnt1) ←
    (if sps.PicOrderCntType = 1 ∧ sps.DeltaPicOrderAlwaysZeroFlag = false then do
      let d0 ← ReadSignedGolomb
      if pps.BottomFieldPicOrderInFramePresentFlag ∧ fieldPicFlag = false then do
        let d1 ← ReadSignedGolomb
        pure (d0, d1)
      else pure (d0, 0)
    else pure (0, 0) : Rd (Int × Int))
  let redundantPicCnt ← (if pps.RedundantPicCntPresentFlag then ReadExpGolomb else pure 0)
  let directSpatialMVPredFlag ← (if sliceType = SLICE_B then ReadFlag else pure false)
  let numRefIdxActiveOverrideFlag ←
    (if sliceType = SLICE_P ∨ sliceType = SLICE_SP ∨ sliceType = SLICE_B then ReadFlag
     else pure false)
  let (numRefIdxL0ActiveMinus1, numRefIdxL1ActiveMinus1) ←
    (if numRefIdxActiveOverrideFlag then do
      let l0 ← ReadExpGolomb
      if sliceType = SLICE_B then do
        let l1 ← ReadExpGolomb
        pure (l0, l1)
      else pure (l0, 0)
    else pure (0, 0) : Rd (Nat × Nat))
  let avcsh : SliceHeader :=
    { FirstMbInSlice := firstMbInSlice
      SliceType := sliceType
      PicParameterSetID := picParameterSetID
      ColourPlaneID := colourPlaneID
      FrameNum := frameNum
      FieldPicFlag := fieldPicFlag
      BottomFieldFlag := bottomFieldFlag
      IDRPicID := idrPicID
      PicOrderCntLSB := picOrderCntLSB
      DeltaPicOrderCntBottom := deltaPicOrderCntBottom
      DeltaPicOrderCnt0 := deltaPicOrderCnt0
      DeltaPicOrderCnt1 := deltaPicOrderCnt1
      RedundantPicCnt := redundantPicCnt
      DirectSpatialMVPredFlag := directSpatialMVPredFlag
      NumRefIdxActiveOverrideFlag := numRefIdxActiveOverrideFlag
      NumRefIdxL0ActiveMinus1 := numRefIdxL0ActiveMinus1
      NumRefIdxL1ActiveMinus1 := numRefIdxL1ActiveMinus1 }
  if nalType = 20 ∨ nalType = 21 then
    -- MVC not implemented
    Rd.throw Error.ErrParserNotImplemented
  else do
    let rplm ← ParseRefPicListModification avcsh
    let avcsh := { avcsh with RefPicListModification := some rplm }
    let predWeightTable ←
      (if (pps.WeightedPredFlag ∧ (sliceType = SLICE_P ∨ sliceType = SLICE_SP)) ∨
          (pps.WeightedBipredIDC = 1 ∧ sliceType = SLICE_B) then do
        let pwt ← ParsePredWeightTable sps avcsh
        pure (some pwt)
      else pure none)
    let decRefPicMarking ←
      (if GetNalRefIDC (Fin.ofNat nalHdr) ≠ 0 then do
        let rpm ← ParseDecRefPicMarking nalType
        pure (some rpm)
      else pure none)
    let cabacInitIDC ←
      (if pps.EntropyCodingModeFlag ∧ sliceType ≠ SLICE_I ∧ sliceType ≠ SLICE_SI then
        ReadExpGolomb
       else pure 0)
    let sliceQPDelta ← ReadSignedGolomb
    let (spForSwitchFlag, sliceQSDelta) ←
      (if sliceType = SLICE_SP ∨ sliceType = SLICE_SI then do
        let sp ← (if sliceType = SLICE_SP then ReadFlag else pure false)
        let qs ← ReadSignedGolomb
        pure (sp, qs)
      else pure (false, 0) : Rd (Bool × Int))
    let (disableDeblockingFilterIDC, sliceAlphaC0OffsetDev2, sliceBetaOffsetDev2) ←
      (if pps.DeblockingFilterControlPresentFlag then do
        let idc ← ReadExpGolomb
        if idc ≠ 1 then do
          let alpha ← ReadSignedGolomb
          let beta ← ReadSignedGolomb
          pure (idc, alpha, beta)
        else pure (idc, 0, 0)
      else pure (0, 0, 0) : Rd (Nat × Int × Int))
    let sliceGroupChangeCycle ←
      (if pps.NumSliceGroupsMinus1 > 0 ∧ pps.SliceGroupMapType ≥ 3 ∧
          pps.SliceGroupMapType ≤ 5 then
        -- based on equation 7-35 H.264 spec
        if (pps.SliceGroupChangeRateMinus1 + 1) % 2 ^ 64 = 0 then
          Rd.throw Error.DivideByZero
        else
          Read (sgccNumBits ceilLog2 (((pps.PicSizeInMapUnitsMinus1 + 1) % 2 ^ 64 /
            ((pps.SliceGroupChangeRateMinus1 + 1) % 2 ^ 64) + 1) % 2 ^ 64))
       else pure 0)
    pure { avcsh with
      PredWeightTable := predWeightTable
      DecRefPicMarking := decRefPicMarking
      CabacInitIDC := cabacInitIDC
      SliceQPDelta := sliceQPDelta
      SPForSwitchFlag := spForSwitchFlag
      SliceQSDelta := sliceQSDelta
      DisableDeblockingFilterIDC := disableDeblockingFilterIDC
      SliceAlphaC0OffsetDev2 := sliceAlphaC0OffsetDev2
      SliceBetaOffsetDev2 := sliceBetaOffsetDev2
      SliceGroupChangeCycle := sliceGroupChangeCycle }

/-- Lines 191-292 of Go `ParseSliceHeader` as a computation of their own: the
fields read before the sub-parsers are called, from `first_mb_in_slice` to the
active reference counts, and the header they make up. -/
def sliceHeaderHead (sps : SPS) (pps : PPS) (nalType : NaluType) : Rd SliceHeader := do
  let firstMbInSlice ← ReadExpGolomb
  let sliceTypeCode ← ReadExpGolomb
  let sliceType ← setSliceType sliceTypeCode
  let picParameterSetID ← ReadExpGolomb
  let colourPlaneID ← (if sps.SeparateColourPlaneFlag then Read 2 else pure 0)
  let frameNum ← Read (sps.Log2MaxFrameNumMinus4 + 4)
  let (fieldPicFlag, bottomFieldFlag) ←
    (if sps.FrameMbsOnlyFlag = false then do
      let fieldPic ← ReadFlag
      if fieldPic then do
        let bottom ← ReadFlag
        pure (fieldPic, bottom)
      else pure (fieldPic, false)
    else pure (false, false) : Rd (Bool × Bool))
  let idrPicID ← (if getIDRPicFlag nalType then ReadExpGolomb else pure 0)
  let (picOrderCntLSB, deltaPicOrderCntBottom) ←
    (if sps.PicOrderCntType = 0 then do
      let lsb ← Read (sps.Log2MaxPicOrderCntLsbMinus4 + 4)
      if pps.BottomFieldPicOrderInFramePresentFlag ∧ fieldPicFlag = false then do
        let bottom ← ReadSignedGolomb
        pure (lsb, bottom)
      else pure (lsb, 0)
    else pure (0, 0) : Rd (Nat × Int))
  let (deltaPicOrderCnt0, deltaPicOrderCnt1) ←
    (if sps.PicOrderCntType = 1 ∧ sps.DeltaPicOrderAlwaysZeroFlag = false then do
      let d0 ← ReadSignedGolomb
      if pps.BottomFieldPicOrderInFramePresentFlag ∧ fieldPicFlag = false then do
        let d1 ← ReadSignedGolomb
        pure (d0, d1)
      else pure (d0, 0)
    else pure (0, 0) : Rd (Int × Int))
  let redundantPicCnt ← (if pps.RedundantPicCntPresentFlag then ReadExpGolomb else pure 0)
  let directSpatialMVPredFlag ← (if sliceType = SLICE_B then ReadFlag else pure false)
  let numRefIdxActiveOverrideFlag ←
    (if sliceType = SLICE_P ∨ sliceType = SLICE_SP ∨ sliceType = SLICE_B then ReadFlag
     else pure false)
  let (numRefIdxL0ActiveMinus1, numRefIdxL1ActiveMinus1) ←
    (if numRefIdxActiveOverrideFlag then do
      let l0 ← ReadExpGolomb
      if sliceType = SLICE_B then do
        let l1 ← ReadExpGolomb
        pure (l0, l1)
      else pure (l0, 0)
    else pure (0, 0) : Rd (Nat × Nat))
  pure
    { FirstMbInSlice := firstMbInSlice
      SliceType := sliceType
      PicParameterSetID := picParameterSetID
      ColourPlaneID := colourPlaneID
      FrameNum := frameNum
      FieldPicFlag := fieldPicFlag
      BottomFieldFlag := bottomFieldFlag
      IDRPicID := idrPicID
      PicOrderCntLSB := picOrderCntLSB
      DeltaPicOrderCntBottom := deltaPicOrderCntBottom
      DeltaPicOrderCnt0 := deltaPicOrderCnt0
      DeltaPicOrderCnt1 := deltaPicOrderCnt1
      RedundantPicCnt := redundantPicCnt
      DirectSpatialMVPredFlag := directSpatialMVPredFlag
      NumRefIdxActiveOverrideFlag := numRefIdxActiveOverrideFlag
      NumRefIdxL0ActiveMinus1 := numRefIdxL0ActiveMinus1
      NumRefIdxL1ActiveMinus1 := numRefIdxL1ActiveMinus1 }

/-- Lines 315-366 of Go `ParseSliceHeader` as a computation of their own: the
fields read after the sub-parsers have returned, from `cabac_init_idc` to
`slice_group_change_cycle`, and the header that is returned. `avcsh` is the
header so far, `predWeightTable` and `decRefPicMarking` are what the second and
the third sub-parser have given (nil if not called). -/
def sliceHeaderTail (ceilLog2 : Nat → Nat) (pps : PPS) (avcsh : SliceHeader)
    (predWeightTable : Option PredWeightTable) (decRefPicMarking : Option DecRefPicMarking) :
    Rd SliceHeader := do
  let cabacInitIDC ←
    (if pps.EntropyCodingModeFlag ∧ avcsh.SliceType ≠ SLICE_I ∧ avcsh.SliceType ≠ SLICE_SI then
      ReadExpGolomb
     else pure 0)
  let sliceQPDelta ← ReadSignedGolomb
  let (spForSwitchFlag, sliceQSDelta) ←
    (if avcsh.SliceType = SLICE_SP ∨ avcsh.SliceType = SLICE_SI then do
      let sp ← (if avcsh.SliceType = SLICE_SP then ReadFlag else pure false)
      let qs ← ReadSignedGolomb
      pure (sp, qs)
    else pure (false, 0) : Rd (Bool × Int))
  let (disableDeblockingFilterIDC, sliceAlphaC0OffsetDev2, sliceBetaOffsetDev2) ←
    (if pps.DeblockingFilterControlPresentFlag then do
      let idc ← ReadExpGolomb
      if idc ≠ 1 then do
        let alpha ← ReadSignedGolomb
        let beta ← ReadSignedGolomb
        pure (idc, alpha, beta)
      else pure (idc, 0, 0)
    else pure (0, 0, 0) : Rd (Nat × Int × Int))
  let sliceGroupChangeCycle ←
    (if pps.NumSliceGroupsMinus1 > 0 ∧ pps.SliceGroupMapType ≥ 3 ∧
        pps.SliceGroupMapType ≤ 5 then
      -- based on equation 7-35 H.264 spec
      if (pps.SliceGroupChangeRateMinus1 + 1) % 2 ^ 64 = 0 then
        Rd.throw Error.DivideByZero
      else
        Read (sgccNumBits ceilLog2 (((pps.PicSizeInMapUnitsMinus1 + 1) % 2 ^ 64 /
          ((pps.SliceGroupChangeRateMinus1 + 1) % 2 ^ 64) + 1) % 2 ^ 64))
     else pure 0)
  pure { avcsh with
    PredWeightTable := predWeightTable
    DecRefPicMarking := decRefPicMarking
    CabacInitIDC := cabacInitIDC
    SliceQPDelta := sliceQPDelta
    SPForSwitchFlag := spForSwitchFlag
    SliceQSDelta := sliceQSDelta
    DisableDeblockingFilterIDC := disableDeblockingFilterIDC
    SliceAlphaC0OffsetDev2 := sliceAlphaC0OffsetDev2
    SliceBetaOffsetDev2 := sliceBetaOffsetDev2
    SliceGroupChangeCycle := sliceGroupChangeCycle }

/-- Lines 181-189 of Go `ParseSliceHeader`, then the fields: the first byte is
the NAL header; a NAL type for which no slice header is expected is
`ErrNoSliceHeader`. -/
def parseSliceHeaderBody (ceilLog2 : Nat → Nat) (sps : SPS) (pps : PPS) : Rd SliceHeader := do
  -- Note! First byte is NAL Header
  let nalHdr ← Read 8
  let nalType := GetNaluType (Fin.ofNat nalHdr)
  if sliceHeaderExpected nalType = false then Rd.throw Error.ErrNoSliceHeader
  else parseSliceHeaderFields ceilLog2 sps pps nalHdr nalType

/-- Go `ParseSliceHeader` (lines 173-367): the header or nil, the reader's
`NrBytesRead()`, and the error or nil. A call that ends in the run-time panic of
line 359 returns nothing, neither a header nor an error: it is the triple
`(none, n, none)`, which no `return` of the function gives, and
`ParseSliceHeader_panics` tells it. -/
def ParseSliceHeader (ceilLog2 : Nat → Nat) (data : List Byte) (sps : SPS) (pps : PPS) :
    Option SliceHeader × Nat × Option Error :=
  match parseSliceHeaderBody ceilLog2 sps pps (NewEBSPReader data) with
  | Res.ok avcsh r => (some avcsh, r.NrBytesRead, none)
  | Res.fail err r =>
    (none, r.NrBytesRead, if err = Error.DivideByZero then none else some err)

/-- The call of Go `ParseSliceHeader` ends in a run-time panic (the integer
division by zero of line 359) instead of returning. -/
def ParseSliceHeader_panics (ceilLog2 : Nat → Nat) (data : List Byte) (sps : SPS)
    (pps : PPS) : Bool :=
  match parseSliceHeaderBody ceilLog2 sps pps (NewEBSPReader data) with
  | Res.ok _ _ => false
  | Res.fail err _ => decide (err = Error.DivideByZero)

/-! ## `GetSliceTypeFromNALU` (lines 130-171) -/

/-- Go `GetSliceTypeFromNALU` (lines 130-171) with its named results
`(sliceType, err)`: on the early returns `sliceType` is still 0, on
`ErrInvalidSliceType` it is the raw code. -/
def GetSliceTypeFromNALU (data : List Byte) : SliceType × Option Error :=
  match data with
  | [] => (0, some Error.ErrTooFewBytesToParse)
  | [_] => (0, some Error.ErrTooFewBytesToParse)
  | hdr :: rest =>
    let naluType := GetNaluType hdr
    if naluType = 1 ∨ naluType = 2 ∨ naluType = 5 ∨ naluType = 19 then
      -- first_mb_in_slice
      match ReadExpGolomb (NewEBSPReader rest) with
      | Res.fail err _ => (0, some err)
      | Res.ok _ r =>
        -- slice_type
        match ReadExpGolomb r with
        | Res.fail err _ => (0, some err)
        | Res.ok st _ =>
          if st > 9 then (st, some Error.ErrInvalidSliceType)
          else if st ≥ 5 then (st - 5, none)
          else (st, none)
    else (0, some Error.ErrNoSliceHeader)

/-! ## `GetNalusFromSample` (`avc/nalus.go`) -/

/-- The two errors `GetNalusFromSample` builds with `fmt.Errorf`: line 13,
"Less than 4 bytes, No NALUs", and line 20, "NAL length fields are bad. Not
video?". -/
inductive SampleError where
  | lessThan4Bytes
  | badLengthFields
deriving DecidableEq, Repr

/-- What a call of `GetNalusFromSample` can do: return `(nalList, err)`, a nil
slice being `none`; or stop in a run-time panic; `budget` is not a Go outcome,
it marks a loop of this embedding that ran out of its iteration budget. -/
inductive NalusOutcome where
  | ret (nalList : Option (List (List Byte))) (err : Option SampleError)
  | panic
  | budget
deriving DecidableEq, Repr

/-- Go slice expression `s[lo:hi]` on a slice whose capacity is its length:
defined when `lo ≤ hi ≤ len(s)`, otherwise the run-time panics. -/
def goSlice (s : List Byte) (lo hi : Nat) : Option (List Byte) :=
  if lo ≤ hi ∧ hi ≤ s.length then some ((s.drop lo).take (hi - lo)) else none

/-- Go `binary.BigEndian.Uint32` on a 4-byte slice. -/
def bigEndianUint32 (b : List Byte) : Option Nat :=
  match b with
  | [b0, b1, b2, b3] => some (b0.val * 2 ^ 24 + b1.val * 2 ^ 16 + b2.val * 2 ^ 8 + b3.val)
  | _ => none

/-- The loop `for pos < uint32(length-4) { ... }` of lines 16-24; `pos` and
`nalLength` are `uint32`, so `pos + 4` and `pos + nalLength` are taken modulo
`2^32`. A round that neither returns nor panics advances `pos` by at least 4,
so the budget `len(sample)` the caller passes is never used up. -/
def nalusLoop (sample : List Byte) : Nat → Nat → List (List Byte) → NalusOutcome
  | 0, pos, nalList =>
    if pos < (sample.length - 4) % 2 ^ 32 then NalusOutcome.budget
    else NalusOutcome.ret (some nalList) none
  | fuel + 1, pos, nalList =>
    if pos < (sample.length - 4) % 2 ^ 32 then
      match goSlice sample pos ((pos + 4) % 2 ^ 32) with
      | none => NalusOutcome.panic
      | some lenField =>
        match bigEndianUint32 lenField with
        | none => NalusOutcome.panic
        | some nalLength =>
          let pos := (pos + 4) % 2 ^ 32
          if (pos + nalLength) % 2 ^ 32 > sample.length then
            NalusOutcome.ret none (some SampleError.badLengthFields)
          else
            match goSlice sample pos ((pos + nalLength) % 2 ^ 32) with
            | none => NalusOutcome.panic
            | some nal => nalusLoop sample fuel ((pos + nalLength) % 2 ^ 32) (nalList ++ [nal])
    else NalusOutcome.ret (some nalList) none

/-- Go `GetNalusFromSample` (lines 8-26). -/
def GetNalusFromSample (sample : List Byte) : NalusOutcome :=
  if sample.length < 4 then NalusOutcome.ret (some []) (some SampleError.lessThan4Bytes)
  else nalusLoop sample sample.length 0 []

/-! ## Test data of `avc/slice_test.go` -/

/-- The parameter set of `SPSRefPicMod`, `SPSPFrameTest`, `SPSIDRTest`
(`674d4028d900780227e59a808080a000000300c0000023c1e30649`), by the fields the
slice header consults. -/
def spsTest : SPS :=
  { Log2MaxFrameNumMinus4 := 0, PicOrderCntType := 2, FrameMbsOnlyFlag := true,
    SeparateColourPlaneFlag := false, ChromaFormatIDC := 1 }

/-- The parameter set of `PPSRefPicMod`, `PPSPFrameTest`, `PPSIDRTest`
(`68ebc08cf2`), by the fields the slice header consults. -/
def ppsTest : PPS :=
  { EntropyCodingModeFlag := true, WeightedPredFlag := true,
    DeblockingFilterControlPresentFlag := true, WeightedBipredIDC := 0,
    BottomFieldPicOrderInFramePresentFlag := false, RedundantPicCntPresentFlag := false,
    NumSliceGroupsMinus1 := 0, NumRefIdxI0DefaultActiveMinus1 := 2,
    NumRefIdxI1DefaultActiveMinus1 := 0 }

/-- Test constant `videoSliceDataRefPicMod` (42 bytes). -/
def videoSliceDataRefPicMod : List Byte :=
  [0x41, 0x9a, 0xb2, 0x78, 0x43, 0xc9, 0x94, 0xc0, 0x8e, 0xb7, 0x00, 0x01, 0xae, 0x9c, 0xc5,
   0x14, 0x97, 0x81, 0x89, 0xbd, 0x51, 0xa8, 0xbc, 0xe3, 0xa7, 0x81, 0xb4, 0xa2, 0xb6, 0xc1,
   0x6a, 0x4b, 0x24, 0xae, 0x3d, 0x95, 0xe7, 0xee, 0xd7, 0xf8, 0x85, 0x00]

/-- Test constant `videoSliceDecRefPicMarking` (46 bytes). -/
def videoSliceDecRefPicMarking : List Byte :=
  [0x41, 0x9a, 0x4f, 0x08, 0x64, 0xca, 0x61, 0x1f, 0x6f, 0xfe, 0x9e, 0x21, 0x3e, 0xd7, 0x05,
   0xab, 0x96, 0xe2, 0x00, 0x58, 0x0c, 0xf4, 0x50, 0x06, 0xba, 0x6f, 0xac, 0x87, 0x4b, 0xbc,
   0x96, 0xc4, 0xb9, 0x6e, 0xcc, 0xc3, 0x68, 0x53, 0xd6, 0x53, 0x7e, 0xf1, 0x72, 0xc0, 0x1f,
   0x82]

/-- Test constant `videoSliceDataPFrame` (17 bytes). -/
def videoSliceDataPFrame : List Byte :=
  [0x41, 0x9a, 0x38, 0x46, 0x03, 0xfa, 0x42, 0xd6, 0xff, 0xb5, 0xf0, 0x11, 0x37, 0xf1, 0x56,
   0x00, 0x3c]

/-- The width function used where a concrete one is needed: the exact
`ceil(log2 x)`. -/
def exactCeilLog2 (x : Nat) : Nat := Nat.clog 2 x

/-! ## Notions used in the statements -/

/-- The value of a result, if it is one. -/
def Res.valueOf {α : Type} : Res α → Option α
  | Res.ok a _ => some a
  | Res.fail _ _ => none

/-- The error of a result, if it is one. -/
def Res.errorOf {α : Type} : Res α → Option Error
  | Res.ok _ _ => none
  | Res.fail e _ => some e

/-- The reader a result leaves behind. -/
def Res.reader {α : Type} : Res α → EBSPReader
  | Res.ok _ r => r
  | Res.fail _ r => r

/-- Every error the computation can return satisfies `S`. -/
def Rd.errIn {α : Type} (x : Rd α) (S : Error → Prop) : Prop :=
  ∀ r e r1, x r = Res.fail e r1 → S e

/-- Every result satisfies `Q`. -/
def Rd.okIn {α : Type} (x : Rd α) (Q : α → Prop) : Prop :=
  ∀ r a r1, x r = Res.ok a r1 → Q a

/-- The errors of the bit reader and of the loops built on it. -/
def readerErr (e : Error) : Prop := e = Error.ErrTooFewBits ∨ e = Error.LoopBudget

/-- The errors of the header fields of a NAL type other than 20 and 21. -/
def fieldsErr (e : Error) : Prop :=
  readerErr e ∨ e = Error.ErrInvalidSliceType ∨ e = Error.DivideByZero

/-- The same reader, `d` more bytes into its input. -/
def EBSPReader.shift (d : Nat) (r : EBSPReader) : EBSPReader := { r with pos := r.pos + d }

/-- The same result with the reader `d` more bytes into its input. -/
def Res.shift {α : Type} (d : Nat) : Res α → Res α
  | Res.ok a r => Res.ok a (r.shift d)
  | Res.fail e r => Res.fail e (r.shift d)

/-- The same fetch result with the reader `d` more bytes into its input. -/
def shiftExcept (d : Nat) : Except EBSPReader EBSPReader → Except EBSPReader EBSPReader
  | Except.ok r => Except.ok (r.shift d)
  | Except.error r => Except.error (r.shift d)

/-- An input for claim C6: the NAL header `74` (reference-idc 3, NAL type 20)
followed by the bytes of `videoSliceDataPFrame` after its header. -/
def mvcSliceData : List Byte :=
  [0x74, 0x9a, 0x38, 0x46, 0x03, 0xfa, 0x42, 0xd6, 0xff, 0xb5, 0xf0, 0x11, 0x37, 0xf1, 0x56,
   0x00, 0x3c]

/-! ## Further test data and notions -/

/-- Test constant `videoNaluStart` (13 bytes). -/
def videoNaluStart : List Byte :=
  [0x25, 0x88, 0x80, 0x40, 0xff, 0xde, 0x08, 0xe4, 0x7a, 0x7b, 0xff, 0x05, 0xab]

/-- An input for claim C11: NAL header `41` (type 1), then the bits `1`
(first_mb_in_slice 0) and `0001011` (slice_type code 10). -/
def invalidSliceTypeData : List Byte := [0x41, 0x8b]

/-- Test constant `videoSliceDataIDR` (8 bytes). -/
def videoSliceDataIDR : List Byte := [0x65, 0x88, 0x84, 0x0b, 0x5b, 0x07, 0xc3, 0x41]

/-- The computation relates the reader before to the reader after by `R`,
whether it succeeds or fails, and fails only with errors in `S`. -/
def Rd.keeps {α : Type} (R : EBSPReader → EBSPReader → Prop) (S : Error → Prop)
    (x : Rd α) : Prop :=
  ∀ r, (∀ a r1, x r = Res.ok a r1 → R r r1) ∧ (∀ e r1, x r = Res.fail e r1 → R r r1 ∧ S e)

/-- What a relation on readers and a set of errors must satisfy to be carried
through the parsers: the relation is a preorder, the two reader primitives keep
it, and so do the two sentinel loops as they are called (with the budget
`bitsLeft + 1`). -/
structure ReaderLaw (R : EBSPReader → EBSPReader → Prop) (S : Error → Prop) : Prop where
  refl : ∀ r, R r r
  trans : ∀ a b c, R a b → R b c → R a c
  read : ∀ n, Rd.keeps R S (Read n)
  expGolomb : Rd.keeps R S ReadExpGolomb
  rplm : ∀ m p, Rd.keeps R S (fun r => rplmLoop (r.bitsLeft + 1) m p r)
  mmco : ∀ m p, Rd.keeps R S (fun r => mmcoLoop (r.bitsLeft + 1) m p r)

/-- No readable bit is gained. -/
def leBits (r r1 : EBSPReader) : Prop := r1.bitsLeft ≤ r.bitsLeft

/-- The end-of-data error of the bit reader. -/
def endOfData (e : Error) : Prop := e = Error.ErrTooFewBits

/-- As `Rd.keeps`, for the readers that satisfy `P` only. -/
def Rd.keepsIf {α : Type} (P : EBSPReader → Prop) (R : EBSPReader → EBSPReader → Prop)
    (S : Error → Prop) (x : Rd α) : Prop :=
  ∀ r, P r →
    (∀ a r1, x r = Res.ok a r1 → R r r1) ∧ (∀ e r1, x r = Res.fail e r1 → R r r1 ∧ S e)

/-- The reader `r1` is the reader `r` some bytes further into the same input:
the position has grown by the number of bytes that left the unfetched input. -/
def advances (r r1 : EBSPReader) : Prop :=
  r.pos ≤ r1.pos ∧ r1.pos - r.pos ≤ r.rd.length ∧ r1.rd = r.rd.drop (r1.pos - r.pos)

/-- No restriction on the errors. -/
def anyError (_ : Error) : Prop := True

/-- One round of the byte-fetch loop of `fetch`, without the bit buffer: the
byte taken (the byte after an emulation-prevention byte, if one is skipped), the
bytes left, the new position and the new zero count; or, when the bytes run out,
the position reached. -/
def fetchOne : List Byte → Nat → Nat → Except Nat (Byte × List Byte × Nat × Nat)
  | [], pos, _ => Except.error pos
  | b1 :: rest, pos, zc =>
    if zc = 2 then
      if b1.val = 3 then
        match rest with
        | [] => Except.error (pos + 1)
        | b2 :: rest2 => Except.ok (b2, rest2, pos + 2, if b2.val = 0 then 1 else 0)
      else Except.ok (b1, rest, pos + 1, if b1.val = 0 then 1 else 0)
    else Except.ok (b1, rest, pos + 1, if b1.val = 0 then zc + 1 else 0)

/-- Lines 457-468 of `ParsePredWeightTable`: what follows a list-0 luma flag
that was just read and stored. -/
def lumaWeightsL0 (lumaFlag : Bool) (pwt : PredWeightTable) : Rd PredWeightTable :=
  if lumaFlag then do
    let lumaWeightL0 ← ReadSignedGolomb
    let lumaOffsetL0 ← ReadSignedGolomb
    let pwt := { pwt with LumaWeightL0 := pwt.LumaWeightL0 ++ [lumaWeightL0] }
    pure { pwt with LumaOffsetL0 := pwt.LumaWeightL0 ++ [lumaOffsetL0] }
  else pure pwt

/-- Lines 475-491 of `ParsePredWeightTable`: what follows a list-0 chroma flag
that was just read and stored. -/
def chromaWeightsL0 (chromaFlag : Bool) (pwt : PredWeightTable) : Rd PredWeightTable :=
  if chromaFlag then do
    let (chromaWeightL0, chromaOffsetL0) ← chromaLoop 2 [] []
    let pwt := { pwt with ChromaWeightL0 := pwt.ChromaWeightL0 ++ [chromaWeightL0] }
    pure { pwt with ChromaOffsetL0 := pwt.ChromaWeightL0 ++ [chromaOffsetL0] }
  else pure pwt

/-- Lines 501-512 of `ParsePredWeightTable`: what follows a list-1 luma flag
that was just read and stored. -/
def lumaWeightsL1 (lumaFlag : Bool) (pwt : PredWeightTable) : Rd PredWeightTable :=
  if lumaFlag then do
    let lumaWeightL1 ← ReadSignedGolomb
    let lumaOffsetL1 ← ReadSignedGolomb
    let pwt := { pwt with LumaWeightL1 := pwt.LumaWeightL1 ++ [lumaWeightL1] }
    pure { pwt with LumaOffsetL1 := pwt.LumaWeightL1 ++ [lumaOffsetL1] }
  else pure pwt

/-- Lines 519-535 of `ParsePredWeightTable`: what follows a list-1 chroma flag
that was just read and stored. -/
def chromaWeightsL1 (chromaFlag : Bool) (pwt : PredWeightTable) : Rd PredWeightTable :=
  if chromaFlag then do
    let (chromaWeightL1, chromaOffsetL1) ← chromaLoop 2 [] []
    let pwt := { pwt with ChromaWeightL1 := pwt.ChromaWeightL1 ++ [chromaWeightL1] }
    pure { pwt with ChromaOffsetL1 := pwt.ChromaWeightL1 ++ [chromaOffsetL1] }
  else pure pwt

/-- No chroma field of the table has been written. -/
def chromaUntouched (t : PredWeightTable) : Prop :=
  t.ChromaLog2WeightDenom = 0 ∧
  t.ChromaWeightL0Flag = false ∧ t.ChromaWeightL0 = [] ∧ t.ChromaOffsetL0 = [] ∧
  t.ChromaWeightL1Flag = false ∧ t.ChromaWeightL1 = [] ∧ t.ChromaOffsetL1 = []

/-! ## Notions for the NAL splitting and the prediction weight table -/

/-- The 4-byte big-endian length field in front of a NAL unit of `n` bytes. -/
def lengthField (n : Nat) : List Byte :=
  [Fin.ofNat (n / 2 ^ 24), Fin.ofNat (n / 2 ^ 16), Fin.ofNat (n / 2 ^ 8), Fin.ofNat n]

/-- A sample: every NAL unit preceded by its 4-byte big-endian length. -/
def lengthPrefixed : List (List Byte) → List Byte
  | [] => []
  | nal :: rest => lengthField nal.length ++ nal ++ lengthPrefixed rest

/-- The buffered value of the reader fits in its buffered bits. -/
def EBSPReader.wf (r : EBSPReader) : Prop := r.v < 2 ^ r.n

/-- A successful run from a reader whose buffer is well formed leaves such a
reader. -/
def Rd.okWf {α : Type} (x : Rd α) : Prop :=
  ∀ r a r1, EBSPReader.wf r → x r = Res.ok a r1 → EBSPReader.wf r1

/-- One round of the list-0 loop of `ParsePredWeightTable` (lines 453-492): the
luma-weight flag is read and stored, then what it selects, then, for a chroma
array type other than 0, the chroma-weight flag and what it selects. -/
def pwtEntryL0 (sps : SPS) (pwt : PredWeightTable) : Rd PredWeightTable := do
  let lumaFlag ← ReadFlag
  let t ← lumaWeightsL0 lumaFlag { pwt with LumaWeightL0Flag := lumaFlag }
  if getChromaArrayType sps ≠ 0 then do
    let chromaFlag ← ReadFlag
    chromaWeightsL0 chromaFlag { t with ChromaWeightL0Flag := chromaFlag }
  else pure t

/-- One round of the list-1 loop of `ParsePredWeightTable` (lines 497-536). -/
def pwtEntryL1 (sps : SPS) (pwt : PredWeightTable) : Rd PredWeightTable := do
  let lumaFlag ← ReadFlag
  let t ← lumaWeightsL1 lumaFlag { pwt with LumaWeightL1Flag := lumaFlag }
  if getChromaArrayType sps ≠ 0 then do
    let chromaFlag ← ReadFlag
    chromaWeightsL1 chromaFlag { t with ChromaWeightL1Flag := chromaFlag }
  else pure t

/-- The computation `f` run `count` times in sequence, each run on the result of
the one before; the number of runs is fixed before the first. -/
def Rd.times {α : Type} (f : α → Rd α) : Nat → α → Rd α
  | 0, a => pure a
  | count + 1, a => f a >>= Rd.times f count

/-- The luma fields of list 1 of the two tables are the same. -/
def sameLumaL1 (t pwt : PredWeightTable) : Prop :=
  t.LumaWeightL1Flag = pwt.LumaWeightL1Flag ∧ t.LumaWeightL1 = pwt.LumaWeightL1 ∧
  t.LumaOffsetL1 = pwt.LumaOffsetL1

/-- The luma weights of list 0 of the two tables are the same. -/
def sameLumaL0 (t pwt : PredWeightTable) : Prop :=
  t.LumaWeightL0 = pwt.LumaWeightL0

/-! ## SEI messages (package `sei`; of it only `sei/sei_test.go` is at hand) -/

/-- Modelled from the spec: the errors of `ExtractSEIData` (package `sei`,
source absent). `ErrRbspTrailingBitsMissing` is the non-fatal "trailing bits
missing" signal of section 4.6, under the name `sei_test.go` gives it; `reader e`
is a failure of the bit reader, a hard error that is propagated (section 7). -/
inductive SEIError where
  | ErrRbspTrailingBitsMissing
  | reader (e : Error)
deriving DecidableEq, Repr

/-- Modelled from the spec: `SEIData` (source absent), the raw record of
section 3: the type tag and the payload bytes. -/
structure SEIData where
  payloadType : Nat
  payload : List Byte
deriving DecidableEq, Repr

/-- Modelled from the spec: `NewSEIData` (source absent, called in
`sei_test.go`): the raw record of a type tag and a payload. -/
def NewSEIData (msgType : Nat) (payload : List Byte) : SEIData :=
  { payloadType := msgType, payload := payload }

/-- Modelled from the spec: the reading of a type tag or of a payload size in
`ExtractSEIData` (source absent). Section 4.6: a sequence of full bytes, each
`0xFF` byte meaning "add 255 and continue", terminated by a byte below `0xFF`
whose value is added. A round reads one byte, so the budget of one more than the
bytes left, which the callers pass, is never used up. -/
def readSEIValue : Nat → Nat → Rd Nat
  | 0, _ => Rd.throw Error.LoopBudget
  | fuel + 1, acc => do
    let nextByte ← Read 8
    if nextByte = 0xFF then readSEIValue fuel (acc + 255)
    else pure (acc + nextByte)

/-- Modelled from the spec: the reading of the payload in `ExtractSEIData`
(source absent). Section 4.6: exactly `size` bytes, verbatim, each read through
the bit reader and so after escape-byte removal. -/
def readPayload : Nat → List Byte → Rd (List Byte)
  | 0, payload => pure payload
  | size + 1, payload => do
    let b ← Read 8
    readPayload size (payload ++ [Fin.ofNat b])

/-- Modelled from the spec: one message of `ExtractSEIData` (source absent),
section 4.6: the type tag, the payload size, then the payload. -/
def readSEIMessage : Rd SEIData := do
  let payloadType ← (fun r => readSEIValue (r.rd.length + 1) 0 r : Rd Nat)
  let payloadSize ← (fun r => readSEIValue (r.rd.length + 1) 0 r : Rd Nat)
  let payload ← readPayload payloadSize []
  pure { payloadType := payloadType, payload := payload }

/-- Every byte that can still be read is zero; at most `fuel` bytes are
looked at. -/
def allZeroBytes : Nat → EBSPReader → Bool
  | 0, _ => true
  | fuel + 1, r =>
    match Read 8 r with
    | Res.ok b r1 => if b = 0 then allZeroBytes fuel r1 else false
    | Res.fail _ _ => true

/-- Modelled from the spec: `EBSPReader.MoreRbspData` (package `bits`, source
absent), for a reader at a byte boundary. Section 4.6 lets the extraction run
"until RBSP trailing bits or end of buffer": at the end of the buffer the read
fails; the RBSP trailing bits are the stop bit 1 followed by zero bits only,
which at a byte boundary is the byte `0x80` followed by zero bytes only, and
then there is no more data. The reader is left where it was. -/
def MoreRbspData (r : EBSPReader) : Except Error Bool :=
  match Read 8 r with
  | Res.fail e _ => Except.error e
  | Res.ok b r1 =>
    if b = 0x80 ∧ allZeroBytes (r1.rd.length + 1) r1 = true then Except.ok false
    else Except.ok true

/-- Modelled from the spec: the message loop of `ExtractSEIData` (source
absent), section 4.6 and section 7. A message that cannot be read whole is a
hard error: it is propagated and the messages are discarded. After a message,
the end of the buffer gives the messages found so far with
`ErrRbspTrailingBitsMissing`, the RBSP trailing bits give them with no error, and
anything else is the next message. A round reads at least two bytes, so the
budget of one more than the bytes of the input is never used up. -/
def extractLoop : Nat → List SEIData → EBSPReader → List SEIData × Option SEIError
  | 0, _, _ => ([], some (SEIError.reader Error.LoopBudget))
  | fuel + 1, seiDatas, r =>
    match readSEIMessage r with
    | Res.fail e _ => ([], some (SEIError.reader e))
    | Res.ok sd r1 =>
      match MoreRbspData r1 with
      | Except.error _ => (seiDatas ++ [sd], some SEIError.ErrRbspTrailingBitsMissing)
      | Except.ok false => (seiDatas ++ [sd], none)
      | Except.ok true => extractLoop fuel (seiDatas ++ [sd]) r1

/-- Modelled from the spec: `ExtractSEIData` (source absent), the `extract` of
section 4.6 on the bytes of a SEI NAL unit after its header: the raw records in
order, and the error or nil. -/
def ExtractSEIData (data : List Byte) : List SEIData × Option SEIError :=
  extractLoop (data.length + 1) [] (NewEBSPReader data)

/-- Modelled from the spec: the writing of a type tag or of a payload size
(source absent), the inverse of the continuation rule of section 4.6: a byte
`0xFF` for every full 255, then the remainder. -/
def writeSEIValue (v : Nat) : List Byte :=
  List.replicate (v / 255) 0xFF ++ [Fin.ofNat (v % 255)]

/-- Modelled from the spec: the messages as they are written before
escape-byte insertion (source absent): for every message the type tag, the
payload size and the payload. -/
def rbspOfRecords : List SEIData → List Byte
  | [] => []
  | sd :: rest =>
    writeSEIValue sd.payloadType ++ writeSEIValue sd.payload.length ++ sd.payload ++
      rbspOfRecords rest

/-- Modelled from the spec: escape-byte insertion of the writer (package `bits`,
source absent), the inverse of the removal of section 4.1: after two zero bytes a
byte of value 3 or less is preceded by the emulation-prevention byte `03`.
`zeroCount` is the run of zero bytes written last. -/
def escape : Nat → List Byte → List Byte
  | _, [] => []
  | zeroCount, b :: rest =>
    if zeroCount = 2 ∧ b.val ≤ 3 then
      0x03 :: b :: escape (if b.val = 0 then 1 else 0) rest
    else b :: escape (if b.val = 0 then zeroCount + 1 else 0) rest

/-- Modelled from the spec: the codec family of section 4.7 (`sei.AVC`,
`sei.HEVC` in `sei_test.go`; declaration absent). -/
inductive Codec where
  | AVC
  | HEVC
deriving DecidableEq, Repr

/-- Modelled from the spec: `MasteringDisplayColourVolumeSEI` (source absent),
SEI type 137, by the fields its `String()` prints in `sei_test.go`: three
primaries and the white point, each two 16-bit numbers, and the maximal and
minimal luminance, two 32-bit numbers; 24 bytes. -/
structure MasteringDisplayColourVolumeSEI where
  primaries : List (Nat × Nat)
  whitePoint : Nat × Nat
  maxLum : Nat
  minLum : Nat
deriving DecidableEq, Repr

/-- Modelled from the spec: `ContentLightLevelInformationSEI` (source absent),
SEI type 144, by the fields its `String()` prints in `sei_test.go`: two 16-bit
numbers; 4 bytes. -/
structure ContentLightLevelInformationSEI where
  maxContentLightLevel : Nat
  maxPicAverageLightLevel : Nat
deriving DecidableEq, Repr

/-- Modelled from the spec: `SEIMessage` (source absent), section 3 and section
9: a closed sum over the known variants plus one raw variant. The two variants
whose fields `sei_test.go` shows are decoded into their fields. A message of
another known variant (buffering period, picture timing, time code, CEA-608),
whose fields neither the spec nor the sources give, is `other`: the type tag it
reports and the payload bytes its encoder writes. The generic message `raw` of
an unmatched tag stores the record unmodified. -/
inductive SEIMessage where
  | masteringDisplayColourVolume (m : MasteringDisplayColourVolumeSEI)
  | contentLightLevelInformation (m : ContentLightLevelInformationSEI)
  | other (msgType : Nat) (payload : List Byte)
  | raw (sd : SEIData)
deriving DecidableEq, Repr

/-- Modelled from the spec: the constant `SEIMasteringDisplayColourVolumeType`
(137 in `TestSEIStrings`). -/
def SEIMasteringDisplayColourVolumeType : Nat := 137

/-- Modelled from the spec: the constant `SEIContentLightLevelInformationType`
(144 in `TestSEIStrings`). -/
def SEIContentLightLevelInformationType : Nat := 144

/-- A 16-bit number as two bytes, most significant first. -/
def putUint16 (v : Nat) : List Byte := [Fin.ofNat (v / 2 ^ 8), Fin.ofNat v]

/-- A 32-bit number as four bytes, most significant first. -/
def putUint32 (v : Nat) : List Byte :=
  [Fin.ofNat (v / 2 ^ 24), Fin.ofNat (v / 2 ^ 16), Fin.ofNat (v / 2 ^ 8), Fin.ofNat v]

/-- Two bytes, most significant first, as a number. -/
def uint16 (b0 b1 : Byte) : Nat := b0.val * 2 ^ 8 + b1.val

/-- Four bytes, most significant first, as a number. -/
def uint32 (b0 b1 b2 b3 : Byte) : Nat :=
  b0.val * 2 ^ 24 + b1.val * 2 ^ 16 + b2.val * 2 ^ 8 + b3.val

/-- Modelled from the spec: the method `Type()` of `SEIMessage` (source absent):
the type tag of the message. -/
def SEIMessage.msgType : SEIMessage → Nat
  | SEIMessage.masteringDisplayColourVolume _ => SEIMasteringDisplayColourVolumeType
  | SEIMessage.contentLightLevelInformation _ => SEIContentLightLevelInformationType
  | SEIMessage.other msgType _ => msgType
  | SEIMessage.raw sd => sd.payloadType

/-- Modelled from the spec: the method `Payload()` of `SEIMessage` (source
absent), the encoder of section 4.7: the payload bytes of the message, written
from the fields for a decoded variant and retained for a raw one. -/
def SEIMessage.Payload : SEIMessage → List Byte
  | SEIMessage.masteringDisplayColourVolume m =>
    (m.primaries.map (fun p => putUint16 p.1 ++ putUint16 p.2)).flatten ++
      putUint16 m.whitePoint.1 ++ putUint16 m.whitePoint.2 ++
      putUint32 m.maxLum ++ putUint32 m.minLum
  | SEIMessage.contentLightLevelInformation m =>
    putUint16 m.maxContentLightLevel ++ putUint16 m.maxPicAverageLightLevel
  | SEIMessage.other _ payload => payload
  | SEIMessage.raw sd => sd.payload

/-- Modelled from the spec: `DecodeMasteringDisplayColourVolumeSEI` (source
absent): the fields are read from the first 24 bytes of the payload; a shorter
payload is the end-of-data failure of the reads. -/
def DecodeMasteringDisplayColourVolumeSEI (sd : SEIData) : Except Error SEIMessage :=
  match sd.payload with
  | p0 :: p1 :: p2 :: p3 :: p4 :: p5 :: p6 :: p7 :: p8 :: p9 :: p10 :: p11 ::
    w0 :: w1 :: w2 :: w3 :: a0 :: a1 :: a2 :: a3 :: i0 :: i1 :: i2 :: i3 :: _ =>
    Except.ok (SEIMessage.masteringDisplayColourVolume
      { primaries := [(uint16 p0 p1, uint16 p2 p3), (uint16 p4 p5, uint16 p6 p7),
                      (uint16 p8 p9, uint16 p10 p11)]
        whitePoint := (uint16 w0 w1, uint16 w2 w3)
        maxLum := uint32 a0 a1 a2 a3
        minLum := uint32 i0 i1 i2 i3 })
  | _ => Except.error Error.ErrTooFewBits

/-- Modelled from the spec: `DecodeContentLightLevelInformationSEI` (source
absent): the fields are read from the first 4 bytes of the payload; a shorter
payload is the end-of-data failure of the reads. -/
def DecodeContentLightLevelInformationSEI (sd : SEIData) : Except Error SEIMessage :=
  match sd.payload with
  | c0 :: c1 :: c2 :: c3 :: _ =>
    Except.ok (SEIMessage.contentLightLevelInformation
      { maxContentLightLevel := uint16 c0 c1, maxPicAverageLightLevel := uint16 c2 c3 })
  | _ => Except.error Error.ErrTooFewBits

/-- Modelled from the spec: `DecodeSEIMessage` (source absent), the `decode` of
section 4.7: lookup by type tag and codec family, and by nothing else.
`sei_test.go` shows the tags 137 and 144 decoded for HEVC, by the two decoders
above. The decoders of the other known variants, whose payload syntax neither
the spec nor the sources give, are the parameter `registry`, by type tag and
codec family; a tag without a decoder gives the generic message, which stores
the raw record. -/
def DecodeSEIMessage (registry : Nat → Codec → Option (SEIData → Except Error SEIMessage))
    (sd : SEIData) (codec : Codec) : Except Error SEIMessage :=
  if codec = Codec.HEVC ∧ sd.payloadType = SEIMasteringDisplayColourVolumeType then
    DecodeMasteringDisplayColourVolumeSEI sd
  else if codec = Codec.HEVC ∧ sd.payloadType = SEIContentLightLevelInformationType then
    DecodeContentLightLevelInformationSEI sd
  else
    match registry sd.payloadType codec with
    | some decode => decode sd
    | none => Except.ok (SEIMessage.raw sd)

/-- Modelled from the spec: `WriteSEIMessages` (source absent), the inverse of
the extraction: for every message the type tag, the payload size and the
payload, then the RBSP trailing bits `0x80`, all with escape-byte insertion. -/
def WriteSEIMessages (msgs : List SEIMessage) : List Byte :=
  escape 0
    (rbspOfRecords (msgs.map (fun m => NewSEIData m.msgType m.Payload)) ++ [0x80])

/-- Test constant `seiAVCMulti` (12 bytes). -/
def seiAVCMulti : List Byte :=
  [0x00, 0x01, 0xc0, 0x01, 0x06, 0x1b, 0x05, 0x09, 0xb8, 0x00, 0x00, 0x80]

/-- Test constant `missingRbspTrailingBits` (8 bytes). -/
def missingRbspTrailingBits : List Byte :=
  [0x01, 0x06, 0x1b, 0x05, 0x09, 0xb8, 0x00, 0x00]

/-- Test constant `seiHEVCHDR` (45 bytes). -/
def seiHEVCHDR : List Byte :=
  [0x89, 0x18, 0x00, 0x00, 0x03, 0x00, 0x00, 0x03, 0x00, 0x00, 0x03, 0x00, 0x00, 0x03, 0x00,
   0x00, 0x03, 0x00, 0x00, 0x03, 0x00, 0x00, 0x03, 0x00, 0x00, 0x03, 0x00, 0x00, 0x03, 0x00,
   0x00, 0x03, 0x00, 0x00, 0x03, 0x00, 0x00, 0x90, 0x04, 0x00, 0x00, 0x03, 0x00, 0x00, 0x80]

/-- Test payload `hex137` of `TestMasteringDisplayColourVolumeSEI` (24 bytes). -/
def hex137 : List Byte :=
  [0x11, 0x22, 0x33, 0x44, 0x55, 0x66, 0x77, 0x88, 0x99, 0x00, 0xaa, 0xbb, 0xcc, 0xdd, 0xee,
   0xff, 0x00, 0x11, 0x22, 0x33, 0x44, 0x55, 0x66, 0x77]

/-- Test payload `hex144` of `TestContentLightLevelInformationSEI` (4 bytes). -/
def hex144 : List Byte := [0x11, 0x22, 0x33, 0x44]

/-- The reader `r` is at a byte boundary and its input left is the escaped form
of the bytes `bs`. -/
def atRbsp (r : EBSPReader) (bs : List Byte) : Prop :=
  ∃ zc pos, zc ≤ 2 ∧ r = { rd := escape zc bs, n := 0, v := 0, pos := pos, zeroCount := zc }

/-- None of the records, together with the records after it, is written as the
RBSP trailing bits, that is as the byte `0x80` followed by zero bytes only: none
has the type tag 128 and an empty payload and is followed by records of type tag
0 with empty payloads only. -/
def markerFree : List SEIData → Prop
  | [] => True
  | s :: rest =>
    ¬ (s.payloadType = 128 ∧ s.payload = [] ∧ ∀ x ∈ rbspOfRecords rest, x.val = 0) ∧
    markerFree rest

/-! ## Notions for the dependence on the input -/

/-- Test constant `videoSliceDataPFrameEnc` (12 bytes): the header bytes of
`videoSliceDataPFrame` followed by other slice data. -/
def videoSliceDataPFrameEnc : List Byte :=
  [0x41, 0x9a, 0x38, 0x46, 0x03, 0xfa, 0x42, 0xd6, 0xff, 0x62, 0xad, 0xeb]

/-- A successful run depends on the bytes it has fetched only: these are a
front part `used` of the input that was left, and with any other bytes `rest`
behind them the run gives the same value and the same reader, over `rest`. -/
def Rd.confined {α : Type} (x : Rd α) : Prop :=
  ∀ r a r1, x r = Res.ok a r1 →
    ∃ used, r.rd = used ++ r1.rd ∧
      ∀ rest, x { r with rd := used ++ rest } = Res.ok a { r1 with rd := rest }

/-! ## Inputs with slice groups -/

/-- The parameter set of the test with slice groups in use (two groups, map type
3) and a change rate of `2^64 - 1`, the largest `uint`: the divisor
`SliceGroupChangeRateMinus1 + 1` of line 359 wraps to 0. -/
def ppsZeroDivisor : PPS :=
  { ppsTest with NumSliceGroupsMinus1 := 1, SliceGroupMapType := 3,
                 SliceGroupChangeRateMinus1 := 2 ^ 64 - 1 }

/-- The parameter set of the test with slice groups in use (two groups, map type
3), `PicSizeInMapUnitsMinus1 = 2^53 - 1` and change rate 1: the argument of the
logarithm of line 359 is `2^53 + 1`. -/
def ppsSliceGroups : PPS :=
  { ppsTest with NumSliceGroupsMinus1 := 1, SliceGroupMapType := 3,
                 PicSizeInMapUnitsMinus1 := 2 ^ 53 - 1, SliceGroupChangeRateMinus1 := 0 }

/-- The first five bytes of `videoSliceDataIDR`, which are the slice header with
the parameter sets of the test, and seven bytes `ff` after them. -/
def sliceDataSliceGroups : List Byte :=
  [0x65, 0x88, 0x84, 0x0b, 0x5b, 0xff, 0xff, 0xff, 0xff, 0xff, 0xff, 0xff]

/-! ## The reader monad -/

@[simp] theorem pure_apply {α : Type} (a : α) (r : EBSPReader) :
    (Pure.pure a : Rd α) r = Res.ok a r := rfl

@[simp] theorem bind_apply {α β : Type} (x : Rd α) (f : α → Rd β) (r : EBSPReader) :
    (x >>= f) r = (match x r with
      | Res.ok a r1 => f a r1
      | Res.fail e r1 => Res.fail e r1) := rfl

@[simp] theorem throw_apply {α : Type} (e : Error) (r : EBSPReader) :
    (Rd.throw e : Rd α) r = Res.fail e r := rfl

/-! ## The width function matters only with slice groups -/

theorem parseSliceHeaderFields_ceilLog2 (w1 w2 : Nat → Nat) (sps : SPS) (pps : PPS)
    (nalHdr : Nat) (nalType : NaluType) (h : pps.NumSliceGroupsMinus1 = 0) :
    parseSliceHeaderFields w1 sps pps nalHdr nalType =
      parseSliceHeaderFields w2 sps pps nalHdr nalType := by
  unfold parseSliceHeaderFields
  simp only [h, gt_iff_lt, Nat.lt_irrefl, false_and, if_false]

theorem ParseSliceHeader_ceilLog2 (w1 w2 : Nat → Nat) (data : List Byte) (sps : SPS) (pps : PPS)
    (h : pps.NumSliceGroupsMinus1 = 0) :
    ParseSliceHeader w1 data sps pps = ParseSliceHeader w2 data sps pps := by
  have hb : parseSliceHeaderBody w1 sps pps = parseSliceHeaderBody w2 sps pps := by
    unfold parseSliceHeaderBody
    simp only [parseSliceHeaderFields_ceilLog2 w1 w2 sps pps _ _ h]
  unfold ParseSliceHeader
  rw [hb]

/-! ## The test inputs, evaluated -/

/-- C1. `TestSliceHeaderParserRefPicMod` expects no error and 10 bytes. On
`videoSliceDataRefPicMod` the list-0 modification flag is 1; the loop of lines
381-399 does not stop at the operation code 3, reads on to the end of the 42
bytes and `ParseSliceHeader` returns nil, 42 and the end-of-data error. -/
theorem ParseSliceHeader_RefPicMod_fails (w : Nat → Nat) :
    ParseSliceHeader w videoSliceDataRefPicMod spsTest ppsTest =
      (none, 42, some Error.ErrTooFewBits) := by
  rw [ParseSliceHeader_ceilLog2 w exactCeilLog2 _ _ _ rfl]
  decide!

/-- C2. `TestSliceHeaderParserDecRefPicMarking` expects no error and 9 bytes.
On `videoSliceDecRefPicMarking` the list-0 modification flag is 1 as well, the
loop of lines 381-399 reads on to the end of the 46 bytes and `ParseSliceHeader`
returns nil, 46 and the end-of-data error. -/
theorem ParseSliceHeader_DecRefPicMarking_fails (w : Nat → Nat) :
    ParseSliceHeader w videoSliceDecRefPicMarking spsTest ppsTest =
      (none, 46, some Error.ErrTooFewBits) := by
  rw [ParseSliceHeader_ceilLog2 w exactCeilLog2 _ _ _ rfl]
  decide!

/-- C3. P slice, bits `1 00100 11`: the list-0 flag 1, the operation code 3,
then one more record (code 0 with difference 0). `ParseRefPicListModification`
does not stop at the 3: it reads the next record, runs out of data and returns
the end-of-data error and no structure. -/
theorem ParseRefPicListModification_sentinel_not_honoured :
    (ParseRefPicListModification { SliceType := SLICE_P } (NewEBSPReader [0x93])).valueOf = none ∧
    (ParseRefPicListModification { SliceType := SLICE_P } (NewEBSPReader [0x93])).errorOf =
      some Error.ErrTooFewBits := by
  decide!

/-- C4. Non-IDR NAL (type 1), bits `1 1 010 011`: the adaptive flag 1, the
operation code 0, then one more record (code 1 with difference 2).
`ParseDecRefPicMarking` does not stop at the 0: it reads the next record, runs
out of data and returns the end-of-data error and no structure. -/
theorem ParseDecRefPicMarking_sentinel_not_honoured :
    (ParseDecRefPicMarking 1 (NewEBSPReader [0xd3])).valueOf = none ∧
    (ParseDecRefPicMarking 1 (NewEBSPReader [0xd3])).errorOf = some Error.ErrTooFewBits := by
  decide!

/-- C5. B slice, bits `0 1 1 1 00100 0000000`: the list-0 flag 0, the list-1
flag 1, one list-1 operation (code 0, difference 0) and the code 3.
`ParseRefPicListModification` succeeds with `RefPicListModificationFlagL1` set
and no entry, having consumed two bits only (six of the first byte are still
buffered, the second byte is not fetched): the list-1 operations are not
read. -/
theorem ParseRefPicListModification_list1_not_read :
    ParseRefPicListModification { SliceType := SLICE_B } (NewEBSPReader [0x72, 0x00]) =
      Res.ok { RefPicListModificationFlagL0 := false, RefPicListModificationFlagL1 := true,
               PerEntryParams := [] }
        { rd := [0x00], n := 6, v := 0x32, pos := 1, zeroCount := 0 } := by
  decide!

/-- C8. On the 9-byte sample `FF FF FF FE 01 02 03 04 05` the length field is
`2^32 - 2`; `pos + nalLength` wraps to 2, the check of line 19 passes and the
slice expression `sample[4:2]` of line 22 panics. -/
theorem GetNalusFromSample_wraps_and_panics :
    GetNalusFromSample [0xff, 0xff, 0xff, 0xfe, 0x01, 0x02, 0x03, 0x04, 0x05] =
      NalusOutcome.panic := by
  decide!

/-- C9. On `videoSliceDataPFrame` (one reference index, luma weight 127 and
luma offset 0) `ParseSliceHeader` succeeds and the stored `LumaWeightL0` is
`[127]` while the stored `LumaOffsetL0` is `[127, 0]`: one element longer, its
first element the weight. -/
theorem ParsePredWeightTable_offset_holds_weight (w : Nat → Nat) :
    ((ParseSliceHeader w videoSliceDataPFrame spsTest ppsTest).1.bind
        (fun h => h.PredWeightTable)).map (fun t => (t.LumaWeightL0, t.LumaOffsetL0)) =
      some ([127], [127, 0]) := by
  rw [ParseSliceHeader_ceilLog2 w exactCeilLog2 _ _ _ rfl]
  decide!

/-! ## Which errors can come out -/

theorem errIn_pure {α : Type} (a : α) (S : Error → Prop) : (pure a : Rd α).errIn S := by
  intro r e r1 h
  exact Res.noConfusion (h : Res.ok a r = Res.fail e r1)

theorem errIn_throw {α : Type} (e : Error) (S : Error → Prop) (h : S e) :
    (Rd.throw e : Rd α).errIn S := by
  intro r e1 r1 h1
  have h2 : Res.fail e r = Res.fail e1 r1 := h1
  injection h2 with h3 h4
  rw [← h3]; exact h

theorem errIn_bind {α β : Type} {x : Rd α} {f : α → Rd β} {S : Error → Prop}
    (hx : x.errIn S) (hf : ∀ a, (f a).errIn S) : (x >>= f).errIn S := by
  intro r e r1 h
  rw [bind_apply] at h
  cases hxr : x r with
  | ok a r2 => rw [hxr] at h; exact hf a r2 e r1 h
  | fail e2 r2 =>
    rw [hxr] at h
    injection h with h3 h4
    rw [← h3]; exact hx r e2 r2 hxr

theorem errIn_ite {α : Type} {c : Prop} [Decidable c] {x y : Rd α} {S : Error → Prop}
    (hx : x.errIn S) (hy : y.errIn S) : (if c then x else y).errIn S := by
  split
  · exact hx
  · exact hy

theorem errIn_mono {α : Type} {x : Rd α} {S T : Error → Prop}
    (hx : x.errIn S) (h : ∀ e, S e → T e) : x.errIn T :=
  fun r e r1 hr => h e (hx r e r1 hr)

theorem errIn_Read (n : Nat) : (Read n).errIn readerErr := by
  intro r e r1 h
  unfold Read at h
  split at h
  · injection h with h3 h4
    exact Or.inl h3.symm
  · exact Res.noConfusion h

theorem errIn_ReadFlag : ReadFlag.errIn readerErr := by
  unfold ReadFlag
  exact errIn_bind (errIn_Read 1) (fun _ => errIn_pure _ _)

theorem errIn_countLeadingZeros (fuel k : Nat) : (countLeadingZeros fuel k).errIn readerErr := by
  induction fuel generalizing k with
  | zero => unfold countLeadingZeros; exact errIn_throw _ _ (Or.inr rfl)
  | succ fuel ih =>
    unfold countLeadingZeros
    exact errIn_bind (errIn_Read 1) (fun _ => errIn_ite (errIn_pure _ _) (ih _))

theorem errIn_ReadExpGolomb : ReadExpGolomb.errIn readerErr := by
  intro r e r1 h
  unfold ReadExpGolomb at h
  exact errIn_bind (errIn_countLeadingZeros _ _)
    (fun _ => errIn_bind (errIn_Read _) (fun _ => errIn_pure _ _)) r e r1 h

theorem errIn_ReadSignedGolomb : ReadSignedGolomb.errIn readerErr := by
  unfold ReadSignedGolomb
  exact errIn_bind errIn_ReadExpGolomb (fun _ => errIn_ite (errIn_pure _ _) (errIn_pure _ _))

theorem errIn_rplmLoop (fuel mopni : Nat) (params : List PerEntryRefPicListModParams) :
    (rplmLoop fuel mopni params).errIn readerErr := by
  induction fuel generalizing params with
  | zero => unfold rplmLoop; exact errIn_throw _ _ (Or.inr rfl)
  | succ fuel ih =>
    unfold rplmLoop
    repeat' first
      | exact errIn_ReadExpGolomb
      | exact ih _
      | exact errIn_pure _ _
      | apply errIn_ite
      | apply errIn_bind
      | intro _

theorem errIn_ParseRefPicListModification (avcsh : SliceHeader) :
    (ParseRefPicListModification avcsh).errIn readerErr := by
  unfold ParseRefPicListModification
  repeat' first
    | exact errIn_ReadExpGolomb
    | exact errIn_ReadFlag
    | exact errIn_pure _ _
    | exact (fun r e r1 h => errIn_rplmLoop _ _ _ r e r1 h)
    | apply errIn_ite
    | apply errIn_bind
    | intro _

theorem errIn_mmcoLoop (fuel g : Nat) (params : List AdaptiveMemCtrlDecRefPicMarkingParams) :
    (mmcoLoop fuel g params).errIn readerErr := by
  induction fuel generalizing params with
  | zero => unfold mmcoLoop; exact errIn_throw _ _ (Or.inr rfl)
  | succ fuel ih =>
    unfold mmcoLoop
    repeat' first
      | exact errIn_ReadExpGolomb
      | exact ih _
      | exact errIn_pure _ _
      | apply errIn_ite
      | apply errIn_bind
      | intro _

theorem errIn_ParseDecRefPicMarking (t : NaluType) :
    (ParseDecRefPicMarking t).errIn readerErr := by
  unfold ParseDecRefPicMarking
  repeat' first
    | exact errIn_ReadFlag
    | exact errIn_pure _ _
    | exact (fun r e r1 h => errIn_mmcoLoop _ _ _ r e r1 h)
    | apply errIn_ite
    | apply errIn_bind
    | intro _

theorem errIn_chromaLoop (count : Nat) (a b : List Int) :
    (chromaLoop count a b).errIn readerErr := by
  induction count generalizing a b with
  | zero => unfold chromaLoop; exact errIn_pure _ _
  | succ count ih =>
    unfold chromaLoop
    repeat' first
      | exact errIn_ReadSignedGolomb
      | exact ih _ _
      | apply errIn_bind
      | intro _

theorem errIn_pwtLoopL0 (sps : SPS) (count : Nat) (pwt : PredWeightTable) :
    (pwtLoopL0 sps count pwt).errIn readerErr := by
  induction count generalizing pwt with
  | zero => unfold pwtLoopL0; exact errIn_pure _ _
  | succ count ih =>
    unfold pwtLoopL0
    repeat' first
      | exact errIn_ReadSignedGolomb
      | exact errIn_ReadFlag
      | exact errIn_chromaLoop _ _ _
      | exact ih _
      | exact errIn_pure _ _
      | apply errIn_ite
      | apply errIn_bind
      | intro _

theorem errIn_pwtLoopL1 (sps : SPS) (count : Nat) (pwt : PredWeightTable) :
    (pwtLoopL1 sps count pwt).errIn readerErr := by
  induction count generalizing pwt with
  | zero => unfold pwtLoopL1; exact errIn_pure _ _
  | succ count ih =>
    unfold pwtLoopL1
    repeat' first
      | exact errIn_ReadSignedGolomb
      | exact errIn_ReadFlag
      | exact errIn_chromaLoop _ _ _
      | exact ih _
      | exact errIn_pure _ _
      | apply errIn_ite
      | apply errIn_bind
      | intro _

theorem errIn_ParsePredWeightTable (sps : SPS) (avcsh : SliceHeader) :
    (ParsePredWeightTable sps avcsh).errIn readerErr := by
  unfold ParsePredWeightTable
  repeat' first
    | exact errIn_ReadExpGolomb
    | exact errIn_pwtLoopL0 _ _ _
    | exact errIn_pwtLoopL1 _ _ _
    | exact errIn_pure _ _
    | apply errIn_ite
    | apply errIn_bind
    | intro _

theorem errIn_setSliceType (k : Nat) :
    (setSliceType k).errIn (fun e => e = Error.ErrInvalidSliceType) := by
  unfold setSliceType
  repeat' first
    | exact errIn_pure _ _
    | exact errIn_throw _ _ rfl
    | apply errIn_ite

/-- For a NAL type other than 20 and 21 the header fields fail only with a
reader error or `ErrInvalidSliceType`. -/
theorem errIn_parseSliceHeaderFields (w : Nat → Nat) (sps : SPS) (pps : PPS) (nalHdr : Nat)
    (nalType : NaluType) (h20 : nalType ≠ 20) (h21 : nalType ≠ 21) :
    (parseSliceHeaderFields w sps pps nalHdr nalType).errIn fieldsErr := by
  have hsub : ∀ e, readerErr e → fieldsErr e := fun e h => Or.inl h
  have hsub2 : ∀ e, e = Error.ErrInvalidSliceType → fieldsErr e :=
    fun e h => Or.inr (Or.inl h)
  have hdiv : fieldsErr Error.DivideByZero := Or.inr (Or.inr rfl)
  have hnot : ¬ (nalType = 20 ∨ nalType = 21) := by
    intro h; cases h with
    | inl h => exact h20 h
    | inr h => exact h21 h
  unfold parseSliceHeaderFields
  simp only [if_neg hnot]
  repeat' first
    | with_reducible apply errIn_bind
    | with_reducible apply errIn_ite
    | with_reducible exact errIn_pure _ _
    | with_reducible exact errIn_throw _ _ hdiv
    | with_reducible exact errIn_mono errIn_ReadExpGolomb hsub
    | with_reducible exact errIn_mono errIn_ReadSignedGolomb hsub
    | with_reducible exact errIn_mono errIn_ReadFlag hsub
    | with_reducible exact errIn_mono (errIn_Read _) hsub
    | with_reducible exact errIn_mono (errIn_ParseRefPicListModification _) hsub
    | with_reducible exact errIn_mono (errIn_ParsePredWeightTable _ _) hsub
    | with_reducible exact errIn_mono (errIn_ParseDecRefPicMarking _) hsub
    | with_reducible exact errIn_mono (errIn_setSliceType _) hsub2
    | intro _

/-! ## The NAL header byte -/

theorem Fin_ofNat_val (b : Byte) : (Fin.ofNat b.val : Byte) = b :=
  Fin.ext (Nat.mod_eq_of_lt b.isLt)

/-- The fetch loop is done when enough bits are buffered. -/
theorem fetch_enough (want : Nat) (rd : List Byte) (n v pos zc : Nat) (h : want ≤ n) :
    fetch want rd n v pos zc =
      Except.ok { rd := rd, n := n, v := v, pos := pos, zeroCount := zc } := by
  cases rd with
  | nil => rw [fetch]; simp [h]
  | cons b rest =>
    cases rest with
    | nil => rw [fetch]; simp [h]
    | cons b2 rest2 => rw [fetch]; simp [h]

/-- Reading the first byte of a fresh reader. -/
theorem Read_8_NewEBSPReader (hdr : Byte) (rest : List Byte) :
    Read 8 (NewEBSPReader (hdr :: rest)) =
      Res.ok hdr.val { rd := rest, n := 0, v := 0, pos := 1,
                       zeroCount := if hdr.val = 0 then 1 else 0 } := by
  have hf : fetch 8 (hdr :: rest) 0 0 0 0 =
      Except.ok { rd := rest, n := 8, v := hdr.val, pos := 1,
                  zeroCount := if hdr.val = 0 then 1 else 0 } := by
    cases rest with
    | nil => rw [fetch]; simp [fetch_enough]
    | cons b2 rest2 => rw [fetch]; simp [fetch_enough]
  simp [Read, NewEBSPReader, hf, Nat.mod_one]

theorem Read_8_NewEBSPReader_nil :
    Read 8 (NewEBSPReader []) =
      Res.fail Error.ErrTooFewBits { rd := [], n := 0, v := 0, pos := 0, zeroCount := 0 } := by
  have hf : fetch 8 [] 0 0 0 0 =
      Except.error { rd := [], n := 0, v := 0, pos := 0, zeroCount := 0 } := by
    rw [fetch]; simp
  simp [Read, NewEBSPReader, hf]

/-- The body of `ParseSliceHeader` on a non-empty input, after the header
byte. -/
theorem parseSliceHeaderBody_cons (w : Nat → Nat) (sps : SPS) (pps : PPS) (hdr : Byte)
    (rest : List Byte) :
    parseSliceHeaderBody w sps pps (NewEBSPReader (hdr :: rest)) =
      if sliceHeaderExpected (GetNaluType hdr) = false then
        Res.fail Error.ErrNoSliceHeader
          { rd := rest, n := 0, v := 0, pos := 1, zeroCount := if hdr.val = 0 then 1 else 0 }
      else
        parseSliceHeaderFields w sps pps hdr.val (GetNaluType hdr)
          { rd := rest, n := 0, v := 0, pos := 1, zeroCount := if hdr.val = 0 then 1 else 0 } := by
  unfold parseSliceHeaderBody
  rw [bind_apply, Read_8_NewEBSPReader]
  simp only [Fin_ofNat_val]
  split <;> rfl

theorem sliceHeaderExpected_iff (t : NaluType) :
    sliceHeaderExpected t = true ↔ (t = 1 ∨ t = 2 ∨ t = 5 ∨ t = 19) := by
  unfold sliceHeaderExpected
  split <;> simp_all

/-! ## The byte position does not influence what is read -/

theorem fetch_nil (want n v pos zc : Nat) (h : ¬ want ≤ n) :
    fetch want [] n v pos zc =
      Except.error { rd := [], n := n, v := v * 256, pos := pos, zeroCount := zc } := by
  rw [fetch]; simp [h]

theorem fetch_escape_nil (want n v pos : Nat) (b : Byte) (h : ¬ want ≤ n) (hb : b.val = 3) :
    fetch want [b] n v pos 2 =
      Except.error { rd := [], n := n, v := v * 256, pos := pos + 1, zeroCount := 2 } := by
  rw [fetch]; simp [h, hb]

theorem fetch_escape_cons (want n v pos : Nat) (b b2 : Byte) (rest : List Byte)
    (h : ¬ want ≤ n) (hb : b.val = 3) :
    fetch want (b :: b2 :: rest) n v pos 2 =
      fetch want rest (n + 8) (v * 256 + b2.val) (pos + 2) (if b2.val = 0 then 1 else 0) := by
  conv_lhs => rw [fetch]
  simp [h, hb]

theorem fetch_two (want n v pos : Nat) (b : Byte) (rest : List Byte)
    (h : ¬ want ≤ n) (hb : ¬ b.val = 3) :
    fetch want (b :: rest) n v pos 2 =
      fetch want rest (n + 8) (v * 256 + b.val) (pos + 1) (if b.val = 0 then 1 else 0) := by
  cases rest with
  | nil => conv_lhs => rw [fetch]
           simp [h, hb]
  | cons b2 rest2 => conv_lhs => rw [fetch]
                     simp [h, hb]

theorem fetch_cons (want n v pos zc : Nat) (b : Byte) (rest : List Byte)
    (h : ¬ want ≤ n) (hz : ¬ zc = 2) :
    fetch want (b :: rest) n v pos zc =
      fetch want rest (n + 8) (v * 256 + b.val) (pos + 1) (if b.val = 0 then zc + 1 else 0) := by
  cases rest with
  | nil => conv_lhs => rw [fetch]
           simp [h, hz]
  | cons b2 rest2 => conv_lhs => rw [fetch]
                     simp [h, hz]

theorem fetch_shift (want d : Nat) (rd : List Byte) (n v pos zc : Nat) :
    fetch want rd n v (pos + d) zc = shiftExcept d (fetch want rd n v pos zc) := by
  induction rd, n, v, pos, zc using fetch.induct want with
  | case1 rd n v pos zc h => simp [fetch_enough _ _ _ _ _ _ h, shiftExcept, EBSPReader.shift]
  | case2 n v pos zc h => simp [fetch_nil _ _ _ _ _ h, shiftExcept, EBSPReader.shift]
  | case3 n v pos h b hb =>
    simp [fetch_escape_nil _ _ _ _ _ h hb, shiftExcept, EBSPReader.shift, Nat.add_right_comm]
  | case4 n v pos h b hb b2 rest ih =>
    rw [fetch_escape_cons _ _ _ _ _ _ _ h hb, fetch_escape_cons _ _ _ _ _ _ _ h hb, ← ih]
    congr 1; omega
  | case5 n v pos h b rest hb ih =>
    rw [fetch_two _ _ _ _ _ _ h hb, fetch_two _ _ _ _ _ _ h hb, ← ih]
    congr 1; omega
  | case6 n v pos zc h b rest hz ih =>
    rw [fetch_cons _ _ _ _ _ _ _ h hz, fetch_cons _ _ _ _ _ _ _ h hz, ← ih]
    congr 1; omega

theorem Read_shift (n d : Nat) (r : EBSPReader) :
    Read n (r.shift d) = (Read n r).shift d := by
  unfold Read
  simp only [EBSPReader.shift]
  rw [fetch_shift]
  cases fetch n r.rd r.n r.v r.pos r.zeroCount <;> simp [shiftExcept, Res.shift, EBSPReader.shift]

theorem bind_shift {α β : Type} (x : Rd α) (f : α → Rd β) (d : Nat)
    (hx : ∀ r, x (r.shift d) = (x r).shift d)
    (hf : ∀ a r, f a (r.shift d) = (f a r).shift d) (r : EBSPReader) :
    (x >>= f) (r.shift d) = ((x >>= f) r).shift d := by
  rw [bind_apply, bind_apply, hx]
  cases x r with
  | ok a r1 => simp only [Res.shift]; exact hf a r1
  | fail e r1 => simp only [Res.shift]

theorem countLeadingZeros_shift (fuel k d : Nat) (r : EBSPReader) :
    countLeadingZeros fuel k (r.shift d) = (countLeadingZeros fuel k r).shift d := by
  induction fuel generalizing k r with
  | zero => simp [countLeadingZeros, Res.shift]
  | succ fuel ih =>
    unfold countLeadingZeros
    apply bind_shift
    · exact Read_shift 1 d
    · intro a r1
      split
      · simp [Res.shift]
      · exact ih _ _

theorem ReadExpGolomb_shift (d : Nat) (r : EBSPReader) :
    ReadExpGolomb (r.shift d) = (ReadExpGolomb r).shift d := by
  unfold ReadExpGolomb
  have hb : (r.shift d).bitsLeft = r.bitsLeft := rfl
  rw [hb]
  apply bind_shift
  · exact countLeadingZeros_shift _ _ d
  · intro a r1
    apply bind_shift
    · exact Read_shift _ d
    · intro b r2; simp [Res.shift]


/-! ## The NAL-type check of `ParseSliceHeader` -/

theorem slice_nal_ne (t : Nat) (h : t = 1 ∨ t = 2 ∨ t = 5 ∨ t = 19) : t ≠ 20 ∧ t ≠ 21 := by
  omega

theorem ParseSliceHeader_nil (w : Nat → Nat) (sps : SPS) (pps : PPS) :
    ParseSliceHeader w [] sps pps = (none, 0, some Error.ErrTooFewBits) := by
  unfold ParseSliceHeader parseSliceHeaderBody
  rw [bind_apply, Read_8_NewEBSPReader_nil]
  rfl

theorem ParseSliceHeader_not_expected (w : Nat → Nat) (sps : SPS) (pps : PPS) (hdr : Byte)
    (rest : List Byte) (h : sliceHeaderExpected (GetNaluType hdr) = false) :
    ParseSliceHeader w (hdr :: rest) sps pps = (none, 1, some Error.ErrNoSliceHeader) := by
  unfold ParseSliceHeader
  rw [parseSliceHeaderBody_cons, if_pos h]
  rfl

theorem ParseSliceHeader_expected (w : Nat → Nat) (sps : SPS) (pps : PPS) (hdr : Byte)
    (rest : List Byte) (h : sliceHeaderExpected (GetNaluType hdr) = true) (e : Error)
    (he : (ParseSliceHeader w (hdr :: rest) sps pps).2.2 = some e) : fieldsErr e := by
  have ht := slice_nal_ne _ ((sliceHeaderExpected_iff _).1 h)
  have h20 : GetNaluType hdr ≠ 20 := ht.1
  have h21 : GetNaluType hdr ≠ 21 := ht.2
  unfold ParseSliceHeader at he
  rw [parseSliceHeaderBody_cons, if_neg (by simp [h])] at he
  cases hf : parseSliceHeaderFields w sps pps hdr.val (GetNaluType hdr)
      { rd := rest, n := 0, v := 0, pos := 1, zeroCount := if hdr.val = 0 then 1 else 0 } with
  | ok a r1 => rw [hf] at he; simp at he
  | fail e1 r1 =>
    rw [hf] at he
    simp at he
    rw [← he.2]
    exact errIn_parseSliceHeaderFields w sps pps _ _ h20 h21 _ _ _ hf

theorem fieldsErr_ne (e : Error) (h : fieldsErr e) :
    e ≠ Error.ErrNoSliceHeader ∧ e ≠ Error.ErrParserNotImplemented := by
  unfold fieldsErr readerErr at h
  rcases h with (h | h) | h | h <;> subst h <;> exact ⟨by decide, by decide⟩

/-- C6 (as amended). A NAL unit of type 20 or 21 is rejected by the NAL-type
check of lines 187-189: `ParseSliceHeader` returns nil, one consumed byte and
`ErrNoSliceHeader`; and on no input at all does `ParseSliceHeader` return
`ErrParserNotImplemented`. -/
theorem ParseSliceHeader_mvc_is_ErrNoSliceHeader (w : Nat → Nat) (sps : SPS) (pps : PPS)
    (hdr : Byte) (rest : List Byte) (h : GetNaluType hdr = 20 ∨ GetNaluType hdr = 21) :
    ParseSliceHeader w (hdr :: rest) sps pps = (none, 1, some Error.ErrNoSliceHeader) ∧
    ∀ data : List Byte,
      (ParseSliceHeader w data sps pps).2.2 ≠ some Error.ErrParserNotImplemented := by
  constructor
  · apply ParseSliceHeader_not_expected
    cases hx : sliceHeaderExpected (GetNaluType hdr) with
    | false => rfl
    | true =>
      have h2 := slice_nal_ne _ ((sliceHeaderExpected_iff _).1 hx)
      rcases h with h | h
      · exact absurd h h2.1
      · exact absurd h h2.2
  · intro data
    cases data with
    | nil => rw [ParseSliceHeader_nil]; simp
    | cons b tl =>
      cases hx : sliceHeaderExpected (GetNaluType b) with
      | false => rw [ParseSliceHeader_not_expected w sps pps b tl hx]; simp
      | true =>
        intro he
        exact (fieldsErr_ne _ (ParseSliceHeader_expected w sps pps b tl hx _ he)).2 rfl

/-- C6, witness: the NAL `74 9a 38 ...` of type 20. -/
theorem ParseSliceHeader_mvc_is_ErrNoSliceHeader_witness :
    (GetNaluType 0x74 = 20 ∨ GetNaluType 0x74 = 21) ∧
    ParseSliceHeader exactCeilLog2 mvcSliceData spsTest ppsTest =
      (none, 1, some Error.ErrNoSliceHeader) :=
  ⟨by decide,
   (ParseSliceHeader_mvc_is_ErrNoSliceHeader exactCeilLog2 spsTest ppsTest 0x74
      mvcSliceData.tail (by decide)).1⟩

/-- C6, counterexample to the claim as stated: `mvcSliceData` is a NAL of type 20
whose header fields up to the reference-index overrides can be read (lines
191-296 run on the bytes after the header reach the branch of line 295), and
`ParseSliceHeader` returns `ErrNoSliceHeader`, not `ErrParserNotImplemented`. -/
theorem ParseSliceHeader_mvc_counterexample :
    GetNaluType 0x74 = 20 ∧
    (parseSliceHeaderFields exactCeilLog2 spsTest ppsTest 0x74 20
        { rd := mvcSliceData.tail, n := 0, v := 0, pos := 1, zeroCount := 0 }).errorOf =
      some Error.ErrParserNotImplemented ∧
    (ParseSliceHeader exactCeilLog2 mvcSliceData spsTest ppsTest).2.2 ≠
      some Error.ErrParserNotImplemented := by
  decide!

/-- C7. `ErrNoSliceHeader` is returned exactly for the NAL types other than 1,
2, 5 and 19: by `ParseSliceHeader` on every non-empty input and by
`GetSliceTypeFromNALU` on every input of at least two bytes. -/
theorem ErrNoSliceHeader_iff (w : Nat → Nat) (sps : SPS) (pps : PPS) (hdr b : Byte)
    (rest tl : List Byte) :
    ((ParseSliceHeader w (hdr :: rest) sps pps).2.2 = some Error.ErrNoSliceHeader ↔
      ¬ (GetNaluType hdr = 1 ∨ GetNaluType hdr = 2 ∨ GetNaluType hdr = 5 ∨
          GetNaluType hdr = 19)) ∧
    ((GetSliceTypeFromNALU (hdr :: b :: tl)).2 = some Error.ErrNoSliceHeader ↔
      ¬ (GetNaluType hdr = 1 ∨ GetNaluType hdr = 2 ∨ GetNaluType hdr = 5 ∨
          GetNaluType hdr = 19)) := by
  constructor
  · cases hx : sliceHeaderExpected (GetNaluType hdr) with
    | false =>
      rw [ParseSliceHeader_not_expected w sps pps hdr rest hx]
      have hn : ¬ (GetNaluType hdr = 1 ∨ GetNaluType hdr = 2 ∨ GetNaluType hdr = 5 ∨
          GetNaluType hdr = 19) := by
        intro hc
        rw [(sliceHeaderExpected_iff _).2 hc] at hx
        exact Bool.noConfusion hx
      simp [hn]
    | true =>
      have ht := (sliceHeaderExpected_iff _).1 hx
      constructor
      · intro he
        exact absurd rfl (fieldsErr_ne _ (ParseSliceHeader_expected w sps pps hdr rest hx _ he)).1
      · intro hn
        exact absurd ht hn
  · by_cases ht : GetNaluType hdr = 1 ∨ GetNaluType hdr = 2 ∨ GetNaluType hdr = 5 ∨
        GetNaluType hdr = 19
    · have key : (GetSliceTypeFromNALU (hdr :: b :: tl)).2 ≠ some Error.ErrNoSliceHeader := by
        simp only [GetSliceTypeFromNALU, if_pos ht]
        cases h1 : ReadExpGolomb (NewEBSPReader (b :: tl)) with
        | fail e r1 =>
          have := errIn_ReadExpGolomb _ _ _ h1
          unfold readerErr at this
          rcases this with h | h <;> subst h <;> simp
        | ok mb r1 =>
          dsimp only
          cases h2 : ReadExpGolomb r1 with
          | fail e r2 =>
            have := errIn_ReadExpGolomb _ _ _ h2
            unfold readerErr at this
            rcases this with h | h <;> subst h <;> simp
          | ok st r2 =>
            dsimp only
            split
            · simp
            · split <;> simp
      exact ⟨fun h => absurd h key, fun hn => absurd ht hn⟩
    · simp [GetSliceTypeFromNALU, if_neg ht, ht]


/-! ## Slice-type folding -/

theorem okIn_pure {α : Type} (a : α) (Q : α → Prop) (h : Q a) : (pure a : Rd α).okIn Q := by
  intro r b r1 hb
  have h2 : Res.ok a r = Res.ok b r1 := hb
  injection h2 with h3 h4
  rw [← h3]; exact h

theorem okIn_throw {α : Type} (e : Error) (Q : α → Prop) : (Rd.throw e : Rd α).okIn Q := by
  intro r b r1 hb
  exact Res.noConfusion (hb : Res.fail e r = Res.ok b r1)

theorem okIn_bind {α β : Type} {x : Rd α} {f : α → Rd β} {Q : β → Prop}
    (hf : ∀ a, (f a).okIn Q) : (x >>= f).okIn Q := by
  intro r b r1 h
  rw [bind_apply] at h
  cases hxr : x r with
  | ok a r2 => rw [hxr] at h; exact hf a r2 b r1 h
  | fail e2 r2 => rw [hxr] at h; exact Res.noConfusion h

theorem okIn_ite {α : Type} {c : Prop} [Decidable c] {x y : Rd α} {Q : α → Prop}
    (hx : x.okIn Q) (hy : y.okIn Q) : (if c then x else y).okIn Q := by
  split
  · exact hx
  · exact hy

theorem setSliceType_le9 (k : Nat) (h : k ≤ 9) (r : EBSPReader) :
    setSliceType k r = Res.ok (k % 5) r := by
  unfold setSliceType
  rw [if_neg (by omega)]
  split
  · have : k - 5 = k % 5 := by omega
    rw [this]; rfl
  · have : k = k % 5 := by omega
    rw [← this]; rfl

/-- Once the first two codes of the header are read and the second is at most
9, the header that comes out has the folded slice type, and for a NAL type
other than 20 and 21 what fails afterwards is a read. -/
theorem parseSliceHeaderFields_sliceType (w : Nat → Nat) (sps : SPS) (pps : PPS) (nalHdr : Nat)
    (nalType : NaluType) (r r1 r2 : EBSPReader) (mb k : Nat)
    (hmb : ReadExpGolomb r = Res.ok mb r1) (hk : ReadExpGolomb r1 = Res.ok k r2) (hk9 : k ≤ 9) :
    (∀ h r3, parseSliceHeaderFields w sps pps nalHdr nalType r = Res.ok h r3 →
      h.SliceType = k % 5) ∧
    (nalType ≠ 20 → nalType ≠ 21 →
      ∀ e r3, parseSliceHeaderFields w sps pps nalHdr nalType r = Res.fail e r3 →
        readerErr e ∨ e = Error.DivideByZero) := by
  unfold parseSliceHeaderFields
  rw [bind_apply, hmb]
  dsimp only
  rw [bind_apply, hk]
  dsimp only
  rw [bind_apply, setSliceType_le9 k hk9]
  dsimp only
  constructor
  · refine (?_ : Rd.okIn _ (fun h : SliceHeader => h.SliceType = k % 5)) r2
    repeat' first
      | with_reducible apply okIn_bind
      | with_reducible apply okIn_ite
      | with_reducible exact okIn_throw _ _
      | with_reducible exact okIn_pure _ _ rfl
      | intro _
  · intro h20 h21
    have hnot : ¬ (nalType = 20 ∨ nalType = 21) := by
      intro h; cases h with
      | inl h => exact h20 h
      | inr h => exact h21 h
    simp only [if_neg hnot]
    have hsub : ∀ e, readerErr e → readerErr e ∨ e = Error.DivideByZero := fun _ h => Or.inl h
    refine (?_ : Rd.errIn _ (fun e => readerErr e ∨ e = Error.DivideByZero)) r2
    repeat' first
      | with_reducible apply errIn_bind
      | with_reducible apply errIn_ite
      | with_reducible exact errIn_pure _ _
      | with_reducible exact errIn_throw _ _ (Or.inr rfl)
      | with_reducible exact errIn_mono errIn_ReadExpGolomb hsub
      | with_reducible exact errIn_mono errIn_ReadSignedGolomb hsub
      | with_reducible exact errIn_mono errIn_ReadFlag hsub
      | with_reducible exact errIn_mono (errIn_Read _) hsub
      | with_reducible exact errIn_mono (errIn_ParseRefPicListModification _) hsub
      | with_reducible exact errIn_mono (errIn_ParsePredWeightTable _ _) hsub
      | with_reducible exact errIn_mono (errIn_ParseDecRefPicMarking _) hsub
      | intro _

theorem ReadExpGolomb_nil_fails (a : Nat) (r : EBSPReader) :
    ReadExpGolomb (NewEBSPReader []) ≠ Res.ok a r := by
  have h : (ReadExpGolomb (NewEBSPReader [])).errorOf = some Error.ErrTooFewBits := by decide!
  intro hc
  rw [hc] at h
  exact Option.noConfusion h

theorem mod32_slice_ne_zero (x : Nat)
    (h : x % 32 = 1 ∨ x % 32 = 2 ∨ x % 32 = 5 ∨ x % 32 = 19) : x ≠ 0 := by
  omega

theorem slice_nal_header_ne_zero (hdr : Byte)
    (h : GetNaluType hdr = 1 ∨ GetNaluType hdr = 2 ∨ GetNaluType hdr = 5 ∨ GetNaluType hdr = 19) :
    hdr.val ≠ 0 :=
  mod32_slice_ne_zero hdr.val h

/-- Every successful result of `GetSliceTypeFromNALU` lies in 0..4. -/
theorem GetSliceTypeFromNALU_le4 (data : List Byte) (st : Nat)
    (h : GetSliceTypeFromNALU data = (st, none)) : st ≤ 4 := by
  cases data with
  | nil => simp [GetSliceTypeFromNALU] at h
  | cons hdr tl =>
    cases tl with
    | nil => simp [GetSliceTypeFromNALU] at h
    | cons b tl2 =>
      simp only [GetSliceTypeFromNALU] at h
      by_cases ht : GetNaluType hdr = 1 ∨ GetNaluType hdr = 2 ∨ GetNaluType hdr = 5 ∨
          GetNaluType hdr = 19
      · rw [if_pos ht] at h
        cases h1 : ReadExpGolomb (NewEBSPReader (b :: tl2)) with
        | fail e r1 => rw [h1] at h; simp at h
        | ok mb r1 =>
          rw [h1] at h
          dsimp only at h
          cases h2 : ReadExpGolomb r1 with
          | fail e r2 => rw [h2] at h; simp at h
          | ok k r2 =>
            rw [h2] at h
            dsimp only at h
            by_cases h9 : k > 9
            · rw [if_pos h9] at h; simp at h
            · rw [if_neg h9] at h
              by_cases h5 : k ≥ 5
              · rw [if_pos h5] at h
                have h6 : k - 5 = st := congrArg Prod.fst h
                omega
              · rw [if_neg h5] at h
                have h6 : k = st := congrArg Prod.fst h
                omega
      · rw [if_neg ht] at h; simp at h

/-- C10. For a slice NAL whose slice_type code `k` (the second Exp-Golomb code
after the header byte) is at most 9, `GetSliceTypeFromNALU` succeeds with
`k mod 5`; every successful result of `GetSliceTypeFromNALU` is at most 4;
`ParseSliceHeader` does not reject the slice type and every header it returns
has `SliceType = k mod 5`. -/
theorem sliceType_folding (w : Nat → Nat) (sps : SPS) (pps : PPS) (hdr : Byte)
    (rest : List Byte) (mb k : Nat) (r1 r2 : EBSPReader)
    (hty : GetNaluType hdr = 1 ∨ GetNaluType hdr = 2 ∨ GetNaluType hdr = 5 ∨
      GetNaluType hdr = 19)
    (hmb : ReadExpGolomb (NewEBSPReader rest) = Res.ok mb r1)
    (hk : ReadExpGolomb r1 = Res.ok k r2) (hk9 : k ≤ 9) :
    GetSliceTypeFromNALU (hdr :: rest) = (k % 5, none) ∧
    (∀ (data : List Byte) (st : Nat), GetSliceTypeFromNALU data = (st, none) → st ≤ 4) ∧
    (ParseSliceHeader w (hdr :: rest) sps pps).2.2 ≠ some Error.ErrInvalidSliceType ∧
    (∀ (h : SliceHeader) (n : Nat),
      ParseSliceHeader w (hdr :: rest) sps pps = (some h, n, none) → h.SliceType = k % 5) := by
  have hz : hdr.val ≠ 0 := slice_nal_header_ne_zero hdr hty
  have hexp : sliceHeaderExpected (GetNaluType hdr) = true := (sliceHeaderExpected_iff _).2 hty
  have hne := slice_nal_ne _ hty
  have hr : ({ rd := rest, n := 0, v := 0, pos := 1,
               zeroCount := if hdr.val = 0 then 1 else 0 } : EBSPReader) =
      (NewEBSPReader rest).shift 1 := by
    simp [NewEBSPReader, EBSPReader.shift, hz]
  have hmb1 : ReadExpGolomb ((NewEBSPReader rest).shift 1) = Res.ok mb (r1.shift 1) := by
    rw [ReadExpGolomb_shift, hmb]; rfl
  have hk1 : ReadExpGolomb (r1.shift 1) = Res.ok k (r2.shift 1) := by
    rw [ReadExpGolomb_shift, hk]; rfl
  have hfields := parseSliceHeaderFields_sliceType w sps pps hdr.val (GetNaluType hdr)
    _ _ _ mb k hmb1 hk1 hk9
  have hbody : parseSliceHeaderBody w sps pps (NewEBSPReader (hdr :: rest)) =
      parseSliceHeaderFields w sps pps hdr.val (GetNaluType hdr) ((NewEBSPReader rest).shift 1) := by
    rw [parseSliceHeaderBody_cons, if_neg (by simp [hexp]), hr]
  refine ⟨?_, GetSliceTypeFromNALU_le4, ?_, ?_⟩
  · cases rest with
    | nil => exact absurd hmb (ReadExpGolomb_nil_fails _ _)
    | cons b tl =>
      simp only [GetSliceTypeFromNALU, if_pos hty, hmb, hk]
      rw [if_neg (by omega)]
      split
      · have : k - 5 = k % 5 := by omega
        rw [this]
      · have : k = k % 5 := by omega
        rw [← this]
  · unfold ParseSliceHeader
    rw [hbody]
    cases hf : parseSliceHeaderFields w sps pps hdr.val (GetNaluType hdr)
        ((NewEBSPReader rest).shift 1) with
    | ok a r3 => simp
    | fail e r3 =>
      have he := hfields.2 hne.1 hne.2 e r3 hf
      unfold readerErr at he
      rcases he with (he | he) | he <;> subst he <;> simp
  · intro h n hp
    unfold ParseSliceHeader at hp
    rw [hbody] at hp
    cases hf : parseSliceHeaderFields w sps pps hdr.val (GetNaluType hdr)
        ((NewEBSPReader rest).shift 1) with
    | ok a r3 =>
      rw [hf] at hp
      simp at hp
      rw [← hp.1]
      exact hfields.1 a r3 hf
    | fail e r3 =>
      rw [hf] at hp
      simp at hp

/-- C10, witness: `videoSliceDataPFrame`, NAL type 1, first_mb_in_slice 0 and
slice_type code 5; `ParseSliceHeader` returns a header on it. -/
theorem sliceType_folding_witness :
    GetSliceTypeFromNALU videoSliceDataPFrame = (0, none) ∧
    ((ParseSliceHeader exactCeilLog2 videoSliceDataPFrame spsTest ppsTest).1.map
      (fun h => h.SliceType)) = some 0 :=
  have hw := sliceType_folding exactCeilLog2 spsTest ppsTest 0x41 videoSliceDataPFrame.tail 0 5
    (ReadExpGolomb (NewEBSPReader videoSliceDataPFrame.tail)).reader
    (ReadExpGolomb (ReadExpGolomb (NewEBSPReader videoSliceDataPFrame.tail)).reader).reader
    (by decide) (by decide!) (by decide!) (by decide)
  ⟨hw.1, by decide!⟩

/-! ## `GetSliceTypeFromNALU` on a slice NAL -/

/-- What `GetSliceTypeFromNALU` returns once the two codes are read. -/
theorem GetSliceTypeFromNALU_read (hdr : Byte) (rest : List Byte) (mb k : Nat)
    (r1 r2 : EBSPReader)
    (hty : GetNaluType hdr = 1 ∨ GetNaluType hdr = 2 ∨ GetNaluType hdr = 5 ∨
      GetNaluType hdr = 19)
    (hmb : ReadExpGolomb (NewEBSPReader rest) = Res.ok mb r1)
    (hk : ReadExpGolomb r1 = Res.ok k r2) :
    GetSliceTypeFromNALU (hdr :: rest) =
      if k > 9 then (k, some Error.ErrInvalidSliceType)
      else if k ≥ 5 then (k - 5, none) else (k, none) := by
  cases rest with
  | nil => exact absurd hmb (ReadExpGolomb_nil_fails _ _)
  | cons b tl => simp only [GetSliceTypeFromNALU, if_pos hty, hmb, hk]

/-- C11. For a slice NAL (type 1, 2, 5 or 19) whose first_mb_in_slice code and
slice_type code `k` are read, `GetSliceTypeFromNALU` returns
`ErrInvalidSliceType` exactly when `k > 9`, and returns no error at all when
`k ≤ 9`. -/
theorem ErrInvalidSliceType_iff (hdr : Byte) (rest : List Byte) (mb k : Nat)
    (r1 r2 : EBSPReader)
    (hty : GetNaluType hdr = 1 ∨ GetNaluType hdr = 2 ∨ GetNaluType hdr = 5 ∨
      GetNaluType hdr = 19)
    (hmb : ReadExpGolomb (NewEBSPReader rest) = Res.ok mb r1)
    (hk : ReadExpGolomb r1 = Res.ok k r2) :
    ((GetSliceTypeFromNALU (hdr :: rest)).2 = some Error.ErrInvalidSliceType ↔ k > 9) ∧
    (k ≤ 9 → (GetSliceTypeFromNALU (hdr :: rest)).2 = none) := by
  rw [GetSliceTypeFromNALU_read hdr rest mb k r1 r2 hty hmb hk]
  by_cases h9 : k > 9
  · rw [if_pos h9]
    exact ⟨⟨fun _ => h9, fun _ => rfl⟩, fun h => absurd h9 (by omega)⟩
  · rw [if_neg h9]
    by_cases h5 : k ≥ 5
    · rw [if_pos h5]
      exact ⟨⟨fun h => Option.noConfusion h, fun h => absurd h h9⟩, fun _ => rfl⟩
    · rw [if_neg h5]
      exact ⟨⟨fun h => Option.noConfusion h, fun h => absurd h h9⟩, fun _ => rfl⟩

/-- C11, witness: the NAL `41 8b` with slice_type code 10 is rejected. -/
theorem ErrInvalidSliceType_iff_witness :
    (GetSliceTypeFromNALU invalidSliceTypeData).2 = some Error.ErrInvalidSliceType :=
  (ErrInvalidSliceType_iff 0x41 [0x8b] 0 10
    (ReadExpGolomb (NewEBSPReader [0x8b])).reader
    (ReadExpGolomb (ReadExpGolomb (NewEBSPReader [0x8b])).reader).reader
    (by decide) (by decide!) (by decide!)).1.2 (by decide)

/-- C12. `TestSliceTypeParser`: on `videoNaluStart` `GetSliceTypeFromNALU`
returns `SLICE_I` and no error. -/
theorem GetSliceTypeFromNALU_videoNaluStart :
    GetSliceTypeFromNALU videoNaluStart = (SLICE_I, none) := by
  decide!

/-! ## Every read uses up bits -/

/-- Fetching never adds readable bits, and on success enough are buffered. -/
theorem fetch_bitsLeft (want : Nat) (rd : List Byte) (n v pos zc : Nat) :
    match fetch want rd n v pos zc with
    | Except.ok r1 => r1.bitsLeft ≤ 8 * rd.length + n ∧ want ≤ r1.n
    | Except.error r1 => r1.bitsLeft ≤ 8 * rd.length + n := by
  induction rd, n, v, pos, zc using fetch.induct want with
  | case1 rd n v pos zc h =>
    rw [fetch_enough _ _ _ _ _ _ h]
    exact ⟨Nat.le_refl _, h⟩
  | case2 n v pos zc h =>
    rw [fetch_nil _ _ _ _ _ h]
    exact Nat.le_refl _
  | case3 n v pos h b hb =>
    rw [fetch_escape_nil _ _ _ _ _ h hb]
    simp [EBSPReader.bitsLeft]
  | case4 n v pos h b hb b2 rest ih =>
    rw [fetch_escape_cons _ _ _ _ _ _ _ h hb]
    revert ih
    cases fetch want rest (n + 8) (v * 256 + b2.val) (pos + 2) (if b2.val = 0 then 1 else 0) with
    | ok r1 => intro ih; simp only [List.length_cons] at *; exact ⟨by omega, ih.2⟩
    | error r1 => intro ih; simp only [List.length_cons] at *; omega
  | case5 n v pos h b rest hb ih =>
    rw [fetch_two _ _ _ _ _ _ h hb]
    revert ih
    cases fetch want rest (n + 8) (v * 256 + b.val) (pos + 1) (if b.val = 0 then 1 else 0) with
    | ok r1 => intro ih; simp only [List.length_cons] at *; exact ⟨by omega, ih.2⟩
    | error r1 => intro ih; simp only [List.length_cons] at *; omega
  | case6 n v pos zc h b rest hz ih =>
    rw [fetch_cons _ _ _ _ _ _ _ h hz]
    revert ih
    cases fetch want rest (n + 8) (v * 256 + b.val) (pos + 1)
        (if b.val = 0 then zc + 1 else 0) with
    | ok r1 => intro ih; simp only [List.length_cons] at *; exact ⟨by omega, ih.2⟩
    | error r1 => intro ih; simp only [List.length_cons] at *; omega

/-- A successful `Read k` uses up at least `k` of the readable bits. -/
theorem Read_ok_bitsLeft (k : Nat) (r r1 : EBSPReader) (a : Nat)
    (h : Read k r = Res.ok a r1) : r1.bitsLeft + k ≤ r.bitsLeft := by
  unfold Read at h
  have hf := fetch_bitsLeft k r.rd r.n r.v r.pos r.zeroCount
  cases hx : fetch k r.rd r.n r.v r.pos r.zeroCount with
  | error r2 => rw [hx] at h; exact Res.noConfusion h
  | ok r2 =>
    rw [hx] at h hf
    injection h with h1 h2
    rw [← h2]
    simp only [EBSPReader.bitsLeft] at *
    omega

/-- A failed `Read` is the end-of-data error and adds no readable bits. -/
theorem Read_fail_bitsLeft (k : Nat) (r r1 : EBSPReader) (e : Error)
    (h : Read k r = Res.fail e r1) : e = Error.ErrTooFewBits ∧ r1.bitsLeft ≤ r.bitsLeft := by
  unfold Read at h
  have hf := fetch_bitsLeft k r.rd r.n r.v r.pos r.zeroCount
  cases hx : fetch k r.rd r.n r.v r.pos r.zeroCount with
  | error r2 =>
    rw [hx] at h hf
    injection h with h1 h2
    rw [← h2]
    exact ⟨h1.symm, hf⟩
  | ok r2 => rw [hx] at h; exact Res.noConfusion h

/-- With a budget above the readable bits the leading-zero loop never runs out
of budget: it succeeds having used up at least one bit, or fails with the
end-of-data error. -/
theorem countLeadingZeros_bitsLeft (fuel : Nat) :
    ∀ (k : Nat) (r : EBSPReader), r.bitsLeft < fuel →
      (∀ a r1, countLeadingZeros fuel k r = Res.ok a r1 → r1.bitsLeft < r.bitsLeft) ∧
      (∀ e r1, countLeadingZeros fuel k r = Res.fail e r1 →
        e = Error.ErrTooFewBits ∧ r1.bitsLeft ≤ r.bitsLeft) := by
  induction fuel with
  | zero => intro k r h; exact absurd h (Nat.not_lt_zero _)
  | succ fuel ih =>
    intro k r hfuel
    unfold countLeadingZeros
    rw [bind_apply]
    cases hx : Read 1 r with
    | fail e r1 =>
      have hr := Read_fail_bitsLeft 1 r r1 e hx
      constructor
      · intro a r2 h; exact Res.noConfusion h
      · intro e2 r2 h
        injection h with h1 h2
        rw [← h1, ← h2]; exact hr
    | ok b r1 =>
      have hr := Read_ok_bitsLeft 1 r r1 b hx
      dsimp only
      by_cases hb : b = 1
      · rw [if_pos hb]
        constructor
        · intro a r2 h
          injection h with h1 h2
          rw [← h2]; omega
        · intro e2 r2 h; exact Res.noConfusion h
      · rw [if_neg hb]
        have hi := ih (k + 1) r1 (by omega)
        constructor
        · intro a r2 h
          have := hi.1 a r2 h
          omega
        · intro e2 r2 h
          have := hi.2 e2 r2 h
          exact ⟨this.1, by omega⟩

/-- `ReadExpGolomb` succeeds having used up at least one bit. -/
theorem ReadExpGolomb_ok_bitsLeft (r r1 : EBSPReader) (a : Nat)
    (h : ReadExpGolomb r = Res.ok a r1) : r1.bitsLeft < r.bitsLeft := by
  unfold ReadExpGolomb at h
  rw [bind_apply] at h
  have hc := countLeadingZeros_bitsLeft (r.bitsLeft + 1) 0 r (Nat.lt_succ_self _)
  cases hx : countLeadingZeros (r.bitsLeft + 1) 0 r with
  | fail e r2 => rw [hx] at h; exact Res.noConfusion h
  | ok lz r2 =>
    rw [hx] at h
    dsimp only at h
    rw [bind_apply] at h
    have h2 := hc.1 lz r2 hx
    cases hy : Read lz r2 with
    | fail e r3 => rw [hy] at h; exact Res.noConfusion h
    | ok x r3 =>
      rw [hy] at h
      have h3 := Read_ok_bitsLeft lz r2 r3 x hy
      injection h with h4 h5
      rw [← h5]; omega

/-- `ReadExpGolomb` fails with the end-of-data error only. -/
theorem ReadExpGolomb_fail_bitsLeft (r r1 : EBSPReader) (e : Error)
    (h : ReadExpGolomb r = Res.fail e r1) :
    e = Error.ErrTooFewBits ∧ r1.bitsLeft ≤ r.bitsLeft := by
  unfold ReadExpGolomb at h
  rw [bind_apply] at h
  have hc := countLeadingZeros_bitsLeft (r.bitsLeft + 1) 0 r (Nat.lt_succ_self _)
  cases hx : countLeadingZeros (r.bitsLeft + 1) 0 r with
  | fail e2 r2 =>
    rw [hx] at h
    injection h with h1 h2
    rw [← h1, ← h2]
    exact hc.2 e2 r2 hx
  | ok lz r2 =>
    rw [hx] at h
    dsimp only at h
    rw [bind_apply] at h
    have h2 := hc.1 lz r2 hx
    cases hy : Read lz r2 with
    | fail e3 r3 =>
      rw [hy] at h
      have h3 := Read_fail_bitsLeft lz r2 r3 e3 hy
      injection h with h4 h5
      rw [← h4, ← h5]
      exact ⟨h3.1, by omega⟩
    | ok x r3 => rw [hy] at h; exact Res.noConfusion h

/-! ## Carrying a relation on readers through the parsers -/

theorem keeps_pure_of {α : Type} {R : EBSPReader → EBSPReader → Prop} {S : Error → Prop}
    (hrefl : ∀ r, R r r) (a : α) : Rd.keeps R S (pure a : Rd α) := by
  intro r
  constructor
  · intro b r1 h
    have h2 : Res.ok a r = Res.ok b r1 := h
    injection h2 with h3 h4
    rw [← h4]; exact hrefl r
  · intro e r1 h
    exact Res.noConfusion (h : Res.ok a r = Res.fail e r1)

theorem keeps_throw_of {α : Type} {R : EBSPReader → EBSPReader → Prop} {S : Error → Prop}
    (hrefl : ∀ r, R r r) (e : Error) (he : S e) : Rd.keeps R S (Rd.throw e : Rd α) := by
  intro r
  constructor
  · intro b r1 h
    exact Res.noConfusion (h : Res.fail e r = Res.ok b r1)
  · intro e1 r1 h
    have h2 : Res.fail e r = Res.fail e1 r1 := h
    injection h2 with h3 h4
    rw [← h3, ← h4]; exact ⟨hrefl r, he⟩

theorem keeps_bind_of {α β : Type} {R : EBSPReader → EBSPReader → Prop} {S : Error → Prop}
    (htrans : ∀ a b c, R a b → R b c → R a c) {x : Rd α} {f : α → Rd β}
    (hx : Rd.keeps R S x) (hf : ∀ a, Rd.keeps R S (f a)) : Rd.keeps R S (x >>= f) := by
  intro r
  constructor
  · intro b r2 h
    rw [bind_apply] at h
    cases hxr : x r with
    | ok a r1 =>
      rw [hxr] at h
      exact htrans _ _ _ ((hx r).1 a r1 hxr) ((hf a r1).1 b r2 h)
    | fail e r1 => rw [hxr] at h; exact Res.noConfusion h
  · intro e r2 h
    rw [bind_apply] at h
    cases hxr : x r with
    | ok a r1 =>
      rw [hxr] at h
      have h2 := (hf a r1).2 e r2 h
      exact ⟨htrans _ _ _ ((hx r).1 a r1 hxr) h2.1, h2.2⟩
    | fail e1 r1 =>
      rw [hxr] at h
      injection h with h3 h4
      rw [← h3, ← h4]
      exact (hx r).2 e1 r1 hxr

theorem keeps_pure {α : Type} {R : EBSPReader → EBSPReader → Prop} {S : Error → Prop}
    (L : ReaderLaw R S) (a : α) : Rd.keeps R S (pure a : Rd α) :=
  keeps_pure_of L.refl a

theorem keeps_throw {α : Type} {R : EBSPReader → EBSPReader → Prop} {S : Error → Prop}
    (L : ReaderLaw R S) (e : Error) (he : S e) : Rd.keeps R S (Rd.throw e : Rd α) :=
  keeps_throw_of L.refl e he

theorem keeps_bind {α β : Type} {R : EBSPReader → EBSPReader → Prop} {S : Error → Prop}
    (L : ReaderLaw R S) {x : Rd α} {f : α → Rd β}
    (hx : Rd.keeps R S x) (hf : ∀ a, Rd.keeps R S (f a)) : Rd.keeps R S (x >>= f) :=
  keeps_bind_of L.trans hx hf

theorem keeps_ite {α : Type} {R : EBSPReader → EBSPReader → Prop} {S : Error → Prop}
    {c : Prop} [Decidable c] {x y : Rd α}
    (hx : Rd.keeps R S x) (hy : Rd.keeps R S y) : Rd.keeps R S (if c then x else y) := by
  split
  · exact hx
  · exact hy

theorem keeps_ReadFlag {R : EBSPReader → EBSPReader → Prop} {S : Error → Prop}
    (L : ReaderLaw R S) : Rd.keeps R S ReadFlag := by
  unfold ReadFlag
  exact keeps_bind L (L.read 1) (fun _ => keeps_pure L _)

theorem keeps_ReadSignedGolomb {R : EBSPReader → EBSPReader → Prop} {S : Error → Prop}
    (L : ReaderLaw R S) : Rd.keeps R S ReadSignedGolomb := by
  unfold ReadSignedGolomb
  exact keeps_bind L L.expGolomb (fun _ => keeps_ite (keeps_pure L _) (keeps_pure L _))

theorem keeps_ParseRefPicListModification {R : EBSPReader → EBSPReader → Prop}
    {S : Error → Prop} (L : ReaderLaw R S) (avcsh : SliceHeader) :
    Rd.keeps R S (ParseRefPicListModification avcsh) := by
  unfold ParseRefPicListModification
  repeat' first
    | with_reducible exact keeps_ReadFlag L
    | with_reducible exact keeps_pure L _
    | with_reducible exact L.rplm _ _
    | with_reducible apply keeps_ite
    | with_reducible apply keeps_bind L
    | intro _

theorem keeps_ParseDecRefPicMarking {R : EBSPReader → EBSPReader → Prop}
    {S : Error → Prop} (L : ReaderLaw R S) (t : NaluType) :
    Rd.keeps R S (ParseDecRefPicMarking t) := by
  unfold ParseDecRefPicMarking
  repeat' first
    | with_reducible exact keeps_ReadFlag L
    | with_reducible exact keeps_pure L _
    | with_reducible exact L.mmco _ _
    | with_reducible apply keeps_ite
    | with_reducible apply keeps_bind L
    | intro _

theorem keeps_chromaLoop {R : EBSPReader → EBSPReader → Prop} {S : Error → Prop}
    (L : ReaderLaw R S) (count : Nat) (a b : List Int) :
    Rd.keeps R S (chromaLoop count a b) := by
  induction count generalizing a b with
  | zero => unfold chromaLoop; exact keeps_pure L _
  | succ count ih =>
    unfold chromaLoop
    repeat' first
      | with_reducible exact keeps_ReadSignedGolomb L
      | with_reducible exact ih _ _
      | with_reducible apply keeps_bind L
      | intro _

theorem keeps_pwtLoopL0 {R : EBSPReader → EBSPReader → Prop} {S : Error → Prop}
    (L : ReaderLaw R S) (sps : SPS) (count : Nat) (pwt : PredWeightTable) :
    Rd.keeps R S (pwtLoopL0 sps count pwt) := by
  induction count generalizing pwt with
  | zero => unfold pwtLoopL0; exact keeps_pure L _
  | succ count ih =>
    unfold pwtLoopL0
    repeat' first
      | with_reducible exact keeps_ReadSignedGolomb L
      | with_reducible exact keeps_ReadFlag L
      | with_reducible exact keeps_chromaLoop L _ _ _
      | with_reducible exact ih _
      | with_reducible exact keeps_pure L _
      | with_reducible apply keeps_ite
      | with_reducible apply keeps_bind L
      | intro _

theorem keeps_pwtLoopL1 {R : EBSPReader → EBSPReader → Prop} {S : Error → Prop}
    (L : ReaderLaw R S) (sps : SPS) (count : Nat) (pwt : PredWeightTable) :
    Rd.keeps R S (pwtLoopL1 sps count pwt) := by
  induction count generalizing pwt with
  | zero => unfold pwtLoopL1; exact keeps_pure L _
  | succ count ih =>
    unfold pwtLoopL1
    repeat' first
      | with_reducible exact keeps_ReadSignedGolomb L
      | with_reducible exact keeps_ReadFlag L
      | with_reducible exact keeps_chromaLoop L _ _ _
      | with_reducible exact ih _
      | with_reducible exact keeps_pure L _
      | with_reducible apply keeps_ite
      | with_reducible apply keeps_bind L
      | intro _

theorem keeps_ParsePredWeightTable {R : EBSPReader → EBSPReader → Prop} {S : Error → Prop}
    (L : ReaderLaw R S) (sps : SPS) (avcsh : SliceHeader) :
    Rd.keeps R S (ParsePredWeightTable sps avcsh) := by
  unfold ParsePredWeightTable
  repeat' first
    | with_reducible exact L.expGolomb
    | with_reducible exact keeps_pwtLoopL0 L _ _ _
    | with_reducible exact keeps_pwtLoopL1 L _ _ _
    | with_reducible exact keeps_pure L _
    | with_reducible apply keeps_ite
    | with_reducible apply keeps_bind L
    | intro _

theorem keeps_setSliceType {R : EBSPReader → EBSPReader → Prop} {S : Error → Prop}
    (L : ReaderLaw R S) (hS : S Error.ErrInvalidSliceType) (k : Nat) :
    Rd.keeps R S (setSliceType k) := by
  unfold setSliceType
  repeat' first
    | with_reducible exact keeps_pure L _
    | with_reducible exact keeps_throw L _ hS
    | with_reducible apply keeps_ite

/-- The header fields keep every lawful relation, for a NAL type other than 20
and 21. -/
theorem keeps_parseSliceHeaderFields {R : EBSPReader → EBSPReader → Prop} {S : Error → Prop}
    (L : ReaderLaw R S) (hS : S Error.ErrInvalidSliceType) (hD : S Error.DivideByZero)
    (w : Nat → Nat) (sps : SPS)
    (pps : PPS) (nalHdr : Nat) (nalType : NaluType) (h20 : nalType ≠ 20)
    (h21 : nalType ≠ 21) :
    Rd.keeps R S (parseSliceHeaderFields w sps pps nalHdr nalType) := by
  have hnot : ¬ (nalType = 20 ∨ nalType = 21) := by
    intro h; cases h with
    | inl h => exact h20 h
    | inr h => exact h21 h
  unfold parseSliceHeaderFields
  simp only [if_neg hnot]
  repeat' first
    | with_reducible apply keeps_bind L
    | with_reducible apply keeps_ite
    | with_reducible exact keeps_pure L _
    | with_reducible exact keeps_throw L _ hD
    | with_reducible exact L.expGolomb
    | with_reducible exact keeps_ReadSignedGolomb L
    | with_reducible exact keeps_ReadFlag L
    | with_reducible exact L.read _
    | with_reducible exact keeps_ParseRefPicListModification L _
    | with_reducible exact keeps_ParsePredWeightTable L _ _
    | with_reducible exact keeps_ParseDecRefPicMarking L _
    | with_reducible exact keeps_setSliceType L hS _
    | intro _

/-- The whole body of `ParseSliceHeader` keeps every lawful relation. -/
theorem keeps_parseSliceHeaderBody {R : EBSPReader → EBSPReader → Prop} {S : Error → Prop}
    (L : ReaderLaw R S) (hS : S Error.ErrInvalidSliceType) (hN : S Error.ErrNoSliceHeader)
    (hD : S Error.DivideByZero) (w : Nat → Nat) (sps : SPS) (pps : PPS) :
    Rd.keeps R S (parseSliceHeaderBody w sps pps) := by
  unfold parseSliceHeaderBody
  apply keeps_bind L (L.read 8)
  intro nalHdr
  by_cases hx : sliceHeaderExpected (GetNaluType (Fin.ofNat nalHdr)) = false
  · rw [if_pos hx]
    exact keeps_throw L _ hN
  · rw [if_neg hx]
    have ht : sliceHeaderExpected (GetNaluType (Fin.ofNat nalHdr)) = true := by
      cases hy : sliceHeaderExpected (GetNaluType (Fin.ofNat nalHdr)) with
      | false => exact absurd hy hx
      | true => rfl
    have hne := slice_nal_ne _ ((sliceHeaderExpected_iff _).1 ht)
    exact keeps_parseSliceHeaderFields L hS hD w sps pps _ _ hne.1 hne.2

/-! ## The sentinel loops end -/

theorem keepsIf_of_keeps {α : Type} {P : EBSPReader → Prop}
    {R : EBSPReader → EBSPReader → Prop} {S : Error → Prop} {x : Rd α}
    (h : Rd.keeps R S x) : Rd.keepsIf P R S x :=
  fun r _ => h r

theorem keepsIf_bind {α β : Type} {P : EBSPReader → Prop}
    {R : EBSPReader → EBSPReader → Prop} {S : Error → Prop}
    (htrans : ∀ a b c, R a b → R b c → R a c) (hP : ∀ r r1, P r → R r r1 → P r1)
    {x : Rd α} {f : α → Rd β}
    (hx : Rd.keepsIf P R S x) (hf : ∀ a, Rd.keepsIf P R S (f a)) :
    Rd.keepsIf P R S (x >>= f) := by
  intro r hr
  constructor
  · intro b r2 h
    rw [bind_apply] at h
    cases hxr : x r with
    | ok a r1 =>
      rw [hxr] at h
      have h1 := (hx r hr).1 a r1 hxr
      exact htrans _ _ _ h1 ((hf a r1 (hP r r1 hr h1)).1 b r2 h)
    | fail e r1 => rw [hxr] at h; exact Res.noConfusion h
  · intro e r2 h
    rw [bind_apply] at h
    cases hxr : x r with
    | ok a r1 =>
      rw [hxr] at h
      have h1 := (hx r hr).1 a r1 hxr
      have h2 := (hf a r1 (hP r r1 hr h1)).2 e r2 h
      exact ⟨htrans _ _ _ h1 h2.1, h2.2⟩
    | fail e1 r1 =>
      rw [hxr] at h
      injection h with h3 h4
      rw [← h3, ← h4]
      exact (hx r hr).2 e1 r1 hxr

theorem keepsIf_ite {α : Type} {P : EBSPReader → Prop}
    {R : EBSPReader → EBSPReader → Prop} {S : Error → Prop}
    {c : Prop} [Decidable c] {x y : Rd α}
    (hx : Rd.keepsIf P R S x) (hy : Rd.keepsIf P R S y) :
    Rd.keepsIf P R S (if c then x else y) := by
  split
  · exact hx
  · exact hy

theorem leBits_refl (r : EBSPReader) : leBits r r := Nat.le_refl _

theorem leBits_trans (a b c : EBSPReader) (h1 : leBits a b) (h2 : leBits b c) : leBits a c :=
  Nat.le_trans h2 h1

theorem leBits_below (fuel : Nat) (r r1 : EBSPReader) (h : r.bitsLeft < fuel)
    (h1 : leBits r r1) : r1.bitsLeft < fuel :=
  Nat.lt_of_le_of_lt h1 h

theorem leBits_Read (n : Nat) : Rd.keeps leBits endOfData (Read n) := by
  intro r
  constructor
  · intro a r1 h
    have := Read_ok_bitsLeft n r r1 a h
    unfold leBits; omega
  · intro e r1 h
    have := Read_fail_bitsLeft n r r1 e h
    exact ⟨this.2, this.1⟩

theorem leBits_ReadExpGolomb : Rd.keeps leBits endOfData ReadExpGolomb := by
  intro r
  constructor
  · intro a r1 h
    exact Nat.le_of_lt (ReadExpGolomb_ok_bitsLeft r r1 a h)
  · intro e r1 h
    have := ReadExpGolomb_fail_bitsLeft r r1 e h
    exact ⟨this.2, this.1⟩

/-- With a budget above the readable bits the list-modification loop never runs
out of budget: its only error is the end-of-data error. -/
theorem rplmLoop_budget (fuel : Nat) :
    ∀ (m : Nat) (p : List PerEntryRefPicListModParams),
      Rd.keepsIf (fun r => r.bitsLeft < fuel) leBits endOfData (rplmLoop fuel m p) := by
  induction fuel with
  | zero => intro m p r h; exact absurd h (Nat.not_lt_zero _)
  | succ fuel ih =>
    intro m p
    unfold rplmLoop
    by_cases hm : m = 3
    · rw [if_pos hm]
      exact keepsIf_of_keeps (keeps_pure_of leBits_refl _)
    · rw [if_neg hm]
      intro r hr
      have hrem : ∀ idc, Rd.keepsIf (fun r => r.bitsLeft < fuel) leBits endOfData
          (((if idc = 0 ∨ idc = 1 then do
              let x ← ReadExpGolomb
              pure { ModificationOfPicNumsIDC := idc, AbsDiffPicNumMinus1 := x }
            else if idc = 2 then do
              let x ← ReadExpGolomb
              pure { ModificationOfPicNumsIDC := idc, LongTermPicNum := x }
            else pure { ModificationOfPicNumsIDC := idc }) :
              Rd PerEntryRefPicListModParams) >>=
            fun rplmEntry => rplmLoop fuel m (p ++ [rplmEntry])) := by
        intro idc
        apply keepsIf_bind leBits_trans (leBits_below fuel)
        · apply keepsIf_of_keeps
          repeat' first
            | with_reducible exact leBits_ReadExpGolomb
            | with_reducible exact keeps_pure_of leBits_refl _
            | with_reducible apply keeps_ite
            | with_reducible apply keeps_bind_of leBits_trans
            | intro _
        · intro a; exact ih m _
      rw [bind_apply]
      cases hx : ReadExpGolomb r with
      | fail e r1 =>
        have h1 := ReadExpGolomb_fail_bitsLeft r r1 e hx
        constructor
        · intro a r2 h; exact Res.noConfusion h
        · intro e2 r2 h
          injection h with h3 h4
          rw [← h3, ← h4]
          exact ⟨h1.2, h1.1⟩
      | ok idc r1 =>
        have h1 := ReadExpGolomb_ok_bitsLeft r r1 idc hx
        have h2 := hrem idc r1 (by omega)
        constructor
        · intro a r2 h
          have := h2.1 a r2 h
          unfold leBits at *; omega
        · intro e r2 h
          have := h2.2 e r2 h
          exact ⟨by unfold leBits at *; omega, this.2⟩

/-- One round further: what holds from the reader after the first read on holds
from the reader before it. -/
theorem budget_step {α : Type} {fuel : Nat} {r r1 : EBSPReader} {x : Rd α}
    (h1 : r1.bitsLeft < r.bitsLeft) (hr : r.bitsLeft < fuel + 1)
    (hk : Rd.keepsIf (fun r => r.bitsLeft < fuel) leBits endOfData x) :
    (∀ a r2, x r1 = Res.ok a r2 → leBits r r2) ∧
    (∀ e r2, x r1 = Res.fail e r2 → leBits r r2 ∧ endOfData e) := by
  have h2 := hk r1 (by omega)
  constructor
  · intro a r2 h
    have := h2.1 a r2 h
    unfold leBits at *; omega
  · intro e r2 h
    have := h2.2 e r2 h
    exact ⟨by unfold leBits at *; omega, this.2⟩

/-- With a budget above the readable bits the marking loop never runs out of
budget: its only error is the end-of-data error. -/
theorem mmcoLoop_budget (fuel : Nat) :
    ∀ (m : Nat) (p : List AdaptiveMemCtrlDecRefPicMarkingParams),
      Rd.keepsIf (fun r => r.bitsLeft < fuel) leBits endOfData (mmcoLoop fuel m p) := by
  induction fuel with
  | zero => intro m p r h; exact absurd h (Nat.not_lt_zero _)
  | succ fuel ih =>
    intro m p
    unfold mmcoLoop
    by_cases hm : m = 0
    · rw [if_pos hm]
      exact keepsIf_of_keeps (keeps_pure_of leBits_refl _)
    · rw [if_neg hm]
      intro r hr
      rw [bind_apply]
      cases hx : ReadExpGolomb r with
      | fail e r1 =>
        have h1 := ReadExpGolomb_fail_bitsLeft r r1 e hx
        constructor
        · intro a r2 h; exact Res.noConfusion h
        · intro e2 r2 h
          injection h with h3 h4
          rw [← h3, ← h4]
          exact ⟨h1.2, h1.1⟩
      | ok mmco r1 =>
        have h1 := ReadExpGolomb_ok_bitsLeft r r1 mmco hx
        dsimp only
        refine budget_step h1 hr ?_
        repeat' first
          | with_reducible exact ih _ _
          | with_reducible apply keepsIf_bind leBits_trans (leBits_below fuel)
          | with_reducible apply keepsIf_of_keeps
          | with_reducible exact leBits_ReadExpGolomb
          | with_reducible exact keeps_pure_of leBits_refl _
          | with_reducible apply keeps_ite
          | with_reducible apply keeps_bind_of leBits_trans
          | intro _

/-- The reader law of "no readable bit is gained, and what fails is a read":
it holds for every set of errors that contains the end-of-data error. -/
theorem leBits_law (S : Error → Prop) (hS : ∀ e, endOfData e → S e) : ReaderLaw leBits S where
  refl := leBits_refl
  trans := leBits_trans
  read := fun n r =>
    ⟨(leBits_Read n r).1, fun e r1 h => ⟨((leBits_Read n r).2 e r1 h).1,
      hS e ((leBits_Read n r).2 e r1 h).2⟩⟩
  expGolomb := fun r =>
    ⟨(leBits_ReadExpGolomb r).1, fun e r1 h => ⟨((leBits_ReadExpGolomb r).2 e r1 h).1,
      hS e ((leBits_ReadExpGolomb r).2 e r1 h).2⟩⟩
  rplm := fun m p r =>
    ⟨(rplmLoop_budget (r.bitsLeft + 1) m p r (Nat.lt_succ_self _)).1,
     fun e r1 h => ⟨((rplmLoop_budget (r.bitsLeft + 1) m p r (Nat.lt_succ_self _)).2 e r1 h).1,
       hS e ((rplmLoop_budget (r.bitsLeft + 1) m p r (Nat.lt_succ_self _)).2 e r1 h).2⟩⟩
  mmco := fun m p r =>
    ⟨(mmcoLoop_budget (r.bitsLeft + 1) m p r (Nat.lt_succ_self _)).1,
     fun e r1 h => ⟨((mmcoLoop_budget (r.bitsLeft + 1) m p r (Nat.lt_succ_self _)).2 e r1 h).1,
       hS e ((mmcoLoop_budget (r.bitsLeft + 1) m p r (Nat.lt_succ_self _)).2 e r1 h).2⟩⟩

/-- A sentinel loop whose guard variable never changes cannot return: it
returns only if the guard already had the terminating value. -/
theorem rplmLoop_ok_guard (fuel m : Nat) (p : List PerEntryRefPicListModParams) :
    (rplmLoop fuel m p).okIn (fun _ => m = 3) := by
  induction fuel generalizing p with
  | zero => unfold rplmLoop; exact okIn_throw _ _
  | succ fuel ih =>
    unfold rplmLoop
    by_cases hm : m = 3
    · rw [if_pos hm]; exact okIn_pure _ _ hm
    · rw [if_neg hm]
      repeat' first
        | with_reducible exact ih _
        | with_reducible apply okIn_bind
        | intro _

theorem mmcoLoop_ok_guard (fuel m : Nat) (p : List AdaptiveMemCtrlDecRefPicMarkingParams) :
    (mmcoLoop fuel m p).okIn (fun _ => m = 0) := by
  induction fuel generalizing p with
  | zero => unfold mmcoLoop; exact okIn_throw _ _
  | succ fuel ih =>
    unfold mmcoLoop
    by_cases hm : m = 0
    · rw [if_pos hm]; exact okIn_pure _ _ hm
    · rw [if_neg hm]
      repeat' first
        | with_reducible exact ih _
        | with_reducible apply okIn_bind
        | intro _

theorem errorOf_of_keeps {α : Type} {R : EBSPReader → EBSPReader → Prop} {S : Error → Prop}
    {x : Rd α} (hx : Rd.keeps R S x) (r : EBSPReader) (e : Error)
    (h : (x r).errorOf = some e) : S e := by
  cases hxr : x r with
  | ok a r1 => rw [hxr] at h; exact Option.noConfusion h
  | fail e1 r1 =>
    rw [hxr] at h
    have h1 : e1 = e := Option.some.inj h
    rw [← h1]
    exact ((hx r).2 e1 r1 hxr).2

theorem valueOf_none_of_errorOf {α : Type} (x : Res α) (h : x.errorOf ≠ none) :
    x.valueOf = none := by
  cases x with
  | ok a r => exact absurd rfl h
  | fail e r => rfl

/-- The error `ParseSliceHeader` returns is the error of its body, if that is a
Go error. -/
theorem ParseSliceHeader_error (w : Nat → Nat) (data : List Byte) (sps : SPS) (pps : PPS)
    (e : Error) (h : (ParseSliceHeader w data sps pps).2.2 = some e) :
    (parseSliceHeaderBody w sps pps (NewEBSPReader data)).errorOf = some e := by
  unfold ParseSliceHeader at h
  cases hb : parseSliceHeaderBody w sps pps (NewEBSPReader data) with
  | ok a r => rw [hb] at h; simp at h
  | fail e1 r =>
    rw [hb] at h
    by_cases hd : e1 = Error.DivideByZero
    · simp [hd] at h
    · simp only [if_neg hd, Option.some.injEq] at h
      rw [h]; rfl

/-- The header `ParseSliceHeader` returns is the value of its body. -/
theorem ParseSliceHeader_header (w : Nat → Nat) (data : List Byte) (sps : SPS) (pps : PPS) :
    (ParseSliceHeader w data sps pps).1 =
      (parseSliceHeaderBody w sps pps (NewEBSPReader data)).valueOf := by
  unfold ParseSliceHeader
  cases parseSliceHeaderBody w sps pps (NewEBSPReader data) <;> rfl

/-- The byte count `ParseSliceHeader` returns is the position of the reader its
body leaves. -/
theorem ParseSliceHeader_count (w : Nat → Nat) (data : List Byte) (sps : SPS) (pps : PPS) :
    (ParseSliceHeader w data sps pps).2.1 =
      (parseSliceHeaderBody w sps pps (NewEBSPReader data)).reader.pos := by
  unfold ParseSliceHeader
  cases parseSliceHeaderBody w sps pps (NewEBSPReader data) <;> rfl

/-- C13. When `ParseSliceHeader` returns an error it returns no header, and the
error is `ErrNoSliceHeader`, `ErrInvalidSliceType` or the bit reader's
end-of-data error; when `ParseRefPicListModification`, `ParsePredWeightTable`
or `ParseDecRefPicMarking` returns an error it returns no structure and the
error is the bit reader's end-of-data error. -/
theorem errors_leave_no_structure (w : Nat → Nat) (data : List Byte) (sps : SPS) (pps : PPS)
    (avcsh : SliceHeader) (t : NaluType) (r : EBSPReader) :
    ((ParseSliceHeader w data sps pps).2.2 ≠ none →
      (ParseSliceHeader w data sps pps).1 = none) ∧
    (∀ e, (ParseSliceHeader w data sps pps).2.2 = some e →
      e = Error.ErrNoSliceHeader ∨ e = Error.ErrInvalidSliceType ∨ e = Error.ErrTooFewBits) ∧
    ((ParseRefPicListModification avcsh r).errorOf ≠ none →
      (ParseRefPicListModification avcsh r).valueOf = none ∧
      (ParseRefPicListModification avcsh r).errorOf = some Error.ErrTooFewBits) ∧
    ((ParsePredWeightTable sps avcsh r).errorOf ≠ none →
      (ParsePredWeightTable sps avcsh r).valueOf = none ∧
      (ParsePredWeightTable sps avcsh r).errorOf = some Error.ErrTooFewBits) ∧
    ((ParseDecRefPicMarking t r).errorOf ≠ none →
      (ParseDecRefPicMarking t r).valueOf = none ∧
      (ParseDecRefPicMarking t r).errorOf = some Error.ErrTooFewBits) := by
  have hsub : ∀ {α : Type} (x : Rd α), Rd.keeps leBits endOfData x →
      ((x r).errorOf ≠ none →
        (x r).valueOf = none ∧ (x r).errorOf = some Error.ErrTooFewBits) := by
    intro α x hx hne
    refine ⟨valueOf_none_of_errorOf _ hne, ?_⟩
    cases he : (x r).errorOf with
    | none => exact absurd he hne
    | some e =>
      have h1 : endOfData e := errorOf_of_keeps hx r e he
      rw [h1]
  have L := leBits_law endOfData (fun _ h => h)
  refine ⟨?_, ?_, hsub _ (keeps_ParseRefPicListModification L avcsh),
    hsub _ (keeps_ParsePredWeightTable L sps avcsh), hsub _ (keeps_ParseDecRefPicMarking L t)⟩
  · intro hne
    rw [ParseSliceHeader_header]
    cases he : (ParseSliceHeader w data sps pps).2.2 with
    | none => exact absurd he hne
    | some e =>
      apply valueOf_none_of_errorOf
      rw [ParseSliceHeader_error w data sps pps e he]
      simp
  · intro e he
    have hne : e ≠ Error.DivideByZero := by
      intro hd
      unfold ParseSliceHeader at he
      cases hb : parseSliceHeaderBody w sps pps (NewEBSPReader data) with
      | ok a r => rw [hb] at he; simp at he
      | fail e1 r =>
        rw [hb] at he
        by_cases hd1 : e1 = Error.DivideByZero
        · simp [hd1] at he
        · simp only [if_neg hd1, Option.some.injEq] at he
          exact hd1 (he.trans hd)
    have he2 := ParseSliceHeader_error w data sps pps e he
    have L3 := leBits_law (fun e => e = Error.DivideByZero ∨ e = Error.ErrNoSliceHeader ∨
      e = Error.ErrInvalidSliceType ∨ e = Error.ErrTooFewBits)
      (fun _ h => Or.inr (Or.inr (Or.inr h)))
    rcases errorOf_of_keeps
      (keeps_parseSliceHeaderBody L3 (Or.inr (Or.inr (Or.inl rfl))) (Or.inr (Or.inl rfl))
        (Or.inl rfl) w sps pps) _ e he2 with h | h
    · exact absurd h hne
    · exact h

/-- C13, witness: on `videoSliceDataRefPicMod` the parse fails in a read; the
result carries no header and the reader's error. -/
theorem errors_leave_no_structure_witness :
    (ParseSliceHeader exactCeilLog2 videoSliceDataRefPicMod spsTest ppsTest).2.2 ≠ none ∧
    (ParseSliceHeader exactCeilLog2 videoSliceDataRefPicMod spsTest ppsTest).1 = none :=
  ⟨by decide!,
   (errors_leave_no_structure exactCeilLog2 videoSliceDataRefPicMod spsTest ppsTest
      {} 1 (NewEBSPReader [])).1 (by decide!)⟩

/-- With any budget above the readable bits the two sentinel loops end: a round
starts with an Exp-Golomb read, which uses up at least one bit when it succeeds,
and with the guards the source gives them (0 and 1, never assigned) the loops
end in the bit reader's end-of-data error; the parsers built on them and
`ParseSliceHeader` never run out of budget. -/
theorem sentinel_loops_end (w : Nat → Nat) (data : List Byte) (sps : SPS) (pps : PPS)
    (avcsh : SliceHeader) (t : NaluType) (r : EBSPReader) (fuel : Nat)
    (p : List PerEntryRefPicListModParams) (q : List AdaptiveMemCtrlDecRefPicMarkingParams)
    (hfuel : r.bitsLeft < fuel) :
    (∀ a r1, ReadExpGolomb r = Res.ok a r1 → r1.bitsLeft < r.bitsLeft) ∧
    (∃ r1, rplmLoop fuel 0 p r = Res.fail Error.ErrTooFewBits r1) ∧
    (∃ r1, mmcoLoop fuel 1 q r = Res.fail Error.ErrTooFewBits r1) ∧
    (ParseRefPicListModification avcsh r).errorOf ≠ some Error.LoopBudget ∧
    (ParseDecRefPicMarking t r).errorOf ≠ some Error.LoopBudget ∧
    (ParseSliceHeader w data sps pps).2.2 ≠ some Error.LoopBudget := by
  have L := leBits_law endOfData (fun _ h => h)
  refine ⟨fun a r1 h => ReadExpGolomb_ok_bitsLeft r r1 a h, ?_, ?_, ?_, ?_, ?_⟩
  · cases hx : rplmLoop fuel 0 p r with
    | ok a r1 =>
      have h03 : (0 : Nat) = 3 := rplmLoop_ok_guard fuel 0 p r a r1 hx
      exact absurd h03 (by decide)
    | fail e r1 =>
      have := ((rplmLoop_budget fuel 0 p r hfuel).2 e r1 hx).2
      rw [this]; exact ⟨r1, rfl⟩
  · cases hx : mmcoLoop fuel 1 q r with
    | ok a r1 =>
      have h10 : (1 : Nat) = 0 := mmcoLoop_ok_guard fuel 1 q r a r1 hx
      exact absurd h10 (by decide)
    | fail e r1 =>
      have := ((mmcoLoop_budget fuel 1 q r hfuel).2 e r1 hx).2
      rw [this]; exact ⟨r1, rfl⟩
  · intro h
    have h1 : endOfData Error.LoopBudget :=
      errorOf_of_keeps (keeps_ParseRefPicListModification L avcsh) r _ h
    exact Error.noConfusion h1
  · intro h
    have h1 : endOfData Error.LoopBudget :=
      errorOf_of_keeps (keeps_ParseDecRefPicMarking L t) r _ h
    exact Error.noConfusion h1
  · intro h
    have h2 := ParseSliceHeader_error w data sps pps _ h
    have L3 := leBits_law (fun e => e ≠ Error.LoopBudget)
      (fun e he => by rw [he]; decide)
    exact errorOf_of_keeps
      (keeps_parseSliceHeaderBody L3 (by decide) (by decide) (by decide) w sps pps) _ _ h2 rfl

/-- The reader over the byte `93` (list-0 flag, operation code 3, one more
record) has 8 readable bits; with the budget 9 both loops end in the
end-of-data error. -/
theorem sentinel_loops_end_at_93 :
    (NewEBSPReader [0x93]).bitsLeft < 9 ∧
    (∃ r1, rplmLoop 9 0 [] (NewEBSPReader [0x93]) = Res.fail Error.ErrTooFewBits r1) ∧
    (∃ r1, mmcoLoop 9 1 [] (NewEBSPReader [0x93]) = Res.fail Error.ErrTooFewBits r1) :=
  have hw := sentinel_loops_end exactCeilLog2 [0x93] spsTest ppsTest {} 1
    (NewEBSPReader [0x93]) 9 [] [] (by decide)
  ⟨by decide, hw.2.1, hw.2.2.1⟩

/-! ## The byte count -/

theorem advances_refl (r : EBSPReader) : advances r r := by
  unfold advances
  simp

theorem advances_trans (a b c : EBSPReader) (h1 : advances a b) (h2 : advances b c) :
    advances a c := by
  unfold advances at *
  obtain ⟨h1a, h1b, h1c⟩ := h1
  obtain ⟨h2a, h2b, h2c⟩ := h2
  rw [h1c] at h2b h2c
  rw [List.length_drop] at h2b
  refine ⟨by omega, by omega, ?_⟩
  rw [h2c, List.drop_drop]
  congr 1
  omega

/-- What `fetch` returns, value or error, is the reader some bytes further. -/
theorem fetch_advances (want : Nat) (rd : List Byte) (n v pos zc : Nat) :
    ∀ r1, (fetch want rd n v pos zc = Except.ok r1 ∨ fetch want rd n v pos zc = Except.error r1) →
      pos ≤ r1.pos ∧ r1.pos - pos ≤ rd.length ∧ r1.rd = rd.drop (r1.pos - pos) := by
  induction rd, n, v, pos, zc using fetch.induct want with
  | case1 rd n v pos zc h =>
    intro r1 hr
    rw [fetch_enough _ _ _ _ _ _ h] at hr
    rcases hr with hr | hr
    · injection hr with hr; rw [← hr]; simp
    · exact Except.noConfusion hr
  | case2 n v pos zc h =>
    intro r1 hr
    rw [fetch_nil _ _ _ _ _ h] at hr
    rcases hr with hr | hr
    · exact Except.noConfusion hr
    · injection hr with hr; rw [← hr]; simp
  | case3 n v pos h b hb =>
    intro r1 hr
    rw [fetch_escape_nil _ _ _ _ _ h hb] at hr
    rcases hr with hr | hr
    · exact Except.noConfusion hr
    · injection hr with hr; rw [← hr]; simp
  | case4 n v pos h b hb b2 rest ih =>
    intro r1 hr
    rw [fetch_escape_cons _ _ _ _ _ _ _ h hb] at hr
    obtain ⟨h1, h2, h3⟩ := ih r1 hr
    have hk : r1.pos - pos = (r1.pos - (pos + 2)) + 2 := by omega
    refine ⟨by omega, by simp only [List.length_cons]; omega, ?_⟩
    rw [hk, h3]
    rfl
  | case5 n v pos h b rest hb ih =>
    intro r1 hr
    rw [fetch_two _ _ _ _ _ _ h hb] at hr
    obtain ⟨h1, h2, h3⟩ := ih r1 hr
    have hk : r1.pos - pos = (r1.pos - (pos + 1)) + 1 := by omega
    refine ⟨by omega, by simp only [List.length_cons]; omega, ?_⟩
    rw [hk, h3]
    rfl
  | case6 n v pos zc h b rest hz ih =>
    intro r1 hr
    rw [fetch_cons _ _ _ _ _ _ _ h hz] at hr
    obtain ⟨h1, h2, h3⟩ := ih r1 hr
    have hk : r1.pos - pos = (r1.pos - (pos + 1)) + 1 := by omega
    refine ⟨by omega, by simp only [List.length_cons]; omega, ?_⟩
    rw [hk, h3]
    rfl

theorem advances_Read (n : Nat) : Rd.keeps advances anyError (Read n) := by
  intro r
  unfold Read
  cases hx : fetch n r.rd r.n r.v r.pos r.zeroCount with
  | ok r2 =>
    have h := fetch_advances n r.rd r.n r.v r.pos r.zeroCount r2 (Or.inl hx)
    constructor
    · intro a r1 hr
      injection hr with h1 h2
      rw [← h2]
      exact h
    · intro e r1 hr; exact Res.noConfusion hr
  | error r2 =>
    have h := fetch_advances n r.rd r.n r.v r.pos r.zeroCount r2 (Or.inr hx)
    constructor
    · intro a r1 hr; exact Res.noConfusion hr
    · intro e r1 hr
      injection hr with h1 h2
      rw [← h2]
      exact ⟨h, trivial⟩

theorem advances_countLeadingZeros (fuel k : Nat) :
    Rd.keeps advances anyError (countLeadingZeros fuel k) := by
  induction fuel generalizing k with
  | zero => unfold countLeadingZeros; exact keeps_throw_of advances_refl _ trivial
  | succ fuel ih =>
    unfold countLeadingZeros
    exact keeps_bind_of advances_trans (advances_Read 1)
      (fun _ => keeps_ite (keeps_pure_of advances_refl _) (ih _))

theorem advances_ReadExpGolomb : Rd.keeps advances anyError ReadExpGolomb := by
  intro r
  unfold ReadExpGolomb
  exact keeps_bind_of advances_trans (advances_countLeadingZeros _ _)
    (fun _ => keeps_bind_of advances_trans (advances_Read _)
      (fun _ => keeps_pure_of advances_refl _)) r

theorem advances_rplmLoop (fuel m : Nat) (p : List PerEntryRefPicListModParams) :
    Rd.keeps advances anyError (rplmLoop fuel m p) := by
  induction fuel generalizing p with
  | zero => unfold rplmLoop; exact keeps_throw_of advances_refl _ trivial
  | succ fuel ih =>
    unfold rplmLoop
    repeat' first
      | with_reducible exact advances_ReadExpGolomb
      | with_reducible exact ih _
      | with_reducible exact keeps_pure_of advances_refl _
      | with_reducible apply keeps_ite
      | with_reducible apply keeps_bind_of advances_trans
      | intro _

theorem advances_mmcoLoop (fuel m : Nat) (p : List AdaptiveMemCtrlDecRefPicMarkingParams) :
    Rd.keeps advances anyError (mmcoLoop fuel m p) := by
  induction fuel generalizing p with
  | zero => unfold mmcoLoop; exact keeps_throw_of advances_refl _ trivial
  | succ fuel ih =>
    unfold mmcoLoop
    repeat' first
      | with_reducible exact advances_ReadExpGolomb
      | with_reducible exact ih _
      | with_reducible exact keeps_pure_of advances_refl _
      | with_reducible apply keeps_ite
      | with_reducible apply keeps_bind_of advances_trans
      | intro _

/-- The reader law of "the same input, some bytes further". -/
theorem advances_law : ReaderLaw advances anyError where
  refl := advances_refl
  trans := advances_trans
  read := advances_Read
  expGolomb := advances_ReadExpGolomb
  rplm := fun m p r => advances_rplmLoop (r.bitsLeft + 1) m p r
  mmco := fun m p r => advances_mmcoLoop (r.bitsLeft + 1) m p r

/-- C14. When `ParseSliceHeader` succeeds, the byte count `n` it returns is at
least 1 and at most `len(data)`, and it is the reader's position when the last
header field was read: exactly the first `n` bytes of the input have been
fetched, the bytes from offset `n` on have not. -/
theorem ParseSliceHeader_byte_count (w : Nat → Nat) (data : List Byte) (sps : SPS) (pps : PPS)
    (h : SliceHeader) (n : Nat)
    (hp : ParseSliceHeader w data sps pps = (some h, n, none)) :
    1 ≤ n ∧ n ≤ data.length ∧
    ∃ r, parseSliceHeaderBody w sps pps (NewEBSPReader data) = Res.ok h r ∧
      r.NrBytesRead = n ∧ r.rd = data.drop n := by
  cases data with
  | nil => rw [ParseSliceHeader_nil] at hp; simp at hp
  | cons hdr rest =>
    by_cases hx : sliceHeaderExpected (GetNaluType hdr) = false
    · rw [ParseSliceHeader_not_expected w sps pps hdr rest hx] at hp
      simp at hp
    · have ht : sliceHeaderExpected (GetNaluType hdr) = true := by
        cases hy : sliceHeaderExpected (GetNaluType hdr) with
        | false => exact absurd hy hx
        | true => rfl
      have hne := slice_nal_ne _ ((sliceHeaderExpected_iff _).1 ht)
      have hbody := parseSliceHeaderBody_cons w sps pps hdr rest
      rw [if_neg hx] at hbody
      unfold ParseSliceHeader at hp
      cases hb : parseSliceHeaderBody w sps pps (NewEBSPReader (hdr :: rest)) with
      | fail e r => rw [hb] at hp; simp at hp
      | ok a r =>
        rw [hb] at hp
        simp only [Prod.mk.injEq, Option.some.injEq, and_true] at hp
        obtain ⟨hp1, hp2⟩ := hp
        rw [hb] at hbody
        have hadv := (keeps_parseSliceHeaderFields advances_law trivial trivial w sps pps hdr.val
          (GetNaluType hdr) hne.1 hne.2 _).1 a r hbody.symm
        unfold advances at hadv
        simp only [EBSPReader.NrBytesRead] at *
        obtain ⟨h1, h2, h3⟩ := hadv
        rw [← hp2]
        refine ⟨h1, by simp only [List.length_cons]; omega, r, by rw [hp1], rfl, ?_⟩
        rw [h3]
        have hk : r.pos = (r.pos - 1) + 1 := by omega
        conv_rhs => rw [hk]
        rfl

/-- C14, witness: on `videoSliceDataPFrame` the parse succeeds with 9 bytes of
the 17. -/
theorem ParseSliceHeader_byte_count_witness :
    (ParseSliceHeader exactCeilLog2 videoSliceDataPFrame spsTest ppsTest).2.1 = 9 ∧
    1 ≤ 9 ∧ 9 ≤ videoSliceDataPFrame.length :=
  have hw := ParseSliceHeader_byte_count exactCeilLog2 videoSliceDataPFrame spsTest ppsTest
    ((parseSliceHeaderBody exactCeilLog2 spsTest ppsTest
      (NewEBSPReader videoSliceDataPFrame)).valueOf.getD {}) 9 (by decide!)
  ⟨by decide!, hw.1, hw.2.1⟩

/-! ## What a successful parse has done -/

theorem bind_ok_inv {α β : Type} {x : Rd α} {f : α → Rd β} {r r2 : EBSPReader} {b : β}
    (h : (x >>= f) r = Res.ok b r2) : ∃ a r1, x r = Res.ok a r1 ∧ f a r1 = Res.ok b r2 := by
  rw [bind_apply] at h
  cases hx : x r with
  | ok a r1 => rw [hx] at h; exact ⟨a, r1, rfl, h⟩
  | fail e r1 => rw [hx] at h; exact Res.noConfusion h

theorem pure_ok_inv {α : Type} {a b : α} {r r1 : EBSPReader}
    (h : (pure a : Rd α) r = Res.ok b r1) : a = b ∧ r = r1 := by
  have h2 : Res.ok a r = Res.ok b r1 := h
  injection h2 with h3 h4
  exact ⟨h3, h4⟩

theorem setSliceType_ok_le4 (k st : Nat) (r r1 : EBSPReader)
    (h : setSliceType k r = Res.ok st r1) : st ≤ 4 := by
  unfold setSliceType at h
  by_cases h9 : k > 9
  · rw [if_pos h9] at h; exact Res.noConfusion h
  · rw [if_neg h9] at h
    by_cases h5 : k ≥ 5
    · rw [if_pos h5] at h
      have h6 : (k - 5 : Nat) = st := (pure_ok_inv h).1
      omega
    · rw [if_neg h5] at h
      have h6 : (k : Nat) = st := (pure_ok_inv h).1
      omega

/-- The sub-structures of a header that `parseSliceHeaderFields` returns: the
header fields before them make up `avcsh`; then the list modification is parsed
from the reader `ra` and leaves `rb`; then, under its condition, the prediction
weight table is parsed from `rb` and leaves `rc`; then, under its condition, the
reference picture marking is parsed from `rc` and leaves `rd`. -/
theorem parseSliceHeaderFields_inv (w : Nat → Nat) (sps : SPS) (pps : PPS) (nalHdr : Nat)
    (nalType : NaluType) (r r9 : EBSPReader) (h : SliceHeader)
    (hp : parseSliceHeaderFields w sps pps nalHdr nalType r = Res.ok h r9) :
    ∃ (avcsh : SliceHeader) (rplm : RefPicListModification) (ra rb rc rd : EBSPReader),
      avcsh.SliceType = h.SliceType ∧ h.SliceType ≤ 4 ∧
      avcsh.NumRefIdxActiveOverrideFlag = h.NumRefIdxActiveOverrideFlag ∧
      avcsh.NumRefIdxL0ActiveMinus1 = h.NumRefIdxL0ActiveMinus1 ∧
      avcsh.NumRefIdxL1ActiveMinus1 = h.NumRefIdxL1ActiveMinus1 ∧
      ParseRefPicListModification avcsh ra = Res.ok rplm rb ∧
      h.RefPicListModification = some rplm ∧
      (if (pps.WeightedPredFlag ∧ (h.SliceType = SLICE_P ∨ h.SliceType = SLICE_SP)) ∨
          (pps.WeightedBipredIDC = 1 ∧ h.SliceType = SLICE_B) then
        ∃ pwt, ParsePredWeightTable sps { avcsh with RefPicListModification := some rplm } rb =
            Res.ok pwt rc ∧ h.PredWeightTable = some pwt
      else h.PredWeightTable = none ∧ rc = rb) ∧
      (if GetNalRefIDC (Fin.ofNat nalHdr) ≠ 0 then
        ∃ rpm, ParseDecRefPicMarking nalType rc = Res.ok rpm rd ∧ h.DecRefPicMarking = some rpm
      else h.DecRefPicMarking = none ∧ rd = rc) := by
  unfold parseSliceHeaderFields at hp
  obtain ⟨firstMb, r1, h1, hp⟩ := bind_ok_inv hp
  obtain ⟨code, r2, h2, hp⟩ := bind_ok_inv hp
  obtain ⟨sliceType, r3, h3, hp⟩ := bind_ok_inv hp
  obtain ⟨ppsID, r4, h4, hp⟩ := bind_ok_inv hp
  obtain ⟨colour, r5, h5, hp⟩ := bind_ok_inv hp
  obtain ⟨frameNum, r6, h6, hp⟩ := bind_ok_inv hp
  obtain ⟨⟨fieldPic, bottomField⟩, r7, h7, hp⟩ := bind_ok_inv hp
  obtain ⟨idrPicID, r8, h8, hp⟩ := bind_ok_inv hp
  obtain ⟨⟨lsb, deltaBottom⟩, r10, h10, hp⟩ := bind_ok_inv hp
  obtain ⟨⟨d0, d1⟩, r11, h11, hp⟩ := bind_ok_inv hp
  obtain ⟨redundant, r12, h12, hp⟩ := bind_ok_inv hp
  obtain ⟨direct, r13, h13, hp⟩ := bind_ok_inv hp
  obtain ⟨override, r14, h14, hp⟩ := bind_ok_inv hp
  obtain ⟨⟨l0, l1⟩, r15, h15, hp⟩ := bind_ok_inv hp
  dsimp only at hp
  by_cases hmvc : nalType = 20 ∨ nalType = 21
  · rw [if_pos hmvc] at hp
    exact Res.noConfusion hp
  · rw [if_neg hmvc] at hp
    obtain ⟨rplm, r16, h16, hp⟩ := bind_ok_inv hp
    obtain ⟨pwtOpt, r17, h17, hp⟩ := bind_ok_inv hp
    obtain ⟨decOpt, r18, h18, hp⟩ := bind_ok_inv hp
    obtain ⟨cabac, r19, h19, hp⟩ := bind_ok_inv hp
    obtain ⟨qp, r20, h20, hp⟩ := bind_ok_inv hp
    obtain ⟨⟨sp, qs⟩, r21, h21, hp⟩ := bind_ok_inv hp
    obtain ⟨⟨idc, alpha, beta⟩, r22, h22, hp⟩ := bind_ok_inv hp
    obtain ⟨sgcc, r23, h23, hp⟩ := bind_ok_inv hp
    obtain ⟨hh, _⟩ := pure_ok_inv hp
    subst hh
    refine ⟨_, rplm, r15, r16, r17, r18, rfl, setSliceType_ok_le4 _ _ _ _ h3, rfl, rfl, rfl,
      h16, rfl, ?_, ?_⟩
    · dsimp only
      by_cases hc : (pps.WeightedPredFlag ∧ (sliceType = SLICE_P ∨ sliceType = SLICE_SP)) ∨
          (pps.WeightedBipredIDC = 1 ∧ sliceType = SLICE_B)
      · rw [if_pos hc]
        rw [if_pos hc] at h17
        obtain ⟨pwt, r17b, h17a, h17b⟩ := bind_ok_inv h17
        obtain ⟨hv, hr⟩ := pure_ok_inv h17b
        subst hv; subst hr
        exact ⟨pwt, h17a, rfl⟩
      · rw [if_neg hc]
        rw [if_neg hc] at h17
        obtain ⟨hv, hr⟩ := pure_ok_inv h17
        subst hv; subst hr
        exact ⟨rfl, rfl⟩
    · dsimp only
      by_cases hc : GetNalRefIDC (Fin.ofNat nalHdr) ≠ 0
      · rw [if_pos hc]
        rw [if_pos hc] at h18
        obtain ⟨rpm, r18b, h18a, h18b⟩ := bind_ok_inv h18
        obtain ⟨hv, hr⟩ := pure_ok_inv h18b
        subst hv; subst hr
        exact ⟨rpm, h18a, rfl⟩
      · rw [if_neg hc]
        rw [if_neg hc] at h18
        obtain ⟨hv, hr⟩ := pure_ok_inv h18
        subst hv; subst hr
        exact ⟨rfl, rfl⟩


/-- A successful `ParseSliceHeader` has read the header byte of a slice NAL and
then the header fields. -/
theorem ParseSliceHeader_ok_inv (w : Nat → Nat) (data : List Byte) (sps : SPS) (pps : PPS)
    (h : SliceHeader) (n : Nat)
    (hp : ParseSliceHeader w data sps pps = (some h, n, none)) :
    ∃ (hdr : Byte) (rest : List Byte) (r : EBSPReader), data = hdr :: rest ∧
      (GetNaluType hdr = 1 ∨ GetNaluType hdr = 2 ∨ GetNaluType hdr = 5 ∨
        GetNaluType hdr = 19) ∧
      parseSliceHeaderFields w sps pps hdr.val (GetNaluType hdr)
        { rd := rest, n := 0, v := 0, pos := 1, zeroCount := if hdr.val = 0 then 1 else 0 } =
        Res.ok h r ∧
      r.pos = n := by
  cases data with
  | nil => rw [ParseSliceHeader_nil] at hp; simp at hp
  | cons hdr rest =>
    by_cases hx : sliceHeaderExpected (GetNaluType hdr) = false
    · rw [ParseSliceHeader_not_expected w sps pps hdr rest hx] at hp
      simp at hp
    · have ht : sliceHeaderExpected (GetNaluType hdr) = true := by
        cases hy : sliceHeaderExpected (GetNaluType hdr) with
        | false => exact absurd hy hx
        | true => rfl
      have hbody := parseSliceHeaderBody_cons w sps pps hdr rest
      rw [if_neg hx] at hbody
      unfold ParseSliceHeader at hp
      cases hb : parseSliceHeaderBody w sps pps (NewEBSPReader (hdr :: rest)) with
      | fail e r => rw [hb] at hp; simp at hp
      | ok a r =>
        rw [hb] at hp
        simp only [Prod.mk.injEq, Option.some.injEq, and_true] at hp
        rw [hb] at hbody
        rw [hp.1] at hbody
        exact ⟨hdr, rest, r, rfl, (sliceHeaderExpected_iff _).1 ht, hbody.symm, hp.2⟩

/-! ## Which sub-structures a header carries -/

/-- For an I or SI slice `ParseRefPicListModification` reads nothing and returns
the empty structure. -/
theorem ParseRefPicListModification_intra (avcsh : SliceHeader)
    (h : avcsh.SliceType = SLICE_I ∨ avcsh.SliceType = SLICE_SI) (r : EBSPReader) :
    ParseRefPicListModification avcsh r = Res.ok {} r := by
  unfold ParseRefPicListModification
  rcases h with h | h <;> rw [h] <;> rfl

/-- C16 (as amended). Every header `ParseSliceHeader` returns carries a
`RefPicListModification` structure, also for the slice types I and SI; for
these it is the empty structure (both flags false, no entries) and nothing was
read for it. -/
theorem RefPicListModification_always_present (w : Nat → Nat) (data : List Byte) (sps : SPS)
    (pps : PPS) (h : SliceHeader) (n : Nat)
    (hp : ParseSliceHeader w data sps pps = (some h, n, none)) :
    ∃ rplm, h.RefPicListModification = some rplm ∧
      (h.SliceType = SLICE_I ∨ h.SliceType = SLICE_SI →
        rplm = { RefPicListModificationFlagL0 := false, RefPicListModificationFlagL1 := false,
                 PerEntryParams := [] }) := by
  obtain ⟨hdr, rest, r, _, _, hf, _⟩ := ParseSliceHeader_ok_inv w data sps pps h n hp
  obtain ⟨avcsh, rplm, ra, rb, rc, rd, hst, _, _, _, _, hr, hsome, _, _⟩ :=
    parseSliceHeaderFields_inv w sps pps _ _ _ _ h hf
  refine ⟨rplm, hsome, ?_⟩
  intro hi
  rw [← hst] at hi
  rw [ParseRefPicListModification_intra avcsh hi ra] at hr
  injection hr with h1 h2
  exact h1.symm

/-- C16, witness: `videoSliceDataIDR` parses to an I slice whose
`RefPicListModification` is the empty structure. -/
theorem RefPicListModification_always_present_witness :
    ∃ rplm, ((parseSliceHeaderBody exactCeilLog2 spsTest ppsTest
        (NewEBSPReader videoSliceDataIDR)).valueOf.getD {}).RefPicListModification =
      some rplm ∧
      rplm = { RefPicListModificationFlagL0 := false, RefPicListModificationFlagL1 := false,
               PerEntryParams := [] } :=
  have hw := RefPicListModification_always_present exactCeilLog2 videoSliceDataIDR spsTest
    ppsTest ((parseSliceHeaderBody exactCeilLog2 spsTest ppsTest
      (NewEBSPReader videoSliceDataIDR)).valueOf.getD {}) 5 (by decide!)
  ⟨hw.choose, hw.choose_spec.1, hw.choose_spec.2 (Or.inl (by decide!))⟩

/-- C16, counterexample to the claim as stated: `videoSliceDataIDR` parses
without error to a slice of type I whose `RefPicListModification` is not nil. -/
theorem RefPicListModification_intra_counterexample :
    ((ParseSliceHeader exactCeilLog2 videoSliceDataIDR spsTest ppsTest).1.map
      (fun h => (h.SliceType, h.RefPicListModification))) =
      some (SLICE_I, some { RefPicListModificationFlagL0 := false,
                            RefPicListModificationFlagL1 := false, PerEntryParams := [] }) ∧
    (ParseSliceHeader exactCeilLog2 videoSliceDataIDR spsTest ppsTest).2.2 = none := by
  decide!

/-- C19. In every header `ParseSliceHeader` returns, the slice type is folded
(at most 4) and `PredWeightTable` is present exactly when
`pps.WeightedPredFlag` is set and the slice type is P or SP, or
`pps.WeightedBipredIDC` is 1 and the slice type is B. -/
theorem PredWeightTable_presence (w : Nat → Nat) (data : List Byte) (sps : SPS) (pps : PPS)
    (h : SliceHeader) (n : Nat)
    (hp : ParseSliceHeader w data sps pps = (some h, n, none)) :
    h.SliceType ≤ 4 ∧
    (h.PredWeightTable ≠ none ↔
      ((pps.WeightedPredFlag = true ∧ (h.SliceType = SLICE_P ∨ h.SliceType = SLICE_SP)) ∨
        (pps.WeightedBipredIDC = 1 ∧ h.SliceType = SLICE_B))) := by
  obtain ⟨hdr, rest, r, _, _, hf, _⟩ := ParseSliceHeader_ok_inv w data sps pps h n hp
  obtain ⟨avcsh, rplm, ra, rb, rc, rd, _, h4, _, _, _, _, _, hpwt, _⟩ :=
    parseSliceHeaderFields_inv w sps pps _ _ _ _ h hf
  refine ⟨h4, ?_⟩
  by_cases hc : (pps.WeightedPredFlag ∧ (h.SliceType = SLICE_P ∨ h.SliceType = SLICE_SP)) ∨
      (pps.WeightedBipredIDC = 1 ∧ h.SliceType = SLICE_B)
  · rw [if_pos hc] at hpwt
    obtain ⟨pwt, _, h2⟩ := hpwt
    rw [h2]
    simp [hc]
  · rw [if_neg hc] at hpwt
    rw [hpwt.1]
    simp [hc]

/-- C19, witness: `videoSliceDataPFrame`, a P slice parsed with
`WeightedPredFlag` set, has a `PredWeightTable`. -/
theorem PredWeightTable_presence_witness :
    ((parseSliceHeaderBody exactCeilLog2 spsTest ppsTest
      (NewEBSPReader videoSliceDataPFrame)).valueOf.getD {}).PredWeightTable ≠ none :=
  have hw := PredWeightTable_presence exactCeilLog2 videoSliceDataPFrame spsTest ppsTest
    ((parseSliceHeaderBody exactCeilLog2 spsTest ppsTest
      (NewEBSPReader videoSliceDataPFrame)).valueOf.getD {}) 9 (by decide!)
  hw.2.2 (Or.inl ⟨rfl, Or.inl (by decide!)⟩)

/-! ## Two flags are two bits -/

/-- When one more byte is enough, `fetch` is one round of its loop. -/
theorem fetch_single (want : Nat) (rd : List Byte) (n v pos zc : Nat)
    (h1 : n < want) (h2 : want ≤ n + 8) :
    fetch want rd n v pos zc =
      match fetchOne rd pos zc with
      | Except.ok (b, rd1, pos1, zc1) =>
        Except.ok { rd := rd1, n := n + 8, v := v * 256 + b.val, pos := pos1, zeroCount := zc1 }
      | Except.error pos1 =>
        Except.error { rd := [], n := n, v := v * 256, pos := pos1, zeroCount := zc } := by
  have hn : ¬ want ≤ n := by omega
  cases rd with
  | nil => rw [fetch_nil _ _ _ _ _ hn]; rfl
  | cons b rest =>
    by_cases hz : zc = 2
    · subst hz
      by_cases hb : b.val = 3
      · cases rest with
        | nil =>
          rw [fetch_escape_nil _ _ _ _ _ hn hb]
          simp [fetchOne, hb]
        | cons b2 rest2 =>
          rw [fetch_escape_cons _ _ _ _ _ _ _ hn hb, fetch_enough _ _ _ _ _ _ h2]
          simp [fetchOne, hb]
      · rw [fetch_two _ _ _ _ _ _ hn hb, fetch_enough _ _ _ _ _ _ h2]
        simp [fetchOne, hb]
    · rw [fetch_cons _ _ _ _ _ _ _ hn hz, fetch_enough _ _ _ _ _ _ h2]
      simp [fetchOne, hz]

/-- Two successive one-bit reads are one two-bit read: they succeed together,
with the same reader afterwards, and the two bits are the two binary digits of
the value. -/
theorem Read_1_1_eq_Read_2 (r : EBSPReader) :
    (∀ val r2, Read 2 r = Res.ok val r2 →
      ∃ r1, Read 1 r = Res.ok (val / 2) r1 ∧ Read 1 r1 = Res.ok (val % 2) r2) ∧
    (∀ e r2, Read 2 r = Res.fail e r2 →
      (∃ r1, Read 1 r = Res.fail e r1) ∨
      (∃ a r1 r3, Read 1 r = Res.ok a r1 ∧ Read 1 r1 = Res.fail e r3)) := by
  obtain ⟨rd, n, v, pos, zc⟩ := r
  by_cases hn2 : 2 ≤ n
  · -- both bits are buffered
    have hn1 : 1 ≤ n := by omega
    have hn11 : 1 ≤ n - 1 := by omega
    have e1 : (n - 1 - 1) = n - 2 := by omega
    have p1 : 2 ^ (n - 1) = 2 ^ (n - 2) * 2 := by
      rw [← pow_succ]; congr 1; omega
    constructor
    · intro val r2 h
      simp only [Read, fetch_enough _ _ _ _ _ _ hn2] at h
      injection h with h3 h4
      refine ⟨{ rd := rd, n := n - 1, v := v % 2 ^ (n - 1), pos := pos, zeroCount := zc }, ?_, ?_⟩
      · simp only [Read, fetch_enough _ _ _ _ _ _ hn1]
        rw [← h3, p1, Nat.div_div_eq_div_mul]
      · simp only [Read, fetch_enough _ _ _ _ _ _ hn11]
        rw [← h3, ← h4, e1, p1, Nat.mod_mul_right_div_self,
          Nat.mod_mul_right_mod]
    · intro e r2 h
      simp only [Read, fetch_enough _ _ _ _ _ _ hn2] at h
      exact Res.noConfusion h
  · by_cases hn1 : n = 1
    · -- one bit is buffered, the other is the first bit of the next byte
      subst hn1
      have hf2 := fetch_single 2 rd 1 v pos zc (by omega) (by omega)
      have hf1 := fetch_single 1 rd 0 (v % 2 ^ (1 - 1)) pos zc (by omega) (by omega)
      have hI : Read 1 { rd := rd, n := 1, v := v, pos := pos, zeroCount := zc } =
          Res.ok (v / 2 ^ (1 - 1))
            { rd := rd, n := 0, v := v % 2 ^ (1 - 1), pos := pos, zeroCount := zc } := by
        simp only [Read, fetch_enough _ _ _ _ _ _ (Nat.le_refl 1)]
      cases hx : fetchOne rd pos zc with
      | error pos1 =>
        rw [hx] at hf1 hf2
        constructor
        · intro val r2 h
          simp only [Read, hf2] at h
          exact Res.noConfusion h
        · intro e r2 h
          simp only [Read, hf2] at h
          injection h with h3 h4
          refine Or.inr ⟨v / 2 ^ (1 - 1),
            { rd := rd, n := 0, v := v % 2 ^ (1 - 1), pos := pos, zeroCount := zc },
            { rd := [], n := 0, v := v % 2 ^ (1 - 1) * 256, pos := pos1, zeroCount := zc },
            hI, ?_⟩
          simp only [Read, hf1]
          rw [← h3]
      | ok q =>
        obtain ⟨b, rd1, pos1, zc1⟩ := q
        rw [hx] at hf1 hf2
        have hb := b.isLt
        constructor
        · intro val r2 h
          simp only [Read, hf2] at h
          injection h with h3 h4
          refine ⟨{ rd := rd, n := 0, v := v % 2 ^ (1 - 1), pos := pos, zeroCount := zc },
            ?_, ?_⟩
          · rw [hI]
            congr 1
            rw [← h3]
            simp
            omega
          · simp only [Read, hf1]
            rw [← h3, ← h4]
            simp
            constructor <;> omega
        · intro e r2 h
          simp only [Read, hf2] at h
          exact Res.noConfusion h
    · -- nothing is buffered: both bits come from the next byte
      have hn0 : n = 0 := by omega
      subst hn0
      have hf2 := fetch_single 2 rd 0 v pos zc (by omega) (by omega)
      have hf1 := fetch_single 1 rd 0 v pos zc (by omega) (by omega)
      cases hx : fetchOne rd pos zc with
      | error pos1 =>
        rw [hx] at hf1 hf2
        constructor
        · intro val r2 h
          simp only [Read, hf2] at h
          exact Res.noConfusion h
        · intro e r2 h
          simp only [Read, hf2] at h
          injection h with h3 h4
          refine Or.inl ⟨{ rd := [], n := 0, v := v * 256, pos := pos1, zeroCount := zc }, ?_⟩
          simp only [Read, hf1]
          rw [← h3]
      | ok q =>
        obtain ⟨b, rd1, pos1, zc1⟩ := q
        rw [hx] at hf1 hf2
        constructor
        · intro val r2 h
          simp only [Read, hf2] at h
          injection h with h3 h4
          refine ⟨{ rd := rd1, n := 7, v := (v * 256 + b.val) % 2 ^ 7, pos := pos1,
                    zeroCount := zc1 }, ?_, ?_⟩
          · simp only [Read, hf1]
            rw [← h3]
            simp
            omega
          · simp only [Read, fetch_enough _ _ _ _ _ _ (by omega : 1 ≤ 7)]
            rw [← h3, ← h4]
            simp
            constructor <;> omega
        · intro e r2 h
          simp only [Read, hf2] at h
          exact Res.noConfusion h

/-- For an IDR NAL `ParseDecRefPicMarking` is two one-bit reads. -/
theorem ParseDecRefPicMarking_IDR_reads (r : EBSPReader) :
    ParseDecRefPicMarking NALU_IDR r =
      match Read 1 r with
      | Res.fail e r1 => Res.fail e r1
      | Res.ok a r1 =>
        match Read 1 r1 with
        | Res.fail e r2 => Res.fail e r2
        | Res.ok b r2 =>
          Res.ok { NoOutputOfPriorPicsFlag := (a == 1), LongTermReferenceFlag := (b == 1),
                   AdaptiveRefPicMarkingModeFlag := false, AdaptiveRefPicMarkingParams := [] }
            r2 := by
  have hidr : getIDRPicFlag NALU_IDR = true := rfl
  unfold ParseDecRefPicMarking
  simp only [hidr, if_true]
  unfold ReadFlag
  simp only [bind_apply, pure_apply]
  cases Read 1 r with
  | fail e r1 => rfl
  | ok a r1 =>
    dsimp only
    cases Read 1 r1 with
    | fail e r2 => rfl
    | ok b r2 => rfl

/-- C17. For an IDR NAL (type 5) `ParseDecRefPicMarking` consumes exactly two
bits: it succeeds exactly when a two-bit read succeeds, leaves the reader that
read leaves, and returns the first bit as `NoOutputOfPriorPicsFlag`, the second
as `LongTermReferenceFlag`, `AdaptiveRefPicMarkingModeFlag` false and no
`AdaptiveRefPicMarkingParams`; it fails, with the end-of-data error, exactly
when a two-bit read fails. -/
theorem ParseDecRefPicMarking_IDR (r : EBSPReader) :
    (∀ val r2, Read 2 r = Res.ok val r2 →
      ParseDecRefPicMarking NALU_IDR r =
        Res.ok { NoOutputOfPriorPicsFlag := (val / 2 == 1),
                 LongTermReferenceFlag := (val % 2 == 1),
                 AdaptiveRefPicMarkingModeFlag := false,
                 AdaptiveRefPicMarkingParams := [] } r2) ∧
    (∀ e r2, Read 2 r = Res.fail e r2 →
      ∃ r3, ParseDecRefPicMarking NALU_IDR r = Res.fail Error.ErrTooFewBits r3) ∧
    (∀ e r3, ParseDecRefPicMarking NALU_IDR r = Res.fail e r3 →
      e = Error.ErrTooFewBits ∧ ∃ r2, Read 2 r = Res.fail Error.ErrTooFewBits r2) := by
  have h12 := Read_1_1_eq_Read_2 r
  have hok : ∀ val r2, Read 2 r = Res.ok val r2 →
      ParseDecRefPicMarking NALU_IDR r =
        Res.ok { NoOutputOfPriorPicsFlag := (val / 2 == 1),
                 LongTermReferenceFlag := (val % 2 == 1),
                 AdaptiveRefPicMarkingModeFlag := false,
                 AdaptiveRefPicMarkingParams := [] } r2 := by
    intro val r2 h
    obtain ⟨r1, ha, hb⟩ := h12.1 val r2 h
    rw [ParseDecRefPicMarking_IDR_reads, ha]
    dsimp only
    rw [hb]
  refine ⟨hok, ?_, ?_⟩
  · intro e r2 h
    have he := (Read_fail_bitsLeft 2 r r2 e h).1
    rcases h12.2 e r2 h with ⟨r1, ha⟩ | ⟨a, r1, r3, ha, hb⟩
    · refine ⟨r1, ?_⟩
      rw [ParseDecRefPicMarking_IDR_reads, ha, he]
    · refine ⟨r3, ?_⟩
      rw [ParseDecRefPicMarking_IDR_reads, ha]
      dsimp only
      rw [hb, he]
  · intro e r3 h
    cases hx : Read 2 r with
    | ok val r2 =>
      rw [hok val r2 hx] at h
      exact Res.noConfusion h
    | fail e2 r2 =>
      have he2 := (Read_fail_bitsLeft 2 r r2 e2 hx).1
      have L := leBits_law endOfData (fun _ h => h)
      have he : endOfData e :=
        ((keeps_ParseDecRefPicMarking L NALU_IDR r).2 e r3 h).2
      rw [he2]
      exact ⟨he, r2, rfl⟩

/-- C17, witness: on the bits `1 0 ...` the flags are true and false and six
bits of the byte stay buffered. -/
theorem ParseDecRefPicMarking_IDR_witness :
    ParseDecRefPicMarking NALU_IDR (NewEBSPReader [0x80]) =
      Res.ok { NoOutputOfPriorPicsFlag := true, LongTermReferenceFlag := false,
               AdaptiveRefPicMarkingModeFlag := false, AdaptiveRefPicMarkingParams := [] }
        { rd := [], n := 6, v := 0, pos := 1, zeroCount := 0 } :=
  (ParseDecRefPicMarking_IDR (NewEBSPReader [0x80])).1 2
    { rd := [], n := 6, v := 0, pos := 1, zeroCount := 0 } (by decide!)

/-! ## Chroma weights -/

theorem rd_bind_assoc {α β γ : Type} (x : Rd α) (f : α → Rd β) (g : β → Rd γ) :
    (x >>= f) >>= g = x >>= fun a => f a >>= g := by
  funext r
  simp only [bind_apply]
  cases x r <;> rfl

theorem rd_pure_bind {α β : Type} (a : α) (f : α → Rd β) : (pure a : Rd α) >>= f = f a := by
  funext r
  rfl

theorem pwtLoopL0_chroma (sps : SPS) (count : Nat) (pwt : PredWeightTable)
    (h : getChromaArrayType sps ≠ 0) :
    pwtLoopL0 sps (count + 1) pwt = (do
      let lumaFlag ← ReadFlag
      let t ← lumaWeightsL0 lumaFlag { pwt with LumaWeightL0Flag := lumaFlag }
      let chromaFlag ← ReadFlag
      let t ← chromaWeightsL0 chromaFlag { t with ChromaWeightL0Flag := chromaFlag }
      pwtLoopL0 sps count t) := by
  conv_lhs => rw [pwtLoopL0]
  simp only [if_pos h, lumaWeightsL0, chromaWeightsL0, rd_bind_assoc]

theorem pwtLoopL0_no_chroma (sps : SPS) (count : Nat) (pwt : PredWeightTable)
    (h : getChromaArrayType sps = 0) :
    pwtLoopL0 sps (count + 1) pwt = (do
      let lumaFlag ← ReadFlag
      let t ← lumaWeightsL0 lumaFlag { pwt with LumaWeightL0Flag := lumaFlag }
      pwtLoopL0 sps count t) := by
  conv_lhs => rw [pwtLoopL0]
  simp only [h, ne_eq, not_true_eq_false, if_false, lumaWeightsL0, rd_bind_assoc, rd_pure_bind]

theorem pwtLoopL1_chroma (sps : SPS) (count : Nat) (pwt : PredWeightTable)
    (h : getChromaArrayType sps ≠ 0) :
    pwtLoopL1 sps (count + 1) pwt = (do
      let lumaFlag ← ReadFlag
      let t ← lumaWeightsL1 lumaFlag { pwt with LumaWeightL1Flag := lumaFlag }
      let chromaFlag ← ReadFlag
      let t ← chromaWeightsL1 chromaFlag { t with ChromaWeightL1Flag := chromaFlag }
      pwtLoopL1 sps count t) := by
  conv_lhs => rw [pwtLoopL1]
  simp only [if_pos h, lumaWeightsL1, chromaWeightsL1, rd_bind_assoc]

theorem pwtLoopL1_no_chroma (sps : SPS) (count : Nat) (pwt : PredWeightTable)
    (h : getChromaArrayType sps = 0) :
    pwtLoopL1 sps (count + 1) pwt = (do
      let lumaFlag ← ReadFlag
      let t ← lumaWeightsL1 lumaFlag { pwt with LumaWeightL1Flag := lumaFlag }
      pwtLoopL1 sps count t) := by
  conv_lhs => rw [pwtLoopL1]
  simp only [h, ne_eq, not_true_eq_false, if_false, lumaWeightsL1, rd_bind_assoc, rd_pure_bind]

theorem ParsePredWeightTable_chroma (sps : SPS) (avcsh : SliceHeader)
    (h : getChromaArrayType sps ≠ 0) :
    ParsePredWeightTable sps avcsh = (do
      let lumaDenom ← ReadExpGolomb
      let chromaDenom ← ReadExpGolomb
      let t ← pwtLoopL0 sps (avcsh.NumRefIdxL0ActiveMinus1 + 1)
        { LumaLog2WeightDenom := lumaDenom, ChromaLog2WeightDenom := chromaDenom }
      if avcsh.SliceType % 5 = 1 then
        pwtLoopL1 sps (avcsh.NumRefIdxL1ActiveMinus1 + 1) t
      else pure t) := by
  unfold ParsePredWeightTable
  simp only [if_pos h, rd_bind_assoc, rd_pure_bind]

theorem ParsePredWeightTable_no_chroma (sps : SPS) (avcsh : SliceHeader)
    (h : getChromaArrayType sps = 0) :
    ParsePredWeightTable sps avcsh = (do
      let lumaDenom ← ReadExpGolomb
      let t ← pwtLoopL0 sps (avcsh.NumRefIdxL0ActiveMinus1 + 1)
        { LumaLog2WeightDenom := lumaDenom }
      if avcsh.SliceType % 5 = 1 then
        pwtLoopL1 sps (avcsh.NumRefIdxL1ActiveMinus1 + 1) t
      else pure t) := by
  unfold ParsePredWeightTable
  simp only [h, ne_eq, not_true_eq_false, if_false, rd_bind_assoc, rd_pure_bind]

theorem okIn_bind_post {α β : Type} {x : Rd α} {f : α → Rd β} {P : α → Prop} {Q : β → Prop}
    (hx : x.okIn P) (hf : ∀ a, P a → (f a).okIn Q) : (x >>= f).okIn Q := by
  intro r b r1 h
  obtain ⟨a, r2, h1, h2⟩ := bind_ok_inv h
  exact hf a (hx r a r2 h1) r2 b r1 h2

theorem lumaWeightsL0_untouched (f : Bool) (pwt : PredWeightTable) (h : chromaUntouched pwt) :
    (lumaWeightsL0 f pwt).okIn chromaUntouched := by
  unfold lumaWeightsL0
  split
  · exact okIn_bind (fun _ => okIn_bind (fun _ => okIn_pure _ _ h))
  · exact okIn_pure _ _ h

theorem lumaWeightsL1_untouched (f : Bool) (pwt : PredWeightTable) (h : chromaUntouched pwt) :
    (lumaWeightsL1 f pwt).okIn chromaUntouched := by
  unfold lumaWeightsL1
  split
  · exact okIn_bind (fun _ => okIn_bind (fun _ => okIn_pure _ _ h))
  · exact okIn_pure _ _ h

theorem pwtLoopL0_untouched (sps : SPS) (h0 : getChromaArrayType sps = 0) (count : Nat) :
    ∀ pwt, chromaUntouched pwt → (pwtLoopL0 sps count pwt).okIn chromaUntouched := by
  induction count with
  | zero => intro pwt h; unfold pwtLoopL0; exact okIn_pure _ _ h
  | succ count ih =>
    intro pwt h
    rw [pwtLoopL0_no_chroma sps count pwt h0]
    exact okIn_bind (fun lf =>
      okIn_bind_post (lumaWeightsL0_untouched lf _ h) (fun t ht => ih t ht))

theorem pwtLoopL1_untouched (sps : SPS) (h0 : getChromaArrayType sps = 0) (count : Nat) :
    ∀ pwt, chromaUntouched pwt → (pwtLoopL1 sps count pwt).okIn chromaUntouched := by
  induction count with
  | zero => intro pwt h; unfold pwtLoopL1; exact okIn_pure _ _ h
  | succ count ih =>
    intro pwt h
    rw [pwtLoopL1_no_chroma sps count pwt h0]
    exact okIn_bind (fun lf =>
      okIn_bind_post (lumaWeightsL1_untouched lf _ h) (fun t ht => ih t ht))

theorem ParsePredWeightTable_untouched (sps : SPS) (avcsh : SliceHeader)
    (h0 : getChromaArrayType sps = 0) :
    (ParsePredWeightTable sps avcsh).okIn chromaUntouched := by
  rw [ParsePredWeightTable_no_chroma sps avcsh h0]
  refine okIn_bind (fun ld => okIn_bind_post (pwtLoopL0_untouched sps h0 _ _ ?_) ?_)
  · exact ⟨rfl, rfl, rfl, rfl, rfl, rfl, rfl⟩
  · intro t ht
    split
    · exact pwtLoopL1_untouched sps h0 _ t ht
    · exact okIn_pure _ _ ht

/-- C20. `getChromaArrayType` is 0 when `SeparateColourPlaneFlag` is set and
`ChromaFormatIDC` otherwise. When it is not 0, `ParsePredWeightTable` reads the
chroma denominator right after the luma one, and a round of either loop reads a
chroma flag after the luma entry. When it is 0, the chroma denominator is not
read, a round reads the luma entry only, and the table that comes out has
`ChromaLog2WeightDenom = 0`, both chroma flags false and all four chroma lists
empty. -/
theorem chroma_read_iff_chromaArrayType (sps : SPS) (avcsh : SliceHeader) (count : Nat)
    (pwt : PredWeightTable) :
    (getChromaArrayType sps = if sps.SeparateColourPlaneFlag then 0 else sps.ChromaFormatIDC) ∧
    (getChromaArrayType sps ≠ 0 →
      ParsePredWeightTable sps avcsh = (do
        let lumaDenom ← ReadExpGolomb
        let chromaDenom ← ReadExpGolomb
        let t ← pwtLoopL0 sps (avcsh.NumRefIdxL0ActiveMinus1 + 1)
          { LumaLog2WeightDenom := lumaDenom, ChromaLog2WeightDenom := chromaDenom }
        if avcsh.SliceType % 5 = 1 then
          pwtLoopL1 sps (avcsh.NumRefIdxL1ActiveMinus1 + 1) t
        else pure t) ∧
      pwtLoopL0 sps (count + 1) pwt = (do
        let lumaFlag ← ReadFlag
        let t ← lumaWeightsL0 lumaFlag { pwt with LumaWeightL0Flag := lumaFlag }
        let chromaFlag ← ReadFlag
        let t ← chromaWeightsL0 chromaFlag { t with ChromaWeightL0Flag := chromaFlag }
        pwtLoopL0 sps count t) ∧
      pwtLoopL1 sps (count + 1) pwt = (do
        let lumaFlag ← ReadFlag
        let t ← lumaWeightsL1 lumaFlag { pwt with LumaWeightL1Flag := lumaFlag }
        let chromaFlag ← ReadFlag
        let t ← chromaWeightsL1 chromaFlag { t with ChromaWeightL1Flag := chromaFlag }
        pwtLoopL1 sps count t)) ∧
    (getChromaArrayType sps = 0 →
      ParsePredWeightTable sps avcsh = (do
        let lumaDenom ← ReadExpGolomb
        let t ← pwtLoopL0 sps (avcsh.NumRefIdxL0ActiveMinus1 + 1)
          { LumaLog2WeightDenom := lumaDenom }
        if avcsh.SliceType % 5 = 1 then
          pwtLoopL1 sps (avcsh.NumRefIdxL1ActiveMinus1 + 1) t
        else pure t) ∧
      pwtLoopL0 sps (count + 1) pwt = (do
        let lumaFlag ← ReadFlag
        let t ← lumaWeightsL0 lumaFlag { pwt with LumaWeightL0Flag := lumaFlag }
        pwtLoopL0 sps count t) ∧
      pwtLoopL1 sps (count + 1) pwt = (do
        let lumaFlag ← ReadFlag
        let t ← lumaWeightsL1 lumaFlag { pwt with LumaWeightL1Flag := lumaFlag }
        pwtLoopL1 sps count t) ∧
      ∀ r t r1, ParsePredWeightTable sps avcsh r = Res.ok t r1 →
        t.ChromaLog2WeightDenom = 0 ∧
        t.ChromaWeightL0Flag = false ∧ t.ChromaWeightL0 = [] ∧ t.ChromaOffsetL0 = [] ∧
        t.ChromaWeightL1Flag = false ∧ t.ChromaWeightL1 = [] ∧ t.ChromaOffsetL1 = []) := by
  refine ⟨rfl, fun h => ⟨ParsePredWeightTable_chroma sps avcsh h,
    pwtLoopL0_chroma sps count pwt h, pwtLoopL1_chroma sps count pwt h⟩,
    fun h => ⟨ParsePredWeightTable_no_chroma sps avcsh h,
      pwtLoopL0_no_chroma sps count pwt h, pwtLoopL1_no_chroma sps count pwt h,
      fun r t r1 hr => ParsePredWeightTable_untouched sps avcsh h r t r1 hr⟩⟩

/-- C20, witness: with `SeparateColourPlaneFlag` set the chroma array type is 0;
on the bits `1 1 010 1` (luma denominator 0, one reference with luma weight 1
and offset 0) the table has no chroma entry and two bits stay unread. -/
theorem chroma_read_iff_chromaArrayType_witness :
    getChromaArrayType { SeparateColourPlaneFlag := true, ChromaFormatIDC := 3 } = 0 ∧
    (ParsePredWeightTable { SeparateColourPlaneFlag := true, ChromaFormatIDC := 3 } {}
        (NewEBSPReader [0xd4])).valueOf =
      some { LumaLog2WeightDenom := 0, LumaWeightL0Flag := true, LumaWeightL0 := [1],
             LumaOffsetL0 := [1, 0] } ∧
    (∀ r t r1,
      ParsePredWeightTable { SeparateColourPlaneFlag := true, ChromaFormatIDC := 3 } {} r =
        Res.ok t r1 → t.ChromaLog2WeightDenom = 0 ∧
        t.ChromaWeightL0Flag = false ∧ t.ChromaWeightL0 = [] ∧ t.ChromaOffsetL0 = [] ∧
        t.ChromaWeightL1Flag = false ∧ t.ChromaWeightL1 = [] ∧ t.ChromaOffsetL1 = []) :=
  ⟨by decide, by decide!,
   ((chroma_read_iff_chromaArrayType { SeparateColourPlaneFlag := true, ChromaFormatIDC := 3 }
      {} 0 {}).2.2 (by decide)).2.2.2⟩

/-! ## The two remaining header tests -/

/-- C25. `TestSliceHeaderParserIDR`: on `videoSliceDataIDR` with the parameter
sets of the test `ParseSliceHeader` returns no error; it returns a header of
slice type I and 5 consumed bytes of the 8. -/
theorem ParseSliceHeader_IDR_no_error (w : Nat → Nat) :
    (ParseSliceHeader w videoSliceDataIDR spsTest ppsTest).2.2 = none ∧
    (ParseSliceHeader w videoSliceDataIDR spsTest ppsTest).1.map (fun h => h.SliceType) =
      some SLICE_I ∧
    (ParseSliceHeader w videoSliceDataIDR spsTest ppsTest).2.1 = 5 := by
  rw [ParseSliceHeader_ceilLog2 w exactCeilLog2 _ _ _ rfl]
  decide!

/-- C26. `TestSliceHeaderParserPFrame`: on `videoSliceDataPFrame` with the
parameter sets of the test `ParseSliceHeader` returns no error; the header is of
slice type P and carries a prediction weight table whose list-0 luma flag is set
and whose luma weight is 127. -/
theorem ParseSliceHeader_PFrame_no_error (w : Nat → Nat) :
    (ParseSliceHeader w videoSliceDataPFrame spsTest ppsTest).2.2 = none ∧
    (ParseSliceHeader w videoSliceDataPFrame spsTest ppsTest).1.map (fun h => h.SliceType) =
      some SLICE_P ∧
    ((ParseSliceHeader w videoSliceDataPFrame spsTest ppsTest).1.bind
        (fun h => h.PredWeightTable)).map (fun t => (t.LumaWeightL0Flag, t.LumaWeightL0)) =
      some (true, [127]) := by
  rw [ParseSliceHeader_ceilLog2 w exactCeilLog2 _ _ _ rfl]
  decide!

/-! ## `GetNalusFromSample` on well-formed samples -/

theorem lengthField_length (n : Nat) : (lengthField n).length = 4 := rfl

theorem bigEndianUint32_lengthField (n : Nat) (h : n < 2 ^ 32) :
    bigEndianUint32 (lengthField n) = some n := by
  simp only [lengthField, bigEndianUint32, Fin.ofNat, Option.some.injEq]
  omega

theorem goSlice_append (pre mid post : List Byte) :
    goSlice (pre ++ mid ++ post) pre.length (pre.length + mid.length) = some mid := by
  unfold goSlice
  rw [if_pos]
  · simp
  · simp

theorem lengthPrefixed_nil_of_length (nalus : List (List Byte))
    (h : (lengthPrefixed nalus).length = 0) : nalus = [] := by
  cases nalus with
  | nil => rfl
  | cons u rest => simp [lengthPrefixed, lengthField] at h

theorem nalusLoop_lengthPrefixed (nalus : List (List Byte)) :
    ∀ (pre : List Byte) (acc : List (List Byte)) (fuel : Nat),
      (∀ u ∈ nalus, u ≠ []) →
      (pre ++ lengthPrefixed nalus).length < 2 ^ 32 →
      (lengthPrefixed nalus).length ≤ fuel →
      nalusLoop (pre ++ lengthPrefixed nalus) fuel pre.length acc =
        NalusOutcome.ret (some (acc ++ nalus)) none := by
  induction nalus with
  | nil =>
    intro pre acc fuel _ _ _
    have hc : ¬ pre.length < (pre.length - 4) % 2 ^ 32 := by
      have := Nat.mod_le (pre.length - 4) (2 ^ 32)
      omega
    simp only [lengthPrefixed, List.append_nil]
    cases fuel with
    | zero => rw [nalusLoop, if_neg hc]
    | succ f => rw [nalusLoop, if_neg hc]
  | cons u rest ih =>
    intro pre acc fuel hne hlen hfuel
    have hu : u ≠ [] := hne u (List.mem_cons_self _ _)
    have hupos : 0 < u.length := List.length_pos.mpr hu
    have hL : (pre ++ lengthPrefixed (u :: rest)).length =
        pre.length + 4 + u.length + (lengthPrefixed rest).length := by
      simp [lengthPrefixed, lengthField_length]; omega
    rw [hL] at hlen
    have hf : (lengthPrefixed (u :: rest)).length =
        4 + u.length + (lengthPrefixed rest).length := by
      simp [lengthPrefixed, lengthField_length]; omega
    rw [hf] at hfuel
    obtain ⟨f, rfl⟩ : ∃ f, fuel = f + 1 := ⟨fuel - 1, by omega⟩
    have hs1 : pre ++ lengthPrefixed (u :: rest) =
        pre ++ lengthField u.length ++ (u ++ lengthPrefixed rest) := by
      simp [lengthPrefixed]
    have hs2 : pre ++ lengthPrefixed (u :: rest) =
        (pre ++ lengthField u.length) ++ u ++ lengthPrefixed rest := by
      simp [lengthPrefixed]
    have hg1 : goSlice (pre ++ lengthPrefixed (u :: rest)) pre.length
        ((pre.length + 4) % 2 ^ 32) = some (lengthField u.length) := by
      rw [Nat.mod_eq_of_lt (by omega), hs1]
      exact goSlice_append pre (lengthField u.length) _
    have hg2 : goSlice (pre ++ lengthPrefixed (u :: rest)) ((pre.length + 4) % 2 ^ 32)
        (((pre.length + 4) % 2 ^ 32 + u.length) % 2 ^ 32) = some u := by
      rw [Nat.mod_eq_of_lt (show pre.length + 4 < 2 ^ 32 by omega),
        Nat.mod_eq_of_lt (show pre.length + 4 + u.length < 2 ^ 32 by omega), hs2]
      have := goSlice_append (pre ++ lengthField u.length) u (lengthPrefixed rest)
      simpa [lengthField_length] using this
    have hcond : pre.length < ((pre ++ lengthPrefixed (u :: rest)).length - 4) % 2 ^ 32 := by
      rw [hL, Nat.mod_eq_of_lt (by omega)]; omega
    have hnot : ¬ ((pre.length + 4) % 2 ^ 32 + u.length) % 2 ^ 32 >
        (pre ++ lengthPrefixed (u :: rest)).length := by
      rw [hL, Nat.mod_eq_of_lt (show pre.length + 4 < 2 ^ 32 by omega),
        Nat.mod_eq_of_lt (show pre.length + 4 + u.length < 2 ^ 32 by omega)]
      omega
    have hrec := ih (pre ++ lengthField u.length ++ u) (acc ++ [u]) f
      (fun v hv => hne v (List.mem_cons_of_mem _ hv))
      (by rw [← hs2, hL]; omega) (by omega)
    rw [← hs2] at hrec
    have hpl : (pre ++ lengthField u.length ++ u).length =
        ((pre.length + 4) % 2 ^ 32 + u.length) % 2 ^ 32 := by
      rw [Nat.mod_eq_of_lt (show pre.length + 4 < 2 ^ 32 by omega),
        Nat.mod_eq_of_lt (show pre.length + 4 + u.length < 2 ^ 32 by omega)]
      simp [lengthField_length]; omega
    rw [hpl] at hrec
    rw [nalusLoop, if_pos hcond, hg1]
    simp only [bigEndianUint32_lengthField u.length (by omega), if_neg hnot, hg2]
    rw [hrec]
    simp

/-- C24. For every non-empty list of non-empty NAL units whose sample (each
unit preceded by its 4-byte big-endian length) is shorter than `2^32` bytes,
hence in particular for a total size below `2^31`, `GetNalusFromSample` returns
exactly that list, in order, with no error. -/
theorem GetNalusFromSample_lengthPrefixed (nalus : List (List Byte))
    (hne : nalus ≠ []) (hunits : ∀ u ∈ nalus, u ≠ [])
    (hsize : (lengthPrefixed nalus).length < 2 ^ 32) :
    GetNalusFromSample (lengthPrefixed nalus) = NalusOutcome.ret (some nalus) none := by
  have h4 : ¬ (lengthPrefixed nalus).length < 4 := by
    cases nalus with
    | nil => exact absurd rfl hne
    | cons u rest => simp [lengthPrefixed, lengthField_length]
  have h := nalusLoop_lengthPrefixed nalus [] [] (lengthPrefixed nalus).length hunits
    (by simpa using hsize) (Nat.le_refl _)
  simp only [List.nil_append, List.length_nil] at h
  rw [GetNalusFromSample, if_neg h4, h]

/-- C24, witness: the two units `65 88` and `41` in the sample
`00 00 00 02 65 88 00 00 00 01 41`. -/
theorem GetNalusFromSample_lengthPrefixed_witness :
    lengthPrefixed [[0x65, 0x88], [0x41]] =
      [0x00, 0x00, 0x00, 0x02, 0x65, 0x88, 0x00, 0x00, 0x00, 0x01, 0x41] ∧
    GetNalusFromSample [0x00, 0x00, 0x00, 0x02, 0x65, 0x88, 0x00, 0x00, 0x00, 0x01, 0x41] =
      NalusOutcome.ret (some [[0x65, 0x88], [0x41]]) none :=
  ⟨by decide, GetNalusFromSample_lengthPrefixed [[0x65, 0x88], [0x41]] (by decide) (by decide)
    (by decide)⟩

/-! ## The value of a fixed-width read -/

theorem fetch_ok_wf (want : Nat) (rd : List Byte) (n v pos zc : Nat) :
    ∀ r1, v < 2 ^ n → fetch want rd n v pos zc = Except.ok r1 →
      r1.v < 2 ^ r1.n ∧ want ≤ r1.n := by
  induction rd, n, v, pos, zc using fetch.induct want with
  | case1 rd n v pos zc h =>
    intro r1 hv hr
    rw [fetch_enough _ _ _ _ _ _ h] at hr
    injection hr with hr; rw [← hr]; exact ⟨hv, h⟩
  | case2 n v pos zc h =>
    intro r1 _ hr
    rw [fetch_nil _ _ _ _ _ h] at hr
    exact Except.noConfusion hr
  | case3 n v pos h b hb =>
    intro r1 _ hr
    rw [fetch_escape_nil _ _ _ _ _ h hb] at hr
    exact Except.noConfusion hr
  | case4 n v pos h b hb b2 rest ih =>
    intro r1 hv hr
    rw [fetch_escape_cons _ _ _ _ _ _ _ h hb] at hr
    refine ih r1 ?_ hr
    have := b2.isLt
    rw [pow_add]; omega
  | case5 n v pos h b rest hb ih =>
    intro r1 hv hr
    rw [fetch_two _ _ _ _ _ _ h hb] at hr
    refine ih r1 ?_ hr
    have := b.isLt
    rw [pow_add]; omega
  | case6 n v pos zc h b rest hz ih =>
    intro r1 hv hr
    rw [fetch_cons _ _ _ _ _ _ _ h hz] at hr
    refine ih r1 ?_ hr
    have := b.isLt
    rw [pow_add]; omega

/-- A read of `k` bits from a well-formed reader returns a number below `2^k`
and leaves a well-formed reader. -/
theorem Read_ok_wf (k : Nat) (r r1 : EBSPReader) (a : Nat) (hw : r.wf)
    (h : Read k r = Res.ok a r1) : a < 2 ^ k ∧ r1.wf := by
  unfold Read at h
  cases hx : fetch k r.rd r.n r.v r.pos r.zeroCount with
  | error r2 => rw [hx] at h; exact Res.noConfusion h
  | ok r2 =>
    rw [hx] at h
    obtain ⟨h1, h2⟩ := fetch_ok_wf k r.rd r.n r.v r.pos r.zeroCount r2 hw hx
    injection h with ha hr
    rw [← ha, ← hr]
    constructor
    · apply Nat.div_lt_of_lt_mul
      rw [← pow_add]
      have : r2.n - k + k = r2.n := by omega
      rw [this]; exact h1
    · exact Nat.mod_lt _ (Nat.pow_pos (by decide))

theorem okWf_pure {α : Type} (a : α) : (pure a : Rd α).okWf := by
  intro r b r1 hw h
  rw [← (pure_ok_inv h).2]; exact hw

theorem okWf_throw {α : Type} (e : Error) : (Rd.throw e : Rd α).okWf := by
  intro r b r1 _ h
  exact Res.noConfusion (h : Res.fail e r = Res.ok b r1)

theorem okWf_bind {α β : Type} {x : Rd α} {f : α → Rd β}
    (hx : x.okWf) (hf : ∀ a, (f a).okWf) : (x >>= f).okWf := by
  intro r b r2 hw h
  obtain ⟨a, r1, h1, h2⟩ := bind_ok_inv h
  exact hf a r1 b r2 (hx r a r1 hw h1) h2

theorem okWf_ite {α : Type} {c : Prop} [Decidable c] {x y : Rd α}
    (hx : x.okWf) (hy : y.okWf) : (if c then x else y).okWf := by
  split
  · exact hx
  · exact hy

theorem okWf_Read (k : Nat) : (Read k).okWf :=
  fun r a r1 hw h => (Read_ok_wf k r r1 a hw h).2

theorem okWf_ReadFlag : ReadFlag.okWf := by
  unfold ReadFlag
  exact okWf_bind (okWf_Read 1) (fun _ => okWf_pure _)

theorem okWf_countLeadingZeros (fuel k : Nat) : (countLeadingZeros fuel k).okWf := by
  induction fuel generalizing k with
  | zero => unfold countLeadingZeros; exact okWf_throw _
  | succ fuel ih =>
    unfold countLeadingZeros
    exact okWf_bind (okWf_Read 1) (fun _ => okWf_ite (okWf_pure _) (ih _))

theorem okWf_ReadExpGolomb : ReadExpGolomb.okWf := by
  intro r
  unfold ReadExpGolomb
  exact okWf_bind (okWf_countLeadingZeros _ _)
    (fun _ => okWf_bind (okWf_Read _) (fun _ => okWf_pure _)) r

theorem okWf_setSliceType (k : Nat) : (setSliceType k).okWf := by
  unfold setSliceType
  exact okWf_ite (okWf_throw _) (okWf_ite (okWf_pure _) (okWf_pure _))

theorem NewEBSPReader_wf (data : List Byte) : (NewEBSPReader data).wf := by
  simp [NewEBSPReader, EBSPReader.wf]

theorem okWf_ReadSignedGolomb : ReadSignedGolomb.okWf := by
  unfold ReadSignedGolomb
  exact okWf_bind okWf_ReadExpGolomb (fun _ => okWf_ite (okWf_pure _) (okWf_pure _))

/-- The first fields of a header that `parseSliceHeaderFields` returns and the
readers between them: `ra` is the reader before `FrameNum` is read and `rb` the
reader after it; `rc`, some bytes further, is the reader at the place of
`PicOrderCntLSB`. -/
theorem parseSliceHeaderFields_head_inv (w : Nat → Nat) (sps : SPS) (pps : PPS) (nalHdr : Nat)
    (nalType : NaluType) (r r9 : EBSPReader) (h : SliceHeader)
    (hp : parseSliceHeaderFields w sps pps nalHdr nalType r = Res.ok h r9) :
    ∃ (code : Nat) (r1 r2 r3 r4 ra rb rc : EBSPReader),
      ReadExpGolomb r = Res.ok h.FirstMbInSlice r1 ∧
      ReadExpGolomb r1 = Res.ok code r2 ∧
      setSliceType code r2 = Res.ok h.SliceType r3 ∧
      ReadExpGolomb r3 = Res.ok h.PicParameterSetID r4 ∧
      (if sps.SeparateColourPlaneFlag then Read 2 else pure 0) r4 = Res.ok h.ColourPlaneID ra ∧
      Read (sps.Log2MaxFrameNumMinus4 + 4) ra = Res.ok h.FrameNum rb ∧
      advances rb rc ∧ (rb.wf → rc.wf) ∧
      (if sps.PicOrderCntType = 0 then
        ∃ rd, Read (sps.Log2MaxPicOrderCntLsbMinus4 + 4) rc = Res.ok h.PicOrderCntLSB rd
       else h.PicOrderCntLSB = 0) := by
  unfold parseSliceHeaderFields at hp
  obtain ⟨firstMb, r1, h1, hp⟩ := bind_ok_inv hp
  obtain ⟨code, r2, h2, hp⟩ := bind_ok_inv hp
  obtain ⟨sliceType, r3, h3, hp⟩ := bind_ok_inv hp
  obtain ⟨ppsID, r4, h4, hp⟩ := bind_ok_inv hp
  obtain ⟨colour, r5, h5, hp⟩ := bind_ok_inv hp
  obtain ⟨frameNum, r6, h6, hp⟩ := bind_ok_inv hp
  obtain ⟨⟨fieldPic, bottomField⟩, r7, h7, hp⟩ := bind_ok_inv hp
  obtain ⟨idrPicID, r8, h8, hp⟩ := bind_ok_inv hp
  obtain ⟨⟨lsb, deltaBottom⟩, r10, h10, hp⟩ := bind_ok_inv hp
  obtain ⟨⟨d0, d1⟩, r11, h11, hp⟩ := bind_ok_inv hp
  obtain ⟨redundant, r12, h12, hp⟩ := bind_ok_inv hp
  obtain ⟨direct, r13, h13, hp⟩ := bind_ok_inv hp
  obtain ⟨override, r14, h14, hp⟩ := bind_ok_inv hp
  obtain ⟨⟨l0, l1⟩, r15, h15, hp⟩ := bind_ok_inv hp
  dsimp only at hp
  by_cases hmvc : nalType = 20 ∨ nalType = 21
  · rw [if_pos hmvc] at hp
    exact Res.noConfusion hp
  · rw [if_neg hmvc] at hp
    obtain ⟨rplm, r16, h16, hp⟩ := bind_ok_inv hp
    obtain ⟨pwtOpt, r17, h17, hp⟩ := bind_ok_inv hp
    obtain ⟨decOpt, r18, h18, hp⟩ := bind_ok_inv hp
    obtain ⟨cabac, r19, h19, hp⟩ := bind_ok_inv hp
    obtain ⟨qp, r20, h20, hp⟩ := bind_ok_inv hp
    obtain ⟨⟨sp, qs⟩, r21, h21, hp⟩ := bind_ok_inv hp
    obtain ⟨⟨idc, alpha, beta⟩, r22, h22, hp⟩ := bind_ok_inv hp
    obtain ⟨sgcc, r23, h23, hp⟩ := bind_ok_inv hp
    obtain ⟨hh, _⟩ := pure_ok_inv hp
    subst hh
    have a7 : advances r6 r7 := by
      refine ((?_ : Rd.keeps advances anyError _) r6).1 _ _ h7
      repeat' first
        | with_reducible exact keeps_ReadFlag advances_law
        | with_reducible exact keeps_pure advances_law _
        | with_reducible apply keeps_ite
        | with_reducible apply keeps_bind advances_law
        | intro _
    have a8 : advances r7 r8 := by
      refine ((?_ : Rd.keeps advances anyError _) r7).1 _ _ h8
      exact keeps_ite advances_law.expGolomb (keeps_pure advances_law _)
    have w7 : r6.wf → r7.wf := by
      refine fun hw => (?_ : Rd.okWf _) r6 _ r7 hw h7
      repeat' first
        | with_reducible exact okWf_ReadFlag
        | with_reducible exact okWf_pure _
        | with_reducible apply okWf_ite
        | with_reducible apply okWf_bind
        | intro _
    have w8 : r7.wf → r8.wf := by
      refine fun hw => (?_ : Rd.okWf _) r7 _ r8 hw h8
      exact okWf_ite okWf_ReadExpGolomb (okWf_pure _)
    refine ⟨code, r1, r2, r3, r4, r5, r6, r8, h1, h2, h3, h4, h5, h6,
      advances_trans _ _ _ a7 a8, fun hw => w8 (w7 hw), ?_⟩
    dsimp only
    by_cases hc : sps.PicOrderCntType = 0
    · rw [if_pos hc]
      rw [if_pos hc] at h10
      obtain ⟨lsb2, r9b, h10a, h10b⟩ := bind_ok_inv h10
      refine ⟨r9b, ?_⟩
      have hl : lsb2 = lsb := by
        by_cases hb : pps.BottomFieldPicOrderInFramePresentFlag ∧ fieldPic = false
        · rw [if_pos hb] at h10b
          obtain ⟨bt, rx, _, hy⟩ := bind_ok_inv h10b
          exact congrArg Prod.fst (pure_ok_inv hy).1
        · rw [if_neg hb] at h10b
          exact congrArg Prod.fst (pure_ok_inv h10b).1
      rw [← hl]; exact h10a
    · rw [if_neg hc]
      rw [if_neg hc] at h10
      exact (congrArg Prod.fst (pure_ok_inv h10).1).symm

/-! ## The entries of the prediction weight table -/

theorem pwtLoopL0_times (sps : SPS) (count : Nat) :
    ∀ pwt, pwtLoopL0 sps count pwt = Rd.times (pwtEntryL0 sps) count pwt := by
  induction count with
  | zero => intro pwt; rfl
  | succ count ih =>
    intro pwt
    have hi : pwtLoopL0 sps count = Rd.times (pwtEntryL0 sps) count := funext ih
    conv_lhs => rw [pwtLoopL0]
    rw [Rd.times, pwtEntryL0, hi]
    simp only [lumaWeightsL0, chromaWeightsL0, rd_bind_assoc]

theorem pwtLoopL1_times (sps : SPS) (count : Nat) :
    ∀ pwt, pwtLoopL1 sps count pwt = Rd.times (pwtEntryL1 sps) count pwt := by
  induction count with
  | zero => intro pwt; rfl
  | succ count ih =>
    intro pwt
    have hi : pwtLoopL1 sps count = Rd.times (pwtEntryL1 sps) count := funext ih
    conv_lhs => rw [pwtLoopL1]
    rw [Rd.times, pwtEntryL1, hi]
    simp only [lumaWeightsL1, chromaWeightsL1, rd_bind_assoc]

theorem ReadFlag_ok_bitsLeft (r r1 : EBSPReader) (b : Bool)
    (h : ReadFlag r = Res.ok b r1) : r1.bitsLeft + 1 ≤ r.bitsLeft := by
  unfold ReadFlag at h
  obtain ⟨a, r2, h1, h2⟩ := bind_ok_inv h
  rw [← (pure_ok_inv h2).2]
  exact Read_ok_bitsLeft 1 r r2 a h1

theorem lumaWeightsL0_ok (f : Bool) (pwt t : PredWeightTable) (r r1 : EBSPReader)
    (h : lumaWeightsL0 f pwt r = Res.ok t r1) :
    leBits r r1 ∧ t.LumaWeightL0.length ≤ pwt.LumaWeightL0.length + 1 ∧ sameLumaL1 t pwt := by
  have hk : leBits r r1 := by
    refine ((?_ : Rd.keeps leBits endOfData _) r).1 _ _ h
    unfold lumaWeightsL0
    repeat' first
      | with_reducible exact keeps_ReadSignedGolomb (leBits_law _ (fun _ he => he))
      | with_reducible exact keeps_pure (leBits_law _ (fun _ he => he)) _
      | with_reducible apply keeps_ite
      | with_reducible apply keeps_bind (leBits_law _ (fun _ he => he))
      | intro _
  refine ⟨hk, ?_⟩
  unfold lumaWeightsL0 at h
  cases f with
  | true =>
    simp only [if_true] at h
    obtain ⟨a, ra, _, h⟩ := bind_ok_inv h
    obtain ⟨b, rb, _, h⟩ := bind_ok_inv h
    rw [← (pure_ok_inv h).1]
    exact ⟨by simp, rfl, rfl, rfl⟩
  | false =>
    simp only [Bool.false_eq_true, if_false] at h
    rw [← (pure_ok_inv h).1]
    exact ⟨Nat.le_succ _, rfl, rfl, rfl⟩

theorem chromaWeightsL0_ok (f : Bool) (pwt t : PredWeightTable) (r r1 : EBSPReader)
    (h : chromaWeightsL0 f pwt r = Res.ok t r1) :
    leBits r r1 ∧ t.LumaWeightL0 = pwt.LumaWeightL0 ∧ sameLumaL1 t pwt := by
  have hk : leBits r r1 := by
    refine ((?_ : Rd.keeps leBits endOfData _) r).1 _ _ h
    unfold chromaWeightsL0
    repeat' first
      | with_reducible exact keeps_chromaLoop (leBits_law _ (fun _ he => he)) _ _ _
      | with_reducible exact keeps_pure (leBits_law _ (fun _ he => he)) _
      | with_reducible apply keeps_ite
      | with_reducible apply keeps_bind (leBits_law _ (fun _ he => he))
      | intro _
  refine ⟨hk, ?_⟩
  unfold chromaWeightsL0 at h
  cases f with
  | true =>
    simp only [if_true] at h
    obtain ⟨⟨a, b⟩, ra, _, h⟩ := bind_ok_inv h
    rw [← (pure_ok_inv h).1]
    exact ⟨rfl, rfl, rfl, rfl⟩
  | false =>
    simp only [Bool.false_eq_true, if_false] at h
    rw [← (pure_ok_inv h).1]
    exact ⟨rfl, rfl, rfl, rfl⟩

theorem lumaWeightsL1_ok (f : Bool) (pwt t : PredWeightTable) (r r1 : EBSPReader)
    (h : lumaWeightsL1 f pwt r = Res.ok t r1) :
    leBits r r1 ∧ t.LumaWeightL1.length ≤ pwt.LumaWeightL1.length + 1 ∧ sameLumaL0 t pwt := by
  have hk : leBits r r1 := by
    refine ((?_ : Rd.keeps leBits endOfData _) r).1 _ _ h
    unfold lumaWeightsL1
    repeat' first
      | with_reducible exact keeps_ReadSignedGolomb (leBits_law _ (fun _ he => he))
      | with_reducible exact keeps_pure (leBits_law _ (fun _ he => he)) _
      | with_reducible apply keeps_ite
      | with_reducible apply keeps_bind (leBits_law _ (fun _ he => he))
      | intro _
  refine ⟨hk, ?_⟩
  unfold lumaWeightsL1 at h
  cases f with
  | true =>
    simp only [if_true] at h
    obtain ⟨a, ra, _, h⟩ := bind_ok_inv h
    obtain ⟨b, rb, _, h⟩ := bind_ok_inv h
    rw [← (pure_ok_inv h).1]
    exact ⟨by simp, rfl⟩
  | false =>
    simp only [Bool.false_eq_true, if_false] at h
    rw [← (pure_ok_inv h).1]
    exact ⟨Nat.le_succ _, rfl⟩

theorem chromaWeightsL1_ok (f : Bool) (pwt t : PredWeightTable) (r r1 : EBSPReader)
    (h : chromaWeightsL1 f pwt r = Res.ok t r1) :
    leBits r r1 ∧ t.LumaWeightL1 = pwt.LumaWeightL1 ∧ sameLumaL0 t pwt := by
  have hk : leBits r r1 := by
    refine ((?_ : Rd.keeps leBits endOfData _) r).1 _ _ h
    unfold chromaWeightsL1
    repeat' first
      | with_reducible exact keeps_chromaLoop (leBits_law _ (fun _ he => he)) _ _ _
      | with_reducible exact keeps_pure (leBits_law _ (fun _ he => he)) _
      | with_reducible apply keeps_ite
      | with_reducible apply keeps_bind (leBits_law _ (fun _ he => he))
      | intro _
  refine ⟨hk, ?_⟩
  unfold chromaWeightsL1 at h
  cases f with
  | true =>
    simp only [if_true] at h
    obtain ⟨⟨a, b⟩, ra, _, h⟩ := bind_ok_inv h
    rw [← (pure_ok_inv h).1]
    exact ⟨rfl, rfl⟩
  | false =>
    simp only [Bool.false_eq_true, if_false] at h
    rw [← (pure_ok_inv h).1]
    exact ⟨rfl, rfl⟩

/-- A successful round of the list-0 loop has used up at least one bit, has
added at most one luma weight to list 0 and has left list 1 alone. -/
theorem pwtEntryL0_ok (sps : SPS) (pwt t : PredWeightTable) (r r1 : EBSPReader)
    (h : pwtEntryL0 sps pwt r = Res.ok t r1) :
    r1.bitsLeft + 1 ≤ r.bitsLeft ∧ t.LumaWeightL0.length ≤ pwt.LumaWeightL0.length + 1 ∧
    sameLumaL1 t pwt := by
  unfold pwtEntryL0 at h
  obtain ⟨lf, ra, h1, h⟩ := bind_ok_inv h
  obtain ⟨t1, rb, h2, h⟩ := bind_ok_inv h
  have b1 := ReadFlag_ok_bitsLeft _ _ _ h1
  obtain ⟨b2, l2, s2⟩ := lumaWeightsL0_ok _ _ _ _ _ h2
  unfold leBits at b2
  by_cases hc : getChromaArrayType sps ≠ 0
  · rw [if_pos hc] at h
    obtain ⟨cf, rc, h3, h⟩ := bind_ok_inv h
    have b3 := ReadFlag_ok_bitsLeft _ _ _ h3
    obtain ⟨b4, l4, s4⟩ := chromaWeightsL0_ok _ _ _ _ _ h
    unfold leBits at b4
    refine ⟨by omega, ?_, ?_⟩
    · rw [l4]; exact l2
    · exact ⟨s4.1.trans s2.1, s4.2.1.trans s2.2.1, s4.2.2.trans s2.2.2⟩
  · rw [if_neg hc] at h
    obtain ⟨ht, hr⟩ := pure_ok_inv h
    subst ht; subst hr
    exact ⟨by omega, l2, s2⟩

/-- A successful round of the list-1 loop has used up at least one bit, has
added at most one luma weight to list 1 and has left the list-0 weights alone. -/
theorem pwtEntryL1_ok (sps : SPS) (pwt t : PredWeightTable) (r r1 : EBSPReader)
    (h : pwtEntryL1 sps pwt r = Res.ok t r1) :
    r1.bitsLeft + 1 ≤ r.bitsLeft ∧ t.LumaWeightL1.length ≤ pwt.LumaWeightL1.length + 1 ∧
    sameLumaL0 t pwt := by
  unfold pwtEntryL1 at h
  obtain ⟨lf, ra, h1, h⟩ := bind_ok_inv h
  obtain ⟨t1, rb, h2, h⟩ := bind_ok_inv h
  have b1 := ReadFlag_ok_bitsLeft _ _ _ h1
  obtain ⟨b2, l2, s2⟩ := lumaWeightsL1_ok _ _ _ _ _ h2
  unfold leBits at b2
  by_cases hc : getChromaArrayType sps ≠ 0
  · rw [if_pos hc] at h
    obtain ⟨cf, rc, h3, h⟩ := bind_ok_inv h
    have b3 := ReadFlag_ok_bitsLeft _ _ _ h3
    obtain ⟨b4, l4, s4⟩ := chromaWeightsL1_ok _ _ _ _ _ h
    unfold leBits at b4
    refine ⟨by omega, ?_, ?_⟩
    · rw [l4]; exact l2
    · exact s4.trans s2
  · rw [if_neg hc] at h
    obtain ⟨ht, hr⟩ := pure_ok_inv h
    subst ht; subst hr
    exact ⟨by omega, l2, s2⟩

theorem times_pwtEntryL0_ok (sps : SPS) (count : Nat) :
    ∀ (pwt t : PredWeightTable) (r r1 : EBSPReader),
      Rd.times (pwtEntryL0 sps) count pwt r = Res.ok t r1 →
      r1.bitsLeft + count ≤ r.bitsLeft ∧
      t.LumaWeightL0.length ≤ pwt.LumaWeightL0.length + count ∧ sameLumaL1 t pwt := by
  induction count with
  | zero =>
    intro pwt t r r1 h
    obtain ⟨ht, hr⟩ := pure_ok_inv (h : (pure pwt : Rd PredWeightTable) r = Res.ok t r1)
    subst ht; subst hr
    exact ⟨Nat.le_refl _, Nat.le_refl _, rfl, rfl, rfl⟩
  | succ count ih =>
    intro pwt t r r1 h
    rw [Rd.times] at h
    obtain ⟨t1, ra, h1, h2⟩ := bind_ok_inv h
    obtain ⟨b1, l1, s1⟩ := pwtEntryL0_ok sps _ _ _ _ h1
    obtain ⟨b2, l2, s2⟩ := ih _ _ _ _ h2
    exact ⟨by omega, by omega, s2.1.trans s1.1, s2.2.1.trans s1.2.1, s2.2.2.trans s1.2.2⟩

theorem times_pwtEntryL1_ok (sps : SPS) (count : Nat) :
    ∀ (pwt t : PredWeightTable) (r r1 : EBSPReader),
      Rd.times (pwtEntryL1 sps) count pwt r = Res.ok t r1 →
      r1.bitsLeft + count ≤ r.bitsLeft ∧
      t.LumaWeightL1.length ≤ pwt.LumaWeightL1.length + count ∧ sameLumaL0 t pwt := by
  induction count with
  | zero =>
    intro pwt t r r1 h
    obtain ⟨ht, hr⟩ := pure_ok_inv (h : (pure pwt : Rd PredWeightTable) r = Res.ok t r1)
    subst ht; subst hr
    exact ⟨Nat.le_refl _, Nat.le_refl _, rfl⟩
  | succ count ih =>
    intro pwt t r r1 h
    rw [Rd.times] at h
    obtain ⟨t1, ra, h1, h2⟩ := bind_ok_inv h
    obtain ⟨b1, l1, s1⟩ := pwtEntryL1_ok sps _ _ _ _ h1
    obtain ⟨b2, l2, s2⟩ := ih _ _ _ _ h2
    exact ⟨by omega, by omega, s2.trans s1⟩

/-- C21. `ParsePredWeightTable` reads the luma denominator and, for a chroma
array type other than 0, the chroma denominator, once and first; then it runs
the list-0 round `NumRefIdxL0ActiveMinus1 + 1` times and, exactly when the slice
type is B (1 modulo 5), the list-1 round `NumRefIdxL1ActiveMinus1 + 1` times. A
round starts with the read of its one luma-weight flag, and the number of rounds
is fixed by the two counts before the first round. Hence a successful parse has
stored at most `NumRefIdxL0ActiveMinus1 + 1` list-0 luma weights and has used up
at least one bit for the luma denominator and one per round; for a slice that is
not B the list-1 luma fields are untouched. -/
theorem ParsePredWeightTable_entries (sps : SPS) (avcsh : SliceHeader) :
    ParsePredWeightTable sps avcsh = (do
      let lumaDenom ← ReadExpGolomb
      let t ← (if getChromaArrayType sps ≠ 0 then do
          let chromaDenom ← ReadExpGolomb
          pure { LumaLog2WeightDenom := lumaDenom, ChromaLog2WeightDenom := chromaDenom }
        else pure { LumaLog2WeightDenom := lumaDenom } : Rd PredWeightTable)
      let t ← Rd.times (pwtEntryL0 sps) (avcsh.NumRefIdxL0ActiveMinus1 + 1) t
      if avcsh.SliceType % 5 = 1 then
        Rd.times (pwtEntryL1 sps) (avcsh.NumRefIdxL1ActiveMinus1 + 1) t
      else pure t) ∧
    (∀ r t r1, ParsePredWeightTable sps avcsh r = Res.ok t r1 →
      t.LumaWeightL0.length ≤ avcsh.NumRefIdxL0ActiveMinus1 + 1 ∧
      (if avcsh.SliceType % 5 = 1 then
        t.LumaWeightL1.length ≤ avcsh.NumRefIdxL1ActiveMinus1 + 1 ∧
        r1.bitsLeft + 1 + (avcsh.NumRefIdxL0ActiveMinus1 + 1) +
          (avcsh.NumRefIdxL1ActiveMinus1 + 1) ≤ r.bitsLeft
       else
        t.LumaWeightL1Flag = false ∧ t.LumaWeightL1 = [] ∧ t.LumaOffsetL1 = [] ∧
        r1.bitsLeft + 1 + (avcsh.NumRefIdxL0ActiveMinus1 + 1) ≤ r.bitsLeft)) := by
  have heq : ParsePredWeightTable sps avcsh = (do
      let lumaDenom ← ReadExpGolomb
      let t ← (if getChromaArrayType sps ≠ 0 then do
          let chromaDenom ← ReadExpGolomb
          pure { LumaLog2WeightDenom := lumaDenom, ChromaLog2WeightDenom := chromaDenom }
        else pure { LumaLog2WeightDenom := lumaDenom } : Rd PredWeightTable)
      let t ← Rd.times (pwtEntryL0 sps) (avcsh.NumRefIdxL0ActiveMinus1 + 1) t
      if avcsh.SliceType % 5 = 1 then
        Rd.times (pwtEntryL1 sps) (avcsh.NumRefIdxL1ActiveMinus1 + 1) t
      else pure t) := by
    unfold ParsePredWeightTable
    simp only [pwtLoopL0_times, pwtLoopL1_times]
  refine ⟨heq, ?_⟩
  intro r t r1 h
  rw [heq] at h
  obtain ⟨ld, ra, h1, h⟩ := bind_ok_inv h
  obtain ⟨t0, rb, h2, h⟩ := bind_ok_inv h
  obtain ⟨t1, rc, h3, h⟩ := bind_ok_inv h
  have b1 := ReadExpGolomb_ok_bitsLeft _ _ _ h1
  have b2 : leBits ra rb := by
    refine ((?_ : Rd.keeps leBits endOfData _) ra).1 _ _ h2
    repeat' first
      | with_reducible exact leBits_ReadExpGolomb
      | with_reducible exact keeps_pure (leBits_law _ (fun _ he => he)) _
      | with_reducible apply keeps_ite
      | with_reducible apply keeps_bind (leBits_law _ (fun _ he => he))
      | intro _
  unfold leBits at b2
  have e0 : t0.LumaWeightL0 = [] ∧ t0.LumaWeightL1Flag = false ∧ t0.LumaWeightL1 = [] ∧
      t0.LumaOffsetL1 = [] := by
    by_cases hc : getChromaArrayType sps ≠ 0
    · rw [if_pos hc] at h2
      obtain ⟨cd, rx, _, h2⟩ := bind_ok_inv h2
      rw [← (pure_ok_inv h2).1]
      exact ⟨rfl, rfl, rfl, rfl⟩
    · rw [if_neg hc] at h2
      rw [← (pure_ok_inv h2).1]
      exact ⟨rfl, rfl, rfl, rfl⟩
  obtain ⟨b3, l3, s3⟩ := times_pwtEntryL0_ok sps _ _ _ _ _ h3
  rw [e0.1] at l3
  simp only [List.length_nil, Nat.zero_add] at l3
  by_cases hB : avcsh.SliceType % 5 = 1
  · rw [if_pos hB] at h
    rw [if_pos hB]
    obtain ⟨b4, l4, s4⟩ := times_pwtEntryL1_ok sps _ _ _ _ _ h
    have e1 : t1.LumaWeightL1 = [] := by rw [s3.2.1]; exact e0.2.2.1
    rw [e1] at l4
    simp only [List.length_nil, Nat.zero_add] at l4
    refine ⟨?_, l4, by omega⟩
    rw [s4]; exact l3
  · rw [if_neg hB] at h
    rw [if_neg hB]
    obtain ⟨ht, hr⟩ := pure_ok_inv h
    subst ht; subst hr
    exact ⟨l3, s3.1.trans e0.2.1, s3.2.1.trans e0.2.2.1, s3.2.2.trans e0.2.2.2, by omega⟩

/-- C21, witness: a P slice with two active list-0 references on the bits
`1 0 0 ...` (chroma array type 0): luma denominator 0, then the two luma flags,
both 0; three bits are used, no weight is stored and list 1 is untouched. -/
theorem ParsePredWeightTable_entries_witness :
    ParsePredWeightTable { SeparateColourPlaneFlag := true }
      { SliceType := SLICE_P, NumRefIdxL0ActiveMinus1 := 1 } (NewEBSPReader [0x9f]) =
      Res.ok {} { rd := [], n := 5, v := 31, pos := 1, zeroCount := 0 } ∧
    ({} : PredWeightTable).LumaWeightL0.length ≤ 1 + 1 ∧
    ({} : PredWeightTable).LumaWeightL1 = [] :=
  have hw := (ParsePredWeightTable_entries { SeparateColourPlaneFlag := true }
    { SliceType := SLICE_P, NumRefIdxL0ActiveMinus1 := 1 }).2 (NewEBSPReader [0x9f]) {}
    { rd := [], n := 5, v := 31, pos := 1, zeroCount := 0 } (by decide!)
  ⟨by decide!, hw.1, hw.2.2.1⟩

/-! ## SEI messages: decoding and encoding -/

theorem length_succ_inv (l : List Byte) (n : Nat) (h : l.length = n + 1) :
    ∃ a t, l = a :: t ∧ t.length = n := by
  cases l with
  | nil => exact absurd h (by simp)
  | cons a t => exact ⟨a, t, rfl, by simpa using h⟩

theorem putUint16_uint16 (b0 b1 : Byte) : putUint16 (uint16 b0 b1) = [b0, b1] := by
  have h0 := b0.isLt
  have h1 := b1.isLt
  simp only [putUint16, uint16, List.cons.injEq, and_true]
  constructor
  · apply Fin.ext
    show (b0.val * 2 ^ 8 + b1.val) / 2 ^ 8 % 256 = b0.val
    omega
  · apply Fin.ext
    show (b0.val * 2 ^ 8 + b1.val) % 256 = b1.val
    omega

theorem putUint32_uint32 (b0 b1 b2 b3 : Byte) :
    putUint32 (uint32 b0 b1 b2 b3) = [b0, b1, b2, b3] := by
  have h0 := b0.isLt
  have h1 := b1.isLt
  have h2 := b2.isLt
  have h3 := b3.isLt
  simp only [putUint32, uint32, List.cons.injEq, and_true]
  refine ⟨?_, ?_, ?_, ?_⟩
  · apply Fin.ext
    show (b0.val * 2 ^ 24 + b1.val * 2 ^ 16 + b2.val * 2 ^ 8 + b3.val) / 2 ^ 24 % 256 = b0.val
    omega
  · apply Fin.ext
    show (b0.val * 2 ^ 24 + b1.val * 2 ^ 16 + b2.val * 2 ^ 8 + b3.val) / 2 ^ 16 % 256 = b1.val
    omega
  · apply Fin.ext
    show (b0.val * 2 ^ 24 + b1.val * 2 ^ 16 + b2.val * 2 ^ 8 + b3.val) / 2 ^ 8 % 256 = b2.val
    omega
  · apply Fin.ext
    show (b0.val * 2 ^ 24 + b1.val * 2 ^ 16 + b2.val * 2 ^ 8 + b3.val) % 256 = b3.val
    omega

/-- A payload of 24 bytes decodes as SEI type 137 to a message that writes the
same 24 bytes. -/
theorem DecodeMasteringDisplayColourVolumeSEI_payload (t : Nat) (pl : List Byte)
    (hl : pl.length = 24) :
    ∃ m, DecodeMasteringDisplayColourVolumeSEI (NewSEIData t pl) = Except.ok m ∧
      m.msgType = SEIMasteringDisplayColourVolumeType ∧ m.Payload = pl := by
  obtain ⟨p0, t0, ht, hl0⟩ := length_succ_inv _ _ hl
  subst ht
  obtain ⟨p1, t1, ht, hl1⟩ := length_succ_inv _ _ hl0
  subst ht
  obtain ⟨p2, t2, ht, hl2⟩ := length_succ_inv _ _ hl1
  subst ht
  obtain ⟨p3, t3, ht, hl3⟩ := length_succ_inv _ _ hl2
  subst ht
  obtain ⟨p4, t4, ht, hl4⟩ := length_succ_inv _ _ hl3
  subst ht
  obtain ⟨p5, t5, ht, hl5⟩ := length_succ_inv _ _ hl4
  subst ht
  obtain ⟨p6, t6, ht, hl6⟩ := length_succ_inv _ _ hl5
  subst ht
  obtain ⟨p7, t7, ht, hl7⟩ := length_succ_inv _ _ hl6
  subst ht
  obtain ⟨p8, t8, ht, hl8⟩ := length_succ_inv _ _ hl7
  subst ht
  obtain ⟨p9, t9, ht, hl9⟩ := length_succ_inv _ _ hl8
  subst ht
  obtain ⟨p10, t10, ht, hl10⟩ := length_succ_inv _ _ hl9
  subst ht
  obtain ⟨p11, t11, ht, hl11⟩ := length_succ_inv _ _ hl10
  subst ht
  obtain ⟨w0, t12, ht, hl12⟩ := length_succ_inv _ _ hl11
  subst ht
  obtain ⟨w1, t13, ht, hl13⟩ := length_succ_inv _ _ hl12
  subst ht
  obtain ⟨w2, t14, ht, hl14⟩ := length_succ_inv _ _ hl13
  subst ht
  obtain ⟨w3, t15, ht, hl15⟩ := length_succ_inv _ _ hl14
  subst ht
  obtain ⟨a0, t16, ht, hl16⟩ := length_succ_inv _ _ hl15
  subst ht
  obtain ⟨a1, t17, ht, hl17⟩ := length_succ_inv _ _ hl16
  subst ht
  obtain ⟨a2, t18, ht, hl18⟩ := length_succ_inv _ _ hl17
  subst ht
  obtain ⟨a3, t19, ht, hl19⟩ := length_succ_inv _ _ hl18
  subst ht
  obtain ⟨i0, t20, ht, hl20⟩ := length_succ_inv _ _ hl19
  subst ht
  obtain ⟨i1, t21, ht, hl21⟩ := length_succ_inv _ _ hl20
  subst ht
  obtain ⟨i2, t22, ht, hl22⟩ := length_succ_inv _ _ hl21
  subst ht
  obtain ⟨i3, t23, ht, hl23⟩ := length_succ_inv _ _ hl22
  subst ht
  have hnil := List.eq_nil_of_length_eq_zero hl23
  subst hnil
  refine ⟨_, rfl, rfl, ?_⟩
  simp only [SEIMessage.Payload, List.map_cons, List.map_nil, List.flatten, putUint16_uint16,
    putUint32_uint32, List.cons_append, List.nil_append, List.append_nil]

/-- A payload of 4 bytes decodes as SEI type 144 to a message that writes the
same 4 bytes. -/
theorem DecodeContentLightLevelInformationSEI_payload (t : Nat) (pl : List Byte)
    (hl : pl.length = 4) :
    ∃ m, DecodeContentLightLevelInformationSEI (NewSEIData t pl) = Except.ok m ∧
      m.msgType = SEIContentLightLevelInformationType ∧ m.Payload = pl := by
  obtain ⟨c0, t0, ht, hl0⟩ := length_succ_inv _ _ hl
  subst ht
  obtain ⟨c1, t1, ht, hl1⟩ := length_succ_inv _ _ hl0
  subst ht
  obtain ⟨c2, t2, ht, hl2⟩ := length_succ_inv _ _ hl1
  subst ht
  obtain ⟨c3, t3, ht, hl3⟩ := length_succ_inv _ _ hl2
  subst ht
  have hnil := List.eq_nil_of_length_eq_zero hl3
  subst hnil
  refine ⟨_, rfl, rfl, ?_⟩
  simp only [SEIMessage.Payload, putUint16_uint16, List.cons_append, List.nil_append]

/-- C28. Every 24-byte payload decoded as SEI type 137 and every 4-byte payload
decoded as SEI type 144 decodes without error to a message whose type is the
declared tag and whose payload is the input payload, byte for byte. -/
theorem typed_decoders_keep_payload (pl : List Byte) :
    (pl.length = 24 →
      ∃ m, DecodeMasteringDisplayColourVolumeSEI
          (NewSEIData SEIMasteringDisplayColourVolumeType pl) = Except.ok m ∧
        m.msgType = SEIMasteringDisplayColourVolumeType ∧ m.Payload = pl) ∧
    (pl.length = 4 →
      ∃ m, DecodeContentLightLevelInformationSEI
          (NewSEIData SEIContentLightLevelInformationType pl) = Except.ok m ∧
        m.msgType = SEIContentLightLevelInformationType ∧ m.Payload = pl) :=
  ⟨DecodeMasteringDisplayColourVolumeSEI_payload _ pl,
   DecodeContentLightLevelInformationSEI_payload _ pl⟩

/-- C28, witness: the payloads `hex137` and `hex144` of the two tests. -/
theorem typed_decoders_keep_payload_witness :
    (∃ m, DecodeMasteringDisplayColourVolumeSEI
        (NewSEIData SEIMasteringDisplayColourVolumeType hex137) = Except.ok m ∧
      m.msgType = SEIMasteringDisplayColourVolumeType ∧ m.Payload = hex137) ∧
    (∃ m, DecodeContentLightLevelInformationSEI
        (NewSEIData SEIContentLightLevelInformationType hex144) = Except.ok m ∧
      m.msgType = SEIContentLightLevelInformationType ∧ m.Payload = hex144) :=
  ⟨(typed_decoders_keep_payload hex137).1 (by decide),
   (typed_decoders_keep_payload hex144).2 (by decide)⟩

/-- C27. Decoding and writing back gives the bytes of the record for every
record whose type tag has no decoder (it becomes the generic message), and for
the HEVC records of type 137 with a payload of 24 bytes and of type 144 with a
payload of 4 bytes, whatever decoders the other variants have. On the NAL
`seiHEVCHDR`, `ExtractSEIData` finds the two records of types 137 and 144, they
decode to the two typed messages, and `WriteSEIMessages` of these is
`seiHEVCHDR` byte for byte. -/
theorem SEI_round_trip_sized
    (registry : Nat → Codec → Option (SEIData → Except Error SEIMessage))
    (sd : SEIData) (codec : Codec) :
    (¬ (codec = Codec.HEVC ∧ (sd.payloadType = 137 ∨ sd.payloadType = 144)) →
      registry sd.payloadType codec = none →
      DecodeSEIMessage registry sd codec = Except.ok (SEIMessage.raw sd) ∧
      rbspOfRecords [NewSEIData (SEIMessage.raw sd).msgType (SEIMessage.raw sd).Payload] =
        rbspOfRecords [sd]) ∧
    (codec = Codec.HEVC →
      (sd.payloadType = 137 ∧ sd.payload.length = 24) ∨
        (sd.payloadType = 144 ∧ sd.payload.length = 4) →
      ∃ m, DecodeSEIMessage registry sd codec = Except.ok m ∧ m.msgType = sd.payloadType ∧
        m.Payload = sd.payload ∧
        rbspOfRecords [NewSEIData m.msgType m.Payload] = rbspOfRecords [sd]) ∧
    ExtractSEIData seiHEVCHDR =
      ([NewSEIData 137 (List.replicate 24 0), NewSEIData 144 (List.replicate 4 0)], none) ∧
    DecodeSEIMessage registry (NewSEIData 137 (List.replicate 24 0)) Codec.HEVC =
      Except.ok (SEIMessage.masteringDisplayColourVolume
        { primaries := [(0, 0), (0, 0), (0, 0)], whitePoint := (0, 0), maxLum := 0,
          minLum := 0 }) ∧
    DecodeSEIMessage registry (NewSEIData 144 (List.replicate 4 0)) Codec.HEVC =
      Except.ok (SEIMessage.contentLightLevelInformation
        { maxContentLightLevel := 0, maxPicAverageLightLevel := 0 }) ∧
    WriteSEIMessages
      [SEIMessage.masteringDisplayColourVolume
        { primaries := [(0, 0), (0, 0), (0, 0)], whitePoint := (0, 0), maxLum := 0,
          minLum := 0 },
       SEIMessage.contentLightLevelInformation
        { maxContentLightLevel := 0, maxPicAverageLightLevel := 0 }] = seiHEVCHDR := by
  refine ⟨?_, ?_, by decide!, rfl, rfl, by decide!⟩
  · intro hn hr
    refine ⟨?_, rfl⟩
    unfold DecodeSEIMessage
    have h1 : ¬ (codec = Codec.HEVC ∧
        sd.payloadType = SEIMasteringDisplayColourVolumeType) := fun h => hn ⟨h.1, Or.inl h.2⟩
    have h2 : ¬ (codec = Codec.HEVC ∧
        sd.payloadType = SEIContentLightLevelInformationType) := fun h => hn ⟨h.1, Or.inr h.2⟩
    rw [if_neg h1, if_neg h2, hr]
  · intro hc hs
    unfold DecodeSEIMessage
    rcases hs with hs | hs
    · have h1 : codec = Codec.HEVC ∧ sd.payloadType = SEIMasteringDisplayColourVolumeType :=
        ⟨hc, hs.1⟩
      rw [if_pos h1]
      obtain ⟨m, e1, e2, e3⟩ :=
        DecodeMasteringDisplayColourVolumeSEI_payload sd.payloadType sd.payload hs.2
      refine ⟨m, e1, e2.trans hs.1.symm, e3, ?_⟩
      rw [e2.trans hs.1.symm, e3]
      rfl
    · have h1 : ¬ (codec = Codec.HEVC ∧
          sd.payloadType = SEIMasteringDisplayColourVolumeType) := by
        intro h
        have h3 : sd.payloadType = 137 := h.2
        rw [hs.1] at h3
        exact absurd h3 (by decide)
      have h2 : codec = Codec.HEVC ∧ sd.payloadType = SEIContentLightLevelInformationType :=
        ⟨hc, hs.1⟩
      rw [if_neg h1, if_pos h2]
      obtain ⟨m, e1, e2, e3⟩ :=
        DecodeContentLightLevelInformationSEI_payload sd.payloadType sd.payload hs.2
      refine ⟨m, e1, e2.trans hs.1.symm, e3, ?_⟩
      rw [e2.trans hs.1.symm, e3]
      rfl

/-- C27, witness: the record of the unknown type 200 with the payload `01 02`
for AVC, with no decoder registered, and the HEVC record of type 144 with the
payload `hex144`. -/
theorem SEI_round_trip_sized_witness :
    DecodeSEIMessage (fun _ _ => none) (NewSEIData 200 [0x01, 0x02]) Codec.AVC =
      Except.ok (SEIMessage.raw (NewSEIData 200 [0x01, 0x02])) ∧
    (∃ m, DecodeSEIMessage (fun _ _ => none) (NewSEIData 144 hex144) Codec.HEVC =
        Except.ok m ∧ m.msgType = 144 ∧ m.Payload = hex144 ∧
      rbspOfRecords [NewSEIData m.msgType m.Payload] =
        rbspOfRecords [NewSEIData 144 hex144]) :=
  ⟨((SEI_round_trip_sized (fun _ _ => none) (NewSEIData 200 [0x01, 0x02]) Codec.AVC).1
      (by decide) rfl).1,
   (SEI_round_trip_sized (fun _ _ => none) (NewSEIData 144 hex144) Codec.HEVC).2.1 rfl
      (Or.inr ⟨rfl, rfl⟩)⟩

/-- Whatever decoders are registered, the HEVC record of type 137 with a payload
of 25 zero bytes decodes to a message whose payload has 24 bytes, and the HEVC
record of type 137 with a payload of 3 bytes does not decode. -/
theorem DecodeSEIMessage_off_size
    (registry : Nat → Codec → Option (SEIData → Except Error SEIMessage)) :
    (∃ m, DecodeSEIMessage registry (NewSEIData 137 (List.replicate 25 0)) Codec.HEVC =
        Except.ok m ∧ m.Payload = List.replicate 24 0) ∧
    DecodeSEIMessage registry (NewSEIData 137 [0x00, 0x00, 0x00]) Codec.HEVC =
      Except.error Error.ErrTooFewBits :=
  ⟨⟨_, rfl, by decide!⟩, rfl⟩

/-- C27, counterexample to the claim as stated (no further decoder registered):
the HEVC record of type 137 with a payload of 25 zero bytes decodes to a message
whose payload has 24 bytes, so that writing it back does not give the record;
and the HEVC record of type 137 with a payload of 3 bytes does not decode at
all. -/
theorem SEI_round_trip_counterexample :
    (∃ m, DecodeSEIMessage (fun _ _ => none) (NewSEIData 137 (List.replicate 25 0))
          Codec.HEVC = Except.ok m ∧
        m.Payload = List.replicate 24 0 ∧
        rbspOfRecords [NewSEIData m.msgType m.Payload] ≠
          rbspOfRecords [NewSEIData 137 (List.replicate 25 0)]) ∧
      DecodeSEIMessage (fun _ _ => none) (NewSEIData 137 [0x00, 0x00, 0x00]) Codec.HEVC =
        Except.error Error.ErrTooFewBits :=
  ⟨⟨_, rfl, by decide!, by decide!⟩, rfl⟩

/-! ## Reading whole bytes of an escaped input -/

theorem NewEBSPReader_atRbsp (bs : List Byte) : atRbsp (NewEBSPReader (escape 0 bs)) bs :=
  ⟨0, 0, by decide, rfl⟩

theorem Read_8_aligned (rd : List Byte) (pos zc : Nat) :
    Read 8 { rd := rd, n := 0, v := 0, pos := pos, zeroCount := zc } =
      match fetchOne rd pos zc with
      | Except.ok (b, rd1, pos1, zc1) =>
        Res.ok b.val { rd := rd1, n := 0, v := 0, pos := pos1, zeroCount := zc1 }
      | Except.error pos1 =>
        Res.fail Error.ErrTooFewBits { rd := [], n := 0, v := 0, pos := pos1, zeroCount := zc } := by
  unfold Read
  simp only []
  rw [fetch_single 8 rd 0 0 pos zc (by decide) (by decide)]
  cases fetchOne rd pos zc with
  | error p => rfl
  | ok x =>
    obtain ⟨b, rd1, pos1, zc1⟩ := x
    simp [Nat.mod_one]

/-- A byte read at a byte boundary of an escaped input gives the next byte of
the bytes that were escaped. -/
theorem Read_8_atRbsp (r : EBSPReader) (b : Byte) (bs : List Byte) (h : atRbsp r (b :: bs)) :
    ∃ r1, Read 8 r = Res.ok b.val r1 ∧ atRbsp r1 bs := by
  obtain ⟨zc, pos, hz, rfl⟩ := h
  rw [Read_8_aligned]
  by_cases he : zc = 2 ∧ b.val ≤ 3
  · obtain ⟨h2, h3⟩ := he
    subst h2
    have hesc : escape 2 (b :: bs) = 0x03 :: b :: escape (if b.val = 0 then 1 else 0) bs := by
      rw [escape, if_pos ⟨rfl, h3⟩]
    rw [hesc]
    have h33 : (3 : Byte).val = 3 := rfl
    refine ⟨_, ?_, ⟨if b.val = 0 then 1 else 0, pos + 2, by split <;> decide, rfl⟩⟩
    simp [fetchOne, h33]
  · have hesc : escape zc (b :: bs) = b :: escape (if b.val = 0 then zc + 1 else 0) bs := by
      rw [escape, if_neg he]
    rw [hesc]
    by_cases h2 : zc = 2
    · subst h2
      have hb : ¬ b.val ≤ 3 := fun hb => he ⟨rfl, hb⟩
      have hb3 : ¬ b.val = 3 := by omega
      have hb0 : ¬ b.val = 0 := by omega
      refine ⟨_, ?_, ⟨0, pos + 1, by decide, rfl⟩⟩
      simp [fetchOne, hb3, hb0]
    · refine ⟨_, ?_, ⟨if b.val = 0 then zc + 1 else 0, pos + 1, by split <;> omega, rfl⟩⟩
      simp [fetchOne, h2]

theorem Read_8_atRbsp_nil (r : EBSPReader) (h : atRbsp r []) :
    ∃ r1, Read 8 r = Res.fail Error.ErrTooFewBits r1 := by
  obtain ⟨zc, pos, hz, rfl⟩ := h
  rw [Read_8_aligned]
  simp only [escape, fetchOne]
  exact ⟨_, rfl⟩

theorem escape_length (bs : List Byte) : ∀ zc, bs.length ≤ (escape zc bs).length := by
  induction bs with
  | nil => intro zc; simp [escape]
  | cons b bs ih =>
    intro zc
    rw [escape]
    split
    · have := ih (if b.val = 0 then 1 else 0)
      simp only [List.length_cons]; omega
    · have := ih (if b.val = 0 then zc + 1 else 0)
      simp only [List.length_cons]; omega

theorem atRbsp_length (r : EBSPReader) (bs : List Byte) (h : atRbsp r bs) :
    bs.length ≤ r.rd.length := by
  obtain ⟨zc, pos, _, rfl⟩ := h
  exact escape_length bs zc

/-! ## One SEI message -/

/-- The continuation rule: `k` bytes `0xFF` and then a byte `b` below `0xFF`
read as `255 * k + b`. -/
theorem readSEIValue_atRbsp (k : Nat) :
    ∀ (fuel acc : Nat) (r : EBSPReader) (b : Byte) (bs : List Byte),
      atRbsp r (List.replicate k 0xFF ++ b :: bs) → b.val < 255 → k < fuel →
      ∃ r1, readSEIValue fuel acc r = Res.ok (acc + 255 * k + b.val) r1 ∧ atRbsp r1 bs := by
  induction k with
  | zero =>
    intro fuel acc r b bs h hb hf
    obtain ⟨f, rfl⟩ : ∃ f, fuel = f + 1 := ⟨fuel - 1, by omega⟩
    obtain ⟨r1, h1, h2⟩ := Read_8_atRbsp r b bs (by simpa using h)
    refine ⟨r1, ?_, h2⟩
    rw [readSEIValue, bind_apply, h1]
    have hne : ¬ b.val = 0xFF := by omega
    simp only [if_neg hne]
    rfl
  | succ k ih =>
    intro fuel acc r b bs h hb hf
    obtain ⟨f, rfl⟩ : ∃ f, fuel = f + 1 := ⟨fuel - 1, by omega⟩
    have h' : atRbsp r ((0xFF : Byte) :: (List.replicate k 0xFF ++ b :: bs)) := by
      simpa [List.replicate_succ] using h
    obtain ⟨r1, h1, h2⟩ := Read_8_atRbsp r _ _ h'
    obtain ⟨r2, h3, h4⟩ := ih f (acc + 255) r1 b bs h2 hb (by omega)
    refine ⟨r2, ?_, h4⟩
    rw [readSEIValue, bind_apply, h1]
    have hff : (0xFF : Byte).val = 0xFF := rfl
    simp only [hff, if_true]
    rw [h3]
    congr 1
    omega

theorem writeSEIValue_eq (v : Nat) :
    writeSEIValue v = List.replicate (v / 255) 0xFF ++ [(Fin.ofNat (v % 255) : Byte)] ∧
    (Fin.ofNat (v % 255) : Byte).val = v % 255 ∧ v % 255 < 255 ∧
    255 * (v / 255) + v % 255 = v := by
  refine ⟨rfl, ?_, Nat.mod_lt _ (by decide), Nat.div_add_mod v 255⟩
  show v % 255 % 256 = v % 255
  have := Nat.mod_lt v (show 0 < 255 by decide)
  omega

/-- A value written by `writeSEIValue` is read back by `readSEIValue`. -/
theorem readSEIValue_writeSEIValue (v : Nat) (r : EBSPReader) (bs : List Byte)
    (h : atRbsp r (writeSEIValue v ++ bs)) :
    ∃ r1, readSEIValue (r.rd.length + 1) 0 r = Res.ok v r1 ∧ atRbsp r1 bs := by
  obtain ⟨hw, hv, hlt, hsum⟩ := writeSEIValue_eq v
  have hlen := atRbsp_length _ _ h
  rw [hw] at h hlen
  simp only [List.append_assoc, List.singleton_append] at h
  simp only [List.length_append, List.length_replicate, List.length_cons, List.length_nil] at hlen
  obtain ⟨r1, h1, h2⟩ := readSEIValue_atRbsp (v / 255) (r.rd.length + 1) 0 r _ bs h
    (by rw [hv]; exact hlt) (by omega)
  refine ⟨r1, ?_, h2⟩
  rw [h1, hv]
  congr 1
  omega

/-- The payload is read verbatim. -/
theorem readPayload_atRbsp (pl : List Byte) :
    ∀ (acc : List Byte) (r : EBSPReader) (bs : List Byte), atRbsp r (pl ++ bs) →
      ∃ r1, readPayload pl.length acc r = Res.ok (acc ++ pl) r1 ∧ atRbsp r1 bs := by
  induction pl with
  | nil =>
    intro acc r bs h
    exact ⟨r, by simp [readPayload], by simpa using h⟩
  | cons b pl ih =>
    intro acc r bs h
    obtain ⟨r1, h1, h2⟩ := Read_8_atRbsp r b (pl ++ bs) (by simpa using h)
    obtain ⟨r2, h3, h4⟩ := ih (acc ++ [b]) r1 bs h2
    refine ⟨r2, ?_, h4⟩
    simp only [List.length_cons]
    rw [readPayload, bind_apply, h1]
    simp only [Fin_ofNat_val]
    rw [h3]
    simp

/-- A record written as type tag, payload size and payload is read back by
`readSEIMessage`. -/
theorem readSEIMessage_atRbsp (sd : SEIData) (r : EBSPReader) (bs : List Byte)
    (h : atRbsp r (rbspOfRecords [sd] ++ bs)) :
    ∃ r1, readSEIMessage r = Res.ok sd r1 ∧ atRbsp r1 bs := by
  have h' : atRbsp r (writeSEIValue sd.payloadType ++
      (writeSEIValue sd.payload.length ++ (sd.payload ++ bs))) := by
    simpa [rbspOfRecords, List.append_assoc] using h
  obtain ⟨r1, h1, a1⟩ := readSEIValue_writeSEIValue _ r _ h'
  obtain ⟨r2, h2, a2⟩ := readSEIValue_writeSEIValue _ r1 _ a1
  obtain ⟨r3, h3, a3⟩ := readPayload_atRbsp sd.payload [] r2 bs a2
  refine ⟨r3, ?_, a3⟩
  unfold readSEIMessage
  rw [bind_apply, h1]
  simp only []
  rw [bind_apply, h2]
  simp only []
  rw [bind_apply, h3]
  rfl

/-! ## The end of the SEI messages -/

theorem allZeroBytes_atRbsp (bs : List Byte) :
    ∀ (fuel : Nat) (r : EBSPReader), atRbsp r bs → bs.length < fuel →
      (allZeroBytes fuel r = true ↔ ∀ x ∈ bs, x.val = 0) := by
  induction bs with
  | nil =>
    intro fuel r h hf
    obtain ⟨f, rfl⟩ : ∃ f, fuel = f + 1 := ⟨fuel - 1, by omega⟩
    obtain ⟨r1, h1⟩ := Read_8_atRbsp_nil r h
    simp [allZeroBytes, h1]
  | cons b bs ih =>
    intro fuel r h hf
    obtain ⟨f, rfl⟩ : ∃ f, fuel = f + 1 := ⟨fuel - 1, by omega⟩
    obtain ⟨r1, h1, h2⟩ := Read_8_atRbsp r b bs h
    have hi := ih f r1 h2 (by simpa using hf)
    rw [allZeroBytes, h1]
    by_cases hb : b.val = 0
    · simp only [hb, if_true, List.mem_cons, forall_eq_or_imp, true_and]
      exact hi
    · simp only [hb, if_false, List.mem_cons, forall_eq_or_imp, false_and]
      exact ⟨fun h => absurd h (by decide), fun h => h.elim⟩

/-- At the end of the input `MoreRbspData` fails; before a byte `0x80` followed
by zero bytes only there is no more data; before anything else there is. -/
theorem MoreRbspData_atRbsp (r : EBSPReader) (bs : List Byte) (h : atRbsp r bs) :
    (bs = [] → MoreRbspData r = Except.error Error.ErrTooFewBits) ∧
    (∀ b tl, bs = b :: tl → b.val = 0x80 → (∀ x ∈ tl, x.val = 0) →
      MoreRbspData r = Except.ok false) ∧
    (∀ b tl, bs = b :: tl → ¬ (b.val = 0x80 ∧ ∀ x ∈ tl, x.val = 0) →
      MoreRbspData r = Except.ok true) := by
  refine ⟨?_, ?_, ?_⟩
  · intro hb
    subst hb
    obtain ⟨r1, h1⟩ := Read_8_atRbsp_nil r h
    simp [MoreRbspData, h1]
  · intro b tl hb h80 hz
    subst hb
    obtain ⟨r1, h1, h2⟩ := Read_8_atRbsp r b tl h
    have hall := (allZeroBytes_atRbsp tl (r1.rd.length + 1) r1 h2
      (Nat.lt_succ_of_le (atRbsp_length _ _ h2))).2 hz
    simp [MoreRbspData, h1, h80, hall]
  · intro b tl hb hn
    subst hb
    obtain ⟨r1, h1, h2⟩ := Read_8_atRbsp r b tl h
    have hall := allZeroBytes_atRbsp tl (r1.rd.length + 1) r1 h2
      (Nat.lt_succ_of_le (atRbsp_length _ _ h2))
    have hn2 : ¬ (b.val = 0x80 ∧ allZeroBytes (r1.rd.length + 1) r1 = true) :=
      fun hc => hn ⟨hc.1, hall.1 hc.2⟩
    rw [MoreRbspData, h1]
    simp only []
    rw [if_neg hn2]

theorem writeSEIValue_head (v : Nat) :
    ∃ b tl, writeSEIValue v = b :: tl ∧ (b.val = 0x80 → v = 128 ∧ tl = []) ∧
      ((∀ x ∈ b :: tl, x.val = 0) → v = 0)  := by
  obtain ⟨hw, hv, hlt, hsum⟩ := writeSEIValue_eq v
  by_cases hk : v / 255 = 0
  · refine ⟨Fin.ofNat (v % 255), [], ?_, ?_, ?_⟩
    · rw [hw, hk]; rfl
    · intro h; rw [hv] at h; exact ⟨by omega, rfl⟩
    · intro h
      have := h _ (List.mem_cons_self _ _)
      rw [hv] at this
      omega
  · obtain ⟨k, hk1⟩ : ∃ k, v / 255 = k + 1 := ⟨v / 255 - 1, by omega⟩
    refine ⟨0xFF, List.replicate k 0xFF ++ [Fin.ofNat (v % 255)], ?_, ?_, ?_⟩
    · rw [hw, hk1]; rfl
    · intro h; exact absurd h (by decide)
    · intro h
      have := h _ (List.mem_cons_self _ _)
      exact absurd this (by decide)

/-- The bytes of a record look like the RBSP trailing bits only for the type
tag 128 with an empty payload, and then what follows the record is zero
bytes. -/
theorem rbspOfRecords_marker (sd : SEIData) (rest : List Byte) :
    ∃ b tl, rbspOfRecords [sd] ++ rest = b :: tl ∧
      (b.val = 0x80 → (∀ x ∈ tl, x.val = 0) →
        sd.payloadType = 128 ∧ sd.payload = [] ∧ ∀ x ∈ rest, x.val = 0) := by
  obtain ⟨b, tl, h1, h2, _⟩ := writeSEIValue_head sd.payloadType
  obtain ⟨c, tl2, h3, _, h4⟩ := writeSEIValue_head sd.payload.length
  refine ⟨b, tl ++ (writeSEIValue sd.payload.length ++ (sd.payload ++ rest)), ?_, ?_⟩
  · simp [rbspOfRecords, h1, List.append_assoc]
  · intro hb hz
    obtain ⟨ht, htl⟩ := h2 hb
    subst htl
    simp only [List.nil_append] at hz
    have hlen : sd.payload.length = 0 := by
      apply h4
      intro x hx
      apply hz
      rw [h3]
      exact List.mem_append_left _ hx
    have hpl : sd.payload = [] := List.eq_nil_of_length_eq_zero hlen
    refine ⟨ht, hpl, ?_⟩
    intro x hx
    apply hz
    exact List.mem_append_right _ (List.mem_append_right _ hx)

/-! ## `ExtractSEIData` on written messages -/

theorem rbspOfRecords_cons (sd : SEIData) (recs : List SEIData) :
    rbspOfRecords (sd :: recs) = rbspOfRecords [sd] ++ rbspOfRecords recs := by
  simp [rbspOfRecords, List.append_assoc]

theorem rbspOfRecords_length (recs : List SEIData) :
    recs.length ≤ (rbspOfRecords recs).length := by
  induction recs with
  | nil => simp
  | cons sd recs ih =>
    simp only [rbspOfRecords, writeSEIValue, List.length_cons, List.length_append,
      List.length_replicate, List.length_nil]
    omega

theorem extractLoop_atRbsp (recs : List SEIData) :
    ∀ (sd : SEIData) (fuel : Nat) (acc : List SEIData) (r : EBSPReader) (tail : List Byte),
      atRbsp r (rbspOfRecords (sd :: recs) ++ tail) → recs.length < fuel →
      (tail = [0x80] ∨ (tail = [] ∧ markerFree recs)) →
      extractLoop fuel acc r =
        (acc ++ sd :: recs,
         if tail = [] then some SEIError.ErrRbspTrailingBitsMissing else none) := by
  induction recs with
  | nil =>
    intro sd fuel acc r tail h hf ht
    obtain ⟨f, rfl⟩ : ∃ f, fuel = f + 1 := ⟨fuel - 1, by omega⟩
    obtain ⟨r1, h1, a1⟩ := readSEIMessage_atRbsp sd r tail h
    obtain ⟨m1, m2, m3⟩ := MoreRbspData_atRbsp r1 tail a1
    rw [extractLoop, h1]
    rcases ht with ht | ⟨ht, _⟩
    · have hm := m2 0x80 [] ht rfl (by simp)
      simp only [hm]
      rw [if_neg (by rw [ht]; simp)]
    · have hm := m1 ht
      simp only [hm]
      rw [if_pos ht]
  | cons s recs ih =>
    intro sd fuel acc r tail h hf ht
    obtain ⟨f, rfl⟩ : ∃ f, fuel = f + 1 := ⟨fuel - 1, by omega⟩
    have h' : atRbsp r (rbspOfRecords [sd] ++ (rbspOfRecords (s :: recs) ++ tail)) := by
      rw [rbspOfRecords_cons sd (s :: recs), List.append_assoc] at h
      exact h
    obtain ⟨r1, h1, a1⟩ := readSEIMessage_atRbsp sd r _ h'
    obtain ⟨b, tl, hb, hmark⟩ := rbspOfRecords_marker s (rbspOfRecords recs ++ tail)
    have hsplit : rbspOfRecords (s :: recs) ++ tail = b :: tl := by
      rw [rbspOfRecords_cons s recs, List.append_assoc]
      exact hb
    have hmore : ¬ (b.val = 0x80 ∧ ∀ x ∈ tl, x.val = 0) := by
      intro hc
      obtain ⟨h128, hpl, hz⟩ := hmark hc.1 hc.2
      rcases ht with ht | ⟨ht0, ht⟩
      · have := hz 0x80 (by rw [ht]; simp)
        exact absurd this (by decide)
      · exact ht.1 ⟨h128, hpl, fun x hx => hz x (by rw [ht0]; simpa using hx)⟩
    obtain ⟨_, _, m3⟩ := MoreRbspData_atRbsp r1 _ a1
    have hm := m3 b tl hsplit hmore
    have ht2 : tail = [0x80] ∨ (tail = [] ∧ markerFree recs) := by
      rcases ht with ht | ⟨ht, hh⟩
      · exact Or.inl ht
      · exact Or.inr ⟨ht, hh.2⟩
    have hrec := ih s f (acc ++ [sd]) r1 tail a1 (by simpa using hf) ht2
    rw [extractLoop, h1]
    simp only [hm]
    rw [hrec]
    simp

/-- The messages written with or without the RBSP trailing bits, as
`ExtractSEIData` finds them. -/
theorem ExtractSEIData_written (recs : List SEIData) (tail : List Byte) (hne : recs ≠ [])
    (ht : tail = [0x80] ∨ (tail = [] ∧ markerFree recs.tail)) :
    ExtractSEIData (escape 0 (rbspOfRecords recs ++ tail)) =
      (recs, if tail = [] then some SEIError.ErrRbspTrailingBitsMissing else none) := by
  cases recs with
  | nil => exact absurd rfl hne
  | cons sd recs =>
    have hlen : recs.length <
        (escape 0 (rbspOfRecords (sd :: recs) ++ tail)).length + 1 := by
      have h1 := escape_length (rbspOfRecords (sd :: recs) ++ tail) 0
      have h2 := rbspOfRecords_length (sd :: recs)
      simp only [List.length_append, List.length_cons] at h1 h2
      omega
    have h := extractLoop_atRbsp recs sd _ [] _ tail
      (NewEBSPReader_atRbsp (rbspOfRecords (sd :: recs) ++ tail)) hlen ht
    simpa [ExtractSEIData] using h

/-- C29. A SEI NAL body that consists of one or more complete messages and
ends without the RBSP trailing bits (no message after the first, with the
messages after it, is written as the byte `0x80` followed by zero bytes only,
which would be the trailing bits): `ExtractSEIData` returns all the messages,
in order, together with `ErrRbspTrailingBitsMissing`. -/
theorem ExtractSEIData_trailing_bits_missing (recs : List SEIData) (hne : recs ≠ [])
    (hfree : markerFree recs.tail) :
    ExtractSEIData (escape 0 (rbspOfRecords recs)) =
      (recs, some SEIError.ErrRbspTrailingBitsMissing) := by
  have h := ExtractSEIData_written recs [] hne (Or.inr ⟨rfl, hfree⟩)
  simpa using h

/-- C29, witness: the test NAL `missingRbspTrailingBits`, one record of type 1
with a payload of 6 bytes. -/
theorem ExtractSEIData_trailing_bits_missing_witness :
    escape 0 (rbspOfRecords [NewSEIData 1 [0x1b, 0x05, 0x09, 0xb8, 0x00, 0x00]]) =
      missingRbspTrailingBits ∧
    ExtractSEIData missingRbspTrailingBits =
      ([NewSEIData 1 [0x1b, 0x05, 0x09, 0xb8, 0x00, 0x00]],
       some SEIError.ErrRbspTrailingBitsMissing) :=
  ⟨by decide!, ExtractSEIData_trailing_bits_missing
    [NewSEIData 1 [0x1b, 0x05, 0x09, 0xb8, 0x00, 0x00]] (by decide) trivial⟩

/-- C30. A type tag or a payload size that is `k` bytes `0xFF` followed by a
byte `b` below `0xFF` is written so by `writeSEIValue (255 * k + b)` and is read
as `255 * k + b`. For every non-empty list of records, whatever their type tags
and payloads, `ExtractSEIData` on the NAL body in which every record is written
as type tag, payload size and payload, with escape bytes and the RBSP trailing
bits, returns exactly these records: each tag, and as payload exactly the bytes
that follow the size, verbatim. -/
theorem ExtractSEIData_records (recs : List SEIData) (k : Nat) (b : Byte) (hb : b.val < 255)
    (hne : recs ≠ []) :
    writeSEIValue (255 * k + b.val) = List.replicate k 0xFF ++ [b] ∧
    (∀ (r : EBSPReader) (fuel acc : Nat) (bs : List Byte),
      atRbsp r (List.replicate k 0xFF ++ b :: bs) → k < fuel →
      ∃ r1, readSEIValue fuel acc r = Res.ok (acc + 255 * k + b.val) r1 ∧ atRbsp r1 bs) ∧
    ExtractSEIData (escape 0 (rbspOfRecords recs ++ [0x80])) = (recs, none) := by
  refine ⟨?_, ?_, ?_⟩
  · have h1 : (255 * k + b.val) / 255 = k := by omega
    have h2 : (255 * k + b.val) % 255 = b.val := by omega
    rw [writeSEIValue, h1, h2, Fin_ofNat_val]
  · intro r fuel acc bs h hf
    exact readSEIValue_atRbsp k fuel acc r b bs h hb hf
  · have h := ExtractSEIData_written recs [0x80] hne (Or.inl rfl)
    simpa using h

/-- C30, witness: the test NAL `seiAVCMulti` is the two records `(0, c0)` and
`(1, 1b0509b80000)` written with the trailing bits, and these are what
`ExtractSEIData` returns. -/
theorem ExtractSEIData_records_witness :
    escape 0 (rbspOfRecords [NewSEIData 0 [0xc0],
        NewSEIData 1 [0x1b, 0x05, 0x09, 0xb8, 0x00, 0x00]] ++ [0x80]) = seiAVCMulti ∧
    ExtractSEIData seiAVCMulti =
      ([NewSEIData 0 [0xc0], NewSEIData 1 [0x1b, 0x05, 0x09, 0xb8, 0x00, 0x00]], none) :=
  ⟨by decide!, (ExtractSEIData_records
    [NewSEIData 0 [0xc0], NewSEIData 1 [0x1b, 0x05, 0x09, 0xb8, 0x00, 0x00]] 0 0
    (by decide) (by decide)).2.2⟩

/-! ## The slice group change cycle -/

/-- The last field of a header that `parseSliceHeaderFields` returns: under the
condition of line 357 `SliceGroupChangeCycle` is the result of the last read,
whose width is `sgccNumBits` of the quotient of line 359 plus one, the divisor
not being 0; otherwise it is 0 and nothing is read for it. -/
theorem parseSliceHeaderFields_tail_inv (w : Nat → Nat) (sps : SPS) (pps : PPS) (nalHdr : Nat)
    (nalType : NaluType) (r r9 : EBSPReader) (h : SliceHeader)
    (hp : parseSliceHeaderFields w sps pps nalHdr nalType r = Res.ok h r9) :
    ∃ rz : EBSPReader,
      if pps.NumSliceGroupsMinus1 > 0 ∧ pps.SliceGroupMapType ≥ 3 ∧
          pps.SliceGroupMapType ≤ 5 then
        (pps.SliceGroupChangeRateMinus1 + 1) % 2 ^ 64 ≠ 0 ∧
        Read (sgccNumBits w (((pps.PicSizeInMapUnitsMinus1 + 1) % 2 ^ 64 /
          ((pps.SliceGroupChangeRateMinus1 + 1) % 2 ^ 64) + 1) % 2 ^ 64))
          rz = Res.ok h.SliceGroupChangeCycle r9
      else h.SliceGroupChangeCycle = 0 ∧ rz = r9 := by
  unfold parseSliceHeaderFields at hp
  obtain ⟨firstMb, r1, h1, hp⟩ := bind_ok_inv hp
  obtain ⟨code, r2, h2, hp⟩ := bind_ok_inv hp
  obtain ⟨sliceType, r3, h3, hp⟩ := bind_ok_inv hp
  obtain ⟨ppsID, r4, h4, hp⟩ := bind_ok_inv hp
  obtain ⟨colour, r5, h5, hp⟩ := bind_ok_inv hp
  obtain ⟨frameNum, r6, h6, hp⟩ := bind_ok_inv hp
  obtain ⟨⟨fieldPic, bottomField⟩, r7, h7, hp⟩ := bind_ok_inv hp
  obtain ⟨idrPicID, r8, h8, hp⟩ := bind_ok_inv hp
  obtain ⟨⟨lsb, deltaBottom⟩, r10, h10, hp⟩ := bind_ok_inv hp
  obtain ⟨⟨d0, d1⟩, r11, h11, hp⟩ := bind_ok_inv hp
  obtain ⟨redundant, r12, h12, hp⟩ := bind_ok_inv hp
  obtain ⟨direct, r13, h13, hp⟩ := bind_ok_inv hp
  obtain ⟨override, r14, h14, hp⟩ := bind_ok_inv hp
  obtain ⟨⟨l0, l1⟩, r15, h15, hp⟩ := bind_ok_inv hp
  dsimp only at hp
  by_cases hmvc : nalType = 20 ∨ nalType = 21
  · rw [if_pos hmvc] at hp
    exact Res.noConfusion hp
  · rw [if_neg hmvc] at hp
    obtain ⟨rplm, r16, h16, hp⟩ := bind_ok_inv hp
    obtain ⟨pwtOpt, r17, h17, hp⟩ := bind_ok_inv hp
    obtain ⟨decOpt, r18, h18, hp⟩ := bind_ok_inv hp
    obtain ⟨cabac, r19, h19, hp⟩ := bind_ok_inv hp
    obtain ⟨qp, r20, h20, hp⟩ := bind_ok_inv hp
    obtain ⟨⟨sp, qs⟩, r21, h21, hp⟩ := bind_ok_inv hp
    obtain ⟨⟨idc, alpha, beta⟩, r22, h22, hp⟩ := bind_ok_inv hp
    obtain ⟨sgcc, r23, h23, hp⟩ := bind_ok_inv hp
    obtain ⟨hh, hr⟩ := pure_ok_inv hp
    subst hh; subst hr
    refine ⟨r22, ?_⟩
    dsimp only
    by_cases hc : pps.NumSliceGroupsMinus1 > 0 ∧ pps.SliceGroupMapType ≥ 3 ∧
        pps.SliceGroupMapType ≤ 5
    · rw [if_pos hc]
      rw [if_pos hc] at h23
      by_cases hz : (pps.SliceGroupChangeRateMinus1 + 1) % 2 ^ 64 = 0
      · rw [if_pos hz] at h23
        exact Res.noConfusion h23
      · rw [if_neg hz] at h23
        exact ⟨hz, h23⟩
    · rw [if_neg hc]
      rw [if_neg hc] at h23
      obtain ⟨hv, hr⟩ := pure_ok_inv h23
      exact ⟨hv.symm, hr⟩

/-- In every header `ParseSliceHeader` returns, `SliceGroupChangeCycle` is read
only when `NumSliceGroupsMinus1 > 0` and `SliceGroupMapType` is 3, 4 or 5, as the
last field and with the width `sgccNumBits` gives for
`(PicSizeInMapUnitsMinus1+1)/(SliceGroupChangeRateMinus1+1) + 1` in 64-bit
arithmetic; otherwise nothing is read for it and the field is 0. -/
theorem SliceGroupChangeCycle_read (w : Nat → Nat) (data : List Byte) (sps : SPS) (pps : PPS)
    (h : SliceHeader) (n : Nat)
    (hp : ParseSliceHeader w data sps pps = (some h, n, none)) :
    ∃ rz r9 : EBSPReader, r9.pos = n ∧
      if pps.NumSliceGroupsMinus1 > 0 ∧ pps.SliceGroupMapType ≥ 3 ∧
          pps.SliceGroupMapType ≤ 5 then
        (pps.SliceGroupChangeRateMinus1 + 1) % 2 ^ 64 ≠ 0 ∧
        Read (sgccNumBits w (((pps.PicSizeInMapUnitsMinus1 + 1) % 2 ^ 64 /
          ((pps.SliceGroupChangeRateMinus1 + 1) % 2 ^ 64) + 1) % 2 ^ 64))
          rz = Res.ok h.SliceGroupChangeCycle r9
      else h.SliceGroupChangeCycle = 0 ∧ rz = r9 := by
  obtain ⟨hdr, rest, r, _, _, hf, hn⟩ := ParseSliceHeader_ok_inv w data sps pps h n hp
  obtain ⟨rz, hz⟩ := parseSliceHeaderFields_tail_inv w sps pps _ _ _ _ h hf
  exact ⟨rz, r, hn, hz⟩

/-- The exact width: `exactCeilLog2 x` is the least `k` with `x ≤ 2^k`. -/
theorem exactCeilLog2_least (x : Nat) :
    x ≤ 2 ^ exactCeilLog2 x ∧ ∀ k, x ≤ 2 ^ k → exactCeilLog2 x ≤ k :=
  ⟨Nat.le_pow_clog (by decide) x, fun _ hk => (Nat.le_pow_iff_clog_le (by decide)).1 hk⟩

/-! ## The two length checks -/

/-- C32. `GetSliceTypeFromNALU` fails with `ErrTooFewBytesToParse` exactly when
the input has at most one byte; in that case the result is the same whatever the
byte is: slice type 0 and the error, fixed by the length alone before any reader
is made. -/
theorem ErrTooFewBytesToParse_iff (data : List Byte) :
    ((GetSliceTypeFromNALU data).2 = some Error.ErrTooFewBytesToParse ↔ data.length ≤ 1) ∧
    (data.length ≤ 1 →
      GetSliceTypeFromNALU data = (0, some Error.ErrTooFewBytesToParse)) := by
  cases data with
  | nil => simp [GetSliceTypeFromNALU]
  | cons hdr tl =>
    cases tl with
    | nil => simp [GetSliceTypeFromNALU]
    | cons b tl2 =>
      have hlen : ¬ (hdr :: b :: tl2).length ≤ 1 := by simp
      refine ⟨⟨fun h => ?_, fun h => absurd h hlen⟩, fun h => absurd h hlen⟩
      exfalso
      simp only [GetSliceTypeFromNALU] at h
      by_cases ht : GetNaluType hdr = 1 ∨ GetNaluType hdr = 2 ∨ GetNaluType hdr = 5 ∨
          GetNaluType hdr = 19
      · rw [if_pos ht] at h
        cases h1 : ReadExpGolomb (NewEBSPReader (b :: tl2)) with
        | fail e r1 =>
          rw [h1] at h
          have he := errIn_ReadExpGolomb _ _ _ h1
          simp only [Option.some.injEq] at h
          rw [h] at he
          rcases he with he | he <;> exact Error.noConfusion he
        | ok mb r1 =>
          rw [h1] at h
          simp only [] at h
          cases h2 : ReadExpGolomb r1 with
          | fail e r2 =>
            rw [h2] at h
            have he := errIn_ReadExpGolomb _ _ _ h2
            simp only [Option.some.injEq] at h
            rw [h] at he
            rcases he with he | he <;> exact Error.noConfusion he
          | ok st r2 =>
            rw [h2] at h
            simp only [] at h
            split at h
            · simp at h
            · split at h <;> simp at h
      · rw [if_neg ht] at h
        simp at h

/-- C32, witness: the one-byte inputs `41` and `ff` and the empty input. -/
theorem ErrTooFewBytesToParse_iff_witness :
    GetSliceTypeFromNALU [0x41] = (0, some Error.ErrTooFewBytesToParse) ∧
    GetSliceTypeFromNALU [0xff] = (0, some Error.ErrTooFewBytesToParse) ∧
    GetSliceTypeFromNALU [] = (0, some Error.ErrTooFewBytesToParse) :=
  ⟨(ErrTooFewBytesToParse_iff [0x41]).2 (by decide),
   (ErrTooFewBytesToParse_iff [0xff]).2 (by decide),
   (ErrTooFewBytesToParse_iff []).2 (by decide)⟩

theorem nalusLoop_not_lessThan4Bytes (sample : List Byte) (fuel : Nat) :
    ∀ (pos : Nat) (acc : List (List Byte)) (l : Option (List (List Byte))),
      nalusLoop sample fuel pos acc ≠ NalusOutcome.ret l (some SampleError.lessThan4Bytes) := by
  induction fuel with
  | zero =>
    intro pos acc l h
    unfold nalusLoop at h
    split at h <;> simp at h
  | succ fuel ih =>
    intro pos acc l h
    unfold nalusLoop at h
    split at h
    · split at h
      · simp at h
      · split at h
        · simp at h
        · simp only [] at h
          split at h
          · simp at h
          · split at h
            · simp at h
            · exact ih _ _ _ h
    · simp at h

theorem goSlice_some_le (s : List Byte) (lo hi : Nat) (x : List Byte)
    (h : goSlice s lo hi = some x) : lo ≤ hi ∧ hi ≤ s.length ∧ x = (s.drop lo).take (hi - lo) := by
  unfold goSlice at h
  split at h
  · next hc => exact ⟨hc.1, hc.2, by simpa using h.symm⟩
  · simp at h

/-- The budget of the NAL loop is never used up: a round that goes on has
advanced the position by at least 4. -/
theorem nalusLoop_no_budget (sample : List Byte) (fuel : Nat) :
    ∀ (pos : Nat) (acc : List (List Byte)), sample.length ≤ fuel + pos →
      nalusLoop sample fuel pos acc ≠ NalusOutcome.budget := by
  induction fuel with
  | zero =>
    intro pos acc hf h
    unfold nalusLoop at h
    split at h
    · next hc =>
      have := Nat.mod_le (sample.length - 4) (2 ^ 32)
      omega
    · simp at h
  | succ fuel ih =>
    intro pos acc hf h
    unfold nalusLoop at h
    split at h
    · split at h
      · simp at h
      · next lenField hg1 =>
        split at h
        · simp at h
        · simp only [] at h
          split at h
          · simp at h
          · split at h
            · simp at h
            · next nal hg2 =>
              have h1 := goSlice_some_le _ _ _ _ hg1
              have h2 := goSlice_some_le _ _ _ _ hg2
              have h3 := Nat.mod_le (pos + 4) (2 ^ 32)
              have h4 : (pos + 4) % 2 ^ 32 = pos + 4 := by
                by_contra hne
                have : pos + 4 ≥ 2 ^ 32 := by
                  by_contra hlt
                  exact hne (Nat.mod_eq_of_lt (by omega))
                have hlt2 := Nat.mod_lt (pos + 4) (show 0 < 2 ^ 32 by decide)
                have : (pos + 4) % 2 ^ 32 = pos + 4 - 2 ^ 32 := by
                  rw [Nat.mod_eq_sub_mod (by omega)]
                  exact Nat.mod_eq_of_lt (by omega)
                omega
              exact ih _ _ (by omega) h
    · simp at h

/-- C33. For every sample shorter than 4 bytes `GetNalusFromSample` returns the
"Less than 4 bytes" error together with the empty NAL list; for a sample of 4
bytes or more it never returns that error (and its loop always ends). -/
theorem lessThan4Bytes_iff (sample : List Byte) :
    (sample.length < 4 →
      GetNalusFromSample sample =
        NalusOutcome.ret (some []) (some SampleError.lessThan4Bytes)) ∧
    (4 ≤ sample.length →
      ∀ l, GetNalusFromSample sample ≠ NalusOutcome.ret l (some SampleError.lessThan4Bytes)) ∧
    GetNalusFromSample sample ≠ NalusOutcome.budget := by
  refine ⟨fun h => ?_, fun h l => ?_, ?_⟩
  · rw [GetNalusFromSample, if_pos h]
  · rw [GetNalusFromSample, if_neg (by omega)]
    exact nalusLoop_not_lessThan4Bytes _ _ _ _ _
  · unfold GetNalusFromSample
    split
    · simp
    · exact nalusLoop_no_budget _ _ _ _ (by omega)

/-- C33, witness: the 3-byte sample `00 00 01` and the 4-byte sample
`00 00 00 01`. -/
theorem lessThan4Bytes_iff_witness :
    GetNalusFromSample [0x00, 0x00, 0x01] =
      NalusOutcome.ret (some []) (some SampleError.lessThan4Bytes) ∧
    GetNalusFromSample [0x00, 0x00, 0x00, 0x01] ≠
      NalusOutcome.ret (some []) (some SampleError.lessThan4Bytes) :=
  ⟨(lessThan4Bytes_iff [0x00, 0x00, 0x01]).1 (by decide),
   (lessThan4Bytes_iff [0x00, 0x00, 0x00, 0x01]).2.1 (by decide) _⟩

/-! ## What a successful `GetNalusFromSample` has found -/

theorem bigEndianUint32_some (b : List Byte) (n : Nat) (h : bigEndianUint32 b = some n) :
    b.length = 4 ∧ n < 2 ^ 32 ∧ lengthField n = b := by
  unfold bigEndianUint32 at h
  split at h
  · next b0 b1 b2 b3 =>
    simp only [Option.some.injEq] at h
    have h0 := b0.isLt
    have h1 := b1.isLt
    have h2 := b2.isLt
    have h3 := b3.isLt
    refine ⟨rfl, by omega, ?_⟩
    subst h
    simp only [lengthField, List.cons.injEq, and_true]
    refine ⟨?_, ?_, ?_, ?_⟩ <;> apply Fin.ext
    · show (b0.val * 2 ^ 24 + b1.val * 2 ^ 16 + b2.val * 2 ^ 8 + b3.val) / 2 ^ 24 % 256 = b0.val
      omega
    · show (b0.val * 2 ^ 24 + b1.val * 2 ^ 16 + b2.val * 2 ^ 8 + b3.val) / 2 ^ 16 % 256 = b1.val
      omega
    · show (b0.val * 2 ^ 24 + b1.val * 2 ^ 16 + b2.val * 2 ^ 8 + b3.val) / 2 ^ 8 % 256 = b2.val
      omega
    · show (b0.val * 2 ^ 24 + b1.val * 2 ^ 16 + b2.val * 2 ^ 8 + b3.val) % 256 = b3.val
      omega
  · simp at h

theorem mod_no_wrap (a b : Nat) (hb : b < 2 ^ 32) (ha : a < 2 ^ 32) (h : a ≤ (a + b) % 2 ^ 32) :
    (a + b) % 2 ^ 32 = a + b := by
  by_contra hne
  have hge : a + b ≥ 2 ^ 32 := by
    by_contra hlt
    exact hne (Nat.mod_eq_of_lt (by omega))
  have : (a + b) % 2 ^ 32 = a + b - 2 ^ 32 := by
    rw [Nat.mod_eq_sub_mod (by omega)]
    exact Nat.mod_eq_of_lt (by omega)
  omega

theorem drop_split (s : List Byte) (lo hi : Nat) (h1 : lo ≤ hi) (h2 : hi ≤ s.length) :
    s.drop lo = (s.drop lo).take (hi - lo) ++ s.drop hi ∧
    ((s.drop lo).take (hi - lo)).length = hi - lo := by
  constructor
  · have h := (List.take_append_drop (hi - lo) (s.drop lo)).symm
    rw [List.drop_drop] at h
    have e : lo + (hi - lo) = hi := by omega
    rw [e] at h
    exact h
  · simp only [List.length_take, List.length_drop]
    omega

/-- The units a successful run of the NAL loop has appended lie one after the
other in the sample from the position on, each behind the 4-byte big-endian field
that holds its length, and the loop has stopped where its guard is false. -/
theorem nalusLoop_ok_inv (sample : List Byte) (fuel : Nat) :
    ∀ (pos : Nat) (acc l : List (List Byte)), pos ≤ sample.length →
      nalusLoop sample fuel pos acc = NalusOutcome.ret (some l) none →
      ∃ new, l = acc ++ new ∧
        sample.drop pos =
          lengthPrefixed new ++ sample.drop (pos + (lengthPrefixed new).length) ∧
        pos + (lengthPrefixed new).length ≤ sample.length ∧
        ¬ (pos + (lengthPrefixed new).length < (sample.length - 4) % 2 ^ 32) := by
  induction fuel with
  | zero =>
    intro pos acc l hpos h
    unfold nalusLoop at h
    split at h
    · simp at h
    · next hc =>
      simp only [NalusOutcome.ret.injEq, Option.some.injEq, and_true] at h
      exact ⟨[], by simp [h], by simp [lengthPrefixed], by simpa [lengthPrefixed] using hpos,
        by simpa [lengthPrefixed] using hc⟩
  | succ fuel ih =>
    intro pos acc l hpos h
    unfold nalusLoop at h
    split at h
    · next hc =>
      split at h
      · simp at h
      · next lenField hg1 =>
        split at h
        · simp at h
        · next nalLength hbe =>
          simp only [] at h
          split at h
          · simp at h
          · split at h
            · simp at h
            · next nal hg2 =>
              obtain ⟨a1, a2, a3⟩ := goSlice_some_le _ _ _ _ hg1
              obtain ⟨c1, c2, c3⟩ := goSlice_some_le _ _ _ _ hg2
              obtain ⟨e1, e2, e3⟩ := bigEndianUint32_some _ _ hbe
              have hlt : (sample.length - 4) % 2 ^ 32 < 2 ^ 32 := Nat.mod_lt _ (by decide)
              have h4 : (pos + 4) % 2 ^ 32 = pos + 4 := mod_no_wrap pos 4 (by decide) (by omega) a1
              rw [h4] at a2 a3 c1 c2 c3 h
              have hlt4 : pos + 4 < 2 ^ 32 := by
                have := Nat.mod_lt (pos + 4) (show 0 < 2 ^ 32 by decide)
                omega
              have h5 : (pos + 4 + nalLength) % 2 ^ 32 = pos + 4 + nalLength :=
                mod_no_wrap (pos + 4) nalLength e2 hlt4 c1
              rw [h5] at c1 c2 c3 h
              obtain ⟨new, hl, hd, hle, hstop⟩ := ih _ _ _ c2 h
              obtain ⟨s1, s1len⟩ := drop_split sample pos (pos + 4) (by omega) a2
              obtain ⟨s2, s2len⟩ := drop_split sample (pos + 4) (pos + 4 + nalLength) (by omega) c2
              rw [← a3] at s1 s1len
              rw [← c3] at s2 s2len
              have hnl : nal.length = nalLength := by omega
              have hlp : (lengthPrefixed (nal :: new)).length =
                  4 + nalLength + (lengthPrefixed new).length := by
                simp [lengthPrefixed, lengthField_length, hnl]; omega
              have hpp : pos + (4 + nalLength + (lengthPrefixed new).length) =
                  pos + 4 + nalLength + (lengthPrefixed new).length := by omega
              refine ⟨nal :: new, by rw [hl]; simp, ?_, by rw [hlp]; omega, by rw [hlp, hpp]; exact hstop⟩
              rw [hlp, hpp, s1, s2, hd]
              simp only [lengthPrefixed, hnl, e3, List.append_assoc]
    · next hc =>
      simp only [NalusOutcome.ret.injEq, Option.some.injEq, and_true] at h
      exact ⟨[], by simp [h], by simp [lengthPrefixed], by simpa [lengthPrefixed] using hpos,
        by simpa [lengthPrefixed] using hc⟩

theorem nalusLoop_stop (sample : List Byte) (fuel pos : Nat) (acc : List (List Byte))
    (hc : ¬ pos < (sample.length - 4) % 2 ^ 32) :
    nalusLoop sample fuel pos acc = NalusOutcome.ret (some acc) none := by
  cases fuel with
  | zero => rw [nalusLoop, if_neg hc]
  | succ f => rw [nalusLoop, if_neg hc]

/-- C40. On the 5-byte sample `00 00 00 00 41` the length field is 0:
`GetNalusFromSample` returns, without error, a list whose one unit is empty; on
`00 00 00 00 00 00 00 01 41` it returns an empty unit followed by the unit
`41`. -/
theorem GetNalusFromSample_empty_unit :
    GetNalusFromSample [0x00, 0x00, 0x00, 0x00, 0x41] = NalusOutcome.ret (some [[]]) none ∧
    GetNalusFromSample [0x00, 0x00, 0x00, 0x00, 0x00, 0x00, 0x00, 0x01, 0x41] =
      NalusOutcome.ret (some [[], [0x41]]) none := by
  decide!

theorem nalusLoop_ok_lengths (sample : List Byte) (fuel : Nat) :
    ∀ (pos : Nat) (acc l : List (List Byte)),
      nalusLoop sample fuel pos acc = NalusOutcome.ret (some l) none →
      (∀ nal ∈ acc, nal.length < 2 ^ 32) → ∀ nal ∈ l, nal.length < 2 ^ 32 := by
  induction fuel with
  | zero =>
    intro pos acc l h hacc
    unfold nalusLoop at h
    split at h
    · simp at h
    · simp only [NalusOutcome.ret.injEq, Option.some.injEq, and_true] at h
      rw [← h]; exact hacc
  | succ fuel ih =>
    intro pos acc l h hacc
    unfold nalusLoop at h
    split at h
    · split at h
      · simp at h
      · split at h
        · simp at h
        · next nalLength _ =>
          simp only [] at h
          split at h
          · simp at h
          · split at h
            · simp at h
            · next nal hg2 =>
              obtain ⟨c1, c2, c3⟩ := goSlice_some_le _ _ _ _ hg2
              refine ih _ _ _ h ?_
              intro x hx
              rcases List.mem_append.1 hx with hx | hx
              · exact hacc x hx
              · have hxn : x = nal := by simpa using hx
                have hlt := Nat.mod_lt ((pos + 4) % 2 ^ 32 + nalLength) (show 0 < 2 ^ 32 by decide)
                rw [hxn]
                have hl : nal.length ≤ ((pos + 4) % 2 ^ 32 + nalLength) % 2 ^ 32 := by
                  rw [c3]
                  simp only [List.length_take, List.length_drop]
                  omega
                omega
    · simp only [NalusOutcome.ret.injEq, Option.some.injEq, and_true] at h
      rw [← h]; exact hacc

/-- C39. Whenever `GetNalusFromSample` returns a list and no error, the sample
is the returned units in order, from offset 0 on, each directly behind the
4-byte big-endian field that holds its length, followed by some rest; for a
sample shorter than `2^32 + 4` bytes the rest has at most 4 bytes. A sample of
exactly 4 bytes gives the empty list and no error, whatever the bytes are. -/
theorem GetNalusFromSample_units_in_order (sample : List Byte) :
    (∀ l : List (List Byte), GetNalusFromSample sample = NalusOutcome.ret (some l) none →
      ∃ rest, sample = lengthPrefixed l ++ rest ∧
        (∀ nal ∈ l, bigEndianUint32 (lengthField nal.length) = some nal.length) ∧
        (sample.length < 2 ^ 32 + 4 → rest.length ≤ 4)) ∧
    (sample.length = 4 → GetNalusFromSample sample = NalusOutcome.ret (some []) none) := by
  constructor
  · intro l h
    unfold GetNalusFromSample at h
    split at h
    · simp at h
    · next h4 =>
      have hlen := nalusLoop_ok_lengths sample _ 0 [] l h (by simp)
      obtain ⟨new, hl, hd, hle, hstop⟩ := nalusLoop_ok_inv sample _ 0 [] l (Nat.zero_le _) h
      simp only [List.nil_append] at hl
      subst hl
      simp only [List.drop_zero, Nat.zero_add] at hd hle hstop
      refine ⟨_, hd, fun nal hn => bigEndianUint32_lengthField _ (hlen nal hn), ?_⟩
      intro hlt
      rw [Nat.mod_eq_of_lt (by omega)] at hstop
      simp only [List.length_drop]
      omega
  · intro h4
    have hn : ¬ sample.length < 4 := by omega
    rw [GetNalusFromSample, if_neg hn]
    exact nalusLoop_stop _ _ _ _ (by rw [h4]; decide)

/-- C39, witness: the 12-byte sample `00 00 00 01 41 00 00 00 02 42 43 ff` holds
the units `41` and `42 43` and one more byte; the 4-byte sample `ff ff ff ff`
gives the empty list. -/
theorem GetNalusFromSample_units_in_order_witness :
    GetNalusFromSample
        [0x00, 0x00, 0x00, 0x01, 0x41, 0x00, 0x00, 0x00, 0x02, 0x42, 0x43, 0xff] =
      NalusOutcome.ret (some [[0x41], [0x42, 0x43]]) none ∧
    (∃ rest : List Byte,
      [0x00, 0x00, 0x00, 0x01, 0x41, 0x00, 0x00, 0x00, 0x02, 0x42, 0x43, 0xff] =
        lengthPrefixed [[0x41], [0x42, 0x43]] ++ rest ∧
      (∀ nal ∈ [[(0x41 : Byte)], [0x42, 0x43]],
        bigEndianUint32 (lengthField nal.length) = some nal.length) ∧
      rest.length ≤ 4) ∧
    GetNalusFromSample [0xff, 0xff, 0xff, 0xff] = NalusOutcome.ret (some []) none :=
  ⟨by decide!,
    (fun ⟨rest, h1, h2, h3⟩ => ⟨rest, h1, h2, h3 (by decide)⟩)
      ((GetNalusFromSample_units_in_order
        [0x00, 0x00, 0x00, 0x01, 0x41, 0x00, 0x00, 0x00, 0x02, 0x42, 0x43, 0xff]).1
        [[0x41], [0x42, 0x43]] (by decide!)),
    (GetNalusFromSample_units_in_order [0xff, 0xff, 0xff, 0xff]).2 (by decide)⟩

/-- C39, counterexample: on a sample of `2^32 + 4` zero bytes
`uint32(length-4)` of line 16 is 0, the loop is not entered and
`GetNalusFromSample` returns the empty list and no error, so that all
`2^32 + 4` bytes remain behind the units returned. -/
theorem GetNalusFromSample_huge_sample_counterexample :
    GetNalusFromSample (List.replicate (2 ^ 32 + 4) 0) = NalusOutcome.ret (some []) none ∧
    ∀ rest, List.replicate (2 ^ 32 + 4) (0 : Byte) = lengthPrefixed [] ++ rest →
      rest.length = 2 ^ 32 + 4 := by
  have hlen : (List.replicate (2 ^ 32 + 4) (0 : Byte)).length = 2 ^ 32 + 4 :=
    List.length_replicate _ _
  have h4 : ¬ (List.replicate (2 ^ 32 + 4) (0 : Byte)).length < 4 := by rw [hlen]; decide
  have hc : ¬ 0 < ((List.replicate (2 ^ 32 + 4) (0 : Byte)).length - 4) % 2 ^ 32 := by
    rw [hlen]; decide
  refine ⟨?_, fun rest hr => ?_⟩
  · rw [GetNalusFromSample, if_neg h4]
    exact nalusLoop_stop _ _ _ _ hc
  · rw [lengthPrefixed, List.nil_append] at hr
    rw [← hr, hlen]

/-! ## `GetSliceTypeFromNALU` and `ParseSliceHeader` agree -/

theorem Res_shift_ok_inv {α : Type} (d : Nat) (x : Res α) (a : α) (r1 : EBSPReader)
    (h : x.shift d = Res.ok a r1) : ∃ r0, x = Res.ok a r0 ∧ r0.shift d = r1 := by
  cases x with
  | ok b r0 =>
    simp only [Res.shift, Res.ok.injEq] at h
    exact ⟨r0, by rw [h.1], h.2⟩
  | fail e r0 => simp [Res.shift] at h

theorem setSliceType_ok_inv (k st : Nat) (r r1 : EBSPReader)
    (h : setSliceType k r = Res.ok st r1) :
    ¬ k > 9 ∧ st = (if k ≥ 5 then k - 5 else k) := by
  unfold setSliceType at h
  by_cases h9 : k > 9
  · rw [if_pos h9] at h; exact Res.noConfusion h
  · rw [if_neg h9] at h
    refine ⟨h9, ?_⟩
    by_cases h5 : k ≥ 5
    · rw [if_pos h5] at h
      rw [if_pos h5]
      exact ((pure_ok_inv h).1).symm
    · rw [if_neg h5] at h
      rw [if_neg h5]
      exact ((pure_ok_inv h).1).symm

/-- C37. Whenever `ParseSliceHeader` succeeds on `data`, for whatever parameter
sets, `GetSliceTypeFromNALU data` succeeds too and returns the `SliceType` of
the returned header. -/
theorem GetSliceTypeFromNALU_agrees (w : Nat → Nat) (data : List Byte) (sps : SPS) (pps : PPS)
    (h : SliceHeader) (n : Nat)
    (hp : ParseSliceHeader w data sps pps = (some h, n, none)) :
    GetSliceTypeFromNALU data = (h.SliceType, none) := by
  obtain ⟨hdr, rest, r, hd, hty, hf, _⟩ := ParseSliceHeader_ok_inv w data sps pps h n hp
  obtain ⟨code, r1, r2, r3, r4, ra, rb, rc, h1, h2, h3, _⟩ :=
    parseSliceHeaderFields_head_inv w sps pps _ _ _ _ h hf
  have hz : ¬ hdr.val = 0 := slice_nal_header_ne_zero hdr hty
  have hr0 : EBSPReader.mk rest 0 0 1 (if hdr.val = 0 then 1 else 0) =
      (NewEBSPReader rest).shift 1 := by
    simp [NewEBSPReader, EBSPReader.shift, hz]
  rw [hr0, ReadExpGolomb_shift] at h1
  obtain ⟨q1, g1, s1⟩ := Res_shift_ok_inv 1 _ _ _ h1
  rw [← s1, ReadExpGolomb_shift] at h2
  obtain ⟨q2, g2, s2⟩ := Res_shift_ok_inv 1 _ _ _ h2
  obtain ⟨h9, hst⟩ := setSliceType_ok_inv _ _ _ _ h3
  rw [hd, GetSliceTypeFromNALU_read hdr rest _ code q1 q2 hty g1 g2, if_neg h9]
  by_cases h5 : code ≥ 5
  · rw [if_pos h5] at hst ⊢
    rw [hst]
  · rw [if_neg h5] at hst ⊢
    rw [hst]

/-- C37, witness: `videoSliceDataPFrame`, whose header has slice type P. -/
theorem GetSliceTypeFromNALU_agrees_witness :
    GetSliceTypeFromNALU videoSliceDataPFrame =
      (((parseSliceHeaderBody exactCeilLog2 spsTest ppsTest
        (NewEBSPReader videoSliceDataPFrame)).valueOf.getD {}).SliceType, none) ∧
    ((parseSliceHeaderBody exactCeilLog2 spsTest ppsTest
        (NewEBSPReader videoSliceDataPFrame)).valueOf.getD {}).SliceType = SLICE_P :=
  ⟨GetSliceTypeFromNALU_agrees exactCeilLog2 videoSliceDataPFrame spsTest ppsTest
    ((parseSliceHeaderBody exactCeilLog2 spsTest ppsTest
      (NewEBSPReader videoSliceDataPFrame)).valueOf.getD {}) 9 (by decide!), by decide!⟩

/-! ## The sentinel loops only fail -/

/-- Entered with the guard value 0, the list-modification loop fails with the
end-of-data error. -/
theorem rplmLoop_zero_fails (p : List PerEntryRefPicListModParams) (r : EBSPReader) :
    ∃ r2, rplmLoop (r.bitsLeft + 1) 0 p r = Res.fail Error.ErrTooFewBits r2 := by
  cases hx : rplmLoop (r.bitsLeft + 1) 0 p r with
  | ok a r1 =>
    have h03 : (0 : Nat) = 3 := rplmLoop_ok_guard _ 0 p r a r1 hx
    exact absurd h03 (by decide)
  | fail e r1 =>
    have he := ((rplmLoop_budget (r.bitsLeft + 1) 0 p r (Nat.lt_succ_self _)).2 e r1 hx).2
    unfold endOfData at he
    rw [he]
    exact ⟨r1, rfl⟩

/-- Entered with the guard value 1, the marking loop fails with the end-of-data
error. -/
theorem mmcoLoop_one_fails (p : List AdaptiveMemCtrlDecRefPicMarkingParams) (r : EBSPReader) :
    ∃ r2, mmcoLoop (r.bitsLeft + 1) 1 p r = Res.fail Error.ErrTooFewBits r2 := by
  cases hx : mmcoLoop (r.bitsLeft + 1) 1 p r with
  | ok a r1 =>
    have h10 : (1 : Nat) = 0 := mmcoLoop_ok_guard _ 1 p r a r1 hx
    exact absurd h10 (by decide)
  | fail e r1 =>
    have he := ((mmcoLoop_budget (r.bitsLeft + 1) 1 p r (Nat.lt_succ_self _)).2 e r1 hx).2
    unfold endOfData at he
    rw [he]
    exact ⟨r1, rfl⟩

theorem ParseRefPicListModification_flag_fails (avcsh : SliceHeader) (r r1 : EBSPReader)
    (hs : avcsh.SliceType % 5 ≠ 2 ∧ avcsh.SliceType % 5 ≠ 4)
    (hflag : ReadFlag r = Res.ok true r1) :
    ∃ r2, ParseRefPicListModification avcsh r = Res.fail Error.ErrTooFewBits r2 := by
  obtain ⟨r2, h2⟩ := rplmLoop_zero_fails [] r1
  refine ⟨r2, ?_⟩
  unfold ParseRefPicListModification
  simp only [if_pos hs]
  rw [bind_apply, bind_apply, hflag]
  simp only [if_true]
  rw [bind_apply, h2]

theorem ParseRefPicListModification_ok_empty (avcsh : SliceHeader) (r r1 : EBSPReader)
    (rplm : RefPicListModification)
    (h : ParseRefPicListModification avcsh r = Res.ok rplm r1) :
    rplm.RefPicListModificationFlagL0 = false ∧ rplm.PerEntryParams = [] := by
  unfold ParseRefPicListModification at h
  obtain ⟨m1, ra, h1, h⟩ := bind_ok_inv h
  have e1 : m1.RefPicListModificationFlagL0 = false ∧ m1.PerEntryParams = [] := by
    by_cases hs : avcsh.SliceType % 5 ≠ 2 ∧ avcsh.SliceType % 5 ≠ 4
    · rw [if_pos hs] at h1
      obtain ⟨f, rb, hf, h1⟩ := bind_ok_inv h1
      cases f with
      | true =>
        simp only [if_true] at h1
        obtain ⟨ps, rc, hl, _⟩ := bind_ok_inv h1
        obtain ⟨r2, h2⟩ := rplmLoop_zero_fails [] rb
        rw [h2] at hl
        exact Res.noConfusion hl
      | false =>
        simp only [Bool.false_eq_true, if_false] at h1
        rw [← (pure_ok_inv h1).1]
        exact ⟨rfl, rfl⟩
    · rw [if_neg hs] at h1
      rw [← (pure_ok_inv h1).1]
      exact ⟨rfl, rfl⟩
  by_cases hb : avcsh.SliceType % 5 = 1
  · rw [if_pos hb] at h
    obtain ⟨f1, rb, hf, h⟩ := bind_ok_inv h
    simp only [e1.1, Bool.false_eq_true, if_false] at h
    rw [← (pure_ok_inv h).1]
    exact ⟨rfl, e1.2⟩
  · rw [if_neg hb] at h
    rw [← (pure_ok_inv h).1]
    exact e1

/-- C34. Whenever `ParseRefPicListModification` reads the list-0 modification
flag as 1 it returns an error, the end-of-data error of a failed read: the loop
is entered with `mopni = 0`, never assigns it and cannot be left otherwise,
whatever operation codes the stream holds. So every structure it returns, and
with it the `RefPicListModification` of every header `ParseSliceHeader` returns,
has `RefPicListModificationFlagL0 = false` and no entry. -/
theorem RefPicListModification_flag_means_error (avcsh : SliceHeader) (r : EBSPReader)
    (w : Nat → Nat) (data : List Byte) (sps : SPS) (pps : PPS) :
    (∀ r1, avcsh.SliceType % 5 ≠ 2 ∧ avcsh.SliceType % 5 ≠ 4 → ReadFlag r = Res.ok true r1 →
      ∃ r2, ParseRefPicListModification avcsh r = Res.fail Error.ErrTooFewBits r2) ∧
    (∀ rplm r1, ParseRefPicListModification avcsh r = Res.ok rplm r1 →
      rplm.RefPicListModificationFlagL0 = false ∧ rplm.PerEntryParams = []) ∧
    (∀ h n, ParseSliceHeader w data sps pps = (some h, n, none) →
      ∃ rplm, h.RefPicListModification = some rplm ∧
        rplm.RefPicListModificationFlagL0 = false ∧ rplm.PerEntryParams = []) := by
  refine ⟨fun r1 hs hf => ParseRefPicListModification_flag_fails avcsh r r1 hs hf,
    fun rplm r1 h => ParseRefPicListModification_ok_empty avcsh r r1 rplm h, ?_⟩
  intro h n hp
  obtain ⟨hdr, rest, r9, _, _, hf, _⟩ := ParseSliceHeader_ok_inv w data sps pps h n hp
  obtain ⟨sh, rplm, ra, rb, rc, rd, _, _, _, _, _, hr, hsome, _⟩ :=
    parseSliceHeaderFields_inv w sps pps _ _ _ _ h hf
  exact ⟨rplm, hsome, ParseRefPicListModification_ok_empty _ _ _ _ hr⟩

/-- C34, witness: a P slice on the byte `93` (list-0 flag 1, then the
operation code 3 and more) fails with the end-of-data error; the header of
`videoSliceDataPFrame` has the flag false and no entry. -/
theorem RefPicListModification_flag_means_error_witness :
    (∃ r2, ParseRefPicListModification { SliceType := SLICE_P } (NewEBSPReader [0x93]) =
      Res.fail Error.ErrTooFewBits r2) ∧
    (∃ rplm, ((parseSliceHeaderBody exactCeilLog2 spsTest ppsTest
        (NewEBSPReader videoSliceDataPFrame)).valueOf.getD {}).RefPicListModification =
          some rplm ∧
      rplm.RefPicListModificationFlagL0 = false ∧ rplm.PerEntryParams = []) :=
  ⟨(RefPicListModification_flag_means_error { SliceType := SLICE_P } (NewEBSPReader [0x93])
      exactCeilLog2 videoSliceDataPFrame spsTest ppsTest).1
      { rd := [], n := 7, v := 0x13, pos := 1, zeroCount := 0 } (by decide) (by decide!),
   (RefPicListModification_flag_means_error { SliceType := SLICE_P } (NewEBSPReader [0x93])
      exactCeilLog2 videoSliceDataPFrame spsTest ppsTest).2.2
      ((parseSliceHeaderBody exactCeilLog2 spsTest ppsTest
        (NewEBSPReader videoSliceDataPFrame)).valueOf.getD {}) 9 (by decide!)⟩

theorem ParseDecRefPicMarking_flag_fails (t : NaluType) (r r1 : EBSPReader)
    (hidr : t ≠ NALU_IDR) (hflag : ReadFlag r = Res.ok true r1) :
    ∃ r2, ParseDecRefPicMarking t r = Res.fail Error.ErrTooFewBits r2 := by
  obtain ⟨r2, h2⟩ := mmcoLoop_one_fails [] r1
  refine ⟨r2, ?_⟩
  unfold ParseDecRefPicMarking
  have hi : getIDRPicFlag t = false := by simp [getIDRPicFlag, hidr]
  simp only [hi, Bool.false_eq_true, if_false]
  rw [bind_apply, hflag]
  simp only [if_true]
  rw [bind_apply, h2]

theorem ParseDecRefPicMarking_ok_empty (t : NaluType) (r r1 : EBSPReader)
    (rpm : DecRefPicMarking) (h : ParseDecRefPicMarking t r = Res.ok rpm r1) :
    rpm.AdaptiveRefPicMarkingModeFlag = false ∧ rpm.AdaptiveRefPicMarkingParams = [] := by
  unfold ParseDecRefPicMarking at h
  by_cases hi : getIDRPicFlag t = true
  · simp only [hi, if_true] at h
    obtain ⟨a, ra, _, h⟩ := bind_ok_inv h
    obtain ⟨b, rb, _, h⟩ := bind_ok_inv h
    rw [← (pure_ok_inv h).1]
    exact ⟨rfl, rfl⟩
  · simp only [hi, Bool.false_eq_true, if_false] at h
    obtain ⟨f, ra, hf, h⟩ := bind_ok_inv h
    cases f with
    | true =>
      simp only [if_true] at h
      obtain ⟨ps, rc, hl, _⟩ := bind_ok_inv h
      obtain ⟨r2, h2⟩ := mmcoLoop_one_fails [] ra
      rw [h2] at hl
      exact Res.noConfusion hl
    | false =>
      simp only [Bool.false_eq_true, if_false] at h
      rw [← (pure_ok_inv h).1]
      exact ⟨rfl, rfl⟩

/-- C35. Whenever `ParseDecRefPicMarking`, on a NAL that is not an IDR, reads
the adaptive-marking-mode flag as 1 it returns an error, the end-of-data error
of a failed read: the loop is entered with the guard `mmco = 1`, which the body
shadows and never changes, and cannot be left otherwise, whatever operation
codes the stream holds. So every structure it returns, and with it the
`DecRefPicMarking` of every header `ParseSliceHeader` returns, has
`AdaptiveRefPicMarkingModeFlag = false` and no operation. -/
theorem DecRefPicMarking_flag_means_error (t : NaluType) (r : EBSPReader)
    (w : Nat → Nat) (data : List Byte) (sps : SPS) (pps : PPS) :
    (∀ r1, t ≠ NALU_IDR → ReadFlag r = Res.ok true r1 →
      ∃ r2, ParseDecRefPicMarking t r = Res.fail Error.ErrTooFewBits r2) ∧
    (∀ rpm r1, ParseDecRefPicMarking t r = Res.ok rpm r1 →
      rpm.AdaptiveRefPicMarkingModeFlag = false ∧ rpm.AdaptiveRefPicMarkingParams = []) ∧
    (∀ h n rpm, ParseSliceHeader w data sps pps = (some h, n, none) →
      h.DecRefPicMarking = some rpm →
      rpm.AdaptiveRefPicMarkingModeFlag = false ∧ rpm.AdaptiveRefPicMarkingParams = []) := by
  refine ⟨fun r1 hi hf => ParseDecRefPicMarking_flag_fails t r r1 hi hf,
    fun rpm r1 h => ParseDecRefPicMarking_ok_empty t r r1 rpm h, ?_⟩
  intro h n rpm hp hsome
  obtain ⟨hdr, rest, r9, _, _, hf, _⟩ := ParseSliceHeader_ok_inv w data sps pps h n hp
  obtain ⟨sh, rplm, ra, rb, rc, rd, _, _, _, _, _, _, _, _, hdec⟩ :=
    parseSliceHeaderFields_inv w sps pps _ _ _ _ h hf
  split at hdec
  · obtain ⟨rpm2, hr, hs2⟩ := hdec
    rw [hs2] at hsome
    injection hsome with he
    rw [← he]
    exact ParseDecRefPicMarking_ok_empty _ _ _ _ hr
  · rw [hdec.1] at hsome
    exact Option.noConfusion hsome

/-- C35, witness: a NAL of type 1 on the byte `d3` (adaptive flag 1, then the
operation code 0 and more) fails with the end-of-data error; the marking of the
header of `videoSliceDataPFrame` has the flag false and no operation. -/
theorem DecRefPicMarking_flag_means_error_witness :
    (∃ r2, ParseDecRefPicMarking 1 (NewEBSPReader [0xd3]) =
      Res.fail Error.ErrTooFewBits r2) ∧
    ((parseSliceHeaderBody exactCeilLog2 spsTest ppsTest
        (NewEBSPReader videoSliceDataPFrame)).valueOf.getD {}).DecRefPicMarking = some {} ∧
    (({} : DecRefPicMarking).AdaptiveRefPicMarkingModeFlag = false ∧
      ({} : DecRefPicMarking).AdaptiveRefPicMarkingParams = []) :=
  ⟨(DecRefPicMarking_flag_means_error 1 (NewEBSPReader [0xd3])
      exactCeilLog2 videoSliceDataPFrame spsTest ppsTest).1
      { rd := [], n := 7, v := 0x53, pos := 1, zeroCount := 0 } (by decide) (by decide!),
   by decide!,
   (DecRefPicMarking_flag_means_error 1 (NewEBSPReader [0xd3])
      exactCeilLog2 videoSliceDataPFrame spsTest ppsTest).2.2
      ((parseSliceHeaderBody exactCeilLog2 spsTest ppsTest
        (NewEBSPReader videoSliceDataPFrame)).valueOf.getD {}) 9 {} (by decide!) (by decide!)⟩

/-! ## Fields whose condition was false -/

/-- The fields of a header that `parseSliceHeaderFields` returns keep their zero
value where the condition under which they are read was false. -/
theorem parseSliceHeaderFields_gates (w : Nat → Nat) (sps : SPS) (pps : PPS) (nalHdr : Nat)
    (nalType : NaluType) (r r9 : EBSPReader) (h : SliceHeader)
    (hp : parseSliceHeaderFields w sps pps nalHdr nalType r = Res.ok h r9) :
    (sps.SeparateColourPlaneFlag = false → h.ColourPlaneID = 0) ∧
    (h.FieldPicFlag = true → sps.FrameMbsOnlyFlag = false) ∧
    (h.BottomFieldFlag = true → h.FieldPicFlag = true) ∧
    (nalType ≠ NALU_IDR → h.IDRPicID = 0) ∧
    (h.SliceType ≠ SLICE_B → h.DirectSpatialMVPredFlag = false) ∧
    (¬ (h.SliceType = SLICE_P ∨ h.SliceType = SLICE_SP ∨ h.SliceType = SLICE_B) →
      h.NumRefIdxActiveOverrideFlag = false) ∧
    (h.NumRefIdxActiveOverrideFlag = false →
      h.NumRefIdxL0ActiveMinus1 = 0 ∧ h.NumRefIdxL1ActiveMinus1 = 0) ∧
    (h.SliceType ≠ SLICE_B → h.NumRefIdxL1ActiveMinus1 = 0) ∧
    (¬ (pps.EntropyCodingModeFlag ∧ h.SliceType ≠ SLICE_I ∧ h.SliceType ≠ SLICE_SI) →
      h.CabacInitIDC = 0) := by
  unfold parseSliceHeaderFields at hp
  obtain ⟨firstMb, r1, h1, hp⟩ := bind_ok_inv hp
  obtain ⟨code, r2, h2, hp⟩ := bind_ok_inv hp
  obtain ⟨sliceType, r3, h3, hp⟩ := bind_ok_inv hp
  obtain ⟨ppsID, r4, h4, hp⟩ := bind_ok_inv hp
  obtain ⟨colour, r5, h5, hp⟩ := bind_ok_inv hp
  obtain ⟨frameNum, r6, h6, hp⟩ := bind_ok_inv hp
  obtain ⟨⟨fieldPic, bottomField⟩, r7, h7, hp⟩ := bind_ok_inv hp
  obtain ⟨idrPicID, r8, h8, hp⟩ := bind_ok_inv hp
  obtain ⟨⟨lsb, deltaBottom⟩, r10, h10, hp⟩ := bind_ok_inv hp
  obtain ⟨⟨d0, d1⟩, r11, h11, hp⟩ := bind_ok_inv hp
  obtain ⟨redundant, r12, h12, hp⟩ := bind_ok_inv hp
  obtain ⟨direct, r13, h13, hp⟩ := bind_ok_inv hp
  obtain ⟨override, r14, h14, hp⟩ := bind_ok_inv hp
  obtain ⟨⟨l0, l1⟩, r15, h15, hp⟩ := bind_ok_inv hp
  dsimp only at hp
  by_cases hmvc : nalType = 20 ∨ nalType = 21
  · rw [if_pos hmvc] at hp
    exact Res.noConfusion hp
  · rw [if_neg hmvc] at hp
    obtain ⟨rplm, r16, h16, hp⟩ := bind_ok_inv hp
    obtain ⟨pwtOpt, r17, h17, hp⟩ := bind_ok_inv hp
    obtain ⟨decOpt, r18, h18, hp⟩ := bind_ok_inv hp
    obtain ⟨cabac, r19, h19, hp⟩ := bind_ok_inv hp
    obtain ⟨qp, r20, h20, hp⟩ := bind_ok_inv hp
    obtain ⟨⟨sp, qs⟩, r21, h21, hp⟩ := bind_ok_inv hp
    obtain ⟨⟨idc, alpha, beta⟩, r22, h22, hp⟩ := bind_ok_inv hp
    obtain ⟨sgcc, r23, h23, hp⟩ := bind_ok_inv hp
    obtain ⟨hh, hr⟩ := pure_ok_inv hp
    subst hh
    dsimp only
    refine ⟨?_, ?_, ?_, ?_, ?_, ?_, ?_, ?_, ?_⟩
    · intro hc
      simp only [hc, Bool.false_eq_true, if_false] at h5
      exact ((pure_ok_inv h5).1).symm
    · intro hf
      by_contra hm
      simp only [hm, if_false] at h7
      have := congrArg Prod.fst (pure_ok_inv h7).1
      simp only at this
      rw [← this] at hf
      exact Bool.noConfusion hf
    · intro hb
      by_cases hm : sps.FrameMbsOnlyFlag = false
      · rw [if_pos hm] at h7
        obtain ⟨fp, rx, _, h7⟩ := bind_ok_inv h7
        cases fp with
        | true =>
          simp only [if_true] at h7
          obtain ⟨bt, ry, _, h7⟩ := bind_ok_inv h7
          exact (congrArg Prod.fst (pure_ok_inv h7).1).symm
        | false =>
          simp only [Bool.false_eq_true, if_false] at h7
          have := congrArg Prod.snd (pure_ok_inv h7).1
          simp only at this
          rw [← this] at hb
          exact Bool.noConfusion hb
      · rw [if_neg hm] at h7
        have := congrArg Prod.snd (pure_ok_inv h7).1
        simp only at this
        rw [← this] at hb
        exact Bool.noConfusion hb
    · intro hi
      have hg : getIDRPicFlag nalType = false := by simp [getIDRPicFlag, hi]
      simp only [hg, Bool.false_eq_true, if_false] at h8
      exact ((pure_ok_inv h8).1).symm
    · intro hb
      rw [if_neg hb] at h13
      exact ((pure_ok_inv h13).1).symm
    · intro hb
      rw [if_neg hb] at h14
      exact ((pure_ok_inv h14).1).symm
    · intro ho
      subst ho
      simp only [Bool.false_eq_true, if_false] at h15
      have := (pure_ok_inv h15).1
      exact ⟨(congrArg Prod.fst this).symm, (congrArg Prod.snd this).symm⟩
    · intro hb
      cases override with
      | true =>
        simp only [if_true] at h15
        obtain ⟨x0, rx, _, h15⟩ := bind_ok_inv h15
        rw [if_neg hb] at h15
        exact (congrArg Prod.snd (pure_ok_inv h15).1).symm
      | false =>
        simp only [Bool.false_eq_true, if_false] at h15
        exact (congrArg Prod.snd (pure_ok_inv h15).1).symm
    · intro hc
      rw [if_neg hc] at h19
      exact ((pure_ok_inv h19).1).symm

theorem parseSliceHeaderFields_defaults (w : Nat → Nat) (sps : SPS) (pps : PPS) (nalHdr : Nat)
    (nalType : NaluType) (d0 d1 : Nat) :
    parseSliceHeaderFields w sps
      { pps with NumRefIdxI0DefaultActiveMinus1 := d0, NumRefIdxI1DefaultActiveMinus1 := d1 }
      nalHdr nalType = parseSliceHeaderFields w sps pps nalHdr nalType := by
  unfold parseSliceHeaderFields
  rfl

/-- The default active reference counts of the picture parameter set have no
influence on `ParseSliceHeader`. -/
theorem ParseSliceHeader_defaults (w : Nat → Nat) (data : List Byte) (sps : SPS) (pps : PPS)
    (d0 d1 : Nat) :
    ParseSliceHeader w data sps
      { pps with NumRefIdxI0DefaultActiveMinus1 := d0, NumRefIdxI1DefaultActiveMinus1 := d1 } =
      ParseSliceHeader w data sps pps := by
  unfold ParseSliceHeader parseSliceHeaderBody
  simp only [parseSliceHeaderFields_defaults]

theorem rd_bind_pure {α : Type} (x : Rd α) : x >>= pure = x := by
  funext r
  simp only [bind_apply]
  cases x r <;> rfl

theorem times_one {α : Type} (f : α → Rd α) (a : α) : Rd.times f 1 a = f a := by
  show f a >>= Rd.times f 0 = f a
  have h0 : Rd.times f 0 = pure := by funext x; rfl
  rw [h0, rd_bind_pure]

/-- With both active reference counts 0 the prediction weight table is the
denominators, one list-0 round and, for a B slice, one list-1 round. -/
theorem ParsePredWeightTable_one_entry (sps : SPS) (avcsh : SliceHeader)
    (h0 : avcsh.NumRefIdxL0ActiveMinus1 = 0) (h1 : avcsh.NumRefIdxL1ActiveMinus1 = 0) :
    ParsePredWeightTable sps avcsh = (do
      let lumaDenom ← ReadExpGolomb
      let t ← (if getChromaArrayType sps ≠ 0 then do
          let chromaDenom ← ReadExpGolomb
          pure { LumaLog2WeightDenom := lumaDenom, ChromaLog2WeightDenom := chromaDenom }
        else pure { LumaLog2WeightDenom := lumaDenom } : Rd PredWeightTable)
      let t ← pwtEntryL0 sps t
      if avcsh.SliceType % 5 = 1 then pwtEntryL1 sps t else pure t) := by
  unfold ParsePredWeightTable
  simp only [pwtLoopL0_times, pwtLoopL1_times, h0, h1, Nat.zero_add, times_one]

/-- C36. In every header `ParseSliceHeader` returns: when
`NumRefIdxActiveOverrideFlag` is false (read as 0, or not read),
`NumRefIdxL0ActiveMinus1` and `NumRefIdxL1ActiveMinus1` are 0;
`NumRefIdxL1ActiveMinus1` is not 0 only for a B slice with the flag set; the
default counts of the PPS change nothing; and with the flag false a prediction
weight table, if there is one, was parsed as the denominators, one list-0 entry
and, for a B slice only, one list-1 entry. -/
theorem NumRefIdx_without_override (w : Nat → Nat) (data : List Byte) (sps : SPS) (pps : PPS)
    (h : SliceHeader) (n : Nat)
    (hp : ParseSliceHeader w data sps pps = (some h, n, none)) :
    (h.NumRefIdxActiveOverrideFlag = false →
      h.NumRefIdxL0ActiveMinus1 = 0 ∧ h.NumRefIdxL1ActiveMinus1 = 0) ∧
    (h.NumRefIdxL1ActiveMinus1 ≠ 0 →
      h.SliceType = SLICE_B ∧ h.NumRefIdxActiveOverrideFlag = true) ∧
    (∀ d0 d1, ParseSliceHeader w data sps
      { pps with NumRefIdxI0DefaultActiveMinus1 := d0, NumRefIdxI1DefaultActiveMinus1 := d1 } =
      (some h, n, none)) ∧
    (h.NumRefIdxActiveOverrideFlag = false → ∀ pwt, h.PredWeightTable = some pwt →
      ∃ (avcsh : SliceHeader) (rb rc : EBSPReader),
        avcsh.SliceType = h.SliceType ∧
        ParsePredWeightTable sps avcsh rb = Res.ok pwt rc ∧
        ParsePredWeightTable sps avcsh = (do
          let lumaDenom ← ReadExpGolomb
          let t ← (if getChromaArrayType sps ≠ 0 then do
              let chromaDenom ← ReadExpGolomb
              pure { LumaLog2WeightDenom := lumaDenom, ChromaLog2WeightDenom := chromaDenom }
            else pure { LumaLog2WeightDenom := lumaDenom } : Rd PredWeightTable)
          let t ← pwtEntryL0 sps t
          if h.SliceType = SLICE_B then pwtEntryL1 sps t else pure t)) := by
  obtain ⟨hdr, rest, r9, _, _, hf, _⟩ := ParseSliceHeader_ok_inv w data sps pps h n hp
  obtain ⟨_, _, _, _, _, _, g7, g8, _⟩ := parseSliceHeaderFields_gates w sps pps _ _ _ _ h hf
  refine ⟨g7, ?_, ?_, ?_⟩
  · intro hne
    have hB : h.SliceType = SLICE_B := by
      by_contra hb
      exact hne (g8 hb)
    refine ⟨hB, ?_⟩
    cases ho : h.NumRefIdxActiveOverrideFlag with
    | true => rfl
    | false => exact absurd (g7 ho).2 hne
  · intro d0 d1
    rw [ParseSliceHeader_defaults]
    exact hp
  · intro ho pwt hsome
    obtain ⟨sh, rplm, ra, rb, rc, rd, e1, e2, _, e4, e5, _, _, hpwt, _⟩ :=
      parseSliceHeaderFields_inv w sps pps _ _ _ _ h hf
    split at hpwt
    · obtain ⟨pwt2, hr, hs2⟩ := hpwt
      rw [hs2] at hsome
      injection hsome with he
      subst he
      obtain ⟨z0, z1⟩ := g7 ho
      refine ⟨{ sh with RefPicListModification := some rplm }, rb, rc, e1, hr, ?_⟩
      rw [ParsePredWeightTable_one_entry sps _ (by rw [← z0]; exact e4) (by rw [← z1]; exact e5)]
      have hiff : (({ sh with RefPicListModification := some rplm } : SliceHeader).SliceType % 5 = 1)
          = (h.SliceType = SLICE_B) := by
        show (sh.SliceType % 5 = 1) = (h.SliceType = SLICE_B)
        rw [e1]
        apply propext
        unfold SLICE_B
        constructor
        · intro hm
          have key : ∀ k : Nat, k ≤ 4 → k % 5 = 1 → k = 1 := by
            intro k hk1 hk2
            omega
          exact key _ e2 hm
        · intro hm; rw [hm]
      simp only [hiff]
    · rw [hpwt.1] at hsome
      exact Option.noConfusion hsome

/-- C36, witness: the IDR slice `videoSliceDataIDR` has no override flag
(slice type I): both counts are 0, although the PPS of the test carries the
default count 2 for list 0. -/
theorem NumRefIdx_without_override_witness :
    ppsTest.NumRefIdxI0DefaultActiveMinus1 = 2 ∧
    ((parseSliceHeaderBody exactCeilLog2 spsTest ppsTest
        (NewEBSPReader videoSliceDataIDR)).valueOf.getD {}).NumRefIdxL0ActiveMinus1 = 0 ∧
    ((parseSliceHeaderBody exactCeilLog2 spsTest ppsTest
        (NewEBSPReader videoSliceDataIDR)).valueOf.getD {}).NumRefIdxL1ActiveMinus1 = 0 :=
  ⟨rfl, (NumRefIdx_without_override exactCeilLog2 videoSliceDataIDR spsTest ppsTest
    ((parseSliceHeaderBody exactCeilLog2 spsTest ppsTest
      (NewEBSPReader videoSliceDataIDR)).valueOf.getD {}) 5 (by decide!)).1 (by decide!)⟩

/-- C38. Every header `ParseSliceHeader` returns keeps the zero value in the
fields whose condition was false: `BottomFieldFlag` implies `FieldPicFlag`,
`FieldPicFlag` implies that `FrameMbsOnlyFlag` is not set, `IDRPicID` is 0 unless
the NAL type is 5, `ColourPlaneID` is 0 unless `SeparateColourPlaneFlag`, and for
the slice types I and SI the override flag and `DirectSpatialMVPredFlag` are
false, both active reference counts are 0, `PredWeightTable` is nil and
`CabacInitIDC` is 0. -/
theorem zero_values_when_gated (w : Nat → Nat) (data : List Byte) (sps : SPS) (pps : PPS)
    (h : SliceHeader) (n : Nat)
    (hp : ParseSliceHeader w data sps pps = (some h, n, none)) :
    (h.BottomFieldFlag = true → h.FieldPicFlag = true) ∧
    (h.FieldPicFlag = true → sps.FrameMbsOnlyFlag = false) ∧
    (∀ hdr rest, data = hdr :: rest → GetNaluType hdr ≠ 5 → h.IDRPicID = 0) ∧
    (sps.SeparateColourPlaneFlag = false → h.ColourPlaneID = 0) ∧
    (h.SliceType = SLICE_I ∨ h.SliceType = SLICE_SI →
      h.NumRefIdxActiveOverrideFlag = false ∧ h.DirectSpatialMVPredFlag = false ∧
      h.NumRefIdxL0ActiveMinus1 = 0 ∧ h.NumRefIdxL1ActiveMinus1 = 0 ∧
      h.PredWeightTable = none ∧ h.CabacInitIDC = 0) := by
  obtain ⟨hdr, rest, r9, hd, _, hf, _⟩ := ParseSliceHeader_ok_inv w data sps pps h n hp
  obtain ⟨g1, g2, g3, g4, g5, g6, g7, g8, g9⟩ :=
    parseSliceHeaderFields_gates w sps pps _ _ _ _ h hf
  refine ⟨g3, g2, ?_, g1, ?_⟩
  · intro hdr2 rest2 hd2 ht
    rw [hd] at hd2
    injection hd2 with e1 e2
    subst e1
    exact g4 ht
  · intro hI
    have hnB : h.SliceType ≠ SLICE_B := by
      rcases hI with hI | hI <;> rw [hI] <;> decide
    have hnP : ¬ (h.SliceType = SLICE_P ∨ h.SliceType = SLICE_SP ∨ h.SliceType = SLICE_B) := by
      rcases hI with hI | hI <;> rw [hI] <;> decide
    have ho := g6 hnP
    refine ⟨ho, g5 hnB, (g7 ho).1, (g7 ho).2, ?_, ?_⟩
    · obtain ⟨sh, rplm, ra, rb, rc, rd, _, _, _, _, _, _, _, hpwt, _⟩ :=
        parseSliceHeaderFields_inv w sps pps _ _ _ _ h hf
      have hc : ¬ ((pps.WeightedPredFlag ∧ (h.SliceType = SLICE_P ∨ h.SliceType = SLICE_SP)) ∨
          (pps.WeightedBipredIDC = 1 ∧ h.SliceType = SLICE_B)) := by
        intro hx
        rcases hx with ⟨_, hx⟩ | ⟨_, hx⟩
        · exact hnP (hx.elim Or.inl (fun z => Or.inr (Or.inl z)))
        · exact hnB hx
      rw [if_neg hc] at hpwt
      exact hpwt.1
    · apply g9
      intro hx
      rcases hI with hI | hI
      · exact hx.2.1 hI
      · exact hx.2.2 hI

/-- C38, witness: `videoSliceDataIDR`, a slice of type I in a NAL of type 5. -/
theorem zero_values_when_gated_witness :
    ((parseSliceHeaderBody exactCeilLog2 spsTest ppsTest
        (NewEBSPReader videoSliceDataIDR)).valueOf.getD {}).SliceType = SLICE_I ∧
    ((parseSliceHeaderBody exactCeilLog2 spsTest ppsTest
        (NewEBSPReader videoSliceDataIDR)).valueOf.getD {}).PredWeightTable = none ∧
    ((parseSliceHeaderBody exactCeilLog2 spsTest ppsTest
        (NewEBSPReader videoSliceDataIDR)).valueOf.getD {}).CabacInitIDC = 0 :=
  have hw := (zero_values_when_gated exactCeilLog2 videoSliceDataIDR spsTest ppsTest
    ((parseSliceHeaderBody exactCeilLog2 spsTest ppsTest
      (NewEBSPReader videoSliceDataIDR)).valueOf.getD {}) 5 (by decide!)).2.2.2.2
      (Or.inl (by decide!))
  ⟨by decide!, hw.2.2.2.2.1, hw.2.2.2.2.2⟩

/-! ## A successful parse depends on the bytes it has consumed only -/

theorem fetch_confined (want : Nat) (rd : List Byte) (n v pos zc : Nat) :
    ∀ r1, fetch want rd n v pos zc = Except.ok r1 →
      ∃ used, rd = used ++ r1.rd ∧
        ∀ rest, fetch want (used ++ rest) n v pos zc = Except.ok { r1 with rd := rest } := by
  induction rd, n, v, pos, zc using fetch.induct want with
  | case1 rd n v pos zc h =>
    intro r1 hr
    rw [fetch_enough _ _ _ _ _ _ h] at hr
    injection hr with hr
    subst hr
    exact ⟨[], rfl, fun rest => by rw [List.nil_append, fetch_enough _ _ _ _ _ _ h]⟩
  | case2 n v pos zc h =>
    intro r1 hr
    rw [fetch_nil _ _ _ _ _ h] at hr
    exact Except.noConfusion hr
  | case3 n v pos h b hb =>
    intro r1 hr
    rw [fetch_escape_nil _ _ _ _ _ h hb] at hr
    exact Except.noConfusion hr
  | case4 n v pos h b hb b2 rest ih =>
    intro r1 hr
    rw [fetch_escape_cons _ _ _ _ _ _ _ h hb] at hr
    obtain ⟨used, hu, hall⟩ := ih r1 hr
    refine ⟨b :: b2 :: used, by rw [hu]; rfl, fun rest2 => ?_⟩
    rw [List.cons_append, List.cons_append, fetch_escape_cons _ _ _ _ _ _ _ h hb]
    exact hall rest2
  | case5 n v pos h b rest hb ih =>
    intro r1 hr
    rw [fetch_two _ _ _ _ _ _ h hb] at hr
    obtain ⟨used, hu, hall⟩ := ih r1 hr
    refine ⟨b :: used, by rw [hu]; rfl, fun rest2 => ?_⟩
    rw [List.cons_append, fetch_two _ _ _ _ _ _ h hb]
    exact hall rest2
  | case6 n v pos zc h b rest hz ih =>
    intro r1 hr
    rw [fetch_cons _ _ _ _ _ _ _ h hz] at hr
    obtain ⟨used, hu, hall⟩ := ih r1 hr
    refine ⟨b :: used, by rw [hu]; rfl, fun rest2 => ?_⟩
    rw [List.cons_append, fetch_cons _ _ _ _ _ _ _ h hz]
    exact hall rest2

theorem confined_Read (k : Nat) : (Read k).confined := by
  intro r a r1 h
  unfold Read at h
  cases hx : fetch k r.rd r.n r.v r.pos r.zeroCount with
  | error r2 => rw [hx] at h; exact Res.noConfusion h
  | ok r2 =>
    rw [hx] at h
    obtain ⟨used, hu, hall⟩ := fetch_confined k r.rd r.n r.v r.pos r.zeroCount r2 hx
    injection h with ha hr
    subst ha; subst hr
    refine ⟨used, hu, fun rest => ?_⟩
    unfold Read
    simp only [hall rest]

theorem confined_pure {α : Type} (a : α) : (pure a : Rd α).confined := by
  intro r b r1 h
  obtain ⟨ha, hr⟩ := pure_ok_inv h
  subst ha; subst hr
  exact ⟨[], rfl, fun rest => rfl⟩

theorem confined_throw {α : Type} (e : Error) : (Rd.throw e : Rd α).confined := by
  intro r b r1 h
  exact Res.noConfusion (h : Res.fail e r = Res.ok b r1)

theorem confined_bind {α β : Type} {x : Rd α} {f : α → Rd β}
    (hx : x.confined) (hf : ∀ a, (f a).confined) : (x >>= f).confined := by
  intro r b r2 h
  obtain ⟨a, r1, h1, h2⟩ := bind_ok_inv h
  obtain ⟨u1, e1, p1⟩ := hx r a r1 h1
  obtain ⟨u2, e2, p2⟩ := hf a r1 b r2 h2
  refine ⟨u1 ++ u2, by rw [e1, e2, List.append_assoc], fun rest => ?_⟩
  rw [bind_apply, List.append_assoc, p1 (u2 ++ rest)]
  exact p2 rest

theorem confined_ite {α : Type} {c : Prop} [Decidable c] {x y : Rd α}
    (hx : x.confined) (hy : y.confined) : (if c then x else y).confined := by
  split
  · exact hx
  · exact hy

theorem confined_of_never_ok {α : Type} (x : Rd α) (h : x.okIn (fun _ => False)) :
    x.confined := by
  intro r a r1 hr
  exact (h r a r1 hr).elim

theorem confined_countLeadingZeros (fuel k : Nat) : (countLeadingZeros fuel k).confined := by
  induction fuel generalizing k with
  | zero => unfold countLeadingZeros; exact confined_throw _
  | succ fuel ih =>
    unfold countLeadingZeros
    exact confined_bind (confined_Read 1) (fun _ => confined_ite (confined_pure _) (ih _))

/-- More budget than enough does not change what the leading-zero loop
returns. -/
theorem countLeadingZeros_fuel (f : Nat) :
    ∀ (k : Nat) (r : EBSPReader), (∀ r1, countLeadingZeros f k r ≠ Res.fail Error.LoopBudget r1) →
      ∀ f', f ≤ f' → countLeadingZeros f' k r = countLeadingZeros f k r := by
  induction f with
  | zero =>
    intro k r hnb
    exact absurd rfl (hnb r)
  | succ f ih =>
    intro k r hnb f' hle
    obtain ⟨g, rfl⟩ : ∃ g, f' = g + 1 := ⟨f' - 1, by omega⟩
    unfold countLeadingZeros at hnb ⊢
    rw [bind_apply] at hnb ⊢
    rw [bind_apply]
    cases hx : Read 1 r with
    | fail e r1 => rfl
    | ok b r1 =>
      rw [hx] at hnb
      simp only [] at hnb ⊢
      by_cases hb : b = 1
      · rw [if_pos hb, if_pos hb]
      · rw [if_neg hb] at hnb
        rw [if_neg hb, if_neg hb]
        exact ih _ r1 hnb g (by omega)

theorem countLeadingZeros_any_fuel (F k : Nat) (r : EBSPReader) (h : r.bitsLeft < F) :
    countLeadingZeros F k r = countLeadingZeros (r.bitsLeft + 1) k r := by
  apply countLeadingZeros_fuel (r.bitsLeft + 1) k r _ F (by omega)
  intro r1 hc
  have := ((countLeadingZeros_bitsLeft (r.bitsLeft + 1) k r (Nat.lt_succ_self _)).2 _ r1 hc).1
  exact Error.noConfusion this

theorem ReadExpGolomb_any_fuel (F : Nat) (r : EBSPReader) (h : r.bitsLeft < F) :
    ReadExpGolomb r =
      (countLeadingZeros F 0 >>= fun lz => Read lz >>= fun e =>
        (pure (2 ^ lz - 1 + e) : Rd Nat)) r := by
  unfold ReadExpGolomb
  rw [bind_apply, bind_apply, countLeadingZeros_any_fuel F 0 r h]

theorem confined_ReadExpGolomb : ReadExpGolomb.confined := by
  intro r a r1 h
  have c : ∀ F, (countLeadingZeros F 0 >>= fun lz => Read lz >>= fun e =>
      (pure (2 ^ lz - 1 + e) : Rd Nat)).confined :=
    fun F => confined_bind (confined_countLeadingZeros F 0)
      (fun _ => confined_bind (confined_Read _) (fun _ => confined_pure _))
  have h0 := h
  rw [ReadExpGolomb_any_fuel (r.bitsLeft + 1) r (Nat.lt_succ_self _)] at h0
  obtain ⟨used, hu, _⟩ := c _ r a r1 h0
  refine ⟨used, hu, fun rest => ?_⟩
  have hF1 : r.bitsLeft < max r.bitsLeft
      ({ r with rd := used ++ rest } : EBSPReader).bitsLeft + 1 := by omega
  have hF2 : ({ r with rd := used ++ rest } : EBSPReader).bitsLeft < max r.bitsLeft
      ({ r with rd := used ++ rest } : EBSPReader).bitsLeft + 1 := by omega
  have h1 := h
  rw [ReadExpGolomb_any_fuel _ r hF1] at h1
  obtain ⟨used2, hu2, p2⟩ := c _ r a r1 h1
  have he : used2 = used := by
    rw [hu] at hu2
    exact (List.append_cancel_right hu2).symm
  rw [ReadExpGolomb_any_fuel _ _ hF2]
  subst he
  exact p2 rest

theorem confined_ReadFlag : ReadFlag.confined := by
  unfold ReadFlag
  exact confined_bind (confined_Read 1) (fun _ => confined_pure _)

theorem confined_ReadSignedGolomb : ReadSignedGolomb.confined := by
  unfold ReadSignedGolomb
  exact confined_bind confined_ReadExpGolomb
    (fun _ => confined_ite (confined_pure _) (confined_pure _))

/-- Entered with the guard value 0 the list-modification loop never succeeds, so
there is no successful run to compare. -/
theorem confined_rplmLoop_zero (p : List PerEntryRefPicListModParams) :
    Rd.confined (fun r => rplmLoop (r.bitsLeft + 1) 0 p r) := by
  intro r a r1 h
  have h03 : (0 : Nat) = 3 := rplmLoop_ok_guard _ 0 p r a r1 h
  exact absurd h03 (by decide)

/-- Entered with the guard value 1 the marking loop never succeeds. -/
theorem confined_mmcoLoop_one (p : List AdaptiveMemCtrlDecRefPicMarkingParams) :
    Rd.confined (fun r => mmcoLoop (r.bitsLeft + 1) 1 p r) := by
  intro r a r1 h
  have h10 : (1 : Nat) = 0 := mmcoLoop_ok_guard _ 1 p r a r1 h
  exact absurd h10 (by decide)

theorem confined_ParseRefPicListModification (avcsh : SliceHeader) :
    (ParseRefPicListModification avcsh).confined := by
  unfold ParseRefPicListModification
  repeat' first
    | with_reducible exact confined_ReadFlag
    | with_reducible exact confined_pure _
    | with_reducible exact confined_rplmLoop_zero _
    | with_reducible apply confined_ite
    | with_reducible apply confined_bind
    | intro _

theorem confined_ParseDecRefPicMarking (t : NaluType) :
    (ParseDecRefPicMarking t).confined := by
  unfold ParseDecRefPicMarking
  repeat' first
    | with_reducible exact confined_ReadFlag
    | with_reducible exact confined_pure _
    | with_reducible exact confined_mmcoLoop_one _
    | with_reducible apply confined_ite
    | with_reducible apply confined_bind
    | intro _

theorem confined_chromaLoop (count : Nat) (a b : List Int) :
    (chromaLoop count a b).confined := by
  induction count generalizing a b with
  | zero => unfold chromaLoop; exact confined_pure _
  | succ count ih =>
    unfold chromaLoop
    repeat' first
      | with_reducible exact confined_ReadSignedGolomb
      | with_reducible exact ih _ _
      | with_reducible apply confined_bind
      | intro _

theorem confined_pwtLoopL0 (sps : SPS) (count : Nat) (pwt : PredWeightTable) :
    (pwtLoopL0 sps count pwt).confined := by
  induction count generalizing pwt with
  | zero => unfold pwtLoopL0; exact confined_pure _
  | succ count ih =>
    unfold pwtLoopL0
    repeat' first
      | with_reducible exact confined_ReadSignedGolomb
      | with_reducible exact confined_ReadFlag
      | with_reducible exact confined_chromaLoop _ _ _
      | with_reducible exact ih _
      | with_reducible exact confined_pure _
      | with_reducible apply confined_ite
      | with_reducible apply confined_bind
      | intro _

theorem confined_pwtLoopL1 (sps : SPS) (count : Nat) (pwt : PredWeightTable) :
    (pwtLoopL1 sps count pwt).confined := by
  induction count generalizing pwt with
  | zero => unfold pwtLoopL1; exact confined_pure _
  | succ count ih =>
    unfold pwtLoopL1
    repeat' first
      | with_reducible exact confined_ReadSignedGolomb
      | with_reducible exact confined_ReadFlag
      | with_reducible exact confined_chromaLoop _ _ _
      | with_reducible exact ih _
      | with_reducible exact confined_pure _
      | with_reducible apply confined_ite
      | with_reducible apply confined_bind
      | intro _

theorem confined_ParsePredWeightTable (sps : SPS) (avcsh : SliceHeader) :
    (ParsePredWeightTable sps avcsh).confined := by
  unfold ParsePredWeightTable
  repeat' first
    | with_reducible exact confined_ReadExpGolomb
    | with_reducible exact confined_pwtLoopL0 _ _ _
    | with_reducible exact confined_pwtLoopL1 _ _ _
    | with_reducible exact confined_pure _
    | with_reducible apply confined_ite
    | with_reducible apply confined_bind
    | intro _

theorem confined_setSliceType (k : Nat) : (setSliceType k).confined := by
  unfold setSliceType
  repeat' first
    | with_reducible exact confined_pure _
    | with_reducible exact confined_throw _
    | with_reducible apply confined_ite

theorem confined_parseSliceHeaderFields (w : Nat → Nat) (sps : SPS) (pps : PPS)
    (nalHdr : Nat) (nalType : NaluType) :
    (parseSliceHeaderFields w sps pps nalHdr nalType).confined := by
  unfold parseSliceHeaderFields
  repeat' first
    | with_reducible apply confined_bind
    | with_reducible apply confined_ite
    | with_reducible exact confined_pure _
    | with_reducible exact confined_throw _
    | with_reducible exact confined_ReadExpGolomb
    | with_reducible exact confined_ReadSignedGolomb
    | with_reducible exact confined_ReadFlag
    | with_reducible exact confined_Read _
    | with_reducible exact confined_ParseRefPicListModification _
    | with_reducible exact confined_ParsePredWeightTable _ _
    | with_reducible exact confined_ParseDecRefPicMarking _
    | with_reducible exact confined_setSliceType _
    | intro _

/-- The whole body of `ParseSliceHeader`: a successful parse depends on the
bytes it has fetched only. -/
theorem confined_parseSliceHeaderBody (w : Nat → Nat) (sps : SPS) (pps : PPS) :
    (parseSliceHeaderBody w sps pps).confined := by
  unfold parseSliceHeaderBody
  exact confined_bind (confined_Read 8)
    (fun _ => confined_ite (confined_throw _) (confined_parseSliceHeaderFields _ _ _ _ _))

/-- C31. A successful `ParseSliceHeader` depends on the bytes it has consumed
only. If the parse of `data` returns the header `h` after `n` bytes, then on
every input `data2` with the same first `n` bytes (same SPS and PPS) it returns
the same header and the same `n`. The two P-slice test constants have their
first 9 bytes in common, and both parse without error, to the same header, in
9 bytes. -/
theorem ParseSliceHeader_consumed_bytes_only (w : Nat → Nat) (sps : SPS) (pps : PPS) :
    (∀ (data data2 : List Byte) (h : SliceHeader) (n : Nat),
      ParseSliceHeader w data sps pps = (some h, n, none) →
      data2.take n = data.take n →
      ParseSliceHeader w data2 sps pps = (some h, n, none)) ∧
    videoSliceDataPFrameEnc.take 9 = videoSliceDataPFrame.take 9 ∧
    (ParseSliceHeader w videoSliceDataPFrame spsTest ppsTest).2 = (9, none) ∧
    (ParseSliceHeader w videoSliceDataPFrameEnc spsTest ppsTest).2 = (9, none) ∧
    (ParseSliceHeader w videoSliceDataPFrameEnc spsTest ppsTest).1 =
      (ParseSliceHeader w videoSliceDataPFrame spsTest ppsTest).1 ∧
    (ParseSliceHeader w videoSliceDataPFrame spsTest ppsTest).1.isSome = true := by
  refine ⟨?_, by decide, ?_, ?_, ?_, ?_⟩
  · intro data data2 h n hp hd
    unfold ParseSliceHeader at hp
    cases hb : parseSliceHeaderBody w sps pps (NewEBSPReader data) with
    | fail e r1 => rw [hb] at hp; simp at hp
    | ok a r1 =>
      rw [hb] at hp
      simp only [Prod.mk.injEq, Option.some.injEq, and_true] at hp
      obtain ⟨ha, hn⟩ := hp
      subst ha
      have hadv : advances (NewEBSPReader data) r1 :=
        ((keeps_parseSliceHeaderBody advances_law trivial trivial trivial w sps pps)
          (NewEBSPReader data)).1 a r1 hb
      obtain ⟨used, hu, hall⟩ := confined_parseSliceHeaderBody w sps pps _ a r1 hb
      have hpos : r1.pos = n := hn
      have hdrop : r1.rd = data.drop n := by
        have := hadv.2.2
        simpa [NewEBSPReader, hpos] using this
      have hused : used = data.take n := by
        have e : used ++ r1.rd = data.take n ++ data.drop n := by
          rw [List.take_append_drop]; exact hu.symm
        rw [hdrop] at e
        exact List.append_cancel_right e
      have hd2 : data2 = used ++ data2.drop n := by
        rw [hused, ← hd, List.take_append_drop]
      have h2 := hall (data2.drop n)
      have hr : ({ NewEBSPReader data with rd := used ++ data2.drop n } : EBSPReader) =
          NewEBSPReader data2 := by
        rw [← hd2]; rfl
      rw [hr] at h2
      unfold ParseSliceHeader
      rw [h2]
      simp only [EBSPReader.NrBytesRead, hpos]
  · rw [ParseSliceHeader_ceilLog2 w exactCeilLog2 _ _ _ rfl]
    decide!
  · rw [ParseSliceHeader_ceilLog2 w exactCeilLog2 _ _ _ rfl]
    decide!
  · rw [ParseSliceHeader_ceilLog2 w exactCeilLog2 videoSliceDataPFrameEnc _ _ rfl,
      ParseSliceHeader_ceilLog2 w exactCeilLog2 videoSliceDataPFrame _ _ rfl]
    decide!
  · rw [ParseSliceHeader_ceilLog2 w exactCeilLog2 _ _ _ rfl]
    decide!

/-- C31, witness: the parse of the plain P slice
carries over to the one with encrypted slice data. -/
theorem ParseSliceHeader_consumed_bytes_only_witness :
    ParseSliceHeader exactCeilLog2 videoSliceDataPFrame spsTest ppsTest =
      (some ((parseSliceHeaderBody exactCeilLog2 spsTest ppsTest
        (NewEBSPReader videoSliceDataPFrame)).valueOf.getD {}), 9, none) ∧
    videoSliceDataPFrameEnc.take 9 = videoSliceDataPFrame.take 9 ∧
    ParseSliceHeader exactCeilLog2 videoSliceDataPFrameEnc spsTest ppsTest =
      (some ((parseSliceHeaderBody exactCeilLog2 spsTest ppsTest
        (NewEBSPReader videoSliceDataPFrame)).valueOf.getD {}), 9, none) :=
  ⟨by decide!, by decide,
    (ParseSliceHeader_consumed_bytes_only exactCeilLog2 spsTest ppsTest).1
      videoSliceDataPFrame videoSliceDataPFrameEnc _ 9 (by decide!) (by decide)⟩

/-! ## `ParseSliceHeader` in stages -/

/-- The fields of the header are parsed in this order: the fields of lines
191-292, then the list modification, then (under its condition) the prediction
weight table, then (under its condition) the reference picture marking, then
the fields of lines 315-366. -/
theorem parseSliceHeaderFields_stages (w : Nat → Nat) (sps : SPS) (pps : PPS) (nalHdr : Nat)
    (nalType : NaluType) :
    parseSliceHeaderFields w sps pps nalHdr nalType = (do
      let avcsh ← sliceHeaderHead sps pps nalType
      if nalType = 20 ∨ nalType = 21 then Rd.throw Error.ErrParserNotImplemented
      else do
        let rplm ← ParseRefPicListModification avcsh
        let avcsh := { avcsh with RefPicListModification := some rplm }
        let predWeightTable ←
          (if (pps.WeightedPredFlag ∧
                (avcsh.SliceType = SLICE_P ∨ avcsh.SliceType = SLICE_SP)) ∨
              (pps.WeightedBipredIDC = 1 ∧ avcsh.SliceType = SLICE_B) then do
            let pwt ← ParsePredWeightTable sps avcsh
            pure (some pwt)
          else pure none)
        let decRefPicMarking ←
          (if GetNalRefIDC (Fin.ofNat nalHdr) ≠ 0 then do
            let rpm ← ParseDecRefPicMarking nalType
            pure (some rpm)
          else pure none)
        sliceHeaderTail w pps avcsh predWeightTable decRefPicMarking) := by
  unfold parseSliceHeaderFields sliceHeaderHead sliceHeaderTail
  simp only [rd_bind_assoc, rd_pure_bind]

/-- A successful run of the header fields, stage by stage: each stage starts
from the reader the stage before has left. -/
theorem parseSliceHeaderFields_stages_inv (w : Nat → Nat) (sps : SPS) (pps : PPS)
    (nalHdr : Nat) (nalType : NaluType) (r r9 : EBSPReader) (h : SliceHeader)
    (hp : parseSliceHeaderFields w sps pps nalHdr nalType r = Res.ok h r9) :
    ∃ (avcsh : SliceHeader) (rplm : RefPicListModification) (ra rb rc rd : EBSPReader),
      sliceHeaderHead sps pps nalType r = Res.ok avcsh ra ∧
      ParseRefPicListModification avcsh ra = Res.ok rplm rb ∧
      (if (pps.WeightedPredFlag ∧ (avcsh.SliceType = SLICE_P ∨ avcsh.SliceType = SLICE_SP)) ∨
          (pps.WeightedBipredIDC = 1 ∧ avcsh.SliceType = SLICE_B) then
        ∃ pwt, ParsePredWeightTable sps { avcsh with RefPicListModification := some rplm } rb =
            Res.ok pwt rc ∧ h.PredWeightTable = some pwt
      else h.PredWeightTable = none ∧ rc = rb) ∧
      (if GetNalRefIDC (Fin.ofNat nalHdr) ≠ 0 then
        ∃ rpm, ParseDecRefPicMarking nalType rc = Res.ok rpm rd ∧ h.DecRefPicMarking = some rpm
      else h.DecRefPicMarking = none ∧ rd = rc) ∧
      sliceHeaderTail w pps { avcsh with RefPicListModification := some rplm }
        h.PredWeightTable h.DecRefPicMarking rd = Res.ok h r9 := by
  rw [parseSliceHeaderFields_stages] at hp
  obtain ⟨avcsh, ra, h1, hp⟩ := bind_ok_inv hp
  by_cases hmvc : nalType = 20 ∨ nalType = 21
  · rw [if_pos hmvc] at hp
    exact Res.noConfusion hp
  · rw [if_neg hmvc] at hp
    obtain ⟨rplm, rb, h2, hp⟩ := bind_ok_inv hp
    obtain ⟨pwtOpt, rc, h3, hp⟩ := bind_ok_inv hp
    obtain ⟨decOpt, rd, h4, hp⟩ := bind_ok_inv hp
    have hpw : h.PredWeightTable = pwtOpt := by
      unfold sliceHeaderTail at hp
      refine ((?_ : Rd.okIn _ (fun x : SliceHeader => x.PredWeightTable = pwtOpt)) rd) _ _ hp
      repeat' first
        | with_reducible apply okIn_bind
        | with_reducible apply okIn_ite
        | with_reducible exact okIn_throw _ _
        | with_reducible exact okIn_pure _ _ rfl
        | intro _
    have hdm : h.DecRefPicMarking = decOpt := by
      unfold sliceHeaderTail at hp
      refine ((?_ : Rd.okIn _ (fun x : SliceHeader => x.DecRefPicMarking = decOpt)) rd) _ _ hp
      repeat' first
        | with_reducible apply okIn_bind
        | with_reducible apply okIn_ite
        | with_reducible exact okIn_throw _ _
        | with_reducible exact okIn_pure _ _ rfl
        | intro _
    refine ⟨avcsh, rplm, ra, rb, rc, rd, h1, h2, ?_, ?_, ?_⟩
    · by_cases hc : (pps.WeightedPredFlag ∧
          (avcsh.SliceType = SLICE_P ∨ avcsh.SliceType = SLICE_SP)) ∨
          (pps.WeightedBipredIDC = 1 ∧ avcsh.SliceType = SLICE_B)
      · rw [if_pos hc]
        rw [if_pos hc] at h3
        obtain ⟨pwt, rx, h5, h6⟩ := bind_ok_inv h3
        obtain ⟨e1, e2⟩ := pure_ok_inv h6
        subst e2
        exact ⟨pwt, h5, by rw [hpw, ← e1]⟩
      · rw [if_neg hc]
        rw [if_neg hc] at h3
        obtain ⟨e1, e2⟩ := pure_ok_inv h3
        exact ⟨by rw [hpw, ← e1], e2.symm⟩
    · by_cases hc : GetNalRefIDC (Fin.ofNat nalHdr) ≠ 0
      · rw [if_pos hc]
        rw [if_pos hc] at h4
        obtain ⟨rpm, rx, h5, h6⟩ := bind_ok_inv h4
        obtain ⟨e1, e2⟩ := pure_ok_inv h6
        subst e2
        exact ⟨rpm, h5, by rw [hdm, ← e1]⟩
      · rw [if_neg hc]
        rw [if_neg hc] at h4
        obtain ⟨e1, e2⟩ := pure_ok_inv h4
        exact ⟨by rw [hdm, ← e1], e2.symm⟩
    · rw [hpw, hdm]
      exact hp

/-- C18. In every header `ParseSliceHeader` returns, `DecRefPicMarking` is
present exactly when bits 6-5 of the first input byte are not 0. And the parse
of `data` went in this order, each step from the reader the step before has
left: the header byte is read from the start of `data` (leaves `r0`), the fields
of lines 191-292 (leave `ra`), `ParseRefPicListModification` (leaves `rb`),
under its condition `ParsePredWeightTable` (leaves `rc`), under its condition
`ParseDecRefPicMarking` (leaves `rd`), whose result is the `DecRefPicMarking` of
the header, and the fields of lines 315-366, which end the parse with the header
`h` after `n` bytes. -/
theorem DecRefPicMarking_presence_in_order (w : Nat → Nat) (data : List Byte) (sps : SPS)
    (pps : PPS) (h : SliceHeader) (n : Nat)
    (hp : ParseSliceHeader w data sps pps = (some h, n, none)) :
    ∃ (hdr : Byte) (rest : List Byte), data = hdr :: rest ∧
      (h.DecRefPicMarking ≠ none ↔ (hdr.val / 32) % 4 ≠ 0) ∧
      ∃ (avcsh : SliceHeader) (rplm : RefPicListModification)
        (r0 ra rb rc rd re : EBSPReader),
        Read 8 (NewEBSPReader data) = Res.ok hdr.val r0 ∧
        sliceHeaderHead sps pps (GetNaluType hdr) r0 = Res.ok avcsh ra ∧
        ParseRefPicListModification avcsh ra = Res.ok rplm rb ∧
        (if (pps.WeightedPredFlag ∧
              (avcsh.SliceType = SLICE_P ∨ avcsh.SliceType = SLICE_SP)) ∨
            (pps.WeightedBipredIDC = 1 ∧ avcsh.SliceType = SLICE_B) then
          ∃ pwt, ParsePredWeightTable sps { avcsh with RefPicListModification := some rplm } rb =
            Res.ok pwt rc ∧ h.PredWeightTable = some pwt
        else h.PredWeightTable = none ∧ rc = rb) ∧
        (if (hdr.val / 32) % 4 ≠ 0 then
          ∃ rpm, ParseDecRefPicMarking (GetNaluType hdr) rc = Res.ok rpm rd ∧
            h.DecRefPicMarking = some rpm
        else h.DecRefPicMarking = none ∧ rd = rc) ∧
        sliceHeaderTail w pps { avcsh with RefPicListModification := some rplm }
          h.PredWeightTable h.DecRefPicMarking rd = Res.ok h re ∧
        re.NrBytesRead = n := by
  obtain ⟨hdr, rest, r, hd, _, hf, hn⟩ := ParseSliceHeader_ok_inv w data sps pps h n hp
  obtain ⟨avcsh, rplm, ra, rb, rc, rd, h1, h2, h3, h4, h5⟩ :=
    parseSliceHeaderFields_stages_inv w sps pps _ _ _ _ h hf
  rw [Fin_ofNat_val] at h4
  have hidc : GetNalRefIDC hdr = (hdr.val / 32) % 4 := rfl
  rw [hidc] at h4
  have h0 : Read 8 (NewEBSPReader data) = Res.ok hdr.val
      { rd := rest, n := 0, v := 0, pos := 1, zeroCount := if hdr.val = 0 then 1 else 0 } := by
    rw [hd]; exact Read_8_NewEBSPReader hdr rest
  refine ⟨hdr, rest, hd, ?_, avcsh, rplm, _, ra, rb, rc, rd, r, h0, h1, h2, h3, h4, h5, hn⟩
  by_cases hc : (hdr.val / 32) % 4 ≠ 0
  · rw [if_pos hc] at h4
    obtain ⟨rpm, _, e⟩ := h4
    rw [e]
    simp [hc]
  · rw [if_neg hc] at h4
    rw [h4.1]
    simp [hc]

/-- C18, witness: `videoSliceDataPFrame` (header byte `41`, reference-idc 2)
parses to a header with a `DecRefPicMarking`. -/
theorem DecRefPicMarking_presence_in_order_witness :
    ∃ (hdr : Byte) (rest : List Byte), videoSliceDataPFrame = hdr :: rest ∧
      (((parseSliceHeaderBody exactCeilLog2 spsTest ppsTest
        (NewEBSPReader videoSliceDataPFrame)).valueOf.getD {}).DecRefPicMarking ≠ none ↔
        (hdr.val / 32) % 4 ≠ 0) :=
  have hw := DecRefPicMarking_presence_in_order exactCeilLog2 videoSliceDataPFrame spsTest
    ppsTest ((parseSliceHeaderBody exactCeilLog2 spsTest ppsTest
      (NewEBSPReader videoSliceDataPFrame)).valueOf.getD {}) 9 (by decide!)
  ⟨hw.choose, hw.choose_spec.choose, hw.choose_spec.choose_spec.1,
    hw.choose_spec.choose_spec.2.1⟩

/-- The first fields of a header that `parseSliceHeaderFields` returns, read by
read, each from the reader the read before has left: up to `FrameNum` (`ra` to
`rb`), the field flags (`rb` to `rf`), `IDRPicID` (`rf` to `rc`) and, exactly
when `PicOrderCntType` is 0, `PicOrderCntLSB` read at `rc`. -/
theorem parseSliceHeaderFields_head_chain (w : Nat → Nat) (sps : SPS) (pps : PPS)
    (nalHdr : Nat) (nalType : NaluType) (r r9 : EBSPReader) (h : SliceHeader)
    (hp : parseSliceHeaderFields w sps pps nalHdr nalType r = Res.ok h r9) :
    ∃ (code : Nat) (r1 r2 r3 r4 ra rb rf rc : EBSPReader),
      ReadExpGolomb r = Res.ok h.FirstMbInSlice r1 ∧
      ReadExpGolomb r1 = Res.ok code r2 ∧
      setSliceType code r2 = Res.ok h.SliceType r3 ∧
      ReadExpGolomb r3 = Res.ok h.PicParameterSetID r4 ∧
      (if sps.SeparateColourPlaneFlag then Read 2 else pure 0) r4 = Res.ok h.ColourPlaneID ra ∧
      Read (sps.Log2MaxFrameNumMinus4 + 4) ra = Res.ok h.FrameNum rb ∧
      (if sps.FrameMbsOnlyFlag = false then do
          let fieldPic ← ReadFlag
          if fieldPic then do
            let bottom ← ReadFlag
            pure (fieldPic, bottom)
          else pure (fieldPic, false)
        else pure (false, false) : Rd (Bool × Bool)) rb =
        Res.ok (h.FieldPicFlag, h.BottomFieldFlag) rf ∧
      (if getIDRPicFlag nalType then ReadExpGolomb else pure 0) rf = Res.ok h.IDRPicID rc ∧
      (rb.wf → rc.wf) ∧
      (if sps.PicOrderCntType = 0 then
        ∃ rd, Read (sps.Log2MaxPicOrderCntLsbMinus4 + 4) rc = Res.ok h.PicOrderCntLSB rd
       else h.PicOrderCntLSB = 0) := by
  unfold parseSliceHeaderFields at hp
  obtain ⟨firstMb, r1, h1, hp⟩ := bind_ok_inv hp
  obtain ⟨code, r2, h2, hp⟩ := bind_ok_inv hp
  obtain ⟨sliceType, r3, h3, hp⟩ := bind_ok_inv hp
  obtain ⟨ppsID, r4, h4, hp⟩ := bind_ok_inv hp
  obtain ⟨colour, r5, h5, hp⟩ := bind_ok_inv hp
  obtain ⟨frameNum, r6, h6, hp⟩ := bind_ok_inv hp
  obtain ⟨⟨fieldPic, bottomField⟩, r7, h7, hp⟩ := bind_ok_inv hp
  obtain ⟨idrPicID, r8, h8, hp⟩ := bind_ok_inv hp
  obtain ⟨⟨lsb, deltaBottom⟩, r10, h10, hp⟩ := bind_ok_inv hp
  obtain ⟨⟨d0, d1⟩, r11, h11, hp⟩ := bind_ok_inv hp
  obtain ⟨redundant, r12, h12, hp⟩ := bind_ok_inv hp
  obtain ⟨direct, r13, h13, hp⟩ := bind_ok_inv hp
  obtain ⟨override, r14, h14, hp⟩ := bind_ok_inv hp
  obtain ⟨⟨l0, l1⟩, r15, h15, hp⟩ := bind_ok_inv hp
  dsimp only at hp
  by_cases hmvc : nalType = 20 ∨ nalType = 21
  · rw [if_pos hmvc] at hp
    exact Res.noConfusion hp
  · rw [if_neg hmvc] at hp
    obtain ⟨rplm, r16, h16, hp⟩ := bind_ok_inv hp
    obtain ⟨pwtOpt, r17, h17, hp⟩ := bind_ok_inv hp
    obtain ⟨decOpt, r18, h18, hp⟩ := bind_ok_inv hp
    obtain ⟨cabac, r19, h19, hp⟩ := bind_ok_inv hp
    obtain ⟨qp, r20, h20, hp⟩ := bind_ok_inv hp
    obtain ⟨⟨sp, qs⟩, r21, h21, hp⟩ := bind_ok_inv hp
    obtain ⟨⟨idc, alpha, beta⟩, r22, h22, hp⟩ := bind_ok_inv hp
    obtain ⟨sgcc, r23, h23, hp⟩ := bind_ok_inv hp
    obtain ⟨hh, _⟩ := pure_ok_inv hp
    subst hh
    have w7 : r6.wf → r7.wf := by
      refine fun hw => (?_ : Rd.okWf _) r6 _ r7 hw h7
      repeat' first
        | with_reducible exact okWf_ReadFlag
        | with_reducible exact okWf_pure _
        | with_reducible apply okWf_ite
        | with_reducible apply okWf_bind
        | intro _
    have w8 : r7.wf → r8.wf := by
      refine fun hw => (?_ : Rd.okWf _) r7 _ r8 hw h8
      exact okWf_ite okWf_ReadExpGolomb (okWf_pure _)
    refine ⟨code, r1, r2, r3, r4, r5, r6, r7, r8, h1, h2, h3, h4, h5, h6, h7, h8,
      fun hw => w8 (w7 hw), ?_⟩
    dsimp only
    by_cases hc : sps.PicOrderCntType = 0
    · rw [if_pos hc]
      rw [if_pos hc] at h10
      obtain ⟨lsb2, r9b, h10a, h10b⟩ := bind_ok_inv h10
      refine ⟨r9b, ?_⟩
      have hl : lsb2 = lsb := by
        by_cases hb : pps.BottomFieldPicOrderInFramePresentFlag ∧ fieldPic = false
        · rw [if_pos hb] at h10b
          obtain ⟨bt, rx, _, hy⟩ := bind_ok_inv h10b
          exact congrArg Prod.fst (pure_ok_inv hy).1
        · rw [if_neg hb] at h10b
          exact congrArg Prod.fst (pure_ok_inv h10b).1
      rw [← hl]; exact h10a
    · rw [if_neg hc]
      rw [if_neg hc] at h10
      exact (congrArg Prod.fst (pure_ok_inv h10).1).symm

/-- C23. In every successful parse of `data`, read by read and each read from
the reader the one before has left: the header byte, the three Exp-Golomb codes
`first_mb_in_slice`, `slice_type`, `pic_parameter_set_id`, the optional
`colour_plane_id`, then `FrameNum` as one read of `Log2MaxFrameNumMinus4 + 4`
bits, the field flags, the `IDRPicID` of an IDR and, exactly when
`PicOrderCntType` is 0, `PicOrderCntLSB` as one read of
`Log2MaxPicOrderCntLsbMinus4 + 4` bits; otherwise it is 0. Hence
`FrameNum < 2^(Log2MaxFrameNumMinus4+4)` and
`PicOrderCntLSB < 2^(Log2MaxPicOrderCntLsbMinus4+4)`. -/
theorem FrameNum_PicOrderCntLSB_exact_width (w : Nat → Nat) (data : List Byte) (sps : SPS)
    (pps : PPS) (h : SliceHeader) (n : Nat)
    (hp : ParseSliceHeader w data sps pps = (some h, n, none)) :
    (∃ (hdr : Byte) (code : Nat) (r0 r1 r2 r3 r4 ra rb rf rc : EBSPReader),
      Read 8 (NewEBSPReader data) = Res.ok hdr.val r0 ∧
      ReadExpGolomb r0 = Res.ok h.FirstMbInSlice r1 ∧
      ReadExpGolomb r1 = Res.ok code r2 ∧
      setSliceType code r2 = Res.ok h.SliceType r3 ∧
      ReadExpGolomb r3 = Res.ok h.PicParameterSetID r4 ∧
      (if sps.SeparateColourPlaneFlag then Read 2 else pure 0) r4 = Res.ok h.ColourPlaneID ra ∧
      Read (sps.Log2MaxFrameNumMinus4 + 4) ra = Res.ok h.FrameNum rb ∧
      (if sps.FrameMbsOnlyFlag = false then do
          let fieldPic ← ReadFlag
          if fieldPic then do
            let bottom ← ReadFlag
            pure (fieldPic, bottom)
          else pure (fieldPic, false)
        else pure (false, false) : Rd (Bool × Bool)) rb =
        Res.ok (h.FieldPicFlag, h.BottomFieldFlag) rf ∧
      (if getIDRPicFlag (GetNaluType hdr) then ReadExpGolomb else pure 0) rf =
        Res.ok h.IDRPicID rc ∧
      (if sps.PicOrderCntType = 0 then
        ∃ rd, Read (sps.Log2MaxPicOrderCntLsbMinus4 + 4) rc = Res.ok h.PicOrderCntLSB rd
       else h.PicOrderCntLSB = 0)) ∧
    h.FrameNum < 2 ^ (sps.Log2MaxFrameNumMinus4 + 4) ∧
    h.PicOrderCntLSB < 2 ^ (sps.Log2MaxPicOrderCntLsbMinus4 + 4) ∧
    (sps.PicOrderCntType ≠ 0 → h.PicOrderCntLSB = 0) := by
  obtain ⟨hdr, rest, r, hd, _, hf, _⟩ := ParseSliceHeader_ok_inv w data sps pps h n hp
  obtain ⟨code, r1, r2, r3, r4, ra, rb, rf, rc, h1, h2, h3, h4, h5, h6, h7, h8, hwf, hpoc⟩ :=
    parseSliceHeaderFields_head_chain w sps pps _ _ _ _ h hf
  have h0 : Read 8 (NewEBSPReader data) = Res.ok hdr.val
      { rd := rest, n := 0, v := 0, pos := 1, zeroCount := if hdr.val = 0 then 1 else 0 } := by
    rw [hd]; exact Read_8_NewEBSPReader hdr rest
  have w0 := (Read_ok_wf 8 _ _ _ (NewEBSPReader_wf data) h0).2
  have w1 := okWf_ReadExpGolomb _ _ _ w0 h1
  have w2 := okWf_ReadExpGolomb _ _ _ w1 h2
  have w3 := okWf_setSliceType code _ _ _ w2 h3
  have w4 := okWf_ReadExpGolomb _ _ _ w3 h4
  have wa : ra.wf :=
    (okWf_ite (okWf_Read 2) (okWf_pure 0) : Rd.okWf
      (if sps.SeparateColourPlaneFlag then Read 2 else pure 0)) _ _ _ w4 h5
  have hfn := Read_ok_wf _ _ _ _ wa h6
  have wc : rc.wf := hwf hfn.2
  refine ⟨⟨hdr, code, _, r1, r2, r3, r4, ra, rb, rf, rc, h0, h1, h2, h3, h4, h5, h6, h7, h8,
    hpoc⟩, hfn.1, ?_, ?_⟩
  · by_cases hc : sps.PicOrderCntType = 0
    · rw [if_pos hc] at hpoc
      obtain ⟨rd, hrd⟩ := hpoc
      exact (Read_ok_wf _ _ _ _ wc hrd).1
    · rw [if_neg hc] at hpoc
      rw [hpoc]; exact Nat.pow_pos (by decide)
  · intro hc
    rw [if_neg hc] at hpoc
    exact hpoc

/-- C23, witness: `videoSliceDataPFrame` with the parameter sets of the test
(`Log2MaxFrameNumMinus4 = 0`, `PicOrderCntType = 2`): `FrameNum` is 1, below
`2^4`, and `PicOrderCntLSB` is 0. -/
theorem FrameNum_PicOrderCntLSB_exact_width_witness :
    ((parseSliceHeaderBody exactCeilLog2 spsTest ppsTest
        (NewEBSPReader videoSliceDataPFrame)).valueOf.getD {}).FrameNum = 1 ∧
    ((parseSliceHeaderBody exactCeilLog2 spsTest ppsTest
        (NewEBSPReader videoSliceDataPFrame)).valueOf.getD {}).FrameNum < 2 ^ (0 + 4) ∧
    ((parseSliceHeaderBody exactCeilLog2 spsTest ppsTest
        (NewEBSPReader videoSliceDataPFrame)).valueOf.getD {}).PicOrderCntLSB = 0 :=
  have hw := FrameNum_PicOrderCntLSB_exact_width exactCeilLog2 videoSliceDataPFrame spsTest
    ppsTest ((parseSliceHeaderBody exactCeilLog2 spsTest ppsTest
      (NewEBSPReader videoSliceDataPFrame)).valueOf.getD {}) 9 (by decide!)
  ⟨by decide!, hw.2.1, hw.2.2.2 (by decide)⟩

/-! ## Line 359: the division and the width -/

/-- A panicking call is the one result without a header and without an error:
every `return` of `ParseSliceHeader` gives a header or an error. -/
theorem ParseSliceHeader_panics_iff (w : Nat → Nat) (data : List Byte) (sps : SPS) (pps : PPS) :
    ParseSliceHeader_panics w data sps pps = true ↔
      (ParseSliceHeader w data sps pps).1 = none ∧
      (ParseSliceHeader w data sps pps).2.2 = none := by
  unfold ParseSliceHeader_panics ParseSliceHeader
  cases parseSliceHeaderBody w sps pps (NewEBSPReader data) with
  | ok a r => simp
  | fail e r =>
    by_cases hd : e = Error.DivideByZero
    · simp [hd]
    · simp [hd]

/-- The width function matters only where Go's logarithm is not modelled: two
width functions that give the same `sgccNumBits` at the argument of line 359, or
any two when the divisor is 0, give the same parse. -/
theorem parseSliceHeaderBody_width (w1 w2 : Nat → Nat) (sps : SPS) (pps : PPS)
    (h : (pps.SliceGroupChangeRateMinus1 + 1) % 2 ^ 64 = 0 ∨
      sgccNumBits w1 (((pps.PicSizeInMapUnitsMinus1 + 1) % 2 ^ 64 /
        ((pps.SliceGroupChangeRateMinus1 + 1) % 2 ^ 64) + 1) % 2 ^ 64) =
      sgccNumBits w2 (((pps.PicSizeInMapUnitsMinus1 + 1) % 2 ^ 64 /
        ((pps.SliceGroupChangeRateMinus1 + 1) % 2 ^ 64) + 1) % 2 ^ 64)) :
    parseSliceHeaderBody w1 sps pps = parseSliceHeaderBody w2 sps pps := by
  unfold parseSliceHeaderBody parseSliceHeaderFields
  rcases h with h | h
  · simp only [h, if_true]
  · simp only [h]

/-- C15. `ParseSliceHeader` does not return on every input: with slice groups in
use and `SliceGroupChangeRateMinus1 = 2^64 - 1` the divisor of line 359 is 0, and
on `videoSliceDataIDR`, whose header fields are all read without error, the call
ends in the run-time panic of the integer division. -/
theorem ParseSliceHeader_divide_by_zero (w : Nat → Nat) :
    (ppsZeroDivisor.SliceGroupChangeRateMinus1 + 1) % 2 ^ 64 = 0 ∧
    ParseSliceHeader_panics w videoSliceDataIDR spsTest ppsZeroDivisor = true ∧
    (parseSliceHeaderBody w spsTest ppsZeroDivisor (NewEBSPReader videoSliceDataIDR)).errorOf =
      some Error.DivideByZero ∧
    (ParseSliceHeader w videoSliceDataIDR spsTest ppsTest).2 = (5, none) := by
  have hz : (ppsZeroDivisor.SliceGroupChangeRateMinus1 + 1) % 2 ^ 64 = 0 := by decide
  have hb := parseSliceHeaderBody_width w exactCeilLog2 spsTest ppsZeroDivisor (Or.inl hz)
  refine ⟨hz, ?_, ?_, ?_⟩
  · unfold ParseSliceHeader_panics
    rw [hb]
    decide!
  · rw [hb]
    decide!
  · rw [ParseSliceHeader_ceilLog2 w exactCeilLog2 _ _ _ rfl]
    decide!

/-- C22. With `PicSizeInMapUnitsMinus1 = 2^53 - 1` and change rate 1 the
argument of the logarithm of line 359 is `2^53 + 1`; `float64` rounds it to
`2^53`, the logarithm is 53 and `SliceGroupChangeCycle` is read with 53 bits,
whatever the width function: on the 56 bits `ff ... ff` after the header the
field is `2^53 - 1`. The least `k` with `2^53 + 1 ≤ 2^k` is 54. -/
theorem SliceGroupChangeCycle_width_rounded (w : Nat → Nat) :
    ((ppsSliceGroups.PicSizeInMapUnitsMinus1 + 1) % 2 ^ 64 /
      ((ppsSliceGroups.SliceGroupChangeRateMinus1 + 1) % 2 ^ 64) + 1) % 2 ^ 64 = 2 ^ 53 + 1 ∧
    float64OfUint (2 ^ 53 + 1) = 2 ^ 53 ∧
    sgccNumBits w (2 ^ 53 + 1) = 53 ∧
    (2 ^ 53 + 1 ≤ 2 ^ 54 ∧ ∀ k, 2 ^ 53 + 1 ≤ 2 ^ k → 54 ≤ k) ∧
    (ParseSliceHeader w sliceDataSliceGroups spsTest ppsSliceGroups).1.map
      (fun h => h.SliceGroupChangeCycle) = some (2 ^ 53 - 1) ∧
    (ParseSliceHeader w sliceDataSliceGroups spsTest ppsSliceGroups).2 = (12, none) ∧
    Read 53 { rd := [0xff, 0xff, 0xff, 0xff, 0xff, 0xff, 0xff], n := 0, v := 0, pos := 5,
              zeroCount := 0 } =
      Res.ok (2 ^ 53 - 1) { rd := [], n := 3, v := 7, pos := 12, zeroCount := 0 } ∧
    Read 54 { rd := [0xff, 0xff, 0xff, 0xff, 0xff, 0xff, 0xff], n := 0, v := 0, pos := 5,
              zeroCount := 0 } =
      Res.ok (2 ^ 54 - 1) { rd := [], n := 2, v := 3, pos := 12, zeroCount := 0 } := by
  have hx : ((ppsSliceGroups.PicSizeInMapUnitsMinus1 + 1) % 2 ^ 64 /
      ((ppsSliceGroups.SliceGroupChangeRateMinus1 + 1) % 2 ^ 64) + 1) % 2 ^ 64 = 2 ^ 53 + 1 := by
    decide
  have hf : float64OfUint (2 ^ 53 + 1) = 2 ^ 53 := by decide!
  have hw : ∀ v : Nat → Nat, sgccNumBits v (2 ^ 53 + 1) = 53 := by
    intro v
    have hc : (2 ^ 53 ≠ 0 ∧ 2 ^ 53 = 2 ^ (bitLen 65 (2 ^ 53) - 1)) := by decide!
    have hl : bitLen 65 (2 ^ 53) - 1 = 53 := by decide!
    unfold sgccNumBits
    rw [hf, if_pos hc, hl]
  have hb := parseSliceHeaderBody_width w exactCeilLog2 spsTest ppsSliceGroups
    (Or.inr (by rw [hx, hw w, hw exactCeilLog2]))
  have hp : ParseSliceHeader w sliceDataSliceGroups spsTest ppsSliceGroups =
      ParseSliceHeader exactCeilLog2 sliceDataSliceGroups spsTest ppsSliceGroups := by
    unfold ParseSliceHeader
    rw [hb]
  refine ⟨hx, hf, hw w, ⟨by decide, ?_⟩, ?_, ?_, by decide!, by decide!⟩
  · intro k hk
    by_contra hlt
    have h53 : k ≤ 53 := by omega
    have := Nat.pow_le_pow_right (show 0 < 2 by decide) h53
    omega
  · rw [hp]; decide!
  · rw [hp]; decide!

end Avc
